import Mathlib

/-!
sydPlot.c: plotting of synchronous data.

A shallow embedding of the sample-drawing routines of `src/util/sydPlot.c`
(`sydPlot_TYSamples`, `sydPlot_YSamples`, `sydPlot_XYSamples`, the array
helpers and the `sydPlotSamples` dispatcher), of `sydPlot_setup`, the grid
routines and the `sydPlot` dispatcher, together with the pieces of the plot
master / plot slave life cycle they rely on.

Conventions of the embedding:

* a C `double` is a rational number (`Dbl`); the subtractions of the wrap
  loop and the layout arithmetic of `sydPlot_setup` and of the stacking of the
  bands round to the nearest double (`roundDbl`), every other sum and product
  is exact; the exponent range, NaN and the infinities are not modelled;
* a C `int` is an `Int`; a flag held in an `int` is true when it is non-zero;
* the intrusive doubly linked slave list `pHead .. pTail` is a `List`;
* a `PPR_AREA *` is an `Option Nat` (`none` is `NULL`);
* calls into the `ppr` plotting library are recorded, in order, as a list of
  `PprCall` (sample routines) or `GridCall` (set-up and grid routines); what
  the library returns is a parameter (`PprLib`);
* a `while` loop whose exit depends on the data takes a `fuel` bound on the
  number of times its body may run and ends in `Fault.outOfFuel` when the
  bound is reached; `assert`/`assertAlways` failures end in
  `Fault.assertFail`, a dereference of `NULL` in `Fault.nullDeref`;
* C locals that are read before the routine assigns them start from an
  explicit `Locals` argument standing for the indeterminate stack content.
-/

namespace SydPlot

/-- C `double`, as a rational number. -/
abbrev Dbl := ℚ

/-- Rounding of the exact result of an operation on `double`s to the nearest
`double` (IEEE 754 binary64, round to nearest, ties to even): the value is
scaled so that it lies between `2^52` and `2^53`, rounded to a whole number
and scaled back.  The exponent is unbounded: overflow and subnormal numbers
are not modelled. -/
def roundDbl (x : ℚ) : ℚ :=
  if x = 0 then 0
  else
    let u : ℚ := (2 : ℚ) ^ (Int.log 2 |x| - 52)
    let q : ℚ := x / u
    let f : Int := ⌊q⌋
    (if q - f < 1 / 2 then (f : ℚ) else if 1 / 2 < q - f then (f : ℚ) + 1
      else if f % 2 = 0 then (f : ℚ) else (f : ℚ) + 1) * u

/-- Modelled from the spec: the value type tag of a channel (`dbrType`, whose
`DBR_TIME_xxx` constants and `dbr_type_is_xxx` tests come from `db_access.h`,
which is not part of the sources): the numeric scalar kinds, the
enumerated-state kind, and the non-numeric string kind. -/
inductive DbrType where
  | STRING
  | SHORT
  | FLOAT
  | ENUM
  | CHAR
  | LONG
  | DOUBLE
  deriving DecidableEq, Repr

/-- Modelled from the spec: the per-sample flag structure of a channel
(`pFlags[i]`, declared in `sydDefs.h`) with its `missing`, `restart` and
`filled` booleans. -/
structure SydFlags where
  missing : Bool
  restart : Bool
  filled : Bool
  deriving DecidableEq, Repr

/-- Modelled from the spec: the fields of the synchronous data channel
(`SYD_CHAN`, declared in `sydDefs.h`) that `sydPlot.c` reads.  `pData i` is
element `i` of the typed sample array as read through the element type of the
channel; `lower_disp_limit`/`upper_disp_limit` are the display limits of the
`grBuf` member selected by `dbrType`; `no_str`/`strs` are the state count and
labels of `grBuf.genmval`. -/
structure SYD_CHAN where
  dbrType : DbrType
  elCount : Int
  dataChan : Int
  pData : Option (Int → Dbl)
  pFlags : Int → SydFlags
  pDataCodeR : Int → Char
  minDataVal : Dbl
  maxDataVal : Dbl
  lower_disp_limit : Dbl
  upper_disp_limit : Dbl
  no_str : Int
  strs : Int → String
  label : String

/-- Modelled from the spec: the fields of the synchronous sample set
(`SYD_SPEC`, declared in `sydDefs.h`) that `sydPlot.c` reads: the time offset
of each sample, the capacity of the circular sample buffer and the sample
counters. -/
structure SYD_SPEC where
  pDeltaSec : Int → Dbl
  dataDim : Int
  sampleCount : Int
  firstData : Int
  lastData : Int
  reqCount : Int

/-- Modelled from the spec: the geometry kind (`SYD_PLAX`, declared in
`sydPlotDefs.h`): undefined, or one of the nine kinds. -/
inductive SYD_PLAX where
  | UNDEF
  | TY
  | TYY
  | XY
  | XYY
  | Y
  | YY
  | SMITH_IMP
  | SMITH_ADM
  | SMITH_IMM
  deriving DecidableEq, Repr

/-- Modelled from the spec: the surface type (`PPR_WIN_TY`, declared in the
`ppr` headers): interactive window, printable document, encapsulated
document. -/
inductive PPR_WIN_TY where
  | SCREEN
  | POSTSCRIPT
  | EPS
  deriving DecidableEq, Repr

/-- Modelled from the spec: the plot slave (`SYD_PL_SLAVE`, declared in
`sydPlotDefs.h`), with the fields `sydPlot.c` reads and writes.  The channel
the slave points to is held by value. -/
structure SYD_PL_SLAVE where
  pSChan : SYD_CHAN
  markNum : Int
  lineKey : Int
  timeLabel : String
  xChan : Int
  pArea : Option Nat
  fg : Nat
  bg : Nat
  first : Int
  skip : Int
  oldX : Dbl
  oldY : Dbl
  originVal : Dbl
  extentVal : Dbl
  nInt : Int
  ppAnnot : Option (List String)
  xFracLeft : Dbl
  yFracBot : Dbl
  xFracRight : Dbl
  yFracTop : Dbl

/-- Modelled from the spec: the plot master (`SYD_PL_MSTR`, declared in
`sydPlotDefs.h`), with the fields `sydPlot.c` reads and writes.  `slaves` is
the list `pHead .. pTail`, in list order; `pWin` is the handle of the plot
window (`none` is `NULL`). -/
structure SYD_PL_MSTR where
  pSspec : SYD_SPEC
  pWin : Option Nat
  winType : PPR_WIN_TY
  plotAxis : SYD_PLAX
  linePlot : Int
  pointPlot : Int
  markPlot : Int
  showStat : Int
  fillUnder : Int
  wrapX : Int
  noColor : Int
  useXlabel : Int
  useXannot : Int
  useYlabel : Int
  useYannot : Int
  altPixel1 : Nat
  altPixel2 : Nat
  label : String
  title : String
  lTitle : String
  bTitle : String
  rTitle : String
  refText : String
  slaves : List SYD_PL_SLAVE
  nSlaves : Int
  originVal : Dbl
  extentVal : Dbl
  nInt : Int
  x : Int
  y : Int
  width : Int
  height : Int

/-- A call into the `ppr` plotting library made by the sample routines, with
its arguments (`pprChar` is always called with height and angle `0.`). -/
inductive PprCall where
  | pprMarkD (pArea : Option Nat) (x y : Dbl) (markNum : Int)
  | pprChar (pArea : Option Nat) (x y : Dbl) (chr : Char)
  | pprPointD (pArea : Option Nat) (x y : Dbl)
  | pprLineSegD (pArea : Option Nat) (x1 y1 x2 y2 : Dbl)
  deriving DecidableEq, Repr

/-- The ways a routine can fail to return. -/
inductive Fault where
  | assertFail
  | nullDeref
  | outOfFuel
  deriving DecidableEq, Repr

/-- The locals `first`, `skip`, `oldX`, `oldY` of a sample routine.  They are
declared outside the loop over the slaves, so their values carry over from
one slave to the next. -/
structure Locals where
  first : Int
  skip : Int
  oldX : Dbl
  oldY : Dbl
  deriving DecidableEq, Repr

/-- The macro `FetchIthValInto(pSChan, dbl)`: element `i` of the channel's
sample array, converted to `double`; `assertAlways(0)` for a type that is
none of the six numeric kinds. -/
def FetchIthValInto (pSChan : SYD_CHAN) (i : Int) : Except Fault Dbl :=
  match pSChan.dbrType with
  | DbrType.FLOAT | DbrType.SHORT | DbrType.DOUBLE | DbrType.LONG | DbrType.CHAR
  | DbrType.ENUM =>
    match pSChan.pData with
    | none => Except.error Fault.nullDeref
    | some d => Except.ok (d i)
  | DbrType.STRING => Except.error Fault.assertFail

/-- The loop `while (x > extentVal) x -= extentVal;` of the wrap mode: each
subtraction rounds to the nearest `double`; `fuel` bounds the number of
subtractions. -/
def wrapLoop (extentVal : Dbl) : Nat → Dbl → Except Fault Dbl
  | 0, x => if x > extentVal then Except.error Fault.outOfFuel else Except.ok x
  | n + 1, x =>
    if x > extentVal then wrapLoop extentVal n (roundDbl (x - extentVal)) else Except.ok x

/-- The X of a sample in `sydPlot_TYSamples`: `pSspec->pDeltaSec[i]`, wrapped
when `pMstr->wrapX` is set. -/
def TY_fetchX (pMstr : SYD_PL_MSTR) (fuel : Nat) (i : Int) : Except Fault Dbl :=
  if pMstr.wrapX ≠ 0 then wrapLoop pMstr.extentVal fuel (pMstr.pSspec.pDeltaSec i)
  else Except.ok (pMstr.pSspec.pDeltaSec i)

/-- The glyph calls made for a drawn scalar sample at `(x, y)`:
`if (markPlot) pprMarkD(..); if (showStat && code != ' ') pprChar(..); else if
(pointPlot) pprPointD(..);`. -/
def plotGlyphs (pMstr : SYD_PL_MSTR) (pArea : Option Nat) (markNum : Int)
    (x y : Dbl) (code : Char) : List PprCall :=
  (if pMstr.markPlot ≠ 0 then [PprCall.pprMarkD pArea x y markNum] else []) ++
  (if pMstr.showStat ≠ 0 ∧ code ≠ ' ' then [PprCall.pprChar pArea x y code]
   else if pMstr.pointPlot ≠ 0 then [PprCall.pprPointD pArea x y] else [])

/-- The anchor case of `sydPlot_TYSamples`: the sample becomes the last drawn
point, its glyphs are plotted and skip-pending is cleared. -/
def TY_anchor (pMstr : SYD_PL_MSTR) (pSlave : SYD_PL_SLAVE) (fuel : Nat) (i : Int)
    (l : Locals) : Except Fault (Locals × List PprCall) :=
  match TY_fetchX pMstr fuel i with
  | Except.error f => Except.error f
  | Except.ok oldX =>
    match FetchIthValInto pSlave.pSChan i with
    | Except.error f => Except.error f
    | Except.ok oldY =>
      Except.ok ({ l with oldX := oldX, oldY := oldY, skip := 0 },
        plotGlyphs pMstr pSlave.pArea pSlave.markNum oldX oldY (pSlave.pSChan.pDataCodeR i))

/-- The continuation case of `sydPlot_TYSamples`: for an enumerated channel in
line mode the hold segment is drawn and `oldX` moved to the new X; then the
connecting segment and the glyphs are drawn and the sample becomes the last
drawn point. -/
def TY_cont (pMstr : SYD_PL_MSTR) (pSlave : SYD_PL_SLAVE) (fuel : Nat) (i : Int)
    (l : Locals) : Except Fault (Locals × List PprCall) :=
  match TY_fetchX pMstr fuel i with
  | Except.error f => Except.error f
  | Except.ok newX =>
    let hold := pMstr.linePlot ≠ 0 ∧ pSlave.pSChan.dbrType = DbrType.ENUM
    let oldX := if hold then newX else l.oldX
    match FetchIthValInto pSlave.pSChan i with
    | Except.error f => Except.error f
    | Except.ok newY =>
      Except.ok ({ l with oldX := newX, oldY := newY },
        (if hold then [PprCall.pprLineSegD pSlave.pArea l.oldX l.oldY newX l.oldY] else []) ++
        (if pMstr.linePlot ≠ 0 then [PprCall.pprLineSegD pSlave.pArea oldX l.oldY newX newY]
         else []) ++
        plotGlyphs pMstr pSlave.pArea pSlave.markNum newX newY (pSlave.pSChan.pDataCodeR i))

/-- Body of the `while (i >= 0)` loop of `sydPlot_TYSamples` up to the index
update: the four cases missing, anchor, filled, continuation. -/
def TY_sample (pMstr : SYD_PL_MSTR) (pSlave : SYD_PL_SLAVE) (fuel : Nat) (i : Int)
    (l : Locals) : Except Fault (Locals × List PprCall) :=
  if (pSlave.pSChan.pFlags i).missing then
    Except.ok ({ l with skip := 1 }, [])
  else if l.first ≠ 0 ∨ l.skip ≠ 0 ∨ (pSlave.pSChan.pFlags i).restart then
    TY_anchor pMstr pSlave fuel i l
  else if (pSlave.pSChan.pFlags i).filled then
    Except.ok (l, [])
  else
    TY_cont pMstr pSlave fuel i l

/-- The index update at the end of the sample loop:
`if (i == end) i = -1; else if (++i >= pSspec->dataDim) i = 0;`. -/
def nextIndex (dataDim end_ i : Int) : Int :=
  if i = end_ then -1 else if i + 1 ≥ dataDim then 0 else i + 1

/-- The loop `while (i >= 0) { body; index update; first = 0; }` shared, word
for word, by the three sample routines.  `fuel` bounds the number of
iterations; the calls made by the iterations are appended in order. -/
def sampleLoop (body : Int → Locals → Except Fault (Locals × List PprCall))
    (dataDim end_ : Int) : Nat → Int → Locals → Except Fault (Locals × List PprCall)
  | 0, i, l => if i ≥ 0 then Except.error Fault.outOfFuel else Except.ok (l, [])
  | n + 1, i, l =>
    if i ≥ 0 then
      match body i l with
      | Except.error f => Except.error f
      | Except.ok (l1, ops) =>
        match sampleLoop body dataDim end_ n (nextIndex dataDim end_ i) { l1 with first := 0 } with
        | Except.error f => Except.error f
        | Except.ok (l2, ops2) => Except.ok (l2, ops ++ ops2)
    else Except.ok (l, [])

/-- The entry of the per-slave block: `if (!incr) first = 1; else { first =
pSlave->first; oldX = pSlave->oldX; oldY = pSlave->oldY; skip = pSlave->skip; }`. -/
def loadLocals (pSlave : SYD_PL_SLAVE) (incr : Int) (l : Locals) : Locals :=
  if incr = 0 then { l with first := 1 }
  else { first := pSlave.first, skip := pSlave.skip, oldX := pSlave.oldX, oldY := pSlave.oldY }

/-- The exit of the per-slave block: `pSlave->first = first; pSlave->oldX =
oldX; pSlave->oldY = oldY; pSlave->skip = skip;`. -/
def saveLocals (pSlave : SYD_PL_SLAVE) (l : Locals) : SYD_PL_SLAVE :=
  { pSlave with first := l.first, oldX := l.oldX, oldY := l.oldY, skip := l.skip }

/-- One pass of the `while (pSlave != NULL)` loop of `sydPlot_TYSamples`: the
work done for one slave, from the locals left by the previous slave. -/
def TY_slave (pMstr : SYD_PL_MSTR) (begin_ end_ incr : Int) (fuel : Nat)
    (pSlave : SYD_PL_SLAVE) (l : Locals) :
    Except Fault (SYD_PL_SLAVE × Locals × List PprCall) :=
  if pSlave.pSChan.pData.isNone ∨ pSlave.pSChan.dataChan = 0 then
    Except.ok (saveLocals pSlave l, l, [])
  else
    match sampleLoop (TY_sample pMstr pSlave fuel) pMstr.pSspec.dataDim end_ fuel begin_
        (loadLocals pSlave incr l) with
    | Except.error f => Except.error f
    | Except.ok (l1, ops) => Except.ok (saveLocals pSlave l1, l1, ops)

/-- The loop over the slave list, threading the locals and appending the
calls of each slave in list order. -/
def slaveLoop (f : SYD_PL_SLAVE → Locals → Except Fault (SYD_PL_SLAVE × Locals × List PprCall)) :
    List SYD_PL_SLAVE → Locals → Except Fault (List SYD_PL_SLAVE × Locals × List PprCall)
  | [], l => Except.ok ([], l, [])
  | s :: rest, l =>
    match f s l with
    | Except.error e => Except.error e
    | Except.ok (s1, l1, ops) =>
      match slaveLoop f rest l1 with
      | Except.error e => Except.error e
      | Except.ok (rest1, l2, ops2) => Except.ok (s1 :: rest1, l2, ops ++ ops2)

/-- The routine `sydPlot_TYSamples(pMstr, begin, end, incr)`: the master with
its slaves updated, and the calls made.  `l0` is the indeterminate initial
content of the locals. -/
def sydPlot_TYSamples (pMstr : SYD_PL_MSTR) (begin_ end_ incr : Int) (fuel : Nat)
    (l0 : Locals) : Except Fault (SYD_PL_MSTR × List PprCall) :=
  match slaveLoop (TY_slave pMstr begin_ end_ incr fuel) pMstr.slaves l0 with
  | Except.error e => Except.error e
  | Except.ok (slaves, _, ops) => Except.ok ({ pMstr with slaves := slaves }, ops)

/-- The decode of one array element in `sydPlot_Yarray` and `sydPlot_XYarray`
(`if (dbr_type_is_FLOAT(..)) new = *(float *)pSrc; else if ..`): element `k`
of the typed sample array.  A `CHAR` element is read as `unsigned char`; for a
type that is none of the six kinds nothing is assigned and the local keeps its
indeterminate content `junk`. -/
def arrayEl (pSChan : SYD_CHAN) (junk : Dbl) (k : Int) : Except Fault Dbl :=
  match pSChan.dbrType with
  | DbrType.FLOAT | DbrType.SHORT | DbrType.DOUBLE | DbrType.LONG | DbrType.ENUM =>
    match pSChan.pData with
    | none => Except.error Fault.nullDeref
    | some d => Except.ok (d k)
  | DbrType.CHAR =>
    match pSChan.pData with
    | none => Except.error Fault.nullDeref
    | some d => Except.ok (if d k < 0 then d k + 256 else d k)
  | DbrType.STRING => Except.ok junk

/-- The `for (i=0; i<nEl; i++)` loop of `sydPlot_Yarray`, from index `i`, with
`n` iterations left and `old` the point of the previous iteration. -/
def Yarray_loop (pArea : Option Nat) (pSChan : SYD_CHAN) (sub : Int) (junk : Dbl) :
    Nat → Int → Dbl × Dbl → Except Fault (List PprCall)
  | 0, _, _ => Except.ok []
  | n + 1, i, old =>
    match arrayEl pSChan junk (sub * pSChan.elCount + i) with
    | Except.error f => Except.error f
    | Except.ok newY =>
      match Yarray_loop pArea pSChan sub junk n (i + 1) ((i : Dbl), newY) with
      | Except.error f => Except.error f
      | Except.ok ops =>
        Except.ok ((if i > 0 then [PprCall.pprLineSegD pArea old.1 old.2 (i : Dbl) newY]
          else []) ++ ops)

/-- The routine `sydPlot_Yarray(pArea, pSChan, sub)`: the elements of sample
`sub` against their element number, as a connected polyline. -/
def sydPlot_Yarray (pArea : Option Nat) (pSChan : SYD_CHAN) (sub : Int) (junk : Dbl) :
    Except Fault (List PprCall) :=
  Yarray_loop pArea pSChan sub junk pSChan.elCount.toNat 0 (junk, junk)

/-- The anchor case of `sydPlot_YSamples`: a scalar sample becomes the last
drawn point and its glyphs are plotted, an array sample is drawn by
`sydPlot_Yarray`; skip-pending is cleared. -/
def Y_anchor (pMstr : SYD_PL_MSTR) (pSlave : SYD_PL_SLAVE) (junk : Dbl) (i : Int)
    (l : Locals) : Except Fault (Locals × List PprCall) :=
  if pSlave.pSChan.elCount = 1 then
    match FetchIthValInto pSlave.pSChan i with
    | Except.error f => Except.error f
    | Except.ok oldY =>
      Except.ok ({ l with oldX := (i : Dbl), oldY := oldY, skip := 0 },
        plotGlyphs pMstr pSlave.pArea pSlave.markNum (i : Dbl) oldY
          (pSlave.pSChan.pDataCodeR i))
  else
    match sydPlot_Yarray pSlave.pArea pSlave.pSChan i junk with
    | Except.error f => Except.error f
    | Except.ok ops => Except.ok ({ l with skip := 0 }, ops)

/-- The continuation case of `sydPlot_YSamples`. -/
def Y_cont (pMstr : SYD_PL_MSTR) (pSlave : SYD_PL_SLAVE) (junk : Dbl) (i : Int)
    (l : Locals) : Except Fault (Locals × List PprCall) :=
  if pSlave.pSChan.elCount = 1 then
    let newX : Dbl := (i : Dbl)
    let hold := pMstr.linePlot ≠ 0 ∧ pSlave.pSChan.dbrType = DbrType.ENUM
    let oldX := if hold then newX else l.oldX
    match FetchIthValInto pSlave.pSChan i with
    | Except.error f => Except.error f
    | Except.ok newY =>
      Except.ok ({ l with oldX := newX, oldY := newY },
        (if hold then [PprCall.pprLineSegD pSlave.pArea l.oldX l.oldY newX l.oldY] else []) ++
        (if pMstr.linePlot ≠ 0 then [PprCall.pprLineSegD pSlave.pArea oldX l.oldY newX newY]
         else []) ++
        plotGlyphs pMstr pSlave.pArea pSlave.markNum newX newY (pSlave.pSChan.pDataCodeR i))
  else
    match sydPlot_Yarray pSlave.pArea pSlave.pSChan i junk with
    | Except.error f => Except.error f
    | Except.ok ops => Except.ok (l, ops)

/-- Body of the `while (i >= 0)` loop of `sydPlot_YSamples` up to the index
update. -/
def Y_sample (pMstr : SYD_PL_MSTR) (pSlave : SYD_PL_SLAVE) (junk : Dbl) (i : Int)
    (l : Locals) : Except Fault (Locals × List PprCall) :=
  if (pSlave.pSChan.pFlags i).missing then
    Except.ok ({ l with skip := 1 }, [])
  else if l.first ≠ 0 ∨ l.skip ≠ 0 ∨ (pSlave.pSChan.pFlags i).restart then
    Y_anchor pMstr pSlave junk i l
  else if (pSlave.pSChan.pFlags i).filled then
    Except.ok (l, [])
  else
    Y_cont pMstr pSlave junk i l

/-- One pass of the `while (pSlave != NULL)` loop of `sydPlot_YSamples`. -/
def Y_slave (pMstr : SYD_PL_MSTR) (begin_ end_ incr : Int) (fuel : Nat) (junk : Dbl)
    (pSlave : SYD_PL_SLAVE) (l : Locals) :
    Except Fault (SYD_PL_SLAVE × Locals × List PprCall) :=
  if pSlave.pSChan.pData.isNone ∨ pSlave.pSChan.dataChan = 0 then
    Except.ok (saveLocals pSlave l, l, [])
  else
    match sampleLoop (Y_sample pMstr pSlave junk) pMstr.pSspec.dataDim end_ fuel begin_
        (loadLocals pSlave incr l) with
    | Except.error f => Except.error f
    | Except.ok (l1, ops) => Except.ok (saveLocals pSlave l1, l1, ops)

/-- The routine `sydPlot_YSamples(pMstr, begin, end, incr)`.  `junk` is the
indeterminate initial content of the locals of `sydPlot_Yarray`. -/
def sydPlot_YSamples (pMstr : SYD_PL_MSTR) (begin_ end_ incr : Int) (fuel : Nat)
    (l0 : Locals) (junk : Dbl) : Except Fault (SYD_PL_MSTR × List PprCall) :=
  match slaveLoop (Y_slave pMstr begin_ end_ incr fuel junk) pMstr.slaves l0 with
  | Except.error e => Except.error e
  | Except.ok (slaves, _, ops) => Except.ok ({ pMstr with slaves := slaves }, ops)

/-- The `for (i=0; i<nEl; i++)` loop of `sydPlot_XYarray`. -/
def XYarray_loop (pArea : Option Nat) (pSChanX pSChan : SYD_CHAN) (sub : Int) (junk : Dbl) :
    Nat → Int → Dbl × Dbl → Except Fault (List PprCall)
  | 0, _, _ => Except.ok []
  | n + 1, i, old =>
    match arrayEl pSChanX junk (sub * pSChanX.elCount + i) with
    | Except.error f => Except.error f
    | Except.ok newX =>
      match arrayEl pSChan junk (sub * pSChan.elCount + i) with
      | Except.error f => Except.error f
      | Except.ok newY =>
        match XYarray_loop pArea pSChanX pSChan sub junk n (i + 1) (newX, newY) with
        | Except.error f => Except.error f
        | Except.ok ops =>
          Except.ok ((if i > 0 then [PprCall.pprLineSegD pArea old.1 old.2 newX newY]
            else []) ++ ops)

/-- The routine `sydPlot_XYarray(pArea, pSChanX, pSChan, sub)`: the elements
of sample `sub` of the Y channel against those of the X channel. -/
def sydPlot_XYarray (pArea : Option Nat) (pSChanX pSChan : SYD_CHAN) (sub : Int)
    (junk : Dbl) : Except Fault (List PprCall) :=
  XYarray_loop pArea pSChanX pSChan sub junk
    (if pSChanX.elCount > pSChan.elCount then pSChan.elCount else pSChanX.elCount).toNat
    0 (junk, junk)

/-- The element count `nEl` of `sydPlot_XYSamples`: the smaller of the
element counts of the X channel and of the Y channel. -/
def XY_nEl (pSChanX pSChan : SYD_CHAN) : Int :=
  if pSChanX.elCount > pSChan.elCount then pSChan.elCount else pSChanX.elCount

/-- The anchor case of `sydPlot_XYSamples`. -/
def XY_anchor (pMstr : SYD_PL_MSTR) (pSChanX : SYD_CHAN) (pSlave : SYD_PL_SLAVE)
    (junk : Dbl) (i : Int) (l : Locals) : Except Fault (Locals × List PprCall) :=
  if XY_nEl pSChanX pSlave.pSChan = 1 then
    match FetchIthValInto pSChanX i with
    | Except.error f => Except.error f
    | Except.ok oldX =>
      match FetchIthValInto pSlave.pSChan i with
      | Except.error f => Except.error f
      | Except.ok oldY =>
        Except.ok ({ l with oldX := oldX, oldY := oldY, skip := 0 },
          plotGlyphs pMstr pSlave.pArea pSlave.markNum oldX oldY (pSlave.pSChan.pDataCodeR i))
  else
    match sydPlot_XYarray pSlave.pArea pSChanX pSlave.pSChan i junk with
    | Except.error f => Except.error f
    | Except.ok ops => Except.ok ({ l with skip := 0 }, ops)

/-- The continuation case of `sydPlot_XYSamples`. -/
def XY_cont (pMstr : SYD_PL_MSTR) (pSChanX : SYD_CHAN) (pSlave : SYD_PL_SLAVE)
    (junk : Dbl) (i : Int) (l : Locals) : Except Fault (Locals × List PprCall) :=
  if XY_nEl pSChanX pSlave.pSChan = 1 then
    match FetchIthValInto pSChanX i with
    | Except.error f => Except.error f
    | Except.ok newX =>
      match FetchIthValInto pSlave.pSChan i with
      | Except.error f => Except.error f
      | Except.ok newY =>
        Except.ok ({ l with oldX := newX, oldY := newY },
          (if pMstr.linePlot ≠ 0 then
            [PprCall.pprLineSegD pSlave.pArea l.oldX l.oldY newX newY] else []) ++
          plotGlyphs pMstr pSlave.pArea pSlave.markNum newX newY (pSlave.pSChan.pDataCodeR i))
  else
    match sydPlot_XYarray pSlave.pArea pSChanX pSlave.pSChan i junk with
    | Except.error f => Except.error f
    | Except.ok ops => Except.ok (l, ops)

/-- Body of the `while (i >= 0)` loop of `sydPlot_XYSamples` up to the index
update. -/
def XY_sample (pMstr : SYD_PL_MSTR) (pSChanX : SYD_CHAN) (pSlave : SYD_PL_SLAVE)
    (junk : Dbl) (i : Int) (l : Locals) : Except Fault (Locals × List PprCall) :=
  if (pSlave.pSChan.pFlags i).missing ∨ (pSChanX.pFlags i).missing then
    Except.ok ({ l with skip := 1 }, [])
  else if l.first ≠ 0 ∨ l.skip ≠ 0 ∨ (pSlave.pSChan.pFlags i).restart ∨
      (pSChanX.pFlags i).restart then
    XY_anchor pMstr pSChanX pSlave junk i l
  else if (pSlave.pSChan.pFlags i).filled then
    Except.ok (l, [])
  else
    XY_cont pMstr pSChanX pSlave junk i l

/-- The search for the X slave, `while (1) { if (pSlaveX->xChan) break;
pSlaveX = pSlaveX->pNext; if (pSlaveX == NULL) .. }`, from list position `k`:
the position of the first slave with `xChan` set, `none` when the end of the
list is reached. -/
def xSearch : List SYD_PL_SLAVE → Nat → Option Nat
  | [], _ => none
  | s :: rest, k => if s.xChan ≠ 0 then some k else xSearch rest (k + 1)

/-- The list position of `pSlaveX`: the search starts at `pHead` (a `NULL`
head is dereferenced) and falls back to `pHead`. -/
def findXSlave (slaves : List SYD_PL_SLAVE) : Except Fault Nat :=
  match slaves with
  | [] => Except.error Fault.nullDeref
  | _ :: _ => Except.ok ((xSearch slaves 0).getD 0)

/-- One pass of the `while (pSlave != NULL)` loop of `sydPlot_XYSamples`. -/
def XY_slave (pMstr : SYD_PL_MSTR) (pSChanX : SYD_CHAN) (begin_ end_ incr : Int)
    (fuel : Nat) (junk : Dbl) (pSlave : SYD_PL_SLAVE) (l : Locals) :
    Except Fault (SYD_PL_SLAVE × Locals × List PprCall) :=
  if pSlave.pSChan.pData.isNone ∨ pSlave.pSChan.dataChan = 0 then
    Except.ok (saveLocals pSlave l, l, [])
  else
    match sampleLoop (XY_sample pMstr pSChanX pSlave junk) pMstr.pSspec.dataDim end_ fuel
        begin_ (loadLocals pSlave incr l) with
    | Except.error f => Except.error f
    | Except.ok (l1, ops) => Except.ok (saveLocals pSlave l1, l1, ops)

/-- The loop over the slaves of `sydPlot_XYSamples`: every slave but the one
at position `xIdx` (`pSlaveX`) is processed, in list order; `k` is the
position of the head of the remaining list. -/
def XY_slaveLoop (f : SYD_PL_SLAVE → Locals → Except Fault (SYD_PL_SLAVE × Locals × List PprCall))
    (xIdx : Nat) :
    List SYD_PL_SLAVE → Nat → Locals → Except Fault (List SYD_PL_SLAVE × Locals × List PprCall)
  | [], _, l => Except.ok ([], l, [])
  | s :: rest, k, l =>
    if k = xIdx then
      match XY_slaveLoop f xIdx rest (k + 1) l with
      | Except.error e => Except.error e
      | Except.ok (rest1, l2, ops2) => Except.ok (s :: rest1, l2, ops2)
    else
      match f s l with
      | Except.error e => Except.error e
      | Except.ok (s1, l1, ops) =>
        match XY_slaveLoop f xIdx rest (k + 1) l1 with
        | Except.error e => Except.error e
        | Except.ok (rest1, l2, ops2) => Except.ok (s1 :: rest1, l2, ops ++ ops2)

/-- The routine `sydPlot_XYSamples(pMstr, begin, end, incr)`. -/
def sydPlot_XYSamples (pMstr : SYD_PL_MSTR) (begin_ end_ incr : Int) (fuel : Nat)
    (l0 : Locals) (junk : Dbl) : Except Fault (SYD_PL_MSTR × List PprCall) :=
  match findXSlave pMstr.slaves with
  | Except.error e => Except.error e
  | Except.ok xIdx =>
    match pMstr.slaves.get? xIdx with
    | none => Except.error Fault.nullDeref
    | some pSlaveX =>
      match XY_slaveLoop (XY_slave pMstr pSlaveX.pSChan begin_ end_ incr fuel junk) xIdx
          pMstr.slaves 0 l0 with
      | Except.error e => Except.error e
      | Except.ok (slaves, _, ops) => Except.ok ({ pMstr with slaves := slaves }, ops)

/-- The routine `sydPlot_SmithSamples(pMstr, begin, end, incr)`. -/
def sydPlot_SmithSamples (pMstr : SYD_PL_MSTR) (begin_ end_ incr : Int) (fuel : Nat)
    (l0 : Locals) (junk : Dbl) : Except Fault (SYD_PL_MSTR × List PprCall) :=
  sydPlot_XYSamples pMstr begin_ end_ incr fuel l0 junk

/-- The routine `sydPlotSamples(pMstr, begin, end, incrFlag)`: the dispatch on
`pMstr->plotAxis`, ending in `assertAlways(0)`. -/
def sydPlotSamples (pMstr : SYD_PL_MSTR) (begin_ end_ incrFlag : Int) (fuel : Nat)
    (l0 : Locals) (junk : Dbl) : Except Fault (SYD_PL_MSTR × List PprCall) :=
  if pMstr.plotAxis = SYD_PLAX.TY then sydPlot_TYSamples pMstr begin_ end_ incrFlag fuel l0
  else if pMstr.plotAxis = SYD_PLAX.TYY then sydPlot_TYSamples pMstr begin_ end_ incrFlag fuel l0
  else if pMstr.plotAxis = SYD_PLAX.XY then
    sydPlot_XYSamples pMstr begin_ end_ incrFlag fuel l0 junk
  else if pMstr.plotAxis = SYD_PLAX.XYY then
    sydPlot_XYSamples pMstr begin_ end_ incrFlag fuel l0 junk
  else if pMstr.plotAxis = SYD_PLAX.Y then
    sydPlot_YSamples pMstr begin_ end_ incrFlag fuel l0 junk
  else if pMstr.plotAxis = SYD_PLAX.YY then
    sydPlot_YSamples pMstr begin_ end_ incrFlag fuel l0 junk
  else if pMstr.plotAxis = SYD_PLAX.SMITH_IMP ∨ pMstr.plotAxis = SYD_PLAX.SMITH_ADM ∨
      pMstr.plotAxis = SYD_PLAX.SMITH_IMM then
    sydPlot_SmithSamples pMstr begin_ end_ incrFlag fuel l0 junk
  else Except.error Fault.assertFail

/-! ## Axis set-up and the life cycle of master and slaves -/

/-- Modelled from the spec: the status returned by the `long` routines
(`S_syd_OK`, `S_syd_ERROR`, declared in `sydDefs.h`). -/
inductive SydStatus where
  | S_syd_OK
  | S_syd_ERROR
  deriving DecidableEq, Repr

/-- The routine `sydPlotAxisAutoRange(pSlave)`. -/
def sydPlotAxisAutoRange (pSlave : SYD_PL_SLAVE) : SYD_PL_SLAVE :=
  { pSlave with originVal := pSlave.pSChan.minDataVal, extentVal := pSlave.pSChan.maxDataVal }

/-- The first part of `sydPlotAxisSetup`, the `if .. else if ..` chain on the
channel's type: the channel (rewritten when it is enumerated with fewer than
two states), the locals `originVal` and `extentVal`, and `nInt`.  For a type
that has no branch the two locals keep their indeterminate content `junkO`,
`junkE`. -/
def AxisSetup_byType (pSChan : SYD_CHAN) (junkO junkE : Dbl) : SYD_CHAN × Dbl × Dbl × Int :=
  match pSChan.dbrType with
  | DbrType.FLOAT | DbrType.SHORT | DbrType.DOUBLE | DbrType.LONG | DbrType.CHAR =>
    (pSChan, pSChan.lower_disp_limit, pSChan.upper_disp_limit, 5)
  | DbrType.ENUM =>
    let nInt := pSChan.no_str - 1
    if (0 : Dbl) ≥ (nInt : Dbl) then
      let strs0 := if nInt < 0 then Function.update pSChan.strs 0 " " else pSChan.strs
      ({ pSChan with no_str := 2, strs := Function.update strs0 1 " " }, 0, 1, 1)
    else (pSChan, 0, (nInt : Dbl), nInt)
  | DbrType.STRING => (pSChan, junkO, junkE, 5)

/-- The second part of `sydPlotAxisSetup`, the two `if (originVal ==
extentVal)` blocks: the fall-back to the observed data values, then to
arbitrary values. -/
def AxisSetup_ends (pSChan : SYD_CHAN) (originVal extentVal : Dbl) : Dbl × Dbl :=
  let o1 := if originVal = extentVal then pSChan.minDataVal else originVal
  let e1 := if originVal = extentVal then pSChan.maxDataVal else extentVal
  if o1 = e1 then
    (if o1 = 0 then (o1, 10) else if o1 < 0 then (o1, 0) else (0, e1))
  else (o1, e1)

/-- The routine `sydPlotAxisSetup(pSlave)`.  The channel the slave points to
is rewritten when it is enumerated with fewer than two states. -/
def sydPlotAxisSetup (pSlave : SYD_PL_SLAVE) (junkO junkE : Dbl) : SYD_PL_SLAVE :=
  let r := AxisSetup_byType pSlave.pSChan junkO junkE
  let ends := AxisSetup_ends r.1 r.2.1 r.2.2.1
  { pSlave with pSChan := r.1, originVal := ends.1, extentVal := ends.2, nInt := r.2.2.2 }

/-- The routine `sydPlotChanAdd(pMstr, pSChan)`: the value returned (`none` is
`NULL`), the master, and the messages printed.  `GenMalloc` is the outcome of
the allocation: `none` when it fails, else the new record with its
indeterminate content.  `pMstr` is the master a non-`NULL` pointer points to:
the entry `assert(pMstr != NULL)` holds. -/
def sydPlotChanAdd (pMstr : SYD_PL_MSTR) (pSChan : SYD_CHAN)
    (GenMalloc : Option SYD_PL_SLAVE) (junkO junkE : Dbl) :
    Except Fault (Option SYD_PL_SLAVE × SYD_PL_MSTR × List String) :=
  if pSChan.dbrType = DbrType.STRING then
    Except.ok (none, pMstr, ["sydPlotChanAdd: can't plot DBF_STRING values\n"])
  else
    match GenMalloc with
    | none => Except.ok (none, pMstr, ["sydPlotChanAdd: can't get memory\n"])
    | some raw =>
      let nSlaves := pMstr.nSlaves + 1
      let s0 : SYD_PL_SLAVE :=
        { raw with pSChan := pSChan, markNum := nSlaves - 1, lineKey := nSlaves,
                   timeLabel := "", xChan := 0, pArea := none, fg := 0, bg := 0, first := 1,
                   xFracLeft := 0, yFracBot := 0, xFracRight := 0, yFracTop := 0 }
      let s1 := sydPlotAxisSetup s0 junkO junkE
      let s2 : SYD_PL_SLAVE :=
        if pSChan.dbrType = DbrType.ENUM then
          { s1 with ppAnnot := some ((List.range (⌊s1.extentVal⌋ + 1).toNat).map
              fun (i : Nat) => s1.pSChan.strs (i : Int)) }
        else { s1 with ppAnnot := none }
      let s3 : SYD_PL_SLAVE := { s2 with timeLabel := "sec past " ++ pMstr.refText }
      Except.ok (some s3, { pMstr with nSlaves := nSlaves, slaves := pMstr.slaves ++ [s3] }, [])

/-- The routine `sydPlotEraseSamples(pMstr)`, as far as the master is
concerned: the first flag of every slave is set (the plot areas are erased on
the surface). -/
def sydPlotEraseSamples (pMstr : SYD_PL_MSTR) : SydStatus × SYD_PL_MSTR :=
  (SydStatus.S_syd_OK,
    { pMstr with slaves := pMstr.slaves.map fun s => { s with first := 1 } })

/-- The routine `sydPlotInit_common(pMstr)`. -/
def sydPlotInit_common (pMstr : SYD_PL_MSTR) : SYD_PL_MSTR :=
  let m : SYD_PL_MSTR :=
    { pMstr with linePlot := 1, pointPlot := 0, markPlot := 0, showStat := 0, fillUnder := 0,
                 altPixel1 := 0, altPixel2 := 0, label := "", title := "", lTitle := "",
                 bTitle := "", rTitle := "", refText := "", slaves := [], nSlaves := 0,
                 originVal := 0, extentVal := 0, wrapX := 0 }
  if m.pSspec.sampleCount ≥ 1 then
    { m with extentVal := m.pSspec.pDeltaSec (m.pSspec.sampleCount - 1) }
  else m

/-- The routine `sydPlotInit(pMstr, pSspec, winType, dispName, winTitle,
fullInit)`.  `pprWinOpen` is the outcome of opening the window (`none` is
`NULL`) and `pprWinInfo` the position and size the surface reports. -/
def sydPlotInit (pMstr : SYD_PL_MSTR) (pSspec : SYD_SPEC) (winType : PPR_WIN_TY)
    (fullInit : Int) (pprWinOpen : Option Nat) (pprWinInfo : Int × Int × Int × Int) :
    SydStatus × SYD_PL_MSTR :=
  match pprWinOpen with
  | none => (SydStatus.S_syd_ERROR, { pMstr with pWin := none })
  | some w =>
    let m1 : SYD_PL_MSTR :=
      if fullInit ≠ 0 then
        { pMstr with pWin := some w, x := pprWinInfo.1, y := pprWinInfo.2.1,
                     width := pprWinInfo.2.2.1, height := pprWinInfo.2.2.2 }
      else { pMstr with pWin := some w }
    (SydStatus.S_syd_OK,
      sydPlotInit_common { m1 with winType := winType, plotAxis := SYD_PLAX.UNDEF,
                                   pSspec := pSspec })

/-- The X of the end point of a plotting call: the position of a glyph, the
end of a line segment. -/
def PprCall.endX : PprCall → Dbl
  | PprCall.pprMarkD _ x _ _ => x
  | PprCall.pprChar _ x _ _ => x
  | PprCall.pprPointD _ x _ => x
  | PprCall.pprLineSegD _ _ _ x2 _ => x2

/-- Whether a plotting call draws a line segment. -/
def PprCall.isLineSeg : PprCall → Bool
  | PprCall.pprLineSegD _ _ _ _ _ => true
  | _ => false

/-! ## Set-up of the window, the grid routines, the plot routines -/

/-- Modelled from the spec: the text justification codes of the plotting
library (`PPR_TXT_CEN`, `PPR_TXT_LJ`, `PPR_TXT_RJ`, declared in the `ppr`
headers). -/
inductive PPR_TXT where
  | CEN
  | LJ
  | RJ
  deriving DecidableEq, Repr

/-- Modelled from the spec: the plot area attribute codes of the plotting
library used in `sydPlot.c` (`PPR_ATTR_FG`, `PPR_ATTR_LINE_THICK`,
`PPR_ATTR_KEYNUM`, `PPR_ATTR_COLORNUM`, declared in the `ppr` headers). -/
inductive PPR_ATTR where
  | FG
  | LINE_THICK
  | KEYNUM
  | COLORNUM
  deriving DecidableEq, Repr

/-- A call into the `ppr` plotting library made by `sydPlot_setup` and the
grid routines, with its arguments (the window argument of `pprAreaOpen` is
left out; its last field is the handle the call returned, `none` for `NULL`).
In `pprAreaSetAttr` the pointer argument is given by the value it points to,
`none` for `NULL`. -/
inductive GridCall where
  | pprAreaOpen (wfracXleft wfracYbot wfracXright wfracYtop : Dbl)
      (xLeft yBot xRight yTop : Dbl) (xNint yNint : Int) (charHt : Dbl) (pArea : Option Nat)
  | pprAreaClose (pArea : Option Nat)
  | pprText (pArea : Option Nat) (x y : Dbl) (text : String) (just : PPR_TXT)
      (height angle : Dbl)
  | pprAreaSetAttr (pArea : Option Nat) (code : PPR_ATTR) (arg : Int) (pArg : Option Nat)
  | pprGridLabel (pArea : Option Nat) (xLabel : String) (xAnnot : Option (List String))
      (yLabel : String) (yAnnot : Option (List String)) (angle : Dbl)
  | pprGrid (pArea : Option Nat)
  | pprAnnotX_wc (pArea : Option Nat) (offset : Int) (xLeft xRight : Dbl)
      (xNint drawLine : Int) (xLabel : String) (xAnnot : Option (List String)) (angle : Dbl)
  | pprAnnotY (pArea : Option Nat) (offset : Int) (yBot yTop : Dbl) (yNint drawLine : Int)
      (yLabel : String) (yAnnot : Option (List String)) (angle : Dbl)
  | pprAnnotYMark (pArea : Option Nat) (offset markNum : Int)
  | pprLineSegD (pArea : Option Nat) (x1 y1 x2 y2 : Dbl)
  | pprArcD (pArea : Option Nat) (x y radius angle1 angle2 angleIncr : Dbl)
  deriving DecidableEq, Repr

/-- Modelled from the spec: what `sydPlot.c` sees of the plotting library and
of the clock, none of which is in this file.  `pprAreaOpen n` is the handle
returned by the `n`-th call of `pprAreaOpen` (`none` is `NULL`),
`pprYFracToXFrac` the conversion of a height fraction into a width fraction
for the window, `PprDfltCharHt` the default character height for a band, and
`nowText` the text of the current date and time. -/
structure PprLib where
  pprAreaOpen : Nat → Option Nat
  pprYFracToXFrac : Dbl → Dbl
  PprDfltCharHt : Dbl → Dbl → Dbl
  nowText : String

/-- The seven outputs of `sydPlot_setup`. -/
structure SetupOut where
  xlo : Dbl
  ylo : Dbl
  xhi : Dbl
  yhi : Dbl
  yPart : Dbl
  charHt : Dbl
  charHtX : Dbl

/-- The routine `sydPlot_setup(pMstr, nGrids, pXlo, pYlo, pXhi, pYhi, pYpart,
pCh, pChX)`: the outputs, the calls made, and the number of `pprAreaOpen`
calls made so far (`nOpen` on entry).  The decimal constants and every
operation on `double`s round to the nearest `double`. -/
def sydPlot_setup (lib : PprLib) (pMstr : SYD_PL_MSTR) (nGrids : Int) (nOpen : Nat) :
    Except Fault (SetupOut × List GridCall × Nat) :=
  let charHt : Dbl := roundDbl (12 / 1000)
  let charHtX : Dbl := lib.pprYFracToXFrac charHt
  let pArea := lib.pprAreaOpen nOpen
  if pArea.isNone then Except.error Fault.assertFail
  else
    let opsNow : List GridCall :=
      if pMstr.winType = PPR_WIN_TY.POSTSCRIPT then
        [GridCall.pprText pArea (roundDbl (98 / 100)) (roundDbl (995 / 1000)) lib.nowText
          PPR_TXT.RJ (roundDbl (8 / 1000)) 0]
      else []
    let top : Dbl × List GridCall :=
      if pMstr.title.length > 0 then
        (roundDbl (roundDbl (1 - charHt) - roundDbl (2 * charHt)),
          [GridCall.pprText pArea (1 / 2) (roundDbl (1 - charHt)) pMstr.title PPR_TXT.CEN
            charHt 0])
      else (roundDbl (98 / 100), [])
    let left : Dbl × List GridCall :=
      if pMstr.lTitle.length > 0 then
        (roundDbl (roundDbl (2 * charHtX) + roundDbl (2 * charHtX)),
          [GridCall.pprText pArea (roundDbl (2 * charHtX)) (1 / 2) pMstr.lTitle PPR_TXT.CEN
            charHt 90])
      else (0, [])
    let bot : Dbl × List GridCall :=
      if pMstr.bTitle.length > 0 then
        (roundDbl (roundDbl (2 * charHt) + roundDbl (2 * charHt)),
          [GridCall.pprText pArea (1 / 2) (roundDbl (2 * charHt)) pMstr.bTitle PPR_TXT.CEN
            charHt 0])
      else (0, [])
    let right : Dbl × List GridCall :=
      if pMstr.rTitle.length > 0 then
        (roundDbl (roundDbl (1 - roundDbl (2 * charHtX)) - roundDbl (2 * charHtX)),
          [GridCall.pprText pArea (roundDbl (1 - roundDbl (2 * charHtX))) (1 / 2) pMstr.rTitle
            PPR_TXT.CEN charHt 90])
      else (roundDbl (98 / 100), [])
    let yPart : Dbl := roundDbl (roundDbl (top.1 - bot.1) / (nGrids : Dbl))
    let yhi : Dbl := roundDbl (yPart + bot.1)
    let charHt1 : Dbl := lib.PprDfltCharHt bot.1 yhi
    Except.ok
      ({ xlo := left.1, ylo := bot.1, xhi := right.1, yhi := yhi, yPart := yPart,
         charHt := charHt1, charHtX := lib.pprYFracToXFrac charHt1 },
        [GridCall.pprAreaOpen 0 0 1 1 0 0 1 1 1 1 0 pArea] ++ opsNow ++ top.2 ++ left.2 ++
          bot.2 ++ right.2 ++ [GridCall.pprAreaClose pArea],
        nOpen + 1)

/-- The statements `if (pSlave->pArea != NULL) pprAreaClose(pSlave->pArea);
pArea = pSlave->pArea = pprAreaOpen(pWin, ..); assertAlways(pArea != NULL);`
of the grid routines: the new handle and the calls made. -/
def slaveAreaOpen (lib : PprLib) (pSlave : SYD_PL_SLAVE) (nOpen : Nat)
    (xlo ylo xhi yhi xmin ymin xmax ymax : Dbl) (xNint yNint : Int) (charHt : Dbl) :
    Except Fault (Option Nat × List GridCall) :=
  let pArea := lib.pprAreaOpen nOpen
  if pArea.isNone then Except.error Fault.assertFail
  else
    Except.ok (pArea,
      (if pSlave.pArea.isSome then [GridCall.pprAreaClose pSlave.pArea] else []) ++
        [GridCall.pprAreaOpen xlo ylo xhi yhi xmin ymin xmax ymax xNint yNint charHt pArea])

/-- The loop over the slaves of a grid routine, from list position `k`, with
the locals `σ` of the routine carried from one slave to the next; the slave
at position `skip` (the X slave of the paired-channel routines) is passed
over. -/
def gridLoop {σ : Type}
    (f : SYD_PL_SLAVE → σ → Except Fault (SYD_PL_SLAVE × σ × List GridCall))
    (skip : Option Nat) :
    List SYD_PL_SLAVE → Nat → σ → Except Fault (List SYD_PL_SLAVE × σ × List GridCall)
  | [], _, st => Except.ok ([], st, [])
  | s :: rest, k, st =>
    if skip = some k then
      match gridLoop f skip rest (k + 1) st with
      | Except.error e => Except.error e
      | Except.ok (rest1, st2, ops2) => Except.ok (s :: rest1, st2, ops2)
    else
      match f s st with
      | Except.error e => Except.error e
      | Except.ok (s1, st1, ops) =>
        match gridLoop f skip rest (k + 1) st1 with
        | Except.error e => Except.error e
        | Except.ok (rest1, st2, ops2) => Except.ok (s1 :: rest1, st2, ops ++ ops2)

/-- The locals of the separate-grid routines that change from slave to slave:
the band `ylo .. yhi`, and the number of `pprAreaOpen` calls made so far. -/
structure BandSt where
  ylo : Dbl
  yhi : Dbl
  nOpen : Nat

/-- The locals of the shared-grid routines that change from slave to slave:
`offsetAnnotY`, `drawAxis`, and the number of `pprAreaOpen` calls made so
far. -/
structure AxisSt where
  offsetAnnotY : Int
  drawAxis : Int
  nOpen : Nat

/-- The X domain of the time-axis grid routines: the master's, or `[0, 100]`
with 5 intervals when `xmin == xmax`. -/
def TY_xDomain (pMstr : SYD_PL_MSTR) : Dbl × Dbl × Int :=
  if pMstr.originVal = pMstr.extentVal then (0, 100, 5)
  else (pMstr.originVal, pMstr.extentVal, pMstr.nInt)

/-- The attribute calls of `sydPlot_TYGrid` and `sydPlot_YGrid` for one
slave. -/
def bandAttr (pMstr : SYD_PL_MSTR) (pSlave : SYD_PL_SLAVE) (pArea : Option Nat) :
    List GridCall :=
  if pSlave.fg ≠ 0 ∧ pMstr.noColor = 0 then
    [GridCall.pprAreaSetAttr pArea PPR_ATTR.FG 0 (some pSlave.fg)]
  else if pMstr.linePlot ≠ 0 then
    (if pSlave.pSChan.dbrType = DbrType.ENUM then
      [GridCall.pprAreaSetAttr pArea PPR_ATTR.LINE_THICK 3 none] else [])
  else []

/-- One pass of the loop of the separate-grid routines `sydPlot_TYGrid`,
`sydPlot_YGrid` (`xLabel`, `xmin`, `xmax`, `xNint` as the routine has them)
over the slaves.  Every operation on `double`s rounds to the nearest
`double`. -/
def bandGrid_slave (lib : PprLib) (pMstr : SYD_PL_MSTR) (su : SetupOut) (xLabel : String)
    (xmin xmax : Dbl) (xNint : Int) (pSlave : SYD_PL_SLAVE) (st : BandSt) :
    Except Fault (SYD_PL_SLAVE × BandSt × List GridCall) :=
  let charHt := lib.PprDfltCharHt st.ylo st.yhi
  let charHtX := lib.pprYFracToXFrac charHt
  match slaveAreaOpen lib pSlave st.nOpen (roundDbl (su.xlo + roundDbl (12 * charHtX)))
      (roundDbl (st.ylo + roundDbl (6 * charHt)))
      su.xhi st.yhi xmin pSlave.originVal xmax pSlave.extentVal xNint pSlave.nInt charHt with
  | Except.error e => Except.error e
  | Except.ok (pArea, ops) =>
    Except.ok
      ({ pSlave with pArea := pArea, xFracLeft := roundDbl (su.xlo + roundDbl (12 * charHtX)),
                     xFracRight := su.xhi,
                     yFracBot := roundDbl (st.ylo + roundDbl (6 * charHt)),
                     yFracTop := st.yhi },
        { ylo := roundDbl (st.ylo + su.yPart), yhi := roundDbl (st.yhi + su.yPart),
          nOpen := st.nOpen + 1 },
        ops ++ bandAttr pMstr pSlave pArea ++
          [GridCall.pprGridLabel pArea xLabel none pSlave.pSChan.label pSlave.ppAnnot 0])

/-- The routine `sydPlot_TYGrid(pMstr)`: the master, the calls made, and the
number of `pprAreaOpen` calls made so far (`nOpen` on entry). -/
def sydPlot_TYGrid (lib : PprLib) (pMstr : SYD_PL_MSTR) (nOpen : Nat) :
    Except Fault (SYD_PL_MSTR × List GridCall × Nat) :=
  match sydPlot_setup lib pMstr pMstr.nSlaves nOpen with
  | Except.error e => Except.error e
  | Except.ok (su, ops0, n0) =>
    let xd := TY_xDomain pMstr
    match gridLoop (bandGrid_slave lib pMstr su pMstr.label xd.1 xd.2.1 xd.2.2) none
        pMstr.slaves 0 { ylo := su.ylo, yhi := su.yhi, nOpen := n0 } with
    | Except.error e => Except.error e
    | Except.ok (slaves, st, ops) =>
      Except.ok ({ pMstr with slaves := slaves }, ops0 ++ ops, st.nOpen)

/-- The attribute calls of `sydPlot_TYYGrid` and `sydPlot_YYGrid` for one
slave. -/
def sharedAttr (pMstr : SYD_PL_MSTR) (pSlave : SYD_PL_SLAVE) (pArea : Option Nat) :
    List GridCall :=
  if pSlave.fg ≠ 0 ∧ pMstr.noColor = 0 then
    [GridCall.pprAreaSetAttr pArea PPR_ATTR.FG 0 (some pSlave.fg)]
  else if pMstr.linePlot ≠ 0 then
    (if pSlave.pSChan.dbrType = DbrType.ENUM then
      [GridCall.pprAreaSetAttr pArea PPR_ATTR.LINE_THICK 3 none] else []) ++
    (if pSlave.lineKey > 1 ∨ pMstr.noColor = 0 then
      [GridCall.pprAreaSetAttr pArea PPR_ATTR.KEYNUM pSlave.lineKey none] else [])
  else if pMstr.noColor = 0 then
    [GridCall.pprAreaSetAttr pArea PPR_ATTR.COLORNUM pSlave.lineKey none]
  else []

/-- The attribute calls of `sydPlot_XYYGrid` for one slave. -/
def XYY_attr (pMstr : SYD_PL_MSTR) (pSlave : SYD_PL_SLAVE) (pArea : Option Nat)
    (drawAxis : Int) : List GridCall :=
  if pSlave.fg ≠ 0 ∧ pMstr.noColor = 0 then
    [GridCall.pprAreaSetAttr pArea PPR_ATTR.FG 0 (some pSlave.fg)]
  else if pMstr.linePlot ≠ 0 then
    (if drawAxis ≠ 0 ∨ pMstr.noColor = 0 then
      [GridCall.pprAreaSetAttr pArea PPR_ATTR.KEYNUM pSlave.lineKey none] else [])
  else if pMstr.noColor = 0 then
    [GridCall.pprAreaSetAttr pArea PPR_ATTR.COLORNUM pSlave.lineKey none]
  else []

/-- One pass of the loop of the shared-grid routines `sydPlot_TYYGrid`,
`sydPlot_XYYGrid`, `sydPlot_YYGrid` over the slaves: `xlo`, `ylo` are the
corner after the routine has moved it, `attr` the attribute calls of the
routine, and `xLabel`, `xmin`, `xmax`, `xNint` what the routine passes for
the X axis. -/
def sharedGrid_slave (lib : PprLib) (pMstr : SYD_PL_MSTR) (su : SetupOut) (xlo ylo : Dbl)
    (attr : SYD_PL_SLAVE → Option Nat → Int → List GridCall) (xLabel : String)
    (xmin xmax : Dbl) (xNint : Int) (pSlave : SYD_PL_SLAVE) (st : AxisSt) :
    Except Fault (SYD_PL_SLAVE × AxisSt × List GridCall) :=
  match slaveAreaOpen lib pSlave st.nOpen xlo ylo su.xhi su.yhi
      xmin pSlave.originVal xmax pSlave.extentVal xNint pSlave.nInt su.charHt with
  | Except.error e => Except.error e
  | Except.ok (pArea, ops) =>
    Except.ok
      ({ pSlave with pArea := pArea, xFracLeft := xlo, xFracRight := su.xhi,
                     yFracBot := ylo, yFracTop := su.yhi },
        { offsetAnnotY := st.offsetAnnotY + 6, drawAxis := 1, nOpen := st.nOpen + 1 },
        ops ++ attr pSlave pArea st.drawAxis ++
          (if st.drawAxis = 0 then
            [GridCall.pprGrid pArea,
              GridCall.pprAnnotX_wc pArea 0 xmin xmax xNint 0 xLabel none 0]
           else []) ++
          [GridCall.pprAnnotY pArea st.offsetAnnotY pSlave.originVal pSlave.extentVal
            pSlave.nInt st.drawAxis pSlave.pSChan.label pSlave.ppAnnot 90] ++
          (if pMstr.markPlot ≠ 0 then
            [GridCall.pprAnnotYMark pArea st.offsetAnnotY pSlave.markNum] else []))

/-- The routine `sydPlot_TYYGrid(pMstr)`. -/
def sydPlot_TYYGrid (lib : PprLib) (pMstr : SYD_PL_MSTR) (nOpen : Nat) :
    Except Fault (SYD_PL_MSTR × List GridCall × Nat) :=
  match sydPlot_setup lib pMstr 1 nOpen with
  | Except.error e => Except.error e
  | Except.ok (su, ops0, n0) =>
    let xlo := su.xlo + 6 * su.charHtX * (pMstr.nSlaves : Dbl)
    let ylo := su.ylo + 6 * su.charHt
    let xd := TY_xDomain pMstr
    match gridLoop
        (sharedGrid_slave lib pMstr su xlo ylo (fun s a _ => sharedAttr pMstr s a)
          pMstr.label xd.1 xd.2.1 xd.2.2)
        none pMstr.slaves 0 { offsetAnnotY := 0, drawAxis := 0, nOpen := n0 } with
    | Except.error e => Except.error e
    | Except.ok (slaves, st, ops) =>
      Except.ok ({ pMstr with slaves := slaves }, ops0 ++ ops, st.nOpen)

/-- One pass of the loop of `sydPlot_XYGrid` over the slaves other than the X
slave `pSlaveX`.  Every operation on `double`s rounds to the nearest
`double`. -/
def XYGrid_slave (lib : PprLib) (pMstr : SYD_PL_MSTR) (su : SetupOut)
    (pSlaveX : SYD_PL_SLAVE) (pSlave : SYD_PL_SLAVE) (st : BandSt) :
    Except Fault (SYD_PL_SLAVE × BandSt × List GridCall) :=
  match slaveAreaOpen lib pSlave st.nOpen (roundDbl (su.xlo + roundDbl (12 * su.charHtX)))
      (roundDbl (st.ylo + roundDbl (6 * su.charHt)))
      su.xhi st.yhi pSlaveX.originVal pSlave.originVal pSlaveX.extentVal pSlave.extentVal
      pSlaveX.nInt pSlave.nInt su.charHt with
  | Except.error e => Except.error e
  | Except.ok (pArea, ops) =>
    Except.ok
      ({ pSlave with pArea := pArea,
                     xFracLeft := roundDbl (su.xlo + roundDbl (12 * su.charHtX)),
                     xFracRight := su.xhi,
                     yFracBot := roundDbl (st.ylo + roundDbl (6 * su.charHt)),
                     yFracTop := st.yhi },
        { ylo := roundDbl (st.ylo + su.yPart), yhi := roundDbl (st.yhi + su.yPart),
          nOpen := st.nOpen + 1 },
        ops ++
          (if pSlave.fg ≠ 0 ∧ pMstr.noColor = 0 then
            [GridCall.pprAreaSetAttr pArea PPR_ATTR.FG 0 (some pSlave.fg)] else []) ++
          [GridCall.pprGridLabel pArea pSlaveX.pSChan.label none pSlave.pSChan.label
            pSlave.ppAnnot 0])

/-- The routine `sydPlot_XYGrid(pMstr)`. -/
def sydPlot_XYGrid (lib : PprLib) (pMstr : SYD_PL_MSTR) (nOpen : Nat) :
    Except Fault (SYD_PL_MSTR × List GridCall × Nat) :=
  match findXSlave pMstr.slaves with
  | Except.error e => Except.error e
  | Except.ok xIdx =>
    match pMstr.slaves.get? xIdx with
    | none => Except.error Fault.nullDeref
    | some sx =>
      match sydPlot_setup lib pMstr (pMstr.nSlaves - 1) nOpen with
      | Except.error e => Except.error e
      | Except.ok (su, ops0, n0) =>
        let pSlaveX : SYD_PL_SLAVE := { sx with pArea := none }
        match gridLoop (XYGrid_slave lib pMstr su pSlaveX) (some xIdx)
            (pMstr.slaves.set xIdx pSlaveX) 0
            { ylo := su.ylo, yhi := su.yhi, nOpen := n0 } with
        | Except.error e => Except.error e
        | Except.ok (slaves, st, ops) =>
          Except.ok ({ pMstr with slaves := slaves }, ops0 ++ ops, st.nOpen)

/-- The routine `sydPlot_XYYGrid(pMstr)`. -/
def sydPlot_XYYGrid (lib : PprLib) (pMstr : SYD_PL_MSTR) (nOpen : Nat) :
    Except Fault (SYD_PL_MSTR × List GridCall × Nat) :=
  match findXSlave pMstr.slaves with
  | Except.error e => Except.error e
  | Except.ok xIdx =>
    match pMstr.slaves.get? xIdx with
    | none => Except.error Fault.nullDeref
    | some sx =>
      match sydPlot_setup lib pMstr 1 nOpen with
      | Except.error e => Except.error e
      | Except.ok (su, ops0, n0) =>
        let xlo := su.xlo + 6 * su.charHtX * ((pMstr.nSlaves - 1 : Int) : Dbl)
        let ylo := su.ylo + 6 * su.charHt
        let pSlaveX : SYD_PL_SLAVE := { sx with pArea := none, yFracBot := 0, yFracTop := 0 }
        match gridLoop
            (sharedGrid_slave lib pMstr su xlo ylo (XYY_attr pMstr) pSlaveX.pSChan.label
              pSlaveX.originVal pSlaveX.extentVal pSlaveX.nInt)
            (some xIdx) (pMstr.slaves.set xIdx pSlaveX) 0
            { offsetAnnotY := 0, drawAxis := 0, nOpen := n0 } with
        | Except.error e => Except.error e
        | Except.ok (slaves, st, ops) =>
          Except.ok ({ pMstr with slaves := slaves }, ops0 ++ ops, st.nOpen)

/-- The X domain of `sydPlot_YGrid` and `sydPlot_YYGrid`: `xmin = 0`, and
`xmax` the largest element count of the slaves' channels (0 at least), or
`reqCount - 1` when that is 1. -/
def Y_xmax (pMstr : SYD_PL_MSTR) : Dbl :=
  let xmax : Dbl := pMstr.slaves.foldl
    (fun (xmax : Dbl) s => if (s.pSChan.elCount : Dbl) > xmax then (s.pSChan.elCount : Dbl)
      else xmax) 0
  if xmax = 1 then ((pMstr.pSspec.reqCount - 1 : Int) : Dbl) else xmax

/-- The routine `sydPlot_YGrid(pMstr)`. -/
def sydPlot_YGrid (lib : PprLib) (pMstr : SYD_PL_MSTR) (nOpen : Nat) :
    Except Fault (SYD_PL_MSTR × List GridCall × Nat) :=
  match sydPlot_setup lib pMstr pMstr.nSlaves nOpen with
  | Except.error e => Except.error e
  | Except.ok (su, ops0, n0) =>
    match gridLoop (bandGrid_slave lib pMstr su "" 0 (Y_xmax pMstr) 1) none
        pMstr.slaves 0 { ylo := su.ylo, yhi := su.yhi, nOpen := n0 } with
    | Except.error e => Except.error e
    | Except.ok (slaves, st, ops) =>
      Except.ok ({ pMstr with slaves := slaves }, ops0 ++ ops, st.nOpen)

/-- The routine `sydPlot_YYGrid(pMstr)`. -/
def sydPlot_YYGrid (lib : PprLib) (pMstr : SYD_PL_MSTR) (nOpen : Nat) :
    Except Fault (SYD_PL_MSTR × List GridCall × Nat) :=
  match sydPlot_setup lib pMstr 1 nOpen with
  | Except.error e => Except.error e
  | Except.ok (su, ops0, n0) =>
    let xlo := su.xlo + 6 * su.charHtX * (pMstr.nSlaves : Dbl)
    let ylo := su.ylo + 6 * su.charHt
    match gridLoop
        (sharedGrid_slave lib pMstr su xlo ylo (fun s a _ => sharedAttr pMstr s a)
          "" 0 (Y_xmax pMstr) 1)
        none pMstr.slaves 0 { offsetAnnotY := 0, drawAxis := 0, nOpen := n0 } with
    | Except.error e => Except.error e
    | Except.ok (slaves, st, ops) =>
      Except.ok ({ pMstr with slaves := slaves }, ops0 ++ ops, st.nOpen)

/-- The table `xTxt` of `sydPlot_SmithGrid`, read at index `r - 1`. -/
def xTxt (r : Nat) : String :=
  (["5", "2", "1", "0.5", "0.2", "0"].get? (r - 1)).getD ""

/-- The admittance overlay of `sydPlot_SmithGrid`, drawn for the kinds
`SMITH_ADM` and `SMITH_IMM` (`adm` is `plotAxis == SYD_PLAX_SMITH_ADM`); the
variant compiled with `XWINDOWS`. -/
def Smith_admittance (pMstr : SYD_PL_MSTR) (pArea : Option Nat) : List GridCall :=
  let adm : Prop := pMstr.plotAxis = SYD_PLAX.SMITH_ADM
  let txt (x y : Dbl) (t : String) (j : PPR_TXT) : List GridCall :=
    if adm then [GridCall.pprText pArea x y t j 0 0] else []
  (if pMstr.noColor = 0 ∧ pMstr.altPixel2 ≠ 0 then
    [GridCall.pprAreaSetAttr pArea PPR_ATTR.FG 0 (some pMstr.altPixel2)]
   else if pMstr.plotAxis = SYD_PLAX.SMITH_IMM ∨ pMstr.noColor = 0 then
    [GridCall.pprAreaSetAttr pArea PPR_ATTR.KEYNUM 1 none]
   else []) ++
  (if adm then [GridCall.pprLineSegD pArea 0 (1 / 2) 1 (1 / 2)] else []) ++
  ([6, 5, 4, 3, 2, 1].map fun (r : Nat) =>
    (if r ≠ 6 ∨ adm then
      [GridCall.pprArcD pArea ((r : Dbl) / 12) (1 / 2) ((r : Dbl) / 12) 0 360 5] else []) ++
    txt ((r : Dbl) / 12 + (r : Dbl) / 12 + 15 / 1000) (1 / 2) (xTxt r) PPR_TXT.LJ).flatten ++
  [GridCall.pprArcD pArea 0 (1 / 2 + 1 / 4) (1 / 4) 270 37 5] ++
  txt (19 / 100) (92 / 100) "2" PPR_TXT.RJ ++
  [GridCall.pprArcD pArea 0 (1 / 2 - 1 / 4) (1 / 4) 323 90 5] ++
  txt (19 / 100) (8 / 100) "2" PPR_TXT.RJ ++
  [GridCall.pprArcD pArea 0 (1 / 2 + 1 / 2) (1 / 2) 270 0 5] ++
  txt (1 / 2) (102 / 100) "1" PPR_TXT.CEN ++
  [GridCall.pprArcD pArea 0 (1 / 2 - 1 / 2) (1 / 2) 0 90 5] ++
  txt (1 / 2) (-(2 / 100)) "1" PPR_TXT.CEN ++
  [GridCall.pprArcD pArea 0 (1 / 2 + 1) 1 270 323 5] ++
  txt (81 / 100) (92 / 100) "0.5" PPR_TXT.LJ ++
  [GridCall.pprArcD pArea 0 (1 / 2 - 1) 1 37 90 5] ++
  txt (81 / 100) (8 / 100) "0.5" PPR_TXT.LJ

/-- The impedance overlay of `sydPlot_SmithGrid`, drawn for the kinds
`SMITH_IMP` and `SMITH_IMM`; the variant compiled with `XWINDOWS`. -/
def Smith_impedance (pMstr : SYD_PL_MSTR) (pArea : Option Nat) : List GridCall :=
  (if pMstr.noColor = 0 ∧ pMstr.altPixel1 ≠ 0 then
    [GridCall.pprAreaSetAttr pArea PPR_ATTR.FG 0 (some pMstr.altPixel1)]
   else [GridCall.pprAreaSetAttr pArea PPR_ATTR.KEYNUM 0 none]) ++
  [GridCall.pprLineSegD pArea 0 (1 / 2) 1 (1 / 2)] ++
  ([6, 5, 4, 3, 2, 1].map fun (r : Nat) =>
    [GridCall.pprArcD pArea (1 - (r : Dbl) / 12) (1 / 2) ((r : Dbl) / 12) 0 360 5,
      GridCall.pprText pArea (1 - (r : Dbl) / 12 - (r : Dbl) / 12 - 15 / 1000) (1 / 2)
        (xTxt r) PPR_TXT.RJ 0 0]).flatten ++
  [GridCall.pprArcD pArea 1 (1 / 2 + 1 / 4) (1 / 4) 143 270 5,
    GridCall.pprText pArea (81 / 100) (92 / 100) "2" PPR_TXT.LJ 0 0,
    GridCall.pprArcD pArea 1 (1 / 2 - 1 / 4) (1 / 4) 90 217 5,
    GridCall.pprText pArea (81 / 100) (8 / 100) "2" PPR_TXT.LJ 0 0,
    GridCall.pprArcD pArea 1 (1 / 2 + 1 / 2) (1 / 2) 180 270 5,
    GridCall.pprText pArea (1 / 2) (102 / 100) "1" PPR_TXT.CEN 0 0,
    GridCall.pprArcD pArea 1 (1 / 2 - 1 / 2) (1 / 2) 90 180 5,
    GridCall.pprText pArea (1 / 2) (-(2 / 100)) "1" PPR_TXT.CEN 0 0,
    GridCall.pprArcD pArea 1 (1 / 2 + 1) 1 217 270 5,
    GridCall.pprText pArea (19 / 100) (92 / 100) "0.5" PPR_TXT.RJ 0 0,
    GridCall.pprArcD pArea 1 (1 / 2 - 1) 1 90 143 5,
    GridCall.pprText pArea (19 / 100) (8 / 100) "0.5" PPR_TXT.RJ 0 0]

/-- The overlay of `sydPlot_SmithGrid`: the plot area `pArea` is opened over
the unit square, the overlays of the kind are drawn, and the area is closed. -/
def Smith_overlay (pMstr : SYD_PL_MSTR) (pArea : Option Nat) (xlo ylo xhi yhi : Dbl) :
    List GridCall :=
  [GridCall.pprAreaOpen xlo ylo xhi yhi 0 0 1 1 1 1 0 pArea] ++
  (if pMstr.plotAxis = SYD_PLAX.SMITH_ADM ∨ pMstr.plotAxis = SYD_PLAX.SMITH_IMM then
    Smith_admittance pMstr pArea else []) ++
  (if pMstr.plotAxis = SYD_PLAX.SMITH_IMP ∨ pMstr.plotAxis = SYD_PLAX.SMITH_IMM then
    Smith_impedance pMstr pArea else []) ++
  [GridCall.pprAreaClose pArea]

/-- One pass of the loop of `sydPlot_SmithGrid` over the slaves other than
the X slave `pSlaveX`; the only local that changes is the number of
`pprAreaOpen` calls made so far. -/
def SmithGrid_slave (lib : PprLib) (pMstr : SYD_PL_MSTR) (xlo ylo xhi yhi : Dbl)
    (pSlaveX : SYD_PL_SLAVE) (pSlave : SYD_PL_SLAVE) (nOpen : Nat) :
    Except Fault (SYD_PL_SLAVE × Nat × List GridCall) :=
  match slaveAreaOpen lib pSlave nOpen xlo ylo xhi yhi
      pSlaveX.originVal pSlave.originVal pSlaveX.extentVal pSlave.extentVal 1 1 0 with
  | Except.error e => Except.error e
  | Except.ok (pArea, ops) =>
    Except.ok ({ pSlave with pArea := pArea }, nOpen + 1,
      ops ++
        (if pSlave.fg ≠ 0 ∧ pMstr.noColor = 0 then
          [GridCall.pprAreaSetAttr pArea PPR_ATTR.FG 0 (some pSlave.fg)] else []))

/-- The routine `sydPlot_SmithGrid(pMstr)`.  The handle returned by the
`pprAreaOpen` for the overlay is not checked. -/
def sydPlot_SmithGrid (lib : PprLib) (pMstr : SYD_PL_MSTR) (nOpen : Nat) :
    Except Fault (SYD_PL_MSTR × List GridCall × Nat) :=
  match sydPlot_setup lib pMstr 1 nOpen with
  | Except.error e => Except.error e
  | Except.ok (su, ops0, n0) =>
    let xlo := su.xlo + 3 * su.charHtX
    let ylo := su.ylo + 2 * su.charHt
    let xhi := su.xhi - su.charHt
    let yhi := su.yhi - 2 * su.charHt
    match findXSlave pMstr.slaves with
    | Except.error e => Except.error e
    | Except.ok xIdx =>
      match pMstr.slaves.get? xIdx with
      | none => Except.error Fault.nullDeref
      | some sx =>
        let pSlaveX : SYD_PL_SLAVE := { sx with pArea := none }
        match gridLoop (SmithGrid_slave lib pMstr xlo ylo xhi yhi pSlaveX) (some xIdx)
            (pMstr.slaves.set xIdx pSlaveX) 0 (n0 + 1) with
        | Except.error e => Except.error e
        | Except.ok (slaves, n1, ops) =>
          Except.ok ({ pMstr with slaves := slaves },
            ops0 ++ Smith_overlay pMstr (lib.pprAreaOpen n0) xlo ylo xhi yhi ++ ops, n1)

/-- The common shape of the routines `sydPlot_xxPlot(pMstr)`: the grid
routine, then the sample routine over `pSspec->firstData ..
pSspec->lastData` as a batch call.  The result is the master, the calls of
the grid routine, the calls of the sample routine, and the number of
`pprAreaOpen` calls made so far. -/
def gridThenSamples (pSspec : SYD_SPEC)
    (grid : Except Fault (SYD_PL_MSTR × List GridCall × Nat))
    (samples : SYD_PL_MSTR → Int → Int → Int → Except Fault (SYD_PL_MSTR × List PprCall)) :
    Except Fault (SYD_PL_MSTR × List GridCall × List PprCall × Nat) :=
  match grid with
  | Except.error e => Except.error e
  | Except.ok (m1, gops, n1) =>
    match samples m1 pSspec.firstData pSspec.lastData 0 with
    | Except.error e => Except.error e
    | Except.ok (m2, ops) => Except.ok (m2, gops, ops, n1)

/-- The routine `sydPlot_TYPlot(pMstr)`. -/
def sydPlot_TYPlot (lib : PprLib) (pMstr : SYD_PL_MSTR) (nOpen fuel : Nat) (l0 : Locals) :
    Except Fault (SYD_PL_MSTR × List GridCall × List PprCall × Nat) :=
  gridThenSamples pMstr.pSspec (sydPlot_TYGrid lib pMstr nOpen)
    (fun m b e incr => sydPlot_TYSamples m b e incr fuel l0)

/-- The routine `sydPlot_TYYPlot(pMstr)`. -/
def sydPlot_TYYPlot (lib : PprLib) (pMstr : SYD_PL_MSTR) (nOpen fuel : Nat) (l0 : Locals) :
    Except Fault (SYD_PL_MSTR × List GridCall × List PprCall × Nat) :=
  gridThenSamples pMstr.pSspec (sydPlot_TYYGrid lib pMstr nOpen)
    (fun m b e incr => sydPlot_TYSamples m b e incr fuel l0)

/-- The routine `sydPlot_XYPlot(pMstr)`. -/
def sydPlot_XYPlot (lib : PprLib) (pMstr : SYD_PL_MSTR) (nOpen fuel : Nat) (l0 : Locals)
    (junk : Dbl) : Except Fault (SYD_PL_MSTR × List GridCall × List PprCall × Nat) :=
  gridThenSamples pMstr.pSspec (sydPlot_XYGrid lib pMstr nOpen)
    (fun m b e incr => sydPlot_XYSamples m b e incr fuel l0 junk)

/-- The routine `sydPlot_XYYPlot(pMstr)`. -/
def sydPlot_XYYPlot (lib : PprLib) (pMstr : SYD_PL_MSTR) (nOpen fuel : Nat) (l0 : Locals)
    (junk : Dbl) : Except Fault (SYD_PL_MSTR × List GridCall × List PprCall × Nat) :=
  gridThenSamples pMstr.pSspec (sydPlot_XYYGrid lib pMstr nOpen)
    (fun m b e incr => sydPlot_XYSamples m b e incr fuel l0 junk)

/-- The routine `sydPlot_YPlot(pMstr)`. -/
def sydPlot_YPlot (lib : PprLib) (pMstr : SYD_PL_MSTR) (nOpen fuel : Nat) (l0 : Locals)
    (junk : Dbl) : Except Fault (SYD_PL_MSTR × List GridCall × List PprCall × Nat) :=
  gridThenSamples pMstr.pSspec (sydPlot_YGrid lib pMstr nOpen)
    (fun m b e incr => sydPlot_YSamples m b e incr fuel l0 junk)

/-- The routine `sydPlot_YYPlot(pMstr)`. -/
def sydPlot_YYPlot (lib : PprLib) (pMstr : SYD_PL_MSTR) (nOpen fuel : Nat) (l0 : Locals)
    (junk : Dbl) : Except Fault (SYD_PL_MSTR × List GridCall × List PprCall × Nat) :=
  gridThenSamples pMstr.pSspec (sydPlot_YYGrid lib pMstr nOpen)
    (fun m b e incr => sydPlot_YSamples m b e incr fuel l0 junk)

/-- The routine `sydPlot_SmithPlot(pMstr)`. -/
def sydPlot_SmithPlot (lib : PprLib) (pMstr : SYD_PL_MSTR) (nOpen fuel : Nat) (l0 : Locals)
    (junk : Dbl) : Except Fault (SYD_PL_MSTR × List GridCall × List PprCall × Nat) :=
  gridThenSamples pMstr.pSspec (sydPlot_SmithGrid lib pMstr nOpen)
    (fun m b e incr => sydPlot_SmithSamples m b e incr fuel l0 junk)

/-- The routine `sydPlot(pWin, pMstr)`: the window's position and size, as
`pprWinInfo` reports them, are stored in the master; then the dispatch on
`pMstr->plotAxis`, ending in `assertAlways(0)`. -/
def sydPlot (lib : PprLib) (pMstr : SYD_PL_MSTR) (pprWinInfo : Int × Int × Int × Int)
    (nOpen fuel : Nat) (l0 : Locals) (junk : Dbl) :
    Except Fault (SYD_PL_MSTR × List GridCall × List PprCall × Nat) :=
  let m : SYD_PL_MSTR :=
    { pMstr with x := pprWinInfo.1, y := pprWinInfo.2.1, width := pprWinInfo.2.2.1,
                 height := pprWinInfo.2.2.2 }
  if m.plotAxis = SYD_PLAX.TY then sydPlot_TYPlot lib m nOpen fuel l0
  else if m.plotAxis = SYD_PLAX.TYY then sydPlot_TYYPlot lib m nOpen fuel l0
  else if m.plotAxis = SYD_PLAX.XY then sydPlot_XYPlot lib m nOpen fuel l0 junk
  else if m.plotAxis = SYD_PLAX.XYY then sydPlot_XYYPlot lib m nOpen fuel l0 junk
  else if m.plotAxis = SYD_PLAX.Y then sydPlot_YPlot lib m nOpen fuel l0 junk
  else if m.plotAxis = SYD_PLAX.YY then sydPlot_YYPlot lib m nOpen fuel l0 junk
  else if m.plotAxis = SYD_PLAX.SMITH_IMP ∨ m.plotAxis = SYD_PLAX.SMITH_ADM ∨
      m.plotAxis = SYD_PLAX.SMITH_IMM then sydPlot_SmithPlot lib m nOpen fuel l0 junk
  else Except.error Fault.assertFail

/-! ## Attributes, titles, rundown, and the window routines -/

/-- Modelled from the spec: the attribute selectors (`SYD_PLATTR_xxx`,
declared in `sydPlotDefs.h`) named in `sydPlot.c`. -/
inductive SYD_PLATTR where
  | XCHAN
  | BG
  | FG
  | FG1
  | FG2
  | LINE
  | MARK
  | POINT
  | SHOW
  | UNDER
  | WRAP
  | XLAB
  | XANN
  | YLAB
  | YANN
  | MONO
  deriving DecidableEq, Repr

/-- The routine `sydPlotAxisSetAttr(pSlave, attr, value, pArg)`, the variant
compiled with `XWINDOWS`; `pArg` is the value the pointer argument points to
(`none` is `NULL`). -/
def sydPlotAxisSetAttr (pSlave : SYD_PL_SLAVE) (attr : SYD_PLATTR) (value : Int)
    (pArg : Option Nat) : Except Fault (SydStatus × SYD_PL_SLAVE) :=
  if attr = SYD_PLATTR.XCHAN then
    Except.ok (SydStatus.S_syd_OK, { pSlave with xChan := value })
  else if attr = SYD_PLATTR.BG then
    match pArg with
    | none => Except.error Fault.nullDeref
    | some v => Except.ok (SydStatus.S_syd_OK, { pSlave with bg := v })
  else if attr = SYD_PLATTR.FG then
    match pArg with
    | none => Except.error Fault.nullDeref
    | some v => Except.ok (SydStatus.S_syd_OK, { pSlave with fg := v })
  else Except.error Fault.assertFail

/-- The routine `sydPlotSetAttr(pMstr, attr, value, pArg)`, the variant
compiled with `XWINDOWS`. -/
def sydPlotSetAttr (pMstr : SYD_PL_MSTR) (attr : SYD_PLATTR) (value : Int)
    (pArg : Option Nat) : Except Fault (SydStatus × SYD_PL_MSTR) :=
  if attr = SYD_PLATTR.FG1 then
    match pArg with
    | none => Except.error Fault.nullDeref
    | some v => Except.ok (SydStatus.S_syd_OK, { pMstr with altPixel1 := v })
  else if attr = SYD_PLATTR.FG2 then
    match pArg with
    | none => Except.error Fault.nullDeref
    | some v => Except.ok (SydStatus.S_syd_OK, { pMstr with altPixel2 := v })
  else if attr = SYD_PLATTR.LINE then
    Except.ok (SydStatus.S_syd_OK, { pMstr with linePlot := value })
  else if attr = SYD_PLATTR.MARK then
    Except.ok (SydStatus.S_syd_OK, { pMstr with markPlot := value })
  else if attr = SYD_PLATTR.POINT then
    Except.ok (SydStatus.S_syd_OK, { pMstr with pointPlot := value })
  else if attr = SYD_PLATTR.SHOW then
    Except.ok (SydStatus.S_syd_OK, { pMstr with showStat := value })
  else if attr = SYD_PLATTR.UNDER then
    Except.ok (SydStatus.S_syd_OK, { pMstr with fillUnder := value })
  else if attr = SYD_PLATTR.WRAP then
    Except.ok (SydStatus.S_syd_OK, { pMstr with wrapX := value })
  else if attr = SYD_PLATTR.XLAB then
    Except.ok (SydStatus.S_syd_OK, { pMstr with useXlabel := value })
  else if attr = SYD_PLATTR.XANN then
    Except.ok (SydStatus.S_syd_OK, { pMstr with useXannot := value })
  else if attr = SYD_PLATTR.YLAB then
    Except.ok (SydStatus.S_syd_OK, { pMstr with useYlabel := value })
  else if attr = SYD_PLATTR.YANN then
    Except.ok (SydStatus.S_syd_OK, { pMstr with useYannot := value })
  else if attr = SYD_PLATTR.MONO then
    Except.ok (SydStatus.S_syd_OK, { pMstr with noColor := value })
  else Except.error Fault.assertFail

/-- Modelled from the spec: the sizes of the four title arrays of the plot
master (`sizeof(pMstr->title)` and so on; the arrays are declared in
`sydPlotDefs.h`). -/
structure TitleSizes where
  title : Nat
  lTitle : Nat
  bTitle : Nat
  rTitle : Nat

/-- One `if (t != NULL) { assert(strlen(t) < sizeof(..)); strcpy(.., t); }` of
`sydPlotSetTitles`: the new content of the title. -/
def setTitle (old : String) (t : Option String) (size : Nat) : Except Fault String :=
  match t with
  | none => Except.ok old
  | some s => if s.length < size then Except.ok s else Except.error Fault.assertFail

/-- The routine `sydPlotSetTitles(pMstr, top, left, bottom, right)` (`none` is
`NULL`). -/
def sydPlotSetTitles (sz : TitleSizes) (pMstr : SYD_PL_MSTR)
    (top left bottom right : Option String) : Except Fault (SydStatus × SYD_PL_MSTR) :=
  match setTitle pMstr.title top sz.title with
  | Except.error e => Except.error e
  | Except.ok t =>
    match setTitle pMstr.lTitle left sz.lTitle with
    | Except.error e => Except.error e
    | Except.ok l =>
      match setTitle pMstr.bTitle bottom sz.bTitle with
      | Except.error e => Except.error e
      | Except.ok b =>
        match setTitle pMstr.rTitle right sz.rTitle with
        | Except.error e => Except.error e
        | Except.ok r =>
          Except.ok (SydStatus.S_syd_OK,
            { pMstr with title := t, lTitle := l, bTitle := b, rTitle := r })

/-- A call made by `sydPlotDone`: into the plotting library, or the release
of a slave record. -/
inductive DoneCall where
  | pprAreaClose (pArea : Option Nat)
  | GenFree (pSlave : SYD_PL_SLAVE)
  | pprWinInfo (pWin : Option Nat)
  | pprWinClose (pWin : Option Nat)

/-- The loop of `sydPlotDone` over the slaves: for each slave, in list order,
`nSlaves` is decremented, the slave is taken off the list, its plot area is
closed when it has one, and the record is released. -/
def Done_loop : List SYD_PL_SLAVE → Int → Int × List DoneCall
  | [], nSlaves => (nSlaves, [])
  | s :: rest, nSlaves =>
    let r := Done_loop rest (nSlaves - 1)
    (r.1,
      (if s.pArea.isSome then [DoneCall.pprAreaClose s.pArea] else []) ++
        [DoneCall.GenFree s] ++ r.2)

/-- The routine `sydPlotDone(pMstr, quitFlag)`: the status, the master and the
calls made; `pprWinInfo` is the position and size the window reports. -/
def sydPlotDone (pMstr : SYD_PL_MSTR) (quitFlag : Int) (pprWinInfo : Int × Int × Int × Int) :
    SydStatus × SYD_PL_MSTR × List DoneCall :=
  if quitFlag ≠ 0 then
    let r := Done_loop pMstr.slaves pMstr.nSlaves
    (SydStatus.S_syd_OK,
      { pMstr with slaves := [], nSlaves := r.1, x := pprWinInfo.1, y := pprWinInfo.2.1,
                   width := pprWinInfo.2.2.1, height := pprWinInfo.2.2.2 },
      r.2 ++ [DoneCall.pprWinInfo pMstr.pWin, DoneCall.pprWinClose pMstr.pWin])
  else (SydStatus.S_syd_OK, pMstr, [])

/-- Modelled from the spec: what `sydPlotWinLoop` and `sydPlotWinReplot` see
of the plotting library and of the time-stamp library: the ends and the
number of intervals `pprAutoEnds` and `pprAutoInterval` choose, the text of
the reference time stamp, the status of `pprWinMap`, whether the window is
monochrome, the window position and size reported at each call of the draw
function made by `pprWinLoop`, the status `pprWinLoop` returns, and the
position and size reported after it. -/
structure WinLib where
  pprAutoEnds : Dbl → Dbl → Dbl × Dbl
  pprAutoInterval : Dbl → Dbl → Int
  refText : String
  pprWinMap : Int
  pprWinIsMono : Bool
  draws : List (Int × Int × Int × Int)
  pprWinLoop : Int
  pprWinInfo : Int × Int × Int × Int

/-- The first part of `sydPlotWinLoop` and of `sydPlotWinReplot` (the same
statements in both): the X domain, label and reference text of the master. -/
def Win_domain (wl : WinLib) (pMstr : SYD_PL_MSTR) : SYD_PL_MSTR :=
  let npts := pMstr.pSspec.sampleCount
  if npts > 1 ∧ pMstr.originVal ≠ pMstr.extentVal then
    let ends := wl.pprAutoEnds (pMstr.pSspec.pDeltaSec 0) (pMstr.pSspec.pDeltaSec (npts - 1))
    { pMstr with originVal := ends.1, extentVal := ends.2,
                 nInt := wl.pprAutoInterval ends.1 ends.2,
                 label := "sec past " ++ wl.refText, refText := wl.refText }
  else
    { pMstr with originVal := 0, extentVal := 100, label := "elapsed seconds", refText := "",
                 nInt := 5 }

/-- Modelled from the spec: the calls of the draw function `sydPlot` made by
the plotting library (`pprWinLoop`, `pprWinReplot`), one for each window
position and size in `draws`, each on the master the previous one left. -/
def drawCalls (lib : PprLib) (fuel : Nat) (l0 : Locals) (junk : Dbl) :
    List (Int × Int × Int × Int) → SYD_PL_MSTR → Nat →
      Except Fault (SYD_PL_MSTR × List GridCall × List PprCall × Nat)
  | [], m, n => Except.ok (m, [], [], n)
  | info :: rest, m, n =>
    match sydPlot lib m info n fuel l0 junk with
    | Except.error e => Except.error e
    | Except.ok (m1, g1, p1, n1) =>
      match drawCalls lib fuel l0 junk rest m1 n1 with
      | Except.error e => Except.error e
      | Except.ok (m2, g2, p2, n2) => Except.ok (m2, g1 ++ g2, p1 ++ p2, n2)

/-- The routine `sydPlotWinLoop(pMstr)`. -/
def sydPlotWinLoop (lib : PprLib) (wl : WinLib) (pMstr : SYD_PL_MSTR) (nOpen fuel : Nat)
    (l0 : Locals) (junk : Dbl) :
    Except Fault (SydStatus × SYD_PL_MSTR × List GridCall × List PprCall × Nat) :=
  let m1 := Win_domain wl pMstr
  if wl.pprWinMap ≠ 0 then Except.ok (SydStatus.S_syd_ERROR, m1, [], [], nOpen)
  else
    let m2 : SYD_PL_MSTR := { m1 with noColor := if wl.pprWinIsMono then 1 else 0 }
    match drawCalls lib fuel l0 junk wl.draws m2 nOpen with
    | Except.error e => Except.error e
    | Except.ok (m3, g, p, n) =>
      if wl.pprWinLoop ≠ 0 then Except.ok (SydStatus.S_syd_ERROR, m3, g, p, n)
      else
        Except.ok (SydStatus.S_syd_OK,
          { m3 with x := wl.pprWinInfo.1, y := wl.pprWinInfo.2.1,
                    width := wl.pprWinInfo.2.2.1, height := wl.pprWinInfo.2.2.2 }, g, p, n)

/-- The routine `sydPlotWinReplot(pMstr)`: the window is erased and the
library makes its calls of the draw function. -/
def sydPlotWinReplot (lib : PprLib) (wl : WinLib) (pMstr : SYD_PL_MSTR) (nOpen fuel : Nat)
    (l0 : Locals) (junk : Dbl) :
    Except Fault (SydStatus × SYD_PL_MSTR × List GridCall × List PprCall × Nat) :=
  match drawCalls lib fuel l0 junk wl.draws (Win_domain wl pMstr) nOpen with
  | Except.error e => Except.error e
  | Except.ok (m3, g, p, n) => Except.ok (SydStatus.S_syd_OK, m3, g, p, n)

/-- The X world range and the number of X intervals of a `pprAreaOpen` call;
`none` for any other call. -/
def GridCall.xRange : GridCall → Option (Dbl × Dbl × Int)
  | GridCall.pprAreaOpen _ _ _ _ xLeft _ xRight _ xNint _ _ _ => some (xLeft, xRight, xNint)
  | _ => none

/-- The plot area a call of the grid phase opens (`pprAreaOpen` that returned a
handle); `none` for any other call. -/
def GridCall.opened : GridCall → Option Nat
  | GridCall.pprAreaOpen _ _ _ _ _ _ _ _ _ _ _ pArea => pArea
  | _ => none

/-- The plot area a call of the grid phase closes (`pprAreaClose` of a handle);
`none` for any other call. -/
def GridCall.closed : GridCall → Option Nat
  | GridCall.pprAreaClose pArea => pArea
  | _ => none

/-- The plot areas open after a sequence of calls of the grid phase, from the
areas `acc` open before it: an area is added when it is opened and taken out
when it is closed. -/
def openAreas : List Nat → List GridCall → List Nat
  | acc, [] => acc
  | acc, op :: rest =>
    match op.opened, op.closed with
    | some a, _ => openAreas (acc ++ [a]) rest
    | none, some a => openAreas (acc.erase a) rest
    | none, none => openAreas acc rest

/-- Two contents of the locals that the sample loop cannot tell apart: either
both have the first flag set, or both have it clear, agree on skip-pending,
and agree on the last drawn point unless skip-pending is set or the last
drawn point is never read (`arr`: the channel has array samples). -/
def Locals.agree (arr : Prop) (l l' : Locals) : Prop :=
  (l.first ≠ 0 ∧ l'.first ≠ 0) ∨
  (l.first = 0 ∧ l'.first = 0 ∧ l.skip = l'.skip ∧
    (l.skip ≠ 0 ∨ arr ∨ (l.oldX = l'.oldX ∧ l.oldY = l'.oldY)))

/-- Two outcomes of a piece of a sample routine agree: both end in the same
fault, or both return, with the same plotting calls and with results related
by `R`. -/
def OutcomeRel {α : Type} (R : α → α → Prop) :
    Except Fault (α × List PprCall) → Except Fault (α × List PprCall) → Prop
  | Except.error f, Except.error g => f = g
  | Except.ok (a, ops), Except.ok (a', ops') => ops = ops' ∧ R a a'
  | _, _ => False

/-- Two outcomes agree: both end in the same fault, or both return, with
results related by `R`. -/
def ExceptRel {α β : Type} (R : α → β → Prop) : Except Fault α → Except Fault β → Prop
  | Except.error f, Except.error g => f = g
  | Except.ok a, Except.ok b => R a b
  | _, _ => False

/-- Two slaves that agree in everything but the last drawn point. -/
def sameButLastPoint (s s' : SYD_PL_SLAVE) : Prop :=
  { s with oldX := 0, oldY := 0 } = { s' with oldX := 0, oldY := 0 }

/-- Two masters that agree in everything but the last drawn point of their
slaves. -/
def mstrSameButLastPoint (m m' : SYD_PL_MSTR) : Prop :=
  { m with slaves := [] } = { m' with slaves := [] } ∧
    List.Forall₂ sameButLastPoint m.slaves m'.slaves

/-! ## Reference definitions for the wrap loop -/

/-- The value of `x` after `k` passes of the body `x -= extentVal` of the wrap
loop started at `x0`. -/
def wrapIter (extentVal x0 : Dbl) : Nat → Dbl
  | 0 => x0
  | k + 1 => roundDbl (wrapIter extentVal x0 k - extentVal)

/-! ## Reference definitions for the index walk -/

/-- The per-sample body run over an explicit list of indices, one after the
other, the first flag being cleared after each of them and the calls
appended in order: the sequential reading of the sample loop. -/
def runSamples (body : Int → Locals → Except Fault (Locals × List PprCall)) :
    List Int → Locals → Except Fault (Locals × List PprCall)
  | [], l => Except.ok (l, [])
  | i :: rest, l =>
    match body i l with
    | Except.error f => Except.error f
    | Except.ok (l1, ops) =>
      match runSamples body rest { l1 with first := 0 } with
      | Except.error f => Except.error f
      | Except.ok (l2, ops2) => Except.ok (l2, ops ++ ops2)

/-- The circular range of `n` indices `b, b+1, ..` in a buffer of capacity
`D`, stepping from `D-1` to `0`. -/
def circRange (D b : Int) (n : Nat) : List Int :=
  (List.range n).map fun (k : Nat) => (b + (k : Int)) % D

/-- The number of indices from `b` to `e` inclusive in a circular buffer of
capacity `D`. -/
def walkLen (D b e : Int) : Nat := ((e - b) % D).toNat + 1

/-- The value the array helpers read for element `n` of a sample array `d` of
a channel whose type is one of the six numeric kinds: the element itself, a
`CHAR` element being read as `unsigned char`. -/
def arrayVal (pSChan : SYD_CHAN) (d : Int → Dbl) (n : Int) : Dbl :=
  if pSChan.dbrType = DbrType.CHAR ∧ d n < 0 then d n + 256 else d n

/-- The polyline over the `k` elements of sample `sub` of a channel with
sample array `d`: the `k - 1` segments from element `j` at `X = j` to element
`j + 1` at `X = j + 1`. -/
def polyline (pArea : Option Nat) (pSChan : SYD_CHAN) (d : Int → Dbl) (sub k : Int) :
    List PprCall :=
  (List.range (k - 1).toNat).map fun (j : Nat) =>
    PprCall.pprLineSegD pArea ((j : Int) : Dbl) (arrayVal pSChan d (sub * k + (j : Int)))
      (((j : Int) + 1 : Int) : Dbl) (arrayVal pSChan d (sub * k + ((j : Int) + 1)))

/-- The polyline over the first `n` elements of sample `sub` of a channel
(sample array `d`) against those of the X channel (sample array `dx`): the
`n - 1` segments from the pair of elements `j` to the pair of elements
`j + 1`. -/
def polylineXY (pArea : Option Nat) (pSChanX pSChan : SYD_CHAN) (dx d : Int → Dbl)
    (sub n : Int) : List PprCall :=
  (List.range (n - 1).toNat).map fun (j : Nat) =>
    PprCall.pprLineSegD pArea
      (arrayVal pSChanX dx (sub * pSChanX.elCount + (j : Int)))
      (arrayVal pSChan d (sub * pSChan.elCount + (j : Int)))
      (arrayVal pSChanX dx (sub * pSChanX.elCount + ((j : Int) + 1)))
      (arrayVal pSChan d (sub * pSChan.elCount + ((j : Int) + 1)))

/-- The four cases of the per-sample chain of the sample routines. -/
inductive SampleCase where
  | missing
  | anchor
  | filled
  | cont
  deriving DecidableEq, Repr

/-- The case the per-sample chain of `sydPlot_TYSamples` and
`sydPlot_YSamples` takes for a sample with flags `f`, given the first flag and
skip-pending. -/
def sampleCase (f : SydFlags) (first skip : Int) : SampleCase :=
  if f.missing then SampleCase.missing
  else if first ≠ 0 ∨ skip ≠ 0 ∨ f.restart then SampleCase.anchor
  else if f.filled then SampleCase.filled
  else SampleCase.cont

/-- The case each sample of a walk falls in, from the first flag and
skip-pending at its start: a missing sample sets skip-pending, an anchor
clears it, and the first flag is clear after the first sample. -/
def caseWalk (flags : Int → SydFlags) : List Int → Int → Int → List (Int × SampleCase)
  | [], _, _ => []
  | i :: rest, first, skip =>
    (i, sampleCase (flags i) first skip) ::
      caseWalk flags rest 0
        (match sampleCase (flags i) first skip with
         | SampleCase.missing => 1
         | SampleCase.anchor => 0
         | SampleCase.filled => skip
         | SampleCase.cont => skip)

/-- The line of a walk as the text describes it: every continuation sample is
joined by one segment to the point of the most recently drawn sample (`last`
at the start of the walk), an anchor starts afresh from its own point, and
missing and filled samples are passed over. -/
def chainSegs (pArea : Option Nat) (pt : Int → Dbl × Dbl) :
    Dbl × Dbl → List (Int × SampleCase) → List PprCall
  | _, [] => []
  | last, (i, c) :: rest =>
    match c with
    | SampleCase.cont =>
      PprCall.pprLineSegD pArea last.1 last.2 (pt i).1 (pt i).2 :: chainSegs pArea pt (pt i) rest
    | SampleCase.anchor => chainSegs pArea pt (pt i) rest
    | SampleCase.missing => chainSegs pArea pt last rest
    | SampleCase.filled => chainSegs pArea pt last rest

/-- The end-to-end scenario on one master: `sydPlotInit` (full or partial
initialisation) on a window that opens, `sydPlotChanAdd` of the channels `c1`
and `c2` (the allocations give the blocks `raw1`, `raw2`), `plotAxis` set to
`SYD_PLAX_TYY`, `sydPlot_TYYGrid`, and `sydPlotSamples(pMstr, 0, 0, 0)`.  The
result is the master, the calls of the grid routine and the calls of the
sample routine. -/
def twoChannelScenario (lib : PprLib) (m0 : SYD_PL_MSTR) (pSspec : SYD_SPEC)
    (winType : PPR_WIN_TY) (fullInit : Int) (w : Nat) (info : Int × Int × Int × Int)
    (c1 c2 : SYD_CHAN)
    (raw1 raw2 : SYD_PL_SLAVE) (junkO junkE : Dbl) (fuel : Nat) (l0 : Locals) (junk : Dbl) :
    Except Fault (SYD_PL_MSTR × List GridCall × List PprCall) :=
  match sydPlotChanAdd (sydPlotInit m0 pSspec winType fullInit (some w) info).2 c1
      (some raw1) junkO junkE with
  | Except.error e => Except.error e
  | Except.ok (_, mA, _) =>
    match sydPlotChanAdd mA c2 (some raw2) junkO junkE with
    | Except.error e => Except.error e
    | Except.ok (_, mB, _) =>
      match sydPlot_TYYGrid lib { mB with plotAxis := SYD_PLAX.TYY } 0 with
      | Except.error e => Except.error e
      | Except.ok (mG, gops, _) =>
        match sydPlotSamples mG 0 0 0 fuel l0 junk with
        | Except.error e => Except.error e
        | Except.ok (mS, ops) => Except.ok (mS, gops, ops)

/-- A sequence of `sydPlotChanAdd` calls on one master, one for each channel
of the list with the outcome of its allocation: the master after the last
call, and the slaves returned by the calls that returned one, in call
order. -/
def chanAddAll (junkO junkE : Dbl) :
    SYD_PL_MSTR → List (SYD_CHAN × Option SYD_PL_SLAVE) →
      Except Fault (SYD_PL_MSTR × List SYD_PL_SLAVE)
  | m, [] => Except.ok (m, [])
  | m, (c, raw) :: rest =>
    match sydPlotChanAdd m c raw junkO junkE with
    | Except.error e => Except.error e
    | Except.ok (ret, m1, _) =>
      match chanAddAll junkO junkE m1 rest with
      | Except.error e => Except.error e
      | Except.ok (m2, added) => Except.ok (m2, ret.toList ++ added)

/-- The calls of a `sydPlotChanAdd` sequence that return a slave: the channel
is not of string type and the allocation succeeds. -/
def chanAddSucceeds (a : SYD_CHAN × Option SYD_PL_SLAVE) : Bool :=
  decide (a.1.dbrType ≠ DbrType.STRING) && a.2.isSome

/-- The position of the X slave as the text describes it: the first slave,
in list order, whose `xChan` is set, and the first slave of the list when
there is none. -/
def xIndex (slaves : List SYD_PL_SLAVE) : Nat :=
  (slaves.findIdx? (fun s => decide (s.xChan ≠ 0))).getD 0

/-- The number of slaves a grid loop works on, from list position `k`: all
but the one at position `skip`. -/
def gridCount (skip : Option Nat) : List SYD_PL_SLAVE → Nat → Nat
  | [], _ => 0
  | _ :: rest, k => (if skip = some k then 0 else 1) + gridCount skip rest (k + 1)

/-- The top of the vertical extent left by the titles: the `double` `.98`,
lowered under a top title to `1 - .012` less `2 * .012`, in `double`
arithmetic. -/
def extentTop (pMstr : SYD_PL_MSTR) : Dbl :=
  if pMstr.title.length > 0 then
    roundDbl (roundDbl (1 - roundDbl (12 / 1000)) - roundDbl (2 * roundDbl (12 / 1000)))
  else roundDbl (98 / 100)

/-- The bottom of the vertical extent left by the titles: `0`, raised over a
bottom title to `2 * .012` plus `2 * .012`, in `double` arithmetic. -/
def extentBot (pMstr : SYD_PL_MSTR) : Dbl :=
  if pMstr.bTitle.length > 0 then
    roundDbl (roundDbl (2 * roundDbl (12 / 1000)) + roundDbl (2 * roundDbl (12 / 1000)))
  else 0

/-- The lower line of the band of the slave at position `k` in the stack of
bands: `ylo` moved up `k` times by `yPart`, each addition rounded to
`double`. -/
def bandLine (yPart : Dbl) : Dbl → Nat → Dbl
  | y, 0 => y
  | y, k + 1 => bandLine yPart (roundDbl (y + yPart)) k

/-- The seven grid routines, by name. -/
inductive GridKind where
  | TY
  | TYY
  | XY
  | XYY
  | Y
  | YY
  | Smith
  deriving DecidableEq, Repr

/-- The grid routine of a name. -/
def gridRoutine (kind : GridKind) (lib : PprLib) (pMstr : SYD_PL_MSTR) (nOpen : Nat) :
    Except Fault (SYD_PL_MSTR × List GridCall × Nat) :=
  match kind with
  | GridKind.TY => sydPlot_TYGrid lib pMstr nOpen
  | GridKind.TYY => sydPlot_TYYGrid lib pMstr nOpen
  | GridKind.XY => sydPlot_XYGrid lib pMstr nOpen
  | GridKind.XYY => sydPlot_XYYGrid lib pMstr nOpen
  | GridKind.Y => sydPlot_YGrid lib pMstr nOpen
  | GridKind.YY => sydPlot_YYGrid lib pMstr nOpen
  | GridKind.Smith => sydPlot_SmithGrid lib pMstr nOpen

/-- The sample routine that goes with the grid routine of a name. -/
def sampleRoutine (kind : GridKind) (pMstr : SYD_PL_MSTR) (begin_ end_ incr : Int)
    (fuel : Nat) (l0 : Locals) (junk : Dbl) : Except Fault (SYD_PL_MSTR × List PprCall) :=
  match kind with
  | GridKind.TY => sydPlot_TYSamples pMstr begin_ end_ incr fuel l0
  | GridKind.TYY => sydPlot_TYSamples pMstr begin_ end_ incr fuel l0
  | GridKind.XY => sydPlot_XYSamples pMstr begin_ end_ incr fuel l0 junk
  | GridKind.XYY => sydPlot_XYSamples pMstr begin_ end_ incr fuel l0 junk
  | GridKind.Y => sydPlot_YSamples pMstr begin_ end_ incr fuel l0 junk
  | GridKind.YY => sydPlot_YSamples pMstr begin_ end_ incr fuel l0 junk
  | GridKind.Smith => sydPlot_SmithSamples pMstr begin_ end_ incr fuel l0 junk

/-- A call a program makes on a plot master after `sydPlotInit`, with the
arguments and the outcomes of the environment the call depends on.  A slave is
named by its position in the list of the master; `setPlotAxis` is the
assignment to the `.plotAxis` member the program makes itself. -/
inductive PlotOp where
  | chanAdd (pSChan : SYD_CHAN) (GenMalloc : Option SYD_PL_SLAVE) (junkO junkE : Dbl)
  | axisSetup (k : Nat) (junkO junkE : Dbl)
  | axisAutoRange (k : Nat)
  | axisSetAttr (k : Nat) (attr : SYD_PLATTR) (value : Int) (pArg : Option Nat)
  | setAttr (attr : SYD_PLATTR) (value : Int) (pArg : Option Nat)
  | setTitles (sz : TitleSizes) (top left bottom right : Option String)
  | setPlotAxis (plotAxis : SYD_PLAX)
  | grid (kind : GridKind)
  | sampleRoutine (kind : GridKind) (begin_ end_ incr : Int) (l0 : Locals) (junk : Dbl)
  | samples (begin_ end_ incrFlag : Int) (l0 : Locals) (junk : Dbl)
  | plot (pprWinInfo : Int × Int × Int × Int) (l0 : Locals) (junk : Dbl)
  | eraseSamples
  | done (quitFlag : Int) (pprWinInfo : Int × Int × Int × Int)

/-- A routine that takes a slave, run on the slave at position `k` of the
master; a position past the end of the list names no slave of this master and
leaves it as it is. -/
def onSlave (pMstr : SYD_PL_MSTR) (k : Nat) (f : SYD_PL_SLAVE → Except Fault SYD_PL_SLAVE) :
    Except Fault SYD_PL_MSTR :=
  match pMstr.slaves[k]? with
  | none => Except.ok pMstr
  | some s =>
    match f s with
    | Except.error e => Except.error e
    | Except.ok s1 => Except.ok { pMstr with slaves := pMstr.slaves.set k s1 }

/-- One call on a master: the master after it, with the number of
`pprAreaOpen` calls made so far. -/
def runOp (lib : PprLib) (fuel : Nat) (op : PlotOp) (st : SYD_PL_MSTR × Nat) :
    Except Fault (SYD_PL_MSTR × Nat) :=
  match op with
  | PlotOp.chanAdd c raw junkO junkE =>
    (sydPlotChanAdd st.1 c raw junkO junkE).map fun r => (r.2.1, st.2)
  | PlotOp.axisSetup k junkO junkE =>
    (onSlave st.1 k fun s => Except.ok (sydPlotAxisSetup s junkO junkE)).map fun m => (m, st.2)
  | PlotOp.axisAutoRange k =>
    (onSlave st.1 k fun s => Except.ok (sydPlotAxisAutoRange s)).map fun m => (m, st.2)
  | PlotOp.axisSetAttr k attr value pArg =>
    (onSlave st.1 k fun s => (sydPlotAxisSetAttr s attr value pArg).map Prod.snd).map
      fun m => (m, st.2)
  | PlotOp.setAttr attr value pArg =>
    (sydPlotSetAttr st.1 attr value pArg).map fun r => (r.2, st.2)
  | PlotOp.setTitles sz top left bottom right =>
    (sydPlotSetTitles sz st.1 top left bottom right).map fun r => (r.2, st.2)
  | PlotOp.setPlotAxis a => Except.ok ({ st.1 with plotAxis := a }, st.2)
  | PlotOp.grid kind => (gridRoutine kind lib st.1 st.2).map fun r => (r.1, r.2.2)
  | PlotOp.sampleRoutine kind b e incr l0 junk =>
    (sampleRoutine kind st.1 b e incr fuel l0 junk).map fun r => (r.1, st.2)
  | PlotOp.samples b e incr l0 junk =>
    (sydPlotSamples st.1 b e incr fuel l0 junk).map fun r => (r.1, st.2)
  | PlotOp.plot info l0 junk =>
    (sydPlot lib st.1 info st.2 fuel l0 junk).map fun r => (r.1, r.2.2.2)
  | PlotOp.eraseSamples => Except.ok ((sydPlotEraseSamples st.1).2, st.2)
  | PlotOp.done quitFlag info => Except.ok ((sydPlotDone st.1 quitFlag info).2.1, st.2)

/-- A sequence of calls on a master, one after the other; it ends at the
first call that does not return. -/
def runOps (lib : PprLib) (fuel : Nat) :
    List PlotOp → SYD_PL_MSTR × Nat → Except Fault (SYD_PL_MSTR × Nat)
  | [], st => Except.ok st
  | op :: rest, st =>
    match runOp lib fuel op st with
    | Except.error e => Except.error e
    | Except.ok st1 => runOps lib fuel rest st1

/-! ## Concrete inputs used by the worked examples -/

/-- A sample array holding `10 * i` in element `i`. -/
def exData : Int → Dbl := fun i => 10 * (i : Dbl)

/-- A connected scalar `DOUBLE` channel with ten samples `10 * i`, no flag
set and blank status codes. -/
def exChan : SYD_CHAN :=
  { dbrType := DbrType.DOUBLE, elCount := 1, dataChan := 1,
    pData := some exData,
    pFlags := fun _ => { missing := false, restart := false, filled := false },
    pDataCodeR := fun _ => ' ',
    minDataVal := 0, maxDataVal := 90, lower_disp_limit := 0, upper_disp_limit := 100,
    no_str := 0, strs := fun _ => "", label := "chan" }

/-- A sample set with a buffer of ten samples, one second apart. -/
def exSpec : SYD_SPEC :=
  { pDeltaSec := fun i => (i : Dbl), dataDim := 10, sampleCount := 10,
    firstData := 0, lastData := 9, reqCount := 10 }

/-- The slave of `exChan` as `sydPlotChanAdd` leaves it (first flag set), with
an open plot area. -/
def exSlave : SYD_PL_SLAVE :=
  { pSChan := exChan, markNum := 0, lineKey := 1, timeLabel := "", xChan := 0,
    pArea := some 1, fg := 0, bg := 0, first := 1, skip := 0, oldX := 0, oldY := 0,
    originVal := 0, extentVal := 100, nInt := 5, ppAnnot := none,
    xFracLeft := 0, yFracBot := 0, xFracRight := 0, yFracTop := 0 }

/-- A time-vs-value master with the default toggles (lines only) and the one
slave `exSlave`. -/
def exMstr : SYD_PL_MSTR :=
  { pSspec := exSpec, pWin := some 0, winType := PPR_WIN_TY.SCREEN, plotAxis := SYD_PLAX.TY,
    altPixel1 := 0, altPixel2 := 0,
    linePlot := 1, pointPlot := 0, markPlot := 0, showStat := 0, fillUnder := 0,
    wrapX := 0, noColor := 0, useXlabel := 0, useXannot := 0, useYlabel := 0,
    useYannot := 0, label := "", title := "", lTitle := "", bTitle := "", rTitle := "",
    refText := "", slaves := [exSlave], nSlaves := 1, originVal := 0, extentVal := 9,
    nInt := 5, x := 0, y := 0, width := 0, height := 0 }

/-- The master `exMstr` with wrap mode on and an X extent of four seconds. -/
def exMstrWrap : SYD_PL_MSTR := { exMstr with wrapX := 1, extentVal := 4 }

/-- The master `exMstr` with wrap mode on, an X extent of one second and every
sample `2^54` seconds after the first. -/
def exMstrStuck : SYD_PL_MSTR :=
  { exMstr with wrapX := 1, extentVal := 1,
                pSspec := { exSpec with pDeltaSec := fun _ => 2 ^ 54 } }

/-- The master `exMstr` with wrap mode on and as X extent the `double` nearest
to `0.9`. -/
def exMstrDrift : SYD_PL_MSTR :=
  { exMstr with wrapX := 1, extentVal := 8106479329266893 / 9007199254740992 }

/-- The master `exMstr` with eight slaves `exSlave`. -/
def exMstrEight : SYD_PL_MSTR :=
  { exMstr with slaves := List.replicate 8 exSlave, nSlaves := 8 }

/-- The slave `exSlave` with equal display limits and observed data values
`lo` and `hi`. -/
def exSlaveNoLimits (lo hi : Dbl) : SYD_PL_SLAVE :=
  { exSlave with pSChan := { exChan with lower_disp_limit := 0, upper_disp_limit := 0,
                                         minDataVal := lo, maxDataVal := hi } }

/-- An enumerated channel with `n` states, labelled `"OFF"`, `"ON"`, `""`, .. -/
def exEnumChan (n : Int) : SYD_CHAN :=
  { exChan with dbrType := DbrType.ENUM, no_str := n,
                strs := fun i => if i = 0 then "OFF" else if i = 1 then "ON" else "" }

/-- The slave `exSlave` on the enumerated channel `exEnumChan n`. -/
def exEnumSlave (n : Int) : SYD_PL_SLAVE := { exSlave with pSChan := exEnumChan n }

/-- A channel of the string type. -/
def exStringChan : SYD_CHAN := { exChan with dbrType := DbrType.STRING }

/-- The channel `exChan` with samples 3 and 4 flagged missing. -/
def exGapChan : SYD_CHAN :=
  { exChan with pFlags := fun i =>
      { missing := decide (i = 3 ∨ i = 4), restart := false, filled := false } }

/-- The slave `exSlave` on the channel `exGapChan`. -/
def exGapSlave : SYD_PL_SLAVE := { exSlave with pSChan := exGapChan }

/-- Flags marking the samples from index 5 on as filled, none missing or
restarted. -/
def exFilledFlags : Int → SydFlags :=
  fun i => { missing := false, restart := false, filled := decide (5 ≤ i) }

/-- The slave `exSlave` on a channel with four elements per sample. -/
def exArraySlave : SYD_PL_SLAVE := { exSlave with pSChan := { exChan with elCount := 4 } }

/-- The master `exMstr` with the one slave `exArraySlave` and the index-vs-value
geometry. -/
def exArrayMstr : SYD_PL_MSTR :=
  { exMstr with slaves := [exArraySlave], plotAxis := SYD_PLAX.Y }

/-- The slave `exSlave` designated as the X channel. -/
def exXSlave : SYD_PL_SLAVE := { exSlave with xChan := 1 }

/-- A value-vs-value master with status codes shown: the Y slave `exGapSlave`
first, then the X slave `exXSlave`. -/
def exXYMstr : SYD_PL_MSTR :=
  { exMstr with plotAxis := SYD_PLAX.XY, showStat := 1, slaves := [exGapSlave, exXSlave],
                nSlaves := 2 }

/-- A plotting library in which the `n`-th plot area opened gets the handle
`n`, a height fraction is the same width fraction, and the default character
height is a fortieth of the band. -/
def exLib : PprLib :=
  { pprAreaOpen := fun n => some n, pprYFracToXFrac := fun h => h,
    PprDfltCharHt := fun lo hi => (hi - lo) / 40, nowText := "01-Nov-2026" }

/-- A connected scalar `DOUBLE` channel with display limits `[-5, 5]` and
samples `i - 3`. -/
def exChan2 : SYD_CHAN :=
  { exChan with pData := some (fun i => (i : Dbl) - 3), lower_disp_limit := -5,
                upper_disp_limit := 5, minDataVal := -3, maxDataVal := 6, label := "chan2" }

/-- A slave whose channel has never connected. -/
def exDeadSlave : SYD_PL_SLAVE := { exSlave with pSChan := { exChan with pData := none } }

/-- The library `exLib` out of plot areas after the first: the area for the
titles opens, no other does. -/
def exLibFull : PprLib :=
  { exLib with pprAreaOpen := fun n => if n = 0 then some 0 else none }

/-- A time-vs-value master with two slaves as `sydPlotChanAdd` leaves them,
without a plot area: the channels `exChan` and `exChan2`. -/
def exFreshMstr : SYD_PL_MSTR :=
  { exMstr with
      slaves := [{ exSlave with pArea := none },
        { exSlave with pSChan := exChan2, markNum := 1, lineKey := 2, pArea := none,
                       originVal := -5, extentVal := 5 }],
      nSlaves := 2 }

/-- A window library whose automatic ends are the data ends, with five
intervals, and which has the draw function called once. -/
def exWinLib : WinLib :=
  { pprAutoEnds := fun a b => (a, b), pprAutoInterval := fun _ _ => 5, refText := "11/01/26",
    pprWinMap := 0, pprWinIsMono := false, draws := [(0, 0, 640, 480)], pprWinLoop := 0,
    pprWinInfo := (0, 0, 640, 480) }

/-- Some indeterminate content for the locals. -/
def exLocals : Locals := { first := 7, skip := 3, oldX := 55, oldY := 66 }

/-- A connected scalar `CHAR` channel whose sample 0 is the byte `0x80`, read
as `-128` through `char`; the other samples hold their index. -/
def exCharChan : SYD_CHAN :=
  { exChan with dbrType := DbrType.CHAR,
                pData := some (fun i => if i = 0 then -128 else (i : Dbl)) }

/-- The master `exMstr` with two slaves: `exSlave`, then the slave
`exDeadSlave` whose channel has never connected. -/
def exDeadMstr : SYD_PL_MSTR := { exMstr with slaves := [exSlave, exDeadSlave], nSlaves := 2 }

/-- A sequence of calls: two channels are added, a string channel and a
channel whose allocation fails are rejected, marks are turned on, the first
slave is ranged on its data, the time-vs-value grid is drawn, the samples are
erased, and the plot is wrapped up. -/
def exOps : List PlotOp :=
  [PlotOp.chanAdd exChan (some exSlave) 0 0, PlotOp.chanAdd exStringChan (some exSlave) 0 0,
    PlotOp.chanAdd exChan2 (some exSlave) 0 0, PlotOp.chanAdd exChan none 0 0,
    PlotOp.setAttr SYD_PLATTR.MARK 1 none, PlotOp.axisAutoRange 0,
    PlotOp.setPlotAxis SYD_PLAX.TY, PlotOp.grid GridKind.TY, PlotOp.eraseSamples,
    PlotOp.done 1 (0, 0, 640, 480)]

/-! ## The index walk -/

theorem circRange_succ (D b : Int) (n : Nat) (hb : 0 ≤ b) (hbD : b < D) :
    circRange D b (n + 1) = b :: circRange D (if b + 1 ≥ D then 0 else b + 1) n := by
  unfold circRange
  rw [List.range_succ_eq_map, List.map_cons, List.map_map]
  congr 1
  · simpa using Int.emod_eq_of_lt hb hbD
  · apply List.map_congr_left
    intro k _
    simp only [Function.comp, Nat.cast_succ]
    by_cases h : b + 1 ≥ D
    · have h2 : b + ((k : Int) + 1) = (k : Int) + D := by omega
      rw [if_pos h, h2, Int.add_emod_self, Int.zero_add]
    · rw [if_neg h]; congr 1; ring

theorem emod_dist (D b e : Int) (hb : 0 ≤ b) (hbD : b < D) (he : 0 ≤ e) (heD : e < D) :
    (e - b) % D = if b ≤ e then e - b else e - b + D := by
  split
  · exact Int.emod_eq_of_lt (by omega) (by omega)
  · rw [← Int.add_emod_self]
    exact Int.emod_eq_of_lt (by omega) (by omega)

theorem sampleLoop_neg (body : Int → Locals → Except Fault (Locals × List PprCall))
    (D e : Int) (fuel : Nat) (i : Int) (l : Locals) (hi : i < 0) :
    sampleLoop body D e fuel i l = Except.ok (l, []) := by
  cases fuel <;> simp [sampleLoop, not_le.mpr hi]

theorem sampleLoop_eq_runSamples_aux
    (body : Int → Locals → Except Fault (Locals × List PprCall))
    (D e : Int) (he : 0 ≤ e) (heD : e < D) :
    ∀ (n : Nat) (b : Int), 0 ≤ b → b < D → (e - b) % D = (n : Int) →
      ∀ (fuel : Nat), n + 1 ≤ fuel → ∀ l : Locals,
        sampleLoop body D e fuel b l = runSamples body (circRange D b (n + 1)) l := by
  intro n
  induction n with
  | zero =>
    intro b hb hbD hn fuel hf l
    have hbe : b = e := by
      rw [emod_dist D b e hb hbD he heD] at hn
      split at hn <;> simp at hn <;> omega
    obtain ⟨f, rfl⟩ : ∃ f, fuel = f + 1 := ⟨fuel - 1, by omega⟩
    subst hbe
    have hc : circRange D b (0 + 1) = [b] := by
      rw [circRange_succ D b 0 hb hbD]; simp [circRange]
    rw [hc]
    simp only [sampleLoop, ge_iff_le, hb, if_true, nextIndex, runSamples]
    cases body b l with
    | error f => rfl
    | ok r =>
      obtain ⟨l1, ops⟩ := r
      simp [sampleLoop_neg]
  | succ n ih =>
    intro b hb hbD hn fuel hf l
    have hne : b ≠ e := by
      intro h; subst h; simp at hn; omega
    obtain ⟨f, rfl⟩ : ∃ f, fuel = f + 1 := ⟨fuel - 1, by omega⟩
    rw [circRange_succ D b (n + 1) hb hbD]
    have hnext : nextIndex D e b = if b + 1 ≥ D then 0 else b + 1 := by
      simp [nextIndex, hne]
    have hstep := ih (if b + 1 ≥ D then 0 else b + 1) (by split <;> omega) (by split <;> omega)
      (by
        rw [emod_dist D b e hb hbD he heD] at hn
        rw [emod_dist D _ e (by split <;> omega) (by split <;> omega) he heD]
        push_cast at hn
        by_cases h1 : b ≤ e <;> by_cases h2 : b + 1 ≥ D <;>
          simp only [h1, h2, if_true, if_false] at hn ⊢ <;> split <;> omega)
      f (by omega)
    simp only [sampleLoop, ge_iff_le, hb, if_true, runSamples]
    cases body b l with
    | error f => rfl
    | ok r =>
      obtain ⟨l1, ops⟩ := r
      simp only []
      rw [hnext, hstep]

theorem emod_shift (D b : Int) (k : Nat) (hb : 0 ≤ b) (hbD : b < D) (hk : (k : Int) < D) :
    (b + (k : Int)) % D = if b + (k : Int) < D then b + (k : Int) else b + (k : Int) - D := by
  by_cases h : b + (k : Int) < D
  · rw [if_pos h]; exact Int.emod_eq_of_lt (by omega) h
  · rw [if_neg h]
    have h2 : b + (k : Int) = (b + (k : Int) - D) + D := by omega
    rw [h2, Int.add_emod_self, ← h2]
    exact Int.emod_eq_of_lt (by omega) (by omega)

theorem walkLen_le (D b e : Int) (hb : 0 ≤ b) (hbD : b < D) (he : 0 ≤ e) (heD : e < D) :
    ((walkLen D b e : Nat) : Int) ≤ D ∧ (((e - b) % D).toNat : Int) = (e - b) % D := by
  unfold walkLen
  have h := emod_dist D b e hb hbD he heD
  constructor
  · push_cast
    rw [Int.toNat_of_nonneg (by rw [h]; split <;> omega), h]
    split <;> omega
  · exact Int.toNat_of_nonneg (by rw [h]; split <;> omega)

theorem runSamples_record (f : Int → PprCall) :
    ∀ (is : List Int) (l : Locals), is ≠ [] →
      runSamples (fun i l => Except.ok (l, [f i])) is l =
        Except.ok ({ l with first := 0 }, is.map f) := by
  intro is
  induction is with
  | nil => intro l h; exact absurd rfl h
  | cons i rest ih =>
    intro l _
    cases rest with
    | nil => simp [runSamples]
    | cons j rest2 =>
      have h := ih { l with first := 0 } (by simp)
      simp only [runSamples] at h ⊢
      simp only [runSamples, h]
      simp

theorem runSamples_append (body : Int → Locals → Except Fault (Locals × List PprCall)) :
    ∀ (xs ys : List Int) (l : Locals),
      runSamples body (xs ++ ys) l =
        match runSamples body xs l with
        | Except.error f => Except.error f
        | Except.ok (l1, ops1) =>
          match runSamples body ys l1 with
          | Except.error f => Except.error f
          | Except.ok (l2, ops2) => Except.ok (l2, ops1 ++ ops2) := by
  intro xs
  induction xs with
  | nil =>
    intro ys l
    simp only [List.nil_append, runSamples]
    cases runSamples body ys l with
    | error f => rfl
    | ok r => obtain ⟨l2, ops2⟩ := r; simp
  | cons i rest ih =>
    intro ys l
    simp only [List.cons_append, runSamples]
    cases body i l with
    | error f => rfl
    | ok r =>
      obtain ⟨l1, ops⟩ := r
      simp only [List.append_eq]
      rw [ih]
      cases runSamples body rest { l1 with first := 0 } with
      | error f => rfl
      | ok q =>
        obtain ⟨l2, ops2⟩ := q
        simp only []
        cases runSamples body ys l2 with
        | error f => rfl
        | ok q2 => obtain ⟨l3, ops3⟩ := q2; simp

theorem circRange_split (D b m e : Int) (hb : 0 ≤ b) (hbm : b ≤ m) (hme : m < e)
    (heD : e < D) :
    circRange D b (walkLen D b e) =
      circRange D b (walkLen D b m) ++ circRange D (m + 1) (walkLen D (m + 1) e) := by
  have h1 : walkLen D b e = walkLen D b m + walkLen D (m + 1) e := by
    unfold walkLen
    rw [emod_dist D b e hb (by omega) (by omega) heD,
      emod_dist D b m hb (by omega) (by omega) (by omega),
      emod_dist D (m + 1) e (by omega) (by omega) (by omega) heD,
      if_pos (by omega), if_pos hbm, if_pos (by omega)]
    omega
  have h2 : ((walkLen D b m : Nat) : Int) = m - b + 1 := by
    unfold walkLen
    rw [emod_dist D b m hb (by omega) (by omega) (by omega), if_pos hbm]
    omega
  have h3 : ((walkLen D (m + 1) e : Nat) : Int) = e - m := by
    unfold walkLen
    rw [emod_dist D (m + 1) e (by omega) (by omega) (by omega) heD, if_pos (by omega)]
    omega
  rw [h1]
  unfold circRange
  rw [List.range_add, List.map_append, List.map_map]
  congr 1
  apply List.map_congr_left
  intro k hk
  rw [List.mem_range] at hk
  simp only [Function.comp]
  rw [emod_shift D (m + 1) k (by omega) (by omega) (by omega)]
  rw [if_pos (by omega)]
  have h4 : b + ((walkLen D b m + k : Nat) : Int) = m + 1 + (k : Int) := by
    push_cast; omega
  rw [h4]
  exact Int.emod_eq_of_lt (by omega) (by omega)

theorem TYSamples_single (pMstr : SYD_PL_MSTR) (s : SYD_PL_SLAVE) (b e incr : Int)
    (fuel : Nat) (l0 : Locals) (hs : pMstr.slaves = [s])
    (hd : s.pSChan.pData.isNone = false) (hc : s.pSChan.dataChan ≠ 0) :
    sydPlot_TYSamples pMstr b e incr fuel l0 =
      match sampleLoop (TY_sample pMstr s fuel) pMstr.pSspec.dataDim e fuel b
          (loadLocals s incr l0) with
      | Except.error f => Except.error f
      | Except.ok (l1, ops) => Except.ok ({ pMstr with slaves := [saveLocals s l1] }, ops) := by
  simp only [sydPlot_TYSamples, hs, slaveLoop, TY_slave, hd, hc, Bool.false_eq_true, or_self,
    if_false]
  cases sampleLoop (TY_sample pMstr s fuel) pMstr.pSspec.dataDim e fuel b
      (loadLocals s incr l0) with
  | error f => rfl
  | ok r => obtain ⟨l1, ops⟩ := r; simp

theorem TY_sample_anchor_indep (pMstr : SYD_PL_MSTR) (s : SYD_PL_SLAVE) (fuel : Nat)
    (i : Int) (l l' : Locals) (hm : (s.pSChan.pFlags i).missing = false)
    (h1 : l.first ≠ 0) (h2 : l'.first ≠ 0) (rest : List Int) :
    runSamples (TY_sample pMstr s fuel) (i :: rest) l =
      runSamples (TY_sample pMstr s fuel) (i :: rest) l' := by
  simp only [runSamples, TY_sample, TY_anchor, hm, Bool.false_eq_true, if_false, h1, h2, ne_eq,
    not_false_eq_true, true_or, if_true]
  cases TY_fetchX pMstr fuel i with
  | error f => rfl
  | ok x =>
    simp only []
    cases FetchIthValInto s.pSChan i with
    | error f => rfl
    | ok y => rfl

/-! ## The wrap loop -/

theorem wrapLoop_le (E : Dbl) (fuel : Nat) (x : Dbl) (h : x ≤ E) :
    wrapLoop E fuel x = Except.ok x := by
  cases fuel <;> simp [wrapLoop, not_lt.mpr h]

theorem log2_eq (x : ℚ) (e : ℤ) (hlo : (2 : ℚ) ^ e ≤ |x|) (hhi : |x| < (2 : ℚ) ^ (e + 1)) :
    Int.log 2 |x| = e := by
  have hpos : 0 < |x| := lt_of_lt_of_le (by positivity) hlo
  have h1 : e ≤ Int.log 2 |x| := by
    rw [← Int.zpow_le_iff_le_log (by norm_num) hpos]
    simpa using hlo
  have h2 : Int.log 2 |x| < e + 1 := by
    rw [← Int.lt_zpow_iff_log_lt (by norm_num) hpos]
    simpa using hhi
  omega

theorem roundDbl_eq (x : ℚ) (e f : ℤ) (hlo' : (2 : ℚ) ^ e ≤ x)
    (hhi' : x < (2 : ℚ) ^ (e + 1))
    (h1 : (f : ℚ) - 1 / 2 < x / (2 : ℚ) ^ (e - 52))
    (h2 : x / (2 : ℚ) ^ (e - 52) < (f : ℚ) + 1 / 2) :
    roundDbl x = (f : ℚ) * (2 : ℚ) ^ (e - 52) := by
  have hx0 : 0 < x := lt_of_lt_of_le (by positivity) hlo'
  have hlo : (2 : ℚ) ^ e ≤ |x| := by rw [abs_of_pos hx0]; exact hlo'
  have hhi : |x| < (2 : ℚ) ^ (e + 1) := by rw [abs_of_pos hx0]; exact hhi'
  have hx : x ≠ 0 := ne_of_gt hx0
  unfold roundDbl
  rw [if_neg hx, log2_eq x e hlo hhi]
  dsimp only
  generalize x / (2 : ℚ) ^ (e - 52) = q at h1 h2
  congr 1
  by_cases hq : (f : ℚ) ≤ q
  · have hfl : ⌊q⌋ = f := by
      rw [Int.floor_eq_iff]; constructor <;> linarith
    rw [hfl, if_pos (by linarith)]
  · have hfl : ⌊q⌋ = f - 1 := by
      rw [Int.floor_eq_iff]; push_cast; constructor <;> linarith
    rw [hfl]
    push_cast
    rw [if_neg (by linarith), if_pos (by linarith)]
    ring

theorem roundDbl_tie (x : ℚ) (e f : ℤ) (hlo' : (2 : ℚ) ^ e ≤ x)
    (hhi' : x < (2 : ℚ) ^ (e + 1))
    (hq : x / (2 : ℚ) ^ (e - 52) = (f : ℚ) + 1 / 2) :
    roundDbl x = (if f % 2 = 0 then (f : ℚ) else (f : ℚ) + 1) * (2 : ℚ) ^ (e - 52) := by
  have hx0 : 0 < x := lt_of_lt_of_le (by positivity) hlo'
  have hlo : (2 : ℚ) ^ e ≤ |x| := by rw [abs_of_pos hx0]; exact hlo'
  have hhi : |x| < (2 : ℚ) ^ (e + 1) := by rw [abs_of_pos hx0]; exact hhi'
  have hx : x ≠ 0 := ne_of_gt hx0
  unfold roundDbl
  rw [if_neg hx, log2_eq x e hlo hhi]
  dsimp only
  rw [hq]
  have hfl : ⌊(f : ℚ) + 1 / 2⌋ = f := by
    rw [Int.floor_eq_iff]; constructor <;> linarith
  rw [hfl, if_neg (by linarith), if_neg (by linarith)]

theorem roundDbl_pos (x : ℚ) (hx : 0 < x) : 0 < roundDbl x := by
  have hx0 : x ≠ 0 := ne_of_gt hx
  have habs : |x| = x := abs_of_pos hx
  unfold roundDbl
  rw [if_neg hx0, habs]
  dsimp only
  have hu : (0 : ℚ) < (2 : ℚ) ^ (Int.log 2 x - 52) := by positivity
  have hle : (2 : ℚ) ^ Int.log 2 x ≤ x := by
    have := Int.zpow_log_le_self (b := 2) (r := x) (by norm_num) hx
    simpa using this
  have hq : (2 : ℚ) ^ (52 : ℤ) ≤ x / (2 : ℚ) ^ (Int.log 2 x - 52) := by
    rw [le_div_iff₀ hu, ← zpow_add₀ (by norm_num)]
    simpa using hle
  have hf : (1 : ℤ) ≤ ⌊x / (2 : ℚ) ^ (Int.log 2 x - 52)⌋ := by
    rw [Int.le_floor]
    refine le_trans ?_ hq
    norm_num
  have hfq : (1 : ℚ) ≤ (⌊x / (2 : ℚ) ^ (Int.log 2 x - 52)⌋ : ℚ) := by exact_mod_cast hf
  apply mul_pos _ hu
  split_ifs <;> linarith

theorem roundDbl_three : roundDbl 3 = 3 := by
  have h := roundDbl_eq 3 1 6755399441055744 (by norm_num) (by norm_num) (by norm_num)
    (by norm_num)
  rw [h]; norm_num

theorem roundDbl_zero : roundDbl 0 = 0 := by simp [roundDbl]

theorem roundDbl_nonneg (x : ℚ) (hx : 0 ≤ x) : 0 ≤ roundDbl x := by
  rcases eq_or_lt_of_le hx with h | h
  · rw [← h, roundDbl_zero]
  · exact le_of_lt (roundDbl_pos x h)

theorem roundDbl_struct (x : ℚ) (hx : 0 < x) :
    ∃ n : ℤ, roundDbl x = (n : ℚ) * (2 : ℚ) ^ (Int.log 2 x - 52) ∧
      ⌊x / (2 : ℚ) ^ (Int.log 2 x - 52)⌋ ≤ n ∧
      n ≤ ⌊x / (2 : ℚ) ^ (Int.log 2 x - 52)⌋ + 1 ∧
      (2 : ℤ) ^ 52 ≤ ⌊x / (2 : ℚ) ^ (Int.log 2 x - 52)⌋ ∧
      ⌊x / (2 : ℚ) ^ (Int.log 2 x - 52)⌋ < (2 : ℤ) ^ 53 := by
  have hx0 : x ≠ 0 := ne_of_gt hx
  have habs : |x| = x := abs_of_pos hx
  have hu : (0 : ℚ) < (2 : ℚ) ^ (Int.log 2 x - 52) := by positivity
  have hle : (2 : ℚ) ^ Int.log 2 x ≤ x := by
    have := Int.zpow_log_le_self (b := 2) (r := x) (by norm_num) hx
    simpa using this
  have hlt : x < (2 : ℚ) ^ (Int.log 2 x + 1) := by
    have := Int.lt_zpow_succ_log_self (b := 2) (by norm_num) x
    simpa using this
  have hq1 : (2 : ℚ) ^ (52 : ℤ) ≤ x / (2 : ℚ) ^ (Int.log 2 x - 52) := by
    rw [le_div_iff₀ hu, ← zpow_add₀ (by norm_num)]
    simpa using hle
  have hq2 : x / (2 : ℚ) ^ (Int.log 2 x - 52) < (2 : ℚ) ^ (53 : ℤ) := by
    rw [div_lt_iff₀ hu, ← zpow_add₀ (by norm_num)]
    have : (53 : ℤ) + (Int.log 2 x - 52) = Int.log 2 x + 1 := by ring
    rw [this]; exact hlt
  have hf1 : (2 : ℤ) ^ 52 ≤ ⌊x / (2 : ℚ) ^ (Int.log 2 x - 52)⌋ := by
    rw [Int.le_floor]
    refine le_trans ?_ hq1
    norm_num
  have hf2 : ⌊x / (2 : ℚ) ^ (Int.log 2 x - 52)⌋ < (2 : ℤ) ^ 53 := by
    rw [Int.floor_lt]
    refine lt_of_lt_of_le hq2 ?_
    norm_num
  unfold roundDbl
  rw [if_neg hx0, habs]
  dsimp only
  by_cases h1 : x / (2 : ℚ) ^ (Int.log 2 x - 52) - ⌊x / (2 : ℚ) ^ (Int.log 2 x - 52)⌋ < 1 / 2
  · exact ⟨_, by rw [if_pos h1], le_refl _, by omega, hf1, hf2⟩
  · rw [if_neg h1]
    by_cases h2 : 1 / 2 < x / (2 : ℚ) ^ (Int.log 2 x - 52) - ⌊x / (2 : ℚ) ^ (Int.log 2 x - 52)⌋
    · exact ⟨⌊x / (2 : ℚ) ^ (Int.log 2 x - 52)⌋ + 1, by rw [if_pos h2]; push_cast; rfl,
        by omega, le_refl _, hf1, hf2⟩
    · rw [if_neg h2]
      by_cases h3 : ⌊x / (2 : ℚ) ^ (Int.log 2 x - 52)⌋ % 2 = 0
      · exact ⟨_, by rw [if_pos h3], le_refl _, by omega, hf1, hf2⟩
      · exact ⟨⌊x / (2 : ℚ) ^ (Int.log 2 x - 52)⌋ + 1, by rw [if_neg h3]; push_cast; rfl,
          by omega, le_refl _, hf1, hf2⟩

theorem roundDbl_idem (x : ℚ) (hx : 0 ≤ x) : roundDbl (roundDbl x) = roundDbl x := by
  rcases eq_or_lt_of_le hx with h | h
  · rw [← h, roundDbl_zero, roundDbl_zero]
  · obtain ⟨n, hn, h1, h2, h3, h4⟩ := roundDbl_struct x h
    have hu : (0 : ℚ) < (2 : ℚ) ^ (Int.log 2 x - 52) := by positivity
    have hn1 : ((2 : ℤ) ^ 52 : ℤ) ≤ n := le_trans h3 h1
    have hn1q : (2 : ℚ) ^ (52 : ℤ) ≤ (n : ℚ) := by
      have e : (2 : ℚ) ^ (52 : ℤ) = ((2 ^ 52 : ℤ) : ℚ) := by norm_num
      rw [e]; exact_mod_cast hn1
    have hsplit : (2 : ℚ) ^ (Int.log 2 x) = (2 : ℚ) ^ (52 : ℤ) * (2 : ℚ) ^ (Int.log 2 x - 52) := by
      rw [← zpow_add₀ (by norm_num)]; congr 1; ring
    have hsplit1 : (2 : ℚ) ^ (Int.log 2 x + 1) =
        (2 : ℚ) ^ (53 : ℤ) * (2 : ℚ) ^ (Int.log 2 x - 52) := by
      rw [← zpow_add₀ (by norm_num)]; congr 1; ring
    by_cases hlt : n < (2 : ℤ) ^ 53
    · have hn2q : (n : ℚ) < (2 : ℚ) ^ (53 : ℤ) := by
        have e : (2 : ℚ) ^ (53 : ℤ) = ((2 ^ 53 : ℤ) : ℚ) := by norm_num
        rw [e]; exact_mod_cast hlt
      rw [hn]
      refine roundDbl_eq _ (Int.log 2 x) n ?_ ?_ ?_ ?_
      · rw [hsplit]; exact mul_le_mul_of_nonneg_right hn1q (le_of_lt hu)
      · rw [hsplit1]; exact mul_lt_mul_of_pos_right hn2q hu
      · rw [mul_div_assoc, div_self (ne_of_gt hu), mul_one]; linarith
      · rw [mul_div_assoc, div_self (ne_of_gt hu), mul_one]; linarith
    · have hn53 : n = (2 : ℤ) ^ 53 := by omega
      have hr : roundDbl x = (2 : ℚ) ^ (Int.log 2 x + 1) := by
        rw [hn, hsplit1, hn53]; norm_num
      have hu2 : (0 : ℚ) < (2 : ℚ) ^ (Int.log 2 x + 1 - 52) := by positivity
      have hsplit2 : (2 : ℚ) ^ (Int.log 2 x + 1) =
          (2 : ℚ) ^ (52 : ℤ) * (2 : ℚ) ^ (Int.log 2 x + 1 - 52) := by
        rw [← zpow_add₀ (by norm_num)]; congr 1; ring
      have h := roundDbl_eq ((2 : ℚ) ^ (Int.log 2 x + 1)) (Int.log 2 x + 1) ((2 : ℤ) ^ 52)
        (le_refl _) (zpow_lt_zpow_right₀ (by norm_num) (by omega))
        (by rw [hsplit2, mul_div_assoc, div_self (ne_of_gt hu2)]; norm_num)
        (by rw [hsplit2, mul_div_assoc, div_self (ne_of_gt hu2)]; norm_num)
      rw [hr, h, hsplit2]
      norm_num

theorem roundDbl_ge (a x : ℚ) (ha : 0 ≤ a) (hfix : roundDbl a = a) (hax : a ≤ x) :
    a ≤ roundDbl x := by
  rcases eq_or_lt_of_le ha with h | h
  · rw [← h]; exact roundDbl_nonneg x (by linarith)
  · have hx : 0 < x := lt_of_lt_of_le h hax
    obtain ⟨na, hna, -, -, -, -⟩ := roundDbl_struct a h
    obtain ⟨n, hn, h1, -, h3, -⟩ := roundDbl_struct x hx
    rw [hfix] at hna
    have hu : (0 : ℚ) < (2 : ℚ) ^ (Int.log 2 x - 52) := by positivity
    have hmono : Int.log 2 a ≤ Int.log 2 x := Int.log_mono_right h hax
    have hfl : ((⌊x / (2 : ℚ) ^ (Int.log 2 x - 52)⌋ : ℤ) : ℚ) ≤ (n : ℚ) := by exact_mod_cast h1
    rcases eq_or_lt_of_le hmono with he | hl
    · rw [he] at hna
      have hq : (na : ℚ) ≤ x / (2 : ℚ) ^ (Int.log 2 x - 52) := by
        rw [le_div_iff₀ hu, ← hna]; exact hax
      have hna2 : na ≤ ⌊x / (2 : ℚ) ^ (Int.log 2 x - 52)⌋ := Int.le_floor.mpr hq
      have hna3 : (na : ℚ) ≤ (n : ℚ) := by exact_mod_cast le_trans hna2 h1
      rw [hn, hna]
      exact mul_le_mul_of_nonneg_right hna3 (le_of_lt hu)
    · have halt : a < (2 : ℚ) ^ (Int.log 2 a + 1) := by
        have := Int.lt_zpow_succ_log_self (b := 2) (by norm_num) a
        simpa using this
      have hpow : (2 : ℚ) ^ (Int.log 2 a + 1) ≤ (2 : ℚ) ^ (Int.log 2 x) :=
        zpow_le_zpow_right₀ (by norm_num) (by omega)
      have hsplit : (2 : ℚ) ^ (Int.log 2 x) =
          (2 : ℚ) ^ (52 : ℤ) * (2 : ℚ) ^ (Int.log 2 x - 52) := by
        rw [← zpow_add₀ (by norm_num)]; congr 1; ring
      have hn1q : (2 : ℚ) ^ (52 : ℤ) ≤ (n : ℚ) := by
        have e : (2 : ℚ) ^ (52 : ℤ) = ((2 ^ 52 : ℤ) : ℚ) := by norm_num
        rw [e]; exact_mod_cast le_trans h3 h1
      rw [hn]
      calc a ≤ (2 : ℚ) ^ (Int.log 2 x) := le_of_lt (lt_of_lt_of_le halt hpow)
        _ = (2 : ℚ) ^ (52 : ℤ) * (2 : ℚ) ^ (Int.log 2 x - 52) := hsplit
        _ ≤ (n : ℚ) * (2 : ℚ) ^ (Int.log 2 x - 52) :=
          mul_le_mul_of_nonneg_right hn1q (le_of_lt hu)

theorem roundDbl_c012 : roundDbl ((12 : Dbl) / 1000) = 3458764513820541 / 288230376151711744 := by
  have h := roundDbl_eq ((12 : Dbl) / 1000) (-7) 6917529027641082 (by norm_num) (by norm_num) (by
      norm_num)
    (by norm_num)
  rw [h]; norm_num

theorem roundDbl_c024 : roundDbl (2 * ((3458764513820541 / 288230376151711744) : Dbl)) =
      3458764513820541 / 144115188075855872 := by
  have h := roundDbl_eq (2 * ((3458764513820541 / 288230376151711744) : Dbl)) (-6) 6917529027641082
      (by norm_num) (by norm_num) (by norm_num)
    (by norm_num)
  rw [h]; norm_num

theorem roundDbl_c988 : roundDbl (1 - ((3458764513820541 / 288230376151711744) : Dbl)) =
      2224778215921025 / 2251799813685248 := by
  have h := roundDbl_eq (1 - ((3458764513820541 / 288230376151711744) : Dbl)) (-1) 8899112863684100
      (by norm_num) (by norm_num) (by norm_num)
    (by norm_num)
  rw [h]; norm_num

theorem roundDbl_c964 : roundDbl ((2224778215921025 / 2251799813685248 : Dbl) - (3458764513820541 /
      144115188075855872)) = 2170735020392579 / 2251799813685248 := by
  have h := roundDbl_eq ((2224778215921025 / 2251799813685248 : Dbl) - (3458764513820541 /
      144115188075855872)) (-1) 8682940081570316 (by norm_num) (by norm_num) (by norm_num)
    (by norm_num)
  rw [h]; norm_num

theorem roundDbl_c048 : roundDbl ((3458764513820541 / 144115188075855872 : Dbl) + (3458764513820541
      / 144115188075855872)) = 3458764513820541 / 72057594037927936 := by
  have h := roundDbl_eq ((3458764513820541 / 144115188075855872 : Dbl) + (3458764513820541 /
      144115188075855872)) (-5) 6917529027641082 (by norm_num) (by norm_num) (by norm_num)
    (by norm_num)
  rw [h]; norm_num

theorem roundDbl_c98 : roundDbl ((98 : Dbl) / 100) = 2206763817411543 / 2251799813685248 := by
  have h := roundDbl_eq ((98 : Dbl) / 100) (-1) 8827055269646172 (by norm_num) (by norm_num) (by
      norm_num)
    (by norm_num)
  rw [h]; norm_num

theorem wrapLoop_ok_le (E : Dbl) :
    ∀ (fuel : Nat) (x r : Dbl), wrapLoop E fuel x = Except.ok r → r ≤ E := by
  intro fuel
  induction fuel with
  | zero =>
    intro x r h
    unfold wrapLoop at h
    split at h
    · cases h
    · rename_i hx; cases h; exact not_lt.mp hx
  | succ n ih =>
    intro x r h
    unfold wrapLoop at h
    split at h
    · exact ih _ r h
    · rename_i hx; cases h; exact not_lt.mp hx

theorem wrapLoop_ok_pos (E : Dbl) :
    ∀ (fuel : Nat) (x r : Dbl), E < x → wrapLoop E fuel x = Except.ok r → 0 < r := by
  intro fuel
  induction fuel with
  | zero =>
    intro x r hx h
    simp [wrapLoop, hx] at h
  | succ n ih =>
    intro x r hx h
    simp only [wrapLoop, gt_iff_lt, hx, if_true] at h
    have hp : 0 < roundDbl (x - E) := roundDbl_pos _ (by linarith)
    by_cases h2 : roundDbl (x - E) ≤ E
    · rw [wrapLoop_le E n _ h2] at h
      cases h; exact hp
    · exact ih _ r (not_le.mp h2) h

theorem wrapIter_shift (E x : Dbl) :
    ∀ k : Nat, wrapIter E x (k + 1) = wrapIter E (roundDbl (x - E)) k := by
  intro k
  induction k with
  | zero => rfl
  | succ k ih =>
    show roundDbl (wrapIter E x (k + 1) - E) = roundDbl (wrapIter E (roundDbl (x - E)) k - E)
    rw [ih]

theorem wrapLoop_iter (E : Dbl) :
    ∀ (k : Nat) (x : Dbl), wrapIter E x k ≤ E → (∀ j : Nat, j < k → E < wrapIter E x j) →
      ∀ fuel : Nat, k ≤ fuel → wrapLoop E fuel x = Except.ok (wrapIter E x k) := by
  intro k
  induction k with
  | zero =>
    intro x hle _ fuel _
    exact wrapLoop_le E fuel x hle
  | succ k ih =>
    intro x hle hgt fuel hf
    obtain ⟨f, rfl⟩ : ∃ f, fuel = f + 1 := ⟨fuel - 1, by omega⟩
    have hx : E < x := hgt 0 (Nat.succ_pos k)
    simp only [wrapLoop, gt_iff_lt, hx, if_true]
    rw [wrapIter_shift]
    rw [wrapIter_shift] at hle
    refine ih _ hle (fun j hj => ?_) f (by omega)
    rw [← wrapIter_shift]
    exact hgt (j + 1) (by omega)

theorem wrapLoop_ok_iter (E : Dbl) :
    ∀ (fuel : Nat) (x r : Dbl), wrapLoop E fuel x = Except.ok r →
      ∃ k : Nat, k ≤ fuel ∧ r = wrapIter E x k ∧ ∀ j : Nat, j < k → E < wrapIter E x j := by
  intro fuel
  induction fuel with
  | zero =>
    intro x r h
    unfold wrapLoop at h
    split at h
    · cases h
    · cases h; exact ⟨0, le_refl 0, rfl, fun j hj => absurd hj (Nat.not_lt_zero j)⟩
  | succ n ih =>
    intro x r h
    unfold wrapLoop at h
    split at h
    · rename_i hx
      obtain ⟨k, hk, hr, hj⟩ := ih _ r h
      refine ⟨k + 1, by omega, by rw [wrapIter_shift]; exact hr, fun j hjk => ?_⟩
      cases j with
      | zero => exact hx
      | succ j => rw [wrapIter_shift]; exact hj j (by omega)
    · cases h; exact ⟨0, Nat.zero_le _, rfl, fun j hj => absurd hj (Nat.not_lt_zero j)⟩

theorem wrapLoop_stuck (E x : Dbl) (hx : E < x) (hfix : roundDbl (x - E) = x) :
    ∀ fuel : Nat, wrapLoop E fuel x = Except.error Fault.outOfFuel := by
  intro fuel
  induction fuel with
  | zero => simp [wrapLoop, hx]
  | succ n ih => simp only [wrapLoop, gt_iff_lt, hx, if_true, hfix]; exact ih

theorem wrapLoop_plus_three (E : Dbl) (hE : 3 ≤ E) (fuel : Nat) (hf : 1 ≤ fuel) :
    wrapLoop E fuel (E + 3) = Except.ok 3 := by
  obtain ⟨f, rfl⟩ : ∃ f, fuel = f + 1 := ⟨fuel - 1, by omega⟩
  have hx : E < E + 3 := by linarith
  simp only [wrapLoop, gt_iff_lt, hx, if_true]
  rw [show E + 3 - E = 3 by ring, roundDbl_three]
  exact wrapLoop_le E f 3 hE

theorem plotGlyphs_endX (pMstr : SYD_PL_MSTR) (a : Option Nat) (mk : Int) (x y : Dbl)
    (c : Char) : ∀ op ∈ plotGlyphs pMstr a mk x y c, op.endX = x := by
  intro op hop
  unfold plotGlyphs at hop
  rw [List.mem_append] at hop
  rcases hop with h | h
  · split at h
    · rw [List.mem_singleton] at h; subst h; rfl
    · cases h
  · split at h
    · rw [List.mem_singleton] at h; subst h; rfl
    · split at h
      · rw [List.mem_singleton] at h; subst h; rfl
      · cases h

theorem TY_sample_endX (pMstr : SYD_PL_MSTR) (s : SYD_PL_SLAVE) (fuel : Nat) (i : Int)
    (l : Locals) (x : Dbl) (r : Locals × List PprCall)
    (hx : TY_fetchX pMstr fuel i = Except.ok x)
    (hr : TY_sample pMstr s fuel i l = Except.ok r) :
    ∀ op ∈ r.2, op.endX = x := by
  unfold TY_sample TY_anchor TY_cont at hr
  rw [hx] at hr
  simp only [] at hr
  split at hr
  · cases hr; intro op hop; cases hop
  · split at hr
    · cases hF : FetchIthValInto s.pSChan i with
      | error f => rw [hF] at hr; cases hr
      | ok y =>
        rw [hF] at hr; cases hr
        exact plotGlyphs_endX _ _ _ _ _ _
    · split at hr
      · cases hr; intro op hop; cases hop
      · cases hF : FetchIthValInto s.pSChan i with
        | error f => rw [hF] at hr; cases hr
        | ok y =>
          rw [hF] at hr; cases hr
          intro op hop
          simp only [List.mem_append] at hop
          rcases hop with (h | h) | h
          · split at h
            · rw [List.mem_singleton] at h; subst h; rfl
            · cases h
          · split at h
            · rw [List.mem_singleton] at h; subst h; rfl
            · cases h
          · exact plotGlyphs_endX _ _ _ _ _ _ op h

/-! ## Termination of the time-vs-value routine -/

theorem exists_uniform_fuel {α : Type} (P : α → Nat → Prop) :
    ∀ xs : List α, (∀ x ∈ xs, ∃ n : Nat, ∀ fuel : Nat, n ≤ fuel → P x fuel) →
      ∃ N : Nat, ∀ fuel : Nat, N ≤ fuel → ∀ x ∈ xs, P x fuel := by
  intro xs
  induction xs with
  | nil => intro _; exact ⟨0, fun _ _ x hx => absurd hx (List.not_mem_nil x)⟩
  | cons a rest ih =>
    intro h
    obtain ⟨n, hn⟩ := h a (List.mem_cons_self a rest)
    obtain ⟨N, hN⟩ := ih (fun x hx => h x (List.mem_cons_of_mem a hx))
    refine ⟨max n N, fun fuel hf x hx => ?_⟩
    rcases List.mem_cons.mp hx with rfl | hx'
    · exact hn fuel (le_trans (le_max_left n N) hf)
    · exact hN fuel (le_trans (le_max_right n N) hf) x hx'

theorem FetchIthValInto_total (c : SYD_CHAN) (i : Int) (hd : c.pData.isNone = false)
    (ht : c.dbrType ≠ DbrType.STRING) : ∃ y, FetchIthValInto c i = Except.ok y := by
  unfold FetchIthValInto
  cases hp : c.pData with
  | none => rw [hp] at hd; cases hd
  | some d => cases htt : c.dbrType <;> first | exact absurd htt ht | exact ⟨_, rfl⟩

theorem TY_sample_total (pMstr : SYD_PL_MSTR) (s : SYD_PL_SLAVE) (fuel : Nat) (i : Int)
    (l : Locals) (hd : s.pSChan.pData.isNone = false)
    (ht : s.pSChan.dbrType ≠ DbrType.STRING)
    (hx : ∃ x, TY_fetchX pMstr fuel i = Except.ok x) :
    ∃ r, TY_sample pMstr s fuel i l = Except.ok r := by
  obtain ⟨x, hx⟩ := hx
  obtain ⟨y, hy⟩ := FetchIthValInto_total s.pSChan i hd ht
  unfold TY_sample TY_anchor TY_cont
  simp only [hx, hy]
  split
  · exact ⟨_, rfl⟩
  · split
    · exact ⟨_, rfl⟩
    · split <;> exact ⟨_, rfl⟩

theorem runSamples_total (body : Int → Locals → Except Fault (Locals × List PprCall)) :
    ∀ is : List Int, (∀ i ∈ is, ∀ l, ∃ r, body i l = Except.ok r) →
      ∀ l, ∃ r, runSamples body is l = Except.ok r := by
  intro is
  induction is with
  | nil => intro _ l; exact ⟨_, rfl⟩
  | cons i rest ih =>
    intro h l
    obtain ⟨⟨l1, ops⟩, h1⟩ := h i (List.mem_cons_self i rest) l
    obtain ⟨⟨l2, ops2⟩, h2⟩ := ih (fun j hj => h j (List.mem_cons_of_mem i hj))
      { l1 with first := 0 }
    exact ⟨(l2, ops ++ ops2), by simp only [runSamples, h1, h2]⟩

theorem slaveLoop_total
    (f : SYD_PL_SLAVE → Locals → Except Fault (SYD_PL_SLAVE × Locals × List PprCall)) :
    ∀ ss : List SYD_PL_SLAVE, (∀ s ∈ ss, ∀ l, ∃ r, f s l = Except.ok r) →
      ∀ l, ∃ r, slaveLoop f ss l = Except.ok r := by
  intro ss
  induction ss with
  | nil => intro _ l; exact ⟨_, rfl⟩
  | cons s rest ih =>
    intro h l
    obtain ⟨⟨s1, l1, ops⟩, h1⟩ := h s (List.mem_cons_self s rest) l
    obtain ⟨⟨r1, l2, ops2⟩, h2⟩ := ih (fun j hj => h j (List.mem_cons_of_mem s hj)) l1
    exact ⟨(s1 :: r1, l2, ops ++ ops2), by simp only [slaveLoop, h1, h2]⟩

theorem TYSamples_returns (pMstr : SYD_PL_MSTR) (b e : Int)
    (hb : 0 ≤ b) (hbD : b < pMstr.pSspec.dataDim) (he : 0 ≤ e) (heD : e < pMstr.pSspec.dataDim)
    (hw : ∀ i ∈ circRange pMstr.pSspec.dataDim b (walkLen pMstr.pSspec.dataDim b e),
      ∃ n : Nat, ∀ fuel : Nat, n ≤ fuel → ∃ x, TY_fetchX pMstr fuel i = Except.ok x)
    (ht : ∀ s ∈ pMstr.slaves, s.pSChan.dbrType ≠ DbrType.STRING) :
    ∃ N : Nat, ∀ fuel : Nat, N ≤ fuel → ∀ (incr : Int) (l0 : Locals),
      ∃ r, sydPlot_TYSamples pMstr b e incr fuel l0 = Except.ok r := by
  obtain ⟨N, hN⟩ := exists_uniform_fuel
    (fun (i : Int) (fuel : Nat) => ∃ x, TY_fetchX pMstr fuel i = Except.ok x)
    (circRange pMstr.pSspec.dataDim b (walkLen pMstr.pSspec.dataDim b e)) hw
  refine ⟨max N (walkLen pMstr.pSspec.dataDim b e), fun fuel hf incr l0 => ?_⟩
  have hslave : ∀ s ∈ pMstr.slaves, ∀ l, ∃ r, TY_slave pMstr b e incr fuel s l = Except.ok r := by
    intro s hs l
    unfold TY_slave
    split
    · exact ⟨_, rfl⟩
    · rename_i hcon
      have hd : s.pSChan.pData.isNone = false := by
        cases hp : s.pSChan.pData.isNone
        · rfl
        · exact absurd (Or.inl hp) hcon
      rw [sampleLoop_eq_runSamples_aux _ _ e he heD _ b hb hbD
        (walkLen_le _ b e hb hbD he heD).2.symm fuel (le_trans (le_max_right _ _) hf)]
      obtain ⟨⟨l1, ops⟩, h1⟩ := runSamples_total (TY_sample pMstr s fuel) _
        (fun i hi l => TY_sample_total pMstr s fuel i l hd (ht s hs)
          (hN fuel (le_trans (le_max_left _ _) hf) i hi)) (loadLocals s incr l)
      exact ⟨_, by rw [show ((e - b) % pMstr.pSspec.dataDim).toNat + 1 =
        walkLen pMstr.pSspec.dataDim b e from rfl, h1]⟩
  obtain ⟨⟨ss, l1, ops⟩, h⟩ := slaveLoop_total _ pMstr.slaves hslave l0
  exact ⟨({ pMstr with slaves := ss }, ops), by simp only [sydPlot_TYSamples, h]⟩

theorem AxisSetup_byType_numeric (c : SYD_CHAN) (jo je : Dbl)
    (ht : c.dbrType = DbrType.FLOAT ∨ c.dbrType = DbrType.SHORT ∨
      c.dbrType = DbrType.DOUBLE ∨ c.dbrType = DbrType.LONG ∨ c.dbrType = DbrType.CHAR) :
    AxisSetup_byType c jo je = (c, c.lower_disp_limit, c.upper_disp_limit, 5) := by
  unfold AxisSetup_byType
  rcases ht with h | h | h | h | h <;> rw [h]

theorem AxisSetup_byType_enum_few (c : SYD_CHAN) (jo je : Dbl)
    (ht : c.dbrType = DbrType.ENUM) (hn : c.no_str ≤ 1) :
    AxisSetup_byType c jo je =
      ({ c with no_str := 2,
                strs := Function.update
                  (if c.no_str - 1 < 0 then Function.update c.strs 0 " " else c.strs) 1 " " },
        0, 1, 1) := by
  have hq : (0 : Dbl) ≥ ((c.no_str - 1 : Int) : Dbl) := by
    have : c.no_str - 1 ≤ 0 := by omega
    exact_mod_cast this
  unfold AxisSetup_byType
  split
  all_goals first
    | (rename_i h; rw [ht] at h; cases h; done)
    | skip
  simp only [if_pos hq]

theorem AxisSetup_byType_enum_many (c : SYD_CHAN) (jo je : Dbl)
    (ht : c.dbrType = DbrType.ENUM) (hn : 2 ≤ c.no_str) :
    AxisSetup_byType c jo je = (c, 0, ((c.no_str - 1 : Int) : Dbl), c.no_str - 1) := by
  have hq : ¬ (0 : Dbl) ≥ ((c.no_str - 1 : Int) : Dbl) := by
    have : (0 : Int) < c.no_str - 1 := by omega
    have h2 : (0 : Dbl) < ((c.no_str - 1 : Int) : Dbl) := by exact_mod_cast this
    exact not_le.mpr h2
  unfold AxisSetup_byType
  split
  all_goals first
    | (rename_i h; rw [ht] at h; cases h; done)
    | skip
  simp only [if_neg hq]

theorem AxisSetup_byType_idem (c : SYD_CHAN) (j1 j2 j3 j4 : Dbl)
    (ht : c.dbrType ≠ DbrType.STRING) :
    AxisSetup_byType (AxisSetup_byType c j1 j2).1 j3 j4 = AxisSetup_byType c j1 j2 := by
  cases h : c.dbrType
  case STRING => exact absurd h ht
  case ENUM =>
    by_cases hn : c.no_str ≤ 1
    · rw [AxisSetup_byType_enum_few c j1 j2 h hn]
      have h2 := AxisSetup_byType_enum_many
        { c with no_str := 2,
                 strs := Function.update
                   (if c.no_str - 1 < 0 then Function.update c.strs 0 " " else c.strs) 1 " " }
        j3 j4 h (le_refl 2)
      rw [h2]
      simp
    · rw [AxisSetup_byType_enum_many c j1 j2 h (by omega),
        AxisSetup_byType_enum_many c j3 j4 h (by omega)]
  all_goals
    rw [AxisSetup_byType_numeric c j1 j2 (by simp [h]),
      AxisSetup_byType_numeric c j3 j4 (by simp [h])]

theorem TYSamples_plotAxis (pMstr : SYD_PL_MSTR) (a : SYD_PLAX) (b e incr : Int) (fuel : Nat)
    (l0 : Locals) :
    sydPlot_TYSamples { pMstr with plotAxis := a } b e incr fuel l0 =
      (sydPlot_TYSamples pMstr b e incr fuel l0).map
        fun r => ({ r.1 with plotAxis := a }, r.2) := by
  unfold sydPlot_TYSamples
  have h : TY_slave { pMstr with plotAxis := a } b e incr fuel = TY_slave pMstr b e incr fuel :=
    rfl
  rw [h]
  cases slaveLoop (TY_slave pMstr b e incr fuel) pMstr.slaves l0 with
  | error f => rfl
  | ok r => rfl

theorem YSamples_plotAxis (pMstr : SYD_PL_MSTR) (a : SYD_PLAX) (b e incr : Int) (fuel : Nat)
    (l0 : Locals) (junk : Dbl) :
    sydPlot_YSamples { pMstr with plotAxis := a } b e incr fuel l0 junk =
      (sydPlot_YSamples pMstr b e incr fuel l0 junk).map
        fun r => ({ r.1 with plotAxis := a }, r.2) := by
  unfold sydPlot_YSamples
  have h : Y_slave { pMstr with plotAxis := a } b e incr fuel junk =
      Y_slave pMstr b e incr fuel junk := rfl
  rw [h]
  cases slaveLoop (Y_slave pMstr b e incr fuel junk) pMstr.slaves l0 with
  | error f => rfl
  | ok r => rfl

theorem XYSamples_plotAxis (pMstr : SYD_PL_MSTR) (a : SYD_PLAX) (b e incr : Int) (fuel : Nat)
    (l0 : Locals) (junk : Dbl) :
    sydPlot_XYSamples { pMstr with plotAxis := a } b e incr fuel l0 junk =
      (sydPlot_XYSamples pMstr b e incr fuel l0 junk).map
        fun r => ({ r.1 with plotAxis := a }, r.2) := by
  unfold sydPlot_XYSamples
  simp only []
  cases findXSlave pMstr.slaves with
  | error f => rfl
  | ok xIdx =>
    simp only []
    cases pMstr.slaves.get? xIdx with
    | none => rfl
    | some sx =>
      simp only []
      have h : XY_slave { pMstr with plotAxis := a } sx.pSChan b e incr fuel junk =
          XY_slave pMstr sx.pSChan b e incr fuel junk := rfl
      rw [h]
      cases XY_slaveLoop (XY_slave pMstr sx.pSChan b e incr fuel junk) xIdx pMstr.slaves 0 l0 with
      | error f => rfl
      | ok r => rfl

/-! ## Two runs that the sample loop cannot tell apart -/

theorem OutcomeRel_mono {α : Type} (R S : α → α → Prop) (h : ∀ a b, R a b → S a b)
    (x y : Except Fault (α × List PprCall)) (hxy : OutcomeRel R x y) : OutcomeRel S x y := by
  cases x with
  | error f => cases y with
    | error g => exact hxy
    | ok r => exact hxy
  | ok r => cases y with
    | error g => exact hxy
    | ok r' => exact ⟨hxy.1, h _ _ hxy.2⟩

theorem sampleLoop_rel (R : Locals → Locals → Prop)
    (body body' : Int → Locals → Except Fault (Locals × List PprCall)) (D e : Int)
    (hbody : ∀ i l l', R l l' →
      OutcomeRel (fun a b => R { a with first := 0 } { b with first := 0 })
        (body i l) (body' i l')) :
    ∀ (fuel : Nat) (i : Int) (l l' : Locals), R l l' →
      OutcomeRel R (sampleLoop body D e fuel i l) (sampleLoop body' D e fuel i l') := by
  intro fuel
  induction fuel with
  | zero =>
    intro i l l' h
    simp only [sampleLoop]
    split
    · rfl
    · exact ⟨rfl, h⟩
  | succ n ih =>
    intro i l l' h
    simp only [sampleLoop]
    split
    · have hb := hbody i l l' h
      cases h1 : body i l with
      | error f =>
        cases h2 : body' i l' with
        | error g => rw [h1, h2] at hb; exact hb
        | ok r' => rw [h1, h2] at hb; exact hb.elim
      | ok r =>
        cases h2 : body' i l' with
        | error g => rw [h1, h2] at hb; exact hb.elim
        | ok r' =>
          rw [h1, h2] at hb
          obtain ⟨l1, ops⟩ := r
          obtain ⟨l1', ops'⟩ := r'
          obtain ⟨hops, hR⟩ := hb
          have hrec := ih (nextIndex D e i) _ _ hR
          simp only []
          cases h3 : sampleLoop body D e n (nextIndex D e i) { l1 with first := 0 } with
          | error f =>
            cases h4 : sampleLoop body' D e n (nextIndex D e i) { l1' with first := 0 } with
            | error g => rw [h3, h4] at hrec; exact hrec
            | ok q' => rw [h3, h4] at hrec; exact hrec.elim
          | ok q =>
            cases h4 : sampleLoop body' D e n (nextIndex D e i) { l1' with first := 0 } with
            | error g => rw [h3, h4] at hrec; exact hrec.elim
            | ok q' =>
              rw [h3, h4] at hrec
              obtain ⟨l2, ops2⟩ := q
              obtain ⟨l2', ops2'⟩ := q'
              exact ⟨by rw [hops, hrec.1], hrec.2⟩
    · exact ⟨rfl, h⟩

theorem sampleLoop_first (body : Int → Locals → Except Fault (Locals × List PprCall))
    (D e : Int) :
    ∀ (fuel : Nat) (i : Int) (l : Locals) (r : Locals × List PprCall),
      (0 ≤ i ∨ l.first = 0) → sampleLoop body D e fuel i l = Except.ok r → r.1.first = 0 := by
  intro fuel
  induction fuel with
  | zero =>
    intro i l r h hr
    simp only [sampleLoop] at hr
    split at hr
    · cases hr
    · cases hr
      rcases h with h | h
      · omega
      · exact h
  | succ n ih =>
    intro i l r h hr
    simp only [sampleLoop] at hr
    split at hr
    · cases h1 : body i l with
      | error f => rw [h1] at hr; cases hr
      | ok p =>
        obtain ⟨l1, ops⟩ := p
        rw [h1] at hr
        simp only [] at hr
        cases h2 : sampleLoop body D e n (nextIndex D e i) { l1 with first := 0 } with
        | error f => rw [h2] at hr; cases hr
        | ok q =>
          obtain ⟨l2, ops2⟩ := q
          rw [h2] at hr
          cases hr
          exact ih _ _ (l2, ops2) (Or.inr rfl) h2
    · cases hr
      rcases h with h | h
      · omega
      · exact h

theorem TY_anchor_agree (arr : Prop) (m : SYD_PL_MSTR) (s : SYD_PL_SLAVE) (fuel : Nat) (i : Int)
    (l l' : Locals) :
    OutcomeRel (fun a b => Locals.agree arr { a with first := 0 } { b with first := 0 })
      (TY_anchor m s fuel i l) (TY_anchor m s fuel i l') := by
  unfold TY_anchor
  cases TY_fetchX m fuel i with
  | error e => rfl
  | ok x =>
    cases FetchIthValInto s.pSChan i with
    | error e => rfl
    | ok y => exact ⟨rfl, Or.inr ⟨rfl, rfl, rfl, Or.inr (Or.inr ⟨rfl, rfl⟩)⟩⟩

theorem TY_cont_agree (arr : Prop) (m : SYD_PL_MSTR) (s : SYD_PL_SLAVE) (fuel : Nat) (i : Int)
    (l l' : Locals) (hsk : l.skip = l'.skip) (hx : l.oldX = l'.oldX) (hy : l.oldY = l'.oldY) :
    OutcomeRel (fun a b => Locals.agree arr { a with first := 0 } { b with first := 0 })
      (TY_cont m s fuel i l) (TY_cont m s fuel i l') := by
  unfold TY_cont
  cases TY_fetchX m fuel i with
  | error e => rfl
  | ok x =>
    simp only []
    cases FetchIthValInto s.pSChan i with
    | error e => rfl
    | ok y =>
      simp only [hx, hy]
      exact ⟨rfl, Or.inr ⟨rfl, rfl, hsk, Or.inr (Or.inr ⟨rfl, rfl⟩)⟩⟩

/-- The case analysis shared by the three per-sample bodies: from locals that
agree, the four cases give outcomes that agree, provided the anchor case does
not depend on the locals and the continuation case depends on them through
skip-pending and the last drawn point only. -/
theorem sample_agree (arr : Prop) (missing restart filled : Prop) [Decidable missing]
    [Decidable restart] [Decidable filled]
    (anchor cont : Locals → Except Fault (Locals × List PprCall))
    (hanchor : ∀ l l', OutcomeRel
      (fun a b => Locals.agree arr { a with first := 0 } { b with first := 0 })
      (anchor l) (anchor l'))
    (hcont : ∀ l l', l.skip = l'.skip → (arr ∨ (l.oldX = l'.oldX ∧ l.oldY = l'.oldY)) →
      OutcomeRel (fun a b => Locals.agree arr { a with first := 0 } { b with first := 0 })
        (cont l) (cont l'))
    (l l' : Locals) (h : Locals.agree arr l l') :
    OutcomeRel (fun a b => Locals.agree arr { a with first := 0 } { b with first := 0 })
      (if missing then Except.ok ({ l with skip := 1 }, [])
       else if l.first ≠ 0 ∨ l.skip ≠ 0 ∨ restart then anchor l
       else if filled then Except.ok (l, [])
       else cont l)
      (if missing then Except.ok ({ l' with skip := 1 }, [])
       else if l'.first ≠ 0 ∨ l'.skip ≠ 0 ∨ restart then anchor l'
       else if filled then Except.ok (l', [])
       else cont l') := by
  by_cases hm : missing
  · rw [if_pos hm, if_pos hm]
    exact ⟨rfl, Or.inr ⟨rfl, rfl, rfl, Or.inl (show (1 : Int) ≠ 0 by decide)⟩⟩
  · rw [if_neg hm, if_neg hm]
    rcases h with ⟨h1, h2⟩ | ⟨h1, h2, h3, h4⟩
    · rw [if_pos (Or.inl h1), if_pos (Or.inl h2)]
      exact hanchor l l'
    · by_cases hc : l.skip ≠ 0 ∨ restart
      · rw [if_pos (Or.inr hc), if_pos (Or.inr (h3 ▸ hc))]
        exact hanchor l l'
      · have hc1 : ¬ (l.first ≠ 0 ∨ l.skip ≠ 0 ∨ restart) := by
          rintro (h | h)
          · exact h h1
          · exact hc h
        have hc2 : ¬ (l'.first ≠ 0 ∨ l'.skip ≠ 0 ∨ restart) := by
          rintro (h | h)
          · exact h h2
          · exact hc (h3 ▸ h)
        rw [if_neg hc1, if_neg hc2]
        have hsk : l.skip = 0 := by
          by_contra hne
          exact hc (Or.inl hne)
        have hold : arr ∨ (l.oldX = l'.oldX ∧ l.oldY = l'.oldY) := by
          rcases h4 with h | h | h
          · exact absurd hsk h
          · exact Or.inl h
          · exact Or.inr h
        by_cases hf : filled
        · rw [if_pos hf, if_pos hf]
          refine ⟨rfl, Or.inr ⟨rfl, rfl, h3, ?_⟩⟩
          rcases hold with h | h
          · exact Or.inr (Or.inl h)
          · exact Or.inr (Or.inr h)
        · rw [if_neg hf, if_neg hf]
          exact hcont l l' h3 hold

theorem TY_sample_agree (m : SYD_PL_MSTR) (s : SYD_PL_SLAVE) (fuel : Nat) (i : Int)
    (l l' : Locals) (h : Locals.agree False l l') :
    OutcomeRel (fun a b => Locals.agree False { a with first := 0 } { b with first := 0 })
      (TY_sample m s fuel i l) (TY_sample m s fuel i l') := by
  unfold TY_sample
  exact sample_agree False _ _ _ (TY_anchor m s fuel i) (TY_cont m s fuel i)
    (TY_anchor_agree False m s fuel i)
    (fun l l' hsk ho => TY_cont_agree False m s fuel i l l' hsk
      (ho.elim False.elim And.left) (ho.elim False.elim And.right)) l l' h

theorem Y_sample_agree (m : SYD_PL_MSTR) (s : SYD_PL_SLAVE) (junk : Dbl) (i : Int)
    (l l' : Locals) (h : Locals.agree (s.pSChan.elCount ≠ 1) l l') :
    OutcomeRel (fun a b => Locals.agree (s.pSChan.elCount ≠ 1)
        { a with first := 0 } { b with first := 0 })
      (Y_sample m s junk i l) (Y_sample m s junk i l') := by
  unfold Y_sample
  refine sample_agree (s.pSChan.elCount ≠ 1) _ _ _ (Y_anchor m s junk i) (Y_cont m s junk i)
    ?_ ?_ l l' h
  · intro l l'
    unfold Y_anchor
    by_cases h1 : s.pSChan.elCount = 1
    · rw [if_pos h1, if_pos h1]
      cases FetchIthValInto s.pSChan i with
      | error e => rfl
      | ok y => exact ⟨rfl, Or.inr ⟨rfl, rfl, rfl, Or.inr (Or.inr ⟨rfl, rfl⟩)⟩⟩
    · rw [if_neg h1, if_neg h1]
      cases sydPlot_Yarray s.pArea s.pSChan i junk with
      | error e => rfl
      | ok ops => exact ⟨rfl, Or.inr ⟨rfl, rfl, rfl, Or.inr (Or.inl h1)⟩⟩
  · intro l l' hsk ho
    unfold Y_cont
    by_cases h1 : s.pSChan.elCount = 1
    · rw [if_pos h1, if_pos h1]
      obtain ⟨hx, hy⟩ := ho.resolve_left (fun hn => hn h1)
      simp only []
      cases FetchIthValInto s.pSChan i with
      | error e => rfl
      | ok y =>
        simp only [hx, hy]
        exact ⟨rfl, Or.inr ⟨rfl, rfl, hsk, Or.inr (Or.inr ⟨rfl, rfl⟩)⟩⟩
    · rw [if_neg h1, if_neg h1]
      cases sydPlot_Yarray s.pArea s.pSChan i junk with
      | error e => rfl
      | ok ops => exact ⟨rfl, Or.inr ⟨rfl, rfl, hsk, Or.inr (Or.inl h1)⟩⟩

theorem XY_sample_agree (m : SYD_PL_MSTR) (cx : SYD_CHAN) (s : SYD_PL_SLAVE) (junk : Dbl)
    (i : Int) (l l' : Locals) (h : Locals.agree (XY_nEl cx s.pSChan ≠ 1) l l') :
    OutcomeRel (fun a b => Locals.agree (XY_nEl cx s.pSChan ≠ 1)
        { a with first := 0 } { b with first := 0 })
      (XY_sample m cx s junk i l) (XY_sample m cx s junk i l') := by
  unfold XY_sample
  refine sample_agree (XY_nEl cx s.pSChan ≠ 1) _ _ _ (XY_anchor m cx s junk i)
    (XY_cont m cx s junk i) ?_ ?_ l l' h
  · intro l l'
    unfold XY_anchor
    by_cases h1 : XY_nEl cx s.pSChan = 1
    · rw [if_pos h1, if_pos h1]
      cases FetchIthValInto cx i with
      | error e => rfl
      | ok x =>
        cases FetchIthValInto s.pSChan i with
        | error e => rfl
        | ok y => exact ⟨rfl, Or.inr ⟨rfl, rfl, rfl, Or.inr (Or.inr ⟨rfl, rfl⟩)⟩⟩
    · rw [if_neg h1, if_neg h1]
      cases sydPlot_XYarray s.pArea cx s.pSChan i junk with
      | error e => rfl
      | ok ops => exact ⟨rfl, Or.inr ⟨rfl, rfl, rfl, Or.inr (Or.inl h1)⟩⟩
  · intro l l' hsk ho
    unfold XY_cont
    by_cases h1 : XY_nEl cx s.pSChan = 1
    · rw [if_pos h1, if_pos h1]
      obtain ⟨hx, hy⟩ := ho.resolve_left (fun hn => hn h1)
      cases FetchIthValInto cx i with
      | error e => rfl
      | ok x =>
        cases FetchIthValInto s.pSChan i with
        | error e => rfl
        | ok y =>
          simp only [hx, hy]
          exact ⟨rfl, Or.inr ⟨rfl, rfl, hsk, Or.inr (Or.inr ⟨rfl, rfl⟩)⟩⟩
    · rw [if_neg h1, if_neg h1]
      cases sydPlot_XYarray s.pArea cx s.pSChan i junk with
      | error e => rfl
      | ok ops => exact ⟨rfl, Or.inr ⟨rfl, rfl, hsk, Or.inr (Or.inl h1)⟩⟩

theorem slaveBlock_rel (arr : Prop) (Q : SYD_PL_SLAVE → SYD_PL_SLAVE → Prop)
    (body : Int → Locals → Except Fault (Locals × List PprCall))
    (hbody : ∀ i l l', Locals.agree arr l l' →
      OutcomeRel (fun a b => Locals.agree arr { a with first := 0 } { b with first := 0 })
        (body i l) (body i l'))
    (unconnected : Prop) [Decidable unconnected] (D b e : Int) (fuel : Nat)
    (s : SYD_PL_SLAVE) (c : Locals) (l0 l0' l l' : Locals) (hb : 0 ≤ b)
    (hQ : ∀ a a' : Locals, a.first = a'.first → a.skip = a'.skip →
      Q (saveLocals s a) (saveLocals (saveLocals s c) a'))
    (hC : l.first = l'.first ∧ l.skip = l'.skip)
    (hinit : Locals.agree arr l0 l0') :
    ExceptRel (fun x x' => x.2.2 = x'.2.2 ∧
        (x.2.1.first = x'.2.1.first ∧ x.2.1.skip = x'.2.1.skip) ∧ Q x.1 x'.1)
      (if unconnected then Except.ok (saveLocals s l, l, [])
       else
        match sampleLoop body D e fuel b l0 with
        | Except.error f => Except.error f
        | Except.ok (l1, ops) => Except.ok (saveLocals s l1, l1, ops))
      (if unconnected then Except.ok (saveLocals (saveLocals s c) l', l', [])
       else
        match sampleLoop body D e fuel b l0' with
        | Except.error f => Except.error f
        | Except.ok (l1, ops) => Except.ok (saveLocals (saveLocals s c) l1, l1, ops)) := by
  by_cases hu : unconnected
  · rw [if_pos hu, if_pos hu]
    exact ⟨rfl, hC, hQ l l' hC.1 hC.2⟩
  · rw [if_neg hu, if_neg hu]
    have hrel := sampleLoop_rel (Locals.agree arr) body body D e hbody fuel b l0 l0' hinit
    cases h1 : sampleLoop body D e fuel b l0 with
    | error f =>
      cases h2 : sampleLoop body D e fuel b l0' with
      | error g => rw [h1, h2] at hrel; exact hrel
      | ok r' => rw [h1, h2] at hrel; exact hrel.elim
    | ok r =>
      cases h2 : sampleLoop body D e fuel b l0' with
      | error g => rw [h1, h2] at hrel; exact hrel.elim
      | ok r' =>
        rw [h1, h2] at hrel
        have hf := sampleLoop_first body D e fuel b l0 r (Or.inl hb) h1
        have hf' := sampleLoop_first body D e fuel b l0' r' (Or.inl hb) h2
        obtain ⟨l1, ops⟩ := r
        obtain ⟨l1', ops'⟩ := r'
        obtain ⟨hops, hag⟩ := hrel
        simp only [] at hf hf'
        have hsk : l1.skip = l1'.skip := by
          rcases hag with ⟨h, _⟩ | ⟨_, _, h, _⟩
          · exact absurd hf h
          · exact h
        exact ⟨hops, ⟨by rw [hf, hf'], hsk⟩, hQ l1 l1' (by rw [hf, hf']) hsk⟩

theorem slaveLoop_rel (Q : SYD_PL_SLAVE → SYD_PL_SLAVE → Prop)
    (f f' : SYD_PL_SLAVE → Locals → Except Fault (SYD_PL_SLAVE × Locals × List PprCall))
    (g : SYD_PL_SLAVE → SYD_PL_SLAVE) :
    ∀ (ss : List SYD_PL_SLAVE),
      (∀ s ∈ ss, ∀ l l', (l.first = l'.first ∧ l.skip = l'.skip) →
        ExceptRel (fun x x' => x.2.2 = x'.2.2 ∧
            (x.2.1.first = x'.2.1.first ∧ x.2.1.skip = x'.2.1.skip) ∧ Q x.1 x'.1)
          (f s l) (f' (g s) l')) →
      ∀ l l', (l.first = l'.first ∧ l.skip = l'.skip) →
        ExceptRel (fun x x' => x.2.2 = x'.2.2 ∧
            (x.2.1.first = x'.2.1.first ∧ x.2.1.skip = x'.2.1.skip) ∧
            List.Forall₂ Q x.1 x'.1)
          (slaveLoop f ss l) (slaveLoop f' (ss.map g) l') := by
  intro ss
  induction ss with
  | nil => intro _ l l' hC; exact ⟨rfl, hC, List.Forall₂.nil⟩
  | cons s rest ih =>
    intro hf l l' hC
    have h1 := hf s (List.mem_cons_self s rest) l l' hC
    simp only [List.map_cons, slaveLoop]
    cases hs : f s l with
    | error e =>
      cases hs' : f' (g s) l' with
      | error e' => rw [hs, hs'] at h1; exact h1
      | ok r' => rw [hs, hs'] at h1; exact h1.elim
    | ok r =>
      cases hs' : f' (g s) l' with
      | error e' => rw [hs, hs'] at h1; exact h1.elim
      | ok r' =>
        rw [hs, hs'] at h1
        obtain ⟨s1, l1, ops⟩ := r
        obtain ⟨s1', l1', ops'⟩ := r'
        obtain ⟨hops, hC1, hQ1⟩ := h1
        simp only [] at hops hC1 hQ1
        have h2 := ih (fun t ht => hf t (List.mem_cons_of_mem s ht)) l1 l1' hC1
        simp only []
        cases hr : slaveLoop f rest l1 with
        | error e =>
          cases hr' : slaveLoop f' (rest.map g) l1' with
          | error e' => rw [hr, hr'] at h2; exact h2
          | ok q' => rw [hr, hr'] at h2; exact h2.elim
        | ok q =>
          cases hr' : slaveLoop f' (rest.map g) l1' with
          | error e' => rw [hr, hr'] at h2; exact h2.elim
          | ok q' =>
            rw [hr, hr'] at h2
            obtain ⟨r1, l2, ops2⟩ := q
            obtain ⟨r1', l2', ops2'⟩ := q'
            obtain ⟨hops2, hC2, hQ2⟩ := h2
            simp only [] at hops2 hC2 hQ2
            exact ⟨by simp only []; rw [hops, hops2], hC2, List.Forall₂.cons hQ1 hQ2⟩

theorem XY_slaveLoop_rel (Q : SYD_PL_SLAVE → SYD_PL_SLAVE → Prop)
    (f f' : SYD_PL_SLAVE → Locals → Except Fault (SYD_PL_SLAVE × Locals × List PprCall))
    (g : SYD_PL_SLAVE → SYD_PL_SLAVE) (xIdx : Nat) (hg : ∀ s, Q s (g s)) :
    ∀ (ss : List SYD_PL_SLAVE) (k : Nat),
      (∀ s ∈ ss, ∀ l l', (l.first = l'.first ∧ l.skip = l'.skip) →
        ExceptRel (fun x x' => x.2.2 = x'.2.2 ∧
            (x.2.1.first = x'.2.1.first ∧ x.2.1.skip = x'.2.1.skip) ∧ Q x.1 x'.1)
          (f s l) (f' (g s) l')) →
      ∀ l l', (l.first = l'.first ∧ l.skip = l'.skip) →
        ExceptRel (fun x x' => x.2.2 = x'.2.2 ∧
            (x.2.1.first = x'.2.1.first ∧ x.2.1.skip = x'.2.1.skip) ∧
            List.Forall₂ Q x.1 x'.1)
          (XY_slaveLoop f xIdx ss k l) (XY_slaveLoop f' xIdx (ss.map g) k l') := by
  intro ss
  induction ss with
  | nil => intro _ _ l l' hC; exact ⟨rfl, hC, List.Forall₂.nil⟩
  | cons s rest ih =>
    intro k hf l l' hC
    simp only [List.map_cons, XY_slaveLoop]
    by_cases hk : k = xIdx
    · rw [if_pos hk, if_pos hk]
      have h2 := ih (k + 1) (fun t ht => hf t (List.mem_cons_of_mem s ht)) l l' hC
      cases hr : XY_slaveLoop f xIdx rest (k + 1) l with
      | error e =>
        cases hr' : XY_slaveLoop f' xIdx (rest.map g) (k + 1) l' with
        | error e' => rw [hr, hr'] at h2; exact h2
        | ok q' => rw [hr, hr'] at h2; exact h2.elim
      | ok q =>
        cases hr' : XY_slaveLoop f' xIdx (rest.map g) (k + 1) l' with
        | error e' => rw [hr, hr'] at h2; exact h2.elim
        | ok q' =>
          rw [hr, hr'] at h2
          obtain ⟨r1, l2, ops2⟩ := q
          obtain ⟨r1', l2', ops2'⟩ := q'
          obtain ⟨hops2, hC2, hQ2⟩ := h2
          exact ⟨hops2, hC2, List.Forall₂.cons (hg s) hQ2⟩
    · rw [if_neg hk, if_neg hk]
      have h1 := hf s (List.mem_cons_self s rest) l l' hC
      cases hs : f s l with
      | error e =>
        cases hs' : f' (g s) l' with
        | error e' => rw [hs, hs'] at h1; exact h1
        | ok r' => rw [hs, hs'] at h1; exact h1.elim
      | ok r =>
        cases hs' : f' (g s) l' with
        | error e' => rw [hs, hs'] at h1; exact h1.elim
        | ok r' =>
          rw [hs, hs'] at h1
          obtain ⟨s1, l1, ops⟩ := r
          obtain ⟨s1', l1', ops'⟩ := r'
          obtain ⟨hops, hC1, hQ1⟩ := h1
          simp only [] at hops hC1 hQ1
          have h2 := ih (k + 1) (fun t ht => hf t (List.mem_cons_of_mem s ht)) l1 l1' hC1
          simp only []
          cases hr : XY_slaveLoop f xIdx rest (k + 1) l1 with
          | error e =>
            cases hr' : XY_slaveLoop f' xIdx (rest.map g) (k + 1) l1' with
            | error e' => rw [hr, hr'] at h2; exact h2
            | ok q' => rw [hr, hr'] at h2; exact h2.elim
          | ok q =>
            cases hr' : XY_slaveLoop f' xIdx (rest.map g) (k + 1) l1' with
            | error e' => rw [hr, hr'] at h2; exact h2.elim
            | ok q' =>
              rw [hr, hr'] at h2
              obtain ⟨r1, l2, ops2⟩ := q
              obtain ⟨r1', l2', ops2'⟩ := q'
              obtain ⟨hops2, hC2, hQ2⟩ := h2
              simp only [] at hops2 hC2 hQ2
              exact ⟨by simp only []; rw [hops, hops2], hC2, List.Forall₂.cons hQ1 hQ2⟩

theorem xSearch_map (g : SYD_PL_SLAVE → SYD_PL_SLAVE) (hg : ∀ s, (g s).xChan = s.xChan) :
    ∀ (ss : List SYD_PL_SLAVE) (k : Nat), xSearch (ss.map g) k = xSearch ss k := by
  intro ss
  induction ss with
  | nil => intro k; rfl
  | cons s rest ih =>
    intro k
    simp only [List.map_cons, xSearch, hg, ih]

theorem findXSlave_map (g : SYD_PL_SLAVE → SYD_PL_SLAVE) (hg : ∀ s, (g s).xChan = s.xChan)
    (ss : List SYD_PL_SLAVE) : findXSlave (ss.map g) = findXSlave ss := by
  cases ss with
  | nil => rfl
  | cons s rest =>
    simp only [List.map_cons, findXSlave]
    rw [← List.map_cons, xSearch_map g hg]

theorem TYSamples_rel (Q : SYD_PL_SLAVE → SYD_PL_SLAVE → Prop) (m : SYD_PL_MSTR)
    (store : SYD_PL_SLAVE → Locals) (b e incr incr' : Int) (fuel : Nat) (l l' : Locals)
    (hb : 0 ≤ b) (hC : l.first = l'.first ∧ l.skip = l'.skip)
    (hQ : ∀ (s : SYD_PL_SLAVE) (a a' : Locals), a.first = a'.first → a.skip = a'.skip →
      Q (saveLocals s a) (saveLocals (saveLocals s (store s)) a'))
    (hinit : ∀ s ∈ m.slaves, ∀ a a' : Locals, (loadLocals s incr a).first ≠ 0 ∧
      (loadLocals (saveLocals s (store s)) incr' a').first ≠ 0) :
    ExceptRel (fun r r' => r.2 = r'.2 ∧ List.Forall₂ Q r.1.slaves r'.1.slaves ∧
        { r.1 with slaves := [] } = { r'.1 with slaves := [] })
      (sydPlot_TYSamples m b e incr fuel l)
      (sydPlot_TYSamples { m with slaves := m.slaves.map fun s => saveLocals s (store s) }
        b e incr' fuel l') := by
  unfold sydPlot_TYSamples
  have hf : TY_slave { m with slaves := m.slaves.map fun s => saveLocals s (store s) }
      b e incr' fuel = TY_slave m b e incr' fuel := rfl
  rw [hf]
  have h := slaveLoop_rel Q (TY_slave m b e incr fuel) (TY_slave m b e incr' fuel)
    (fun s => saveLocals s (store s)) m.slaves
    (fun s hs a a' hCa => by
      unfold TY_slave
      exact slaveBlock_rel False Q (TY_sample m s fuel) (TY_sample_agree m s fuel) _
        m.pSspec.dataDim b e fuel s (store s) _ _ a a' hb (hQ s) hCa
        (Or.inl (hinit s hs a a')))
    l l' hC
  simp only []
  cases h1 : slaveLoop (TY_slave m b e incr fuel) m.slaves l with
  | error f =>
    cases h2 : slaveLoop (TY_slave m b e incr' fuel)
        (m.slaves.map fun s => saveLocals s (store s)) l' with
    | error g => rw [h1, h2] at h; exact h
    | ok r' => rw [h1, h2] at h; exact h.elim
  | ok r =>
    cases h2 : slaveLoop (TY_slave m b e incr' fuel)
        (m.slaves.map fun s => saveLocals s (store s)) l' with
    | error g => rw [h1, h2] at h; exact h.elim
    | ok r' =>
      rw [h1, h2] at h
      obtain ⟨ss, l1, ops⟩ := r
      obtain ⟨ss', l1', ops'⟩ := r'
      exact ⟨h.1, h.2.2, rfl⟩

theorem YSamples_rel (Q : SYD_PL_SLAVE → SYD_PL_SLAVE → Prop) (m : SYD_PL_MSTR)
    (store : SYD_PL_SLAVE → Locals) (b e incr incr' : Int) (fuel : Nat) (l l' : Locals)
    (junk : Dbl) (hb : 0 ≤ b) (hC : l.first = l'.first ∧ l.skip = l'.skip)
    (hQ : ∀ (s : SYD_PL_SLAVE) (a a' : Locals), a.first = a'.first → a.skip = a'.skip →
      Q (saveLocals s a) (saveLocals (saveLocals s (store s)) a'))
    (hinit : ∀ s ∈ m.slaves, ∀ a a' : Locals, (loadLocals s incr a).first ≠ 0 ∧
      (loadLocals (saveLocals s (store s)) incr' a').first ≠ 0) :
    ExceptRel (fun r r' => r.2 = r'.2 ∧ List.Forall₂ Q r.1.slaves r'.1.slaves ∧
        { r.1 with slaves := [] } = { r'.1 with slaves := [] })
      (sydPlot_YSamples m b e incr fuel l junk)
      (sydPlot_YSamples { m with slaves := m.slaves.map fun s => saveLocals s (store s) }
        b e incr' fuel l' junk) := by
  unfold sydPlot_YSamples
  have hf : Y_slave { m with slaves := m.slaves.map fun s => saveLocals s (store s) }
      b e incr' fuel junk = Y_slave m b e incr' fuel junk := rfl
  rw [hf]
  have h := slaveLoop_rel Q (Y_slave m b e incr fuel junk) (Y_slave m b e incr' fuel junk)
    (fun s => saveLocals s (store s)) m.slaves
    (fun s hs a a' hCa => by
      unfold Y_slave
      exact slaveBlock_rel (s.pSChan.elCount ≠ 1) Q (Y_sample m s junk)
        (Y_sample_agree m s junk) _
        m.pSspec.dataDim b e fuel s (store s) _ _ a a' hb (hQ s) hCa
        (Or.inl (hinit s hs a a')))
    l l' hC
  simp only []
  cases h1 : slaveLoop (Y_slave m b e incr fuel junk) m.slaves l with
  | error f =>
    cases h2 : slaveLoop (Y_slave m b e incr' fuel junk)
        (m.slaves.map fun s => saveLocals s (store s)) l' with
    | error g => rw [h1, h2] at h; exact h
    | ok r' => rw [h1, h2] at h; exact h.elim
  | ok r =>
    cases h2 : slaveLoop (Y_slave m b e incr' fuel junk)
        (m.slaves.map fun s => saveLocals s (store s)) l' with
    | error g => rw [h1, h2] at h; exact h.elim
    | ok r' =>
      rw [h1, h2] at h
      obtain ⟨ss, l1, ops⟩ := r
      obtain ⟨ss', l1', ops'⟩ := r'
      exact ⟨h.1, h.2.2, rfl⟩

theorem XYSamples_rel (Q : SYD_PL_SLAVE → SYD_PL_SLAVE → Prop) (m : SYD_PL_MSTR)
    (store : SYD_PL_SLAVE → Locals) (b e incr incr' : Int) (fuel : Nat) (l l' : Locals)
    (junk : Dbl) (hb : 0 ≤ b) (hC : l.first = l'.first ∧ l.skip = l'.skip)
    (hQ : ∀ (s : SYD_PL_SLAVE) (a a' : Locals), a.first = a'.first → a.skip = a'.skip →
      Q (saveLocals s a) (saveLocals (saveLocals s (store s)) a'))
    (hQx : ∀ s, Q s (saveLocals s (store s)))
    (hinit : ∀ s ∈ m.slaves, ∀ a a' : Locals, (loadLocals s incr a).first ≠ 0 ∧
      (loadLocals (saveLocals s (store s)) incr' a').first ≠ 0) :
    ExceptRel (fun r r' => r.2 = r'.2 ∧ List.Forall₂ Q r.1.slaves r'.1.slaves ∧
        { r.1 with slaves := [] } = { r'.1 with slaves := [] })
      (sydPlot_XYSamples m b e incr fuel l junk)
      (sydPlot_XYSamples { m with slaves := m.slaves.map fun s => saveLocals s (store s) }
        b e incr' fuel l' junk) := by
  unfold sydPlot_XYSamples
  simp only []
  rw [findXSlave_map (fun s => saveLocals s (store s)) (fun _ => rfl)]
  cases findXSlave m.slaves with
  | error f => exact rfl
  | ok xIdx =>
    simp only [List.get?_eq_getElem?, List.getElem?_map]
    cases hx : m.slaves[xIdx]? with
    | none => exact rfl
    | some sx =>
      simp only [Option.map_some']
      have hf : XY_slave { m with slaves := m.slaves.map fun s => saveLocals s (store s) }
          (saveLocals sx (store sx)).pSChan b e incr' fuel junk =
          XY_slave m sx.pSChan b e incr' fuel junk := rfl
      rw [hf]
      have h := XY_slaveLoop_rel Q (XY_slave m sx.pSChan b e incr fuel junk)
        (XY_slave m sx.pSChan b e incr' fuel junk)
        (fun s => saveLocals s (store s)) xIdx hQx m.slaves 0
        (fun s hs a a' hCa => by
          unfold XY_slave
          exact slaveBlock_rel (XY_nEl sx.pSChan s.pSChan ≠ 1) Q (XY_sample m sx.pSChan s junk)
            (XY_sample_agree m sx.pSChan s junk) _
            m.pSspec.dataDim b e fuel s (store s) _ _ a a' hb (hQ s) hCa
            (Or.inl (hinit s hs a a')))
        l l' hC
      cases h1 : XY_slaveLoop (XY_slave m sx.pSChan b e incr fuel junk) xIdx m.slaves 0 l with
      | error f =>
        cases h2 : XY_slaveLoop (XY_slave m sx.pSChan b e incr' fuel junk) xIdx
            (m.slaves.map fun s => saveLocals s (store s)) 0 l' with
        | error g => rw [h1, h2] at h; exact h
        | ok r' => rw [h1, h2] at h; exact h.elim
      | ok r =>
        cases h2 : XY_slaveLoop (XY_slave m sx.pSChan b e incr' fuel junk) xIdx
            (m.slaves.map fun s => saveLocals s (store s)) 0 l' with
        | error g => rw [h1, h2] at h; exact h.elim
        | ok r' =>
          rw [h1, h2] at h
          obtain ⟨ss, l1, ops⟩ := r
          obtain ⟨ss', l1', ops'⟩ := r'
          exact ⟨h.1, h.2.2, rfl⟩

theorem sydPlotSamples_TY (m : SYD_PL_MSTR) (b e incr : Int) (fuel : Nat) (l : Locals)
    (junk : Dbl) (h : m.plotAxis = SYD_PLAX.TY ∨ m.plotAxis = SYD_PLAX.TYY) :
    sydPlotSamples m b e incr fuel l junk = sydPlot_TYSamples m b e incr fuel l := by
  unfold sydPlotSamples
  rcases h with h | h <;> simp [h]

theorem sydPlotSamples_Y (m : SYD_PL_MSTR) (b e incr : Int) (fuel : Nat) (l : Locals)
    (junk : Dbl) (h : m.plotAxis = SYD_PLAX.Y ∨ m.plotAxis = SYD_PLAX.YY) :
    sydPlotSamples m b e incr fuel l junk = sydPlot_YSamples m b e incr fuel l junk := by
  unfold sydPlotSamples
  rcases h with h | h <;> simp [h]

theorem sydPlotSamples_XY (m : SYD_PL_MSTR) (b e incr : Int) (fuel : Nat) (l : Locals)
    (junk : Dbl)
    (h : m.plotAxis = SYD_PLAX.XY ∨ m.plotAxis = SYD_PLAX.XYY ∨
      m.plotAxis = SYD_PLAX.SMITH_IMP ∨ m.plotAxis = SYD_PLAX.SMITH_ADM ∨
      m.plotAxis = SYD_PLAX.SMITH_IMM) :
    sydPlotSamples m b e incr fuel l junk = sydPlot_XYSamples m b e incr fuel l junk := by
  unfold sydPlotSamples sydPlot_SmithSamples
  rcases h with h | h | h | h | h <;> simp [h]

theorem sydPlotSamples_UNDEF (m : SYD_PL_MSTR) (b e incr : Int) (fuel : Nat) (l : Locals)
    (junk : Dbl) (h : m.plotAxis = SYD_PLAX.UNDEF) :
    sydPlotSamples m b e incr fuel l junk = Except.error Fault.assertFail := by
  unfold sydPlotSamples
  simp [h]

theorem plotAxis_cases (a : SYD_PLAX) :
    (a = SYD_PLAX.TY ∨ a = SYD_PLAX.TYY) ∨ (a = SYD_PLAX.Y ∨ a = SYD_PLAX.YY) ∨
      (a = SYD_PLAX.XY ∨ a = SYD_PLAX.XYY ∨ a = SYD_PLAX.SMITH_IMP ∨ a = SYD_PLAX.SMITH_ADM ∨
        a = SYD_PLAX.SMITH_IMM) ∨ a = SYD_PLAX.UNDEF := by
  cases a <;> simp

theorem sydPlotSamples_rel (Q : SYD_PL_SLAVE → SYD_PL_SLAVE → Prop) (m : SYD_PL_MSTR)
    (store : SYD_PL_SLAVE → Locals) (b e incr incr' : Int) (fuel : Nat) (l l' : Locals)
    (junk : Dbl) (hb : 0 ≤ b) (hC : l.first = l'.first ∧ l.skip = l'.skip)
    (hQ : ∀ (s : SYD_PL_SLAVE) (a a' : Locals), a.first = a'.first → a.skip = a'.skip →
      Q (saveLocals s a) (saveLocals (saveLocals s (store s)) a'))
    (hQx : ∀ s, Q s (saveLocals s (store s)))
    (hinit : ∀ s ∈ m.slaves, ∀ a a' : Locals, (loadLocals s incr a).first ≠ 0 ∧
      (loadLocals (saveLocals s (store s)) incr' a').first ≠ 0) :
    ExceptRel (fun r r' => r.2 = r'.2 ∧ List.Forall₂ Q r.1.slaves r'.1.slaves ∧
        { r.1 with slaves := [] } = { r'.1 with slaves := [] })
      (sydPlotSamples m b e incr fuel l junk)
      (sydPlotSamples { m with slaves := m.slaves.map fun s => saveLocals s (store s) }
        b e incr' fuel l' junk) := by
  have hTY := TYSamples_rel Q m store b e incr incr' fuel l l' hb hC hQ hinit
  have hY := YSamples_rel Q m store b e incr incr' fuel l l' junk hb hC hQ hinit
  have hXY := XYSamples_rel Q m store b e incr incr' fuel l l' junk hb hC hQ hQx hinit
  rcases plotAxis_cases m.plotAxis with h | h | h | h
  · rw [sydPlotSamples_TY m b e incr fuel l junk h,
      sydPlotSamples_TY { m with slaves := m.slaves.map fun s => saveLocals s (store s) }
        b e incr' fuel l' junk h]
    exact hTY
  · rw [sydPlotSamples_Y m b e incr fuel l junk h,
      sydPlotSamples_Y { m with slaves := m.slaves.map fun s => saveLocals s (store s) }
        b e incr' fuel l' junk h]
    exact hY
  · rw [sydPlotSamples_XY m b e incr fuel l junk h,
      sydPlotSamples_XY { m with slaves := m.slaves.map fun s => saveLocals s (store s) }
        b e incr' fuel l' junk h]
    exact hXY
  · rw [sydPlotSamples_UNDEF m b e incr fuel l junk h,
      sydPlotSamples_UNDEF { m with slaves := m.slaves.map fun s => saveLocals s (store s) }
        b e incr' fuel l' junk h]
    exact rfl

theorem ExceptRel_mono {α β : Type} (R S : α → β → Prop) (h : ∀ a b, R a b → S a b)
    (x : Except Fault α) (y : Except Fault β) (hxy : ExceptRel R x y) : ExceptRel S x y := by
  cases x with
  | error f => cases y with
    | error g => exact hxy
    | ok r => exact hxy
  | ok r => cases y with
    | error g => exact hxy
    | ok r' => exact h _ _ hxy

theorem map_saveLocals_self (ss : List SYD_PL_SLAVE) :
    (ss.map fun s => saveLocals s
      { first := s.first, skip := s.skip, oldX := s.oldX, oldY := s.oldY }) = ss := by
  induction ss with
  | nil => rfl
  | cons s rest ih => rw [List.map_cons, ih]; rfl

theorem plotGlyphs_no_seg (m : SYD_PL_MSTR) (a : Option Nat) (mk : Int) (x y : Dbl) (c : Char) :
    ∀ op ∈ plotGlyphs m a mk x y c, op.isLineSeg = false := by
  intro op hop
  unfold plotGlyphs at hop
  rw [List.mem_append] at hop
  rcases hop with h | h
  · split at h
    · rw [List.mem_singleton] at h; subst h; rfl
    · cases h
  · split at h
    · rw [List.mem_singleton] at h; subst h; rfl
    · split at h
      · rw [List.mem_singleton] at h; subst h; rfl
      · cases h

theorem TY_anchor_first (m : SYD_PL_MSTR) (s : SYD_PL_SLAVE) (fuel : Nat) (j : Int)
    (l l' : Locals) (_ho : l.oldX = l'.oldX ∧ l.oldY = l'.oldY) :
    (TY_anchor m s fuel j l).map (fun r => ({ r.1 with first := 0 }, r.2)) =
      (TY_anchor m s fuel j l').map (fun r => ({ r.1 with first := 0 }, r.2)) := by
  unfold TY_anchor
  cases TY_fetchX m fuel j with
  | error e => rfl
  | ok x =>
    cases FetchIthValInto s.pSChan j with
    | error e => rfl
    | ok y => rfl

theorem Y_anchor_first (m : SYD_PL_MSTR) (s : SYD_PL_SLAVE) (junk : Dbl) (j : Int)
    (l l' : Locals) (ho : l.oldX = l'.oldX ∧ l.oldY = l'.oldY) :
    (Y_anchor m s junk j l).map (fun r => ({ r.1 with first := 0 }, r.2)) =
      (Y_anchor m s junk j l').map (fun r => ({ r.1 with first := 0 }, r.2)) := by
  unfold Y_anchor
  split
  · cases FetchIthValInto s.pSChan j with
    | error e => rfl
    | ok y => rfl
  · cases sydPlot_Yarray s.pArea s.pSChan j junk with
    | error e => rfl
    | ok ops => simp [Except.map, ho.1, ho.2]

theorem runSamples_cons_ok (body : Int → Locals → Except Fault (Locals × List PprCall))
    (i : Int) (rest : List Int) (l l1 : Locals) (ops : List PprCall)
    (h : body i l = Except.ok (l1, ops)) :
    runSamples body (i :: rest) l =
      match runSamples body rest { l1 with first := 0 } with
      | Except.error f => Except.error f
      | Except.ok (l2, ops2) => Except.ok (l2, ops ++ ops2) := by
  simp only [runSamples, h]

theorem runSamples_single (body : Int → Locals → Except Fault (Locals × List PprCall))
    (j : Int) (l : Locals) :
    runSamples body [j] l = (body j l).map (fun r => ({ r.1 with first := 0 }, r.2)) := by
  simp only [runSamples]
  cases body j l with
  | error e => rfl
  | ok r => obtain ⟨l1, ops⟩ := r; simp [Except.map]

/-- The run over a gap of missing samples followed by a sample that is not
missing, for a body made of the four cases. -/
theorem runSamples_gap (body : Int → Locals → Except Fault (Locals × List PprCall))
    (missing restart filled : Int → Prop) [DecidablePred missing]
    [DecidablePred restart] [DecidablePred filled]
    (anchor cont : Int → Locals → Except Fault (Locals × List PprCall))
    (hbody : ∀ i l, body i l =
      if missing i then Except.ok ({ l with skip := 1 }, [])
      else if l.first ≠ 0 ∨ l.skip ≠ 0 ∨ restart i then anchor i l
      else if filled i then Except.ok (l, [])
      else cont i l)
    (hanchor : ∀ j l l', (l.oldX = l'.oldX ∧ l.oldY = l'.oldY) →
      (anchor j l).map (fun r => ({ r.1 with first := 0 }, r.2)) =
        (anchor j l').map (fun r => ({ r.1 with first := 0 }, r.2)))
    (j : Int) (hj : ¬ missing j) :
    ∀ (gap : List Int) (l : Locals), (∀ k ∈ gap, missing k) → (l.first ≠ 0 ∨ l.skip ≠ 0) →
      runSamples body (gap ++ [j]) l =
        (anchor j l).map (fun r => ({ r.1 with first := 0 }, r.2)) := by
  intro gap
  induction gap with
  | nil =>
    intro l _ hl
    have hc : l.first ≠ 0 ∨ l.skip ≠ 0 ∨ restart j := by
      rcases hl with h | h
      · exact Or.inl h
      · exact Or.inr (Or.inl h)
    rw [List.nil_append, runSamples_single, hbody, if_neg hj, if_pos hc]
  | cons k rest ih =>
    intro l hgap hl
    have hk : missing k := hgap k (List.mem_cons_self k rest)
    have h := ih { first := 0, skip := 1, oldX := l.oldX, oldY := l.oldY }
      (fun t ht => hgap t (List.mem_cons_of_mem k ht)) (Or.inr (show (1 : Int) ≠ 0 by decide))
    have hbk : body k l = Except.ok ({ l with skip := 1 }, []) := by rw [hbody, if_pos hk]
    rw [List.cons_append, runSamples_cons_ok body k _ l _ _ hbk]
    have h2 : runSamples body (rest ++ [j])
        { ({ l with skip := 1 } : Locals) with first := 0 } =
        (anchor j l).map (fun r => ({ r.1 with first := 0 }, r.2)) := by
      rw [← hanchor j { first := 0, skip := 1, oldX := l.oldX, oldY := l.oldY } l ⟨rfl, rfl⟩]
      exact h
    rw [h2]
    cases anchor j l with
    | error e => rfl
    | ok r => obtain ⟨l1, ops⟩ := r; simp [Except.map]

theorem TY_sample_skip (m : SYD_PL_MSTR) (s : SYD_PL_SLAVE) (fuel : Nat) (i : Int)
    (l : Locals) (r : Locals × List PprCall) (hm : (s.pSChan.pFlags i).missing = false)
    (hr : TY_sample m s fuel i l = Except.ok r) : r.1.skip = 0 := by
  unfold TY_sample at hr
  rw [hm] at hr
  simp only [Bool.false_eq_true, if_false] at hr
  split at hr
  · unfold TY_anchor at hr
    cases hx : TY_fetchX m fuel i with
    | error e => rw [hx] at hr; cases hr
    | ok x =>
      cases hy : FetchIthValInto s.pSChan i with
      | error e => rw [hx, hy] at hr; cases hr
      | ok y => rw [hx, hy] at hr; cases hr; rfl
  · rename_i hc
    have hsk : l.skip = 0 := by
      by_contra hne
      exact hc (Or.inr (Or.inl hne))
    split at hr
    · cases hr; exact hsk
    · unfold TY_cont at hr
      cases hx : TY_fetchX m fuel i with
      | error e => rw [hx] at hr; cases hr
      | ok x =>
        cases hy : FetchIthValInto s.pSChan i with
        | error e => rw [hx, hy] at hr; cases hr
        | ok y => rw [hx, hy] at hr; cases hr; exact hsk

theorem runSamples_skip (m : SYD_PL_MSTR) (s : SYD_PL_SLAVE) (fuel : Nat)
    (hm : ∀ i, (s.pSChan.pFlags i).missing = false) :
    ∀ (is : List Int) (l : Locals) (r : Locals × List PprCall), is ≠ [] →
      runSamples (TY_sample m s fuel) is l = Except.ok r → r.1.skip = 0 := by
  intro is
  induction is with
  | nil => intro l r h; exact absurd rfl h
  | cons i rest ih =>
    intro l r _ hr
    simp only [runSamples] at hr
    cases hb : TY_sample m s fuel i l with
    | error f => rw [hb] at hr; cases hr
    | ok p =>
      obtain ⟨l1, ops⟩ := p
      rw [hb] at hr
      simp only [] at hr
      cases hrest : runSamples (TY_sample m s fuel) rest { l1 with first := 0 } with
      | error f => rw [hrest] at hr; cases hr
      | ok q =>
        obtain ⟨l2, ops2⟩ := q
        rw [hrest] at hr
        simp only [] at hr
        cases hr
        cases rest with
        | nil =>
          simp only [runSamples] at hrest
          cases hrest
          exact TY_sample_skip m s fuel i l (l1, ops) (hm i) hb
        | cons j rest2 => exact ih _ (l2, ops2) (by simp) hrest

theorem arrayEl_eq (c : SYD_CHAN) (d : Int → Dbl) (junk : Dbl) (n : Int)
    (hd : c.pData = some d) (ht : c.dbrType ≠ DbrType.STRING) :
    arrayEl c junk n = Except.ok (arrayVal c d n) := by
  unfold arrayEl arrayVal
  cases h : c.dbrType
  case STRING => exact absurd h ht
  all_goals simp [hd]

theorem Yarray_loop_eq (a : Option Nat) (c : SYD_CHAN) (d : Int → Dbl) (sub : Int)
    (junk : Dbl) (hd : c.pData = some d) (ht : c.dbrType ≠ DbrType.STRING) :
    ∀ (n : Nat) (p : Int), 0 ≤ p →
      Yarray_loop a c sub junk n (p + 1) ((p : Dbl), arrayVal c d (sub * c.elCount + p)) =
        Except.ok ((List.range n).map fun (t : Nat) =>
          PprCall.pprLineSegD a ((p + (t : Int) : Int) : Dbl)
            (arrayVal c d (sub * c.elCount + (p + (t : Int))))
            ((p + (t : Int) + 1 : Int) : Dbl)
            (arrayVal c d (sub * c.elCount + (p + (t : Int) + 1)))) := by
  intro n
  induction n with
  | zero => intro p _; rfl
  | succ n ih =>
    intro p hp
    have h := ih (p + 1) (by omega)
    simp only [Yarray_loop, arrayEl_eq c d junk _ hd ht]
    rw [h]
    simp only [if_pos (show p + 1 > 0 by omega)]
    rw [List.range_succ_eq_map, List.map_cons, List.map_map]
    simp only [List.singleton_append, Nat.cast_zero, add_zero]
    congr 2
    apply List.map_congr_left
    intro t _
    simp only [Function.comp, Nat.cast_succ]
    have e1 : p + 1 + (t : Int) = p + ((t : Int) + 1) := by ring
    rw [e1]

theorem Yarray_eq (a : Option Nat) (c : SYD_CHAN) (d : Int → Dbl) (sub : Int) (junk : Dbl)
    (hd : c.pData = some d) (ht : c.dbrType ≠ DbrType.STRING) (hk : 1 ≤ c.elCount) :
    sydPlot_Yarray a c sub junk = Except.ok (polyline a c d sub c.elCount) := by
  unfold sydPlot_Yarray polyline
  obtain ⟨n, hn⟩ : ∃ n : Nat, c.elCount.toNat = n + 1 := ⟨c.elCount.toNat - 1, by omega⟩
  have hn2 : (c.elCount - 1).toNat = n := by omega
  rw [hn, hn2]
  simp only [Yarray_loop, arrayEl_eq c d junk _ hd ht]
  have h := Yarray_loop_eq a c d sub junk hd ht n 0 (le_refl 0)
  rw [h]
  simp

theorem Y_anchor_array (m : SYD_PL_MSTR) (s : SYD_PL_SLAVE) (d : Int → Dbl) (junk : Dbl)
    (i : Int) (l : Locals) (hd : s.pSChan.pData = some d)
    (ht : s.pSChan.dbrType ≠ DbrType.STRING) (hk : 2 ≤ s.pSChan.elCount) :
    Y_anchor m s junk i l =
        Except.ok ({ l with skip := 0 }, polyline s.pArea s.pSChan d i s.pSChan.elCount) ∧
      Y_cont m s junk i l =
        Except.ok (l, polyline s.pArea s.pSChan d i s.pSChan.elCount) := by
  have hne : s.pSChan.elCount ≠ 1 := by omega
  unfold Y_anchor Y_cont
  rw [if_neg hne, if_neg hne, Yarray_eq s.pArea s.pSChan d i junk hd ht (by omega)]
  exact ⟨rfl, rfl⟩

theorem XY_sample_skip (m : SYD_PL_MSTR) (cx : SYD_CHAN) (s : SYD_PL_SLAVE) (junk : Dbl)
    (i : Int) (l : Locals) (r : Locals × List PprCall)
    (hm : ¬ ((s.pSChan.pFlags i).missing = true ∨ (cx.pFlags i).missing = true))
    (hr : XY_sample m cx s junk i l = Except.ok r) : r.1.skip = 0 := by
  unfold XY_sample at hr
  rw [if_neg hm] at hr
  split at hr
  · unfold XY_anchor at hr
    split at hr
    · cases hx : FetchIthValInto cx i with
      | error e => rw [hx] at hr; cases hr
      | ok x =>
        cases hy : FetchIthValInto s.pSChan i with
        | error e => rw [hx, hy] at hr; cases hr
        | ok y => rw [hx, hy] at hr; cases hr; rfl
    · cases ha : sydPlot_XYarray s.pArea cx s.pSChan i junk with
      | error e => rw [ha] at hr; cases hr
      | ok ops => rw [ha] at hr; cases hr; rfl
  · rename_i hc
    have hsk : l.skip = 0 := by
      by_contra hne
      exact hc (Or.inr (Or.inl hne))
    split at hr
    · cases hr; exact hsk
    · unfold XY_cont at hr
      split at hr
      · cases hx : FetchIthValInto cx i with
        | error e => rw [hx] at hr; cases hr
        | ok x =>
          cases hy : FetchIthValInto s.pSChan i with
          | error e => rw [hx, hy] at hr; cases hr
          | ok y => rw [hx, hy] at hr; cases hr; exact hsk
      · cases ha : sydPlot_XYarray s.pArea cx s.pSChan i junk with
        | error e => rw [ha] at hr; cases hr
        | ok ops => rw [ha] at hr; cases hr; exact hsk

theorem arrayEl_codes (c : SYD_CHAN) (codes : Int → Char) (junk : Dbl) (k : Int) :
    arrayEl { c with pDataCodeR := codes } junk k = arrayEl c junk k := rfl

theorem FetchIthValInto_codes (c : SYD_CHAN) (codes : Int → Char) (i : Int) :
    FetchIthValInto { c with pDataCodeR := codes } i = FetchIthValInto c i := rfl

theorem XYarray_loop_codes (a : Option Nat) (cx c : SYD_CHAN) (codes : Int → Char)
    (sub : Int) (junk : Dbl) :
    ∀ (n : Nat) (i : Int) (old : Dbl × Dbl),
      XYarray_loop a { cx with pDataCodeR := codes } c sub junk n i old =
        XYarray_loop a cx c sub junk n i old := by
  intro n
  induction n with
  | zero => intro i old; rfl
  | succ n ih =>
    intro i old
    simp only [XYarray_loop, arrayEl_codes, ih]

theorem XY_sample_codes (m : SYD_PL_MSTR) (cx : SYD_CHAN) (codes : Int → Char)
    (s : SYD_PL_SLAVE) (junk : Dbl) :
    XY_sample m { cx with pDataCodeR := codes } s junk = XY_sample m cx s junk := by
  funext i l
  have harr : sydPlot_XYarray s.pArea { cx with pDataCodeR := codes } s.pSChan i junk =
      sydPlot_XYarray s.pArea cx s.pSChan i junk := by
    unfold sydPlot_XYarray
    exact XYarray_loop_codes _ _ _ _ _ _ _ _ _
  have hn : XY_nEl { cx with pDataCodeR := codes } s.pSChan = XY_nEl cx s.pSChan := rfl
  unfold XY_sample XY_anchor XY_cont
  rw [harr, hn, FetchIthValInto_codes]

theorem XY_slaveLoop_set
    (f : SYD_PL_SLAVE → Locals → Except Fault (SYD_PL_SLAVE × Locals × List PprCall))
    (sx1 : SYD_PL_SLAVE) :
    ∀ (ss : List SYD_PL_SLAVE) (x k : Nat) (l : Locals),
      XY_slaveLoop f (x + k) (ss.set x sx1) k l =
        (XY_slaveLoop f (x + k) ss k l).map fun r => (r.1.set x sx1, r.2) := by
  intro ss
  induction ss with
  | nil => intro x k l; rfl
  | cons s rest ih =>
    intro x k l
    cases x with
    | zero =>
      simp only [List.set_cons_zero, XY_slaveLoop, zero_add, if_true]
      cases XY_slaveLoop f k rest (k + 1) l with
      | error e => rfl
      | ok r => rfl
    | succ x =>
      have hk : ¬ k = x + 1 + k := by omega
      have hxk : x + 1 + k = x + (k + 1) := by omega
      simp only [List.set_cons_succ, XY_slaveLoop, if_neg hk]
      cases f s l with
      | error e => rfl
      | ok r =>
        obtain ⟨s1, l1, ops⟩ := r
        simp only []
        rw [hxk, ih x (k + 1) l1]
        cases XY_slaveLoop f (x + (k + 1)) rest (k + 1) l1 with
        | error e => rfl
        | ok q => rfl

theorem xSearch_set (sx sx1 : SYD_PL_SLAVE) (hx : sx1.xChan = sx.xChan) :
    ∀ (ss : List SYD_PL_SLAVE) (x k : Nat), ss[x]? = some sx →
      xSearch (ss.set x sx1) k = xSearch ss k := by
  intro ss
  induction ss with
  | nil => intro x k h; rfl
  | cons s rest ih =>
    intro x k h
    cases x with
    | zero =>
      simp only [List.getElem?_cons_zero, Option.some.injEq] at h
      subst h
      simp only [List.set_cons_zero, xSearch, hx]
    | succ x =>
      simp only [List.getElem?_cons_succ] at h
      simp only [List.set_cons_succ, xSearch, ih x (k + 1) h]

theorem findXSlave_set (sx sx1 : SYD_PL_SLAVE) (hx : sx1.xChan = sx.xChan)
    (ss : List SYD_PL_SLAVE) (x : Nat) (h : ss[x]? = some sx) :
    findXSlave (ss.set x sx1) = findXSlave ss := by
  cases ss with
  | nil => rfl
  | cons s rest =>
    have h1 := xSearch_set sx sx1 hx (s :: rest) x 0 h
    cases x with
    | zero =>
      simp only [List.set_cons_zero] at h1 ⊢
      simp only [findXSlave, h1]
    | succ x =>
      simp only [List.set_cons_succ] at h1 ⊢
      simp only [findXSlave, h1]

theorem numeric_type_cases (t : DbrType) (h1 : t ≠ DbrType.STRING) (h2 : t ≠ DbrType.ENUM) :
    t = DbrType.FLOAT ∨ t = DbrType.SHORT ∨ t = DbrType.DOUBLE ∨ t = DbrType.LONG ∨
      t = DbrType.CHAR := by
  cases t <;> simp at h1 h2 ⊢

theorem sydPlotInit_fields (m0 : SYD_PL_MSTR) (pSspec : SYD_SPEC) (winType : PPR_WIN_TY)
    (fullInit : Int) (w : Nat) (info : Int × Int × Int × Int) :
    (sydPlotInit m0 pSspec winType fullInit (some w) info).1 = SydStatus.S_syd_OK ∧
    (sydPlotInit m0 pSspec winType fullInit (some w) info).2.slaves = [] ∧
    (sydPlotInit m0 pSspec winType fullInit (some w) info).2.nSlaves = 0 ∧
    (sydPlotInit m0 pSspec winType fullInit (some w) info).2.linePlot = 1 ∧
    (sydPlotInit m0 pSspec winType fullInit (some w) info).2.markPlot = 0 ∧
    (sydPlotInit m0 pSspec winType fullInit (some w) info).2.pointPlot = 0 ∧
    (sydPlotInit m0 pSspec winType fullInit (some w) info).2.showStat = 0 ∧
    (sydPlotInit m0 pSspec winType fullInit (some w) info).2.wrapX = 0 ∧
    (sydPlotInit m0 pSspec winType fullInit (some w) info).2.pSspec = pSspec ∧
    (sydPlotInit m0 pSspec winType fullInit (some w) info).2.plotAxis = SYD_PLAX.UNDEF := by
  simp only [sydPlotInit, sydPlotInit_common]
  split <;> simp

theorem ChanAdd_numeric_ok (m : SYD_PL_MSTR) (c : SYD_CHAN) (raw : SYD_PL_SLAVE)
    (junkO junkE : Dbl)
    (ht : c.dbrType ≠ DbrType.STRING ∧ c.dbrType ≠ DbrType.ENUM)
    (hl : c.lower_disp_limit ≠ c.upper_disp_limit) :
    ∃ s, sydPlotChanAdd m c (some raw) junkO junkE =
        Except.ok (some s, { m with nSlaves := m.nSlaves + 1, slaves := m.slaves ++ [s] }, []) ∧
      s.pSChan = c ∧ s.pArea = none ∧ s.first = 1 ∧
      s.originVal = c.lower_disp_limit ∧ s.extentVal = c.upper_disp_limit ∧
      s.markNum = m.nSlaves ∧ s.lineKey = m.nSlaves + 1 := by
  have hby : AxisSetup_byType c junkO junkE = (c, c.lower_disp_limit, c.upper_disp_limit, 5) := by
    rcases numeric_type_cases c.dbrType ht.1 ht.2 with t | t | t | t | t <;>
      simp [AxisSetup_byType, t]
  refine ⟨{ (sydPlotAxisSetup
      { raw with pSChan := c, markNum := m.nSlaves + 1 - 1, lineKey := m.nSlaves + 1,
                 timeLabel := "", xChan := 0, pArea := none, fg := 0, bg := 0, first := 1,
                 xFracLeft := 0, yFracBot := 0, xFracRight := 0, yFracTop := 0 }
      junkO junkE) with ppAnnot := none, timeLabel := "sec past " ++ m.refText }, ?_, ?_⟩
  · simp only [sydPlotChanAdd, if_neg ht.1, if_neg ht.2]
  · simp [sydPlotAxisSetup, hby, AxisSetup_ends, hl]

theorem sydPlot_setup_ok (lib : PprLib) (m : SYD_PL_MSTR) (nGrids : Int) (n a : Nat)
    (h : lib.pprAreaOpen n = some a) :
    ∃ su ops, sydPlot_setup lib m nGrids n = Except.ok (su, ops, n + 1) := by
  simp [sydPlot_setup, h]

theorem TYYGrid_two_slaves (lib : PprLib) (m : SYD_PL_MSTR) (s1 s2 : SYD_PL_SLAVE)
    (n : Nat) (a0 a1 a2 : Nat) (hs : m.slaves = [s1, s2])
    (ha0 : lib.pprAreaOpen n = some a0) (ha1 : lib.pprAreaOpen (n + 1) = some a1)
    (ha2 : lib.pprAreaOpen (n + 2) = some a2) :
    ∃ gops xl yb xr yt,
      sydPlot_TYYGrid lib m n = Except.ok
        ({ m with slaves :=
            [{ s1 with pArea := some a1, xFracLeft := xl, xFracRight := xr, yFracBot := yb,
                       yFracTop := yt },
              { s2 with pArea := some a2, xFracLeft := xl, xFracRight := xr, yFracBot := yb,
                        yFracTop := yt }] },
          gops, n + 3) := by
  obtain ⟨su, ops, hsu⟩ := sydPlot_setup_ok lib m 1 n a0 ha0
  have ha2b : lib.pprAreaOpen (n + 1 + 1) = some a2 := ha2
  simp only [sydPlot_TYYGrid, hsu, hs, gridLoop, sharedGrid_slave, slaveAreaOpen, ha1, ha2b]
  simp [ha1, ha2b]

theorem TYSamples_two_anchors (m : SYD_PL_MSTR) (s1 s2 : SYD_PL_SLAVE)
    (fuel : Nat) (l0 : Locals) (junk : Dbl) (d1 d2 : Int → Dbl)
    (hs : m.slaves = [s1, s2]) (hax : m.plotAxis = SYD_PLAX.TYY)
    (hw : m.wrapX = 0) (hmark : m.markPlot = 0) (hpoint : m.pointPlot = 0)
    (hstat : m.showStat = 0)
    (hd1 : s1.pSChan.pData = some d1) (hd2 : s2.pSChan.pData = some d2)
    (hc1 : s1.pSChan.dataChan ≠ 0) (hc2 : s2.pSChan.dataChan ≠ 0)
    (ht1 : s1.pSChan.dbrType ≠ DbrType.STRING) (ht2 : s2.pSChan.dbrType ≠ DbrType.STRING)
    (hm1 : (s1.pSChan.pFlags 0).missing = false)
    (hm2 : (s2.pSChan.pFlags 0).missing = false) :
    sydPlotSamples m 0 0 0 (fuel + 1) l0 junk = Except.ok
      ({ m with slaves :=
          [{ s1 with first := 0, skip := 0, oldX := m.pSspec.pDeltaSec 0, oldY := d1 0 },
            { s2 with first := 0, skip := 0, oldX := m.pSspec.pDeltaSec 0, oldY := d2 0 }] },
        []) := by
  have f1 : FetchIthValInto s1.pSChan 0 = Except.ok (d1 0) := by
    unfold FetchIthValInto
    cases h : s1.pSChan.dbrType <;> simp [hd1]
    exact ht1 h
  have f2 : FetchIthValInto s2.pSChan 0 = Except.ok (d2 0) := by
    unfold FetchIthValInto
    cases h : s2.pSChan.dbrType <;> simp [hd2]
    exact ht2 h
  simp [sydPlotSamples, hax, sydPlot_TYSamples, slaveLoop, TY_slave, hs, hd1, hd2, hc1, hc2,
    sampleLoop, TY_sample, TY_anchor, TY_fetchX, hw, f1, f2, plotGlyphs, hmark, hpoint, hstat,
    loadLocals, saveLocals, nextIndex, hm1, hm2, sampleLoop_neg]

theorem scenario_result (lib : PprLib) (m0 : SYD_PL_MSTR) (pSspec : SYD_SPEC)
    (winType : PPR_WIN_TY) (fullInit : Int) (w : Nat) (info : Int × Int × Int × Int)
    (c1 c2 : SYD_CHAN)
    (raw1 raw2 : SYD_PL_SLAVE) (junkO junkE : Dbl) (fuel : Nat) (l0 : Locals) (junk : Dbl)
    (d1 d2 : Int → Dbl) (a0 a1 a2 : Nat)
    (hd1 : c1.pData = some d1) (hd2 : c2.pData = some d2)
    (hc1 : c1.dataChan ≠ 0) (hc2 : c2.dataChan ≠ 0)
    (ht1 : c1.dbrType ≠ DbrType.STRING ∧ c1.dbrType ≠ DbrType.ENUM)
    (ht2 : c2.dbrType ≠ DbrType.STRING ∧ c2.dbrType ≠ DbrType.ENUM)
    (hl1 : c1.lower_disp_limit = 0 ∧ c1.upper_disp_limit = 100)
    (hl2 : c2.lower_disp_limit = -5 ∧ c2.upper_disp_limit = 5)
    (hm1 : (c1.pFlags 0).missing = false) (hm2 : (c2.pFlags 0).missing = false)
    (ha0 : lib.pprAreaOpen 0 = some a0) (ha1 : lib.pprAreaOpen 1 = some a1)
    (ha2 : lib.pprAreaOpen 2 = some a2) (hf : 1 ≤ fuel) :
    ∃ mS gops,
      twoChannelScenario lib m0 pSspec winType fullInit w info c1 c2 raw1 raw2 junkO junkE fuel
          l0 junk =
        Except.ok (mS, gops, []) ∧
      mS.slaves.map (fun s => (s.pSChan, s.pArea, s.originVal, s.extentVal)) =
        [(c1, some a1, 0, 100), (c2, some a2, -5, 5)] ∧
      mS.slaves.map (fun s => (s.first, s.skip, s.oldX, s.oldY)) =
        [(0, 0, pSspec.pDeltaSec 0, d1 0), (0, 0, pSspec.pDeltaSec 0, d2 0)] := by
  obtain ⟨fuel, rfl⟩ : ∃ k, fuel = k + 1 := ⟨fuel - 1, by omega⟩
  unfold twoChannelScenario
  obtain ⟨-, hI1, hI2, -, hI4, hI5, hI6, hI7, hI8, -⟩ :=
    sydPlotInit_fields m0 pSspec winType fullInit w info
  generalize (sydPlotInit m0 pSspec winType fullInit (some w) info).2 = mI at hI1 hI2 hI4 hI5 hI6 hI7 hI8
  obtain ⟨s1, hA, hs1c, hs1a, -, hs1o, hs1e, -, -⟩ :=
    ChanAdd_numeric_ok mI c1 raw1 junkO junkE ht1 (by rw [hl1.1, hl1.2]; norm_num)
  obtain ⟨s2, hB, hs2c, hs2a, -, hs2o, hs2e, -, -⟩ :=
    ChanAdd_numeric_ok { mI with nSlaves := mI.nSlaves + 1, slaves := mI.slaves ++ [s1] }
      c2 raw2 junkO junkE ht2 (by rw [hl2.1, hl2.2]; norm_num)
  obtain ⟨gops, xl, yb, xr, yt, hG⟩ := TYYGrid_two_slaves lib
    { ({ ({ mI with nSlaves := mI.nSlaves + 1, slaves := mI.slaves ++ [s1] } : SYD_PL_MSTR) with
          nSlaves := mI.nSlaves + 1 + 1, slaves := mI.slaves ++ [s1] ++ [s2] } : SYD_PL_MSTR) with
      plotAxis := SYD_PLAX.TYY }
    s1 s2 0 a0 a1 a2 (by simp [hI1]) ha0 ha1 ha2
  have hS := TYSamples_two_anchors
    { ({ ({ ({ mI with nSlaves := mI.nSlaves + 1, slaves := mI.slaves ++ [s1] } : SYD_PL_MSTR) with
          nSlaves := mI.nSlaves + 1 + 1, slaves := mI.slaves ++ [s1] ++ [s2] } : SYD_PL_MSTR) with
        plotAxis := SYD_PLAX.TYY } : SYD_PL_MSTR) with
      slaves :=
        [{ s1 with pArea := some a1, xFracLeft := xl, xFracRight := xr, yFracBot := yb,
                   yFracTop := yt },
          { s2 with pArea := some a2, xFracLeft := xl, xFracRight := xr, yFracBot := yb,
                    yFracTop := yt }] }
    _ _ fuel l0 junk d1 d2 rfl rfl hI7 hI4 hI5 hI6
    (by simp [hs1c, hd1]) (by simp [hs2c, hd2]) (by simp [hs1c, hc1]) (by simp [hs2c, hc2])
    (by simp [hs1c, ht1.1]) (by simp [hs2c, ht2.1]) (by simp [hs1c, hm1]) (by simp [hs2c, hm2])
  simp only [hA, hB]
  rw [hG]
  simp only []
  rw [hS]
  refine ⟨_, _, rfl, ?_, ?_⟩
  · simp [hs1c, hs2c, hs1o, hs1e, hs2o, hs2e, hl1, hl2]
  · simp [hI8]

theorem findXSlave_single (s : SYD_PL_SLAVE) : findXSlave [s] = Except.ok 0 := by
  by_cases h : s.xChan = 0 <;> simp [findXSlave, xSearch, h]

theorem dead_slave_samples (m : SYD_PL_MSTR) (s : SYD_PL_SLAVE) (b e incr : Int) (fuel : Nat)
    (l : Locals) (junk : Dbl) (hs : m.slaves = [s]) (hd : s.pSChan.pData = none)
    (hax : m.plotAxis ≠ SYD_PLAX.UNDEF) :
    ∃ r, sydPlotSamples m b e incr fuel l junk = Except.ok r := by
  rcases plotAxis_cases m.plotAxis with h | h | h | h
  · rw [sydPlotSamples_TY m b e incr fuel l junk h]
    simp [sydPlot_TYSamples, hs, slaveLoop, TY_slave, hd]
  · rw [sydPlotSamples_Y m b e incr fuel l junk h]
    simp [sydPlot_YSamples, hs, slaveLoop, Y_slave, hd]
  · rw [sydPlotSamples_XY m b e incr fuel l junk h]
    simp [sydPlot_XYSamples, hs, findXSlave_single, XY_slaveLoop]
  · exact absurd h hax

theorem gridThenSamples_ok (pSspec : SYD_SPEC)
    (grid : Except Fault (SYD_PL_MSTR × List GridCall × Nat))
    (samples : SYD_PL_MSTR → Int → Int → Int → Except Fault (SYD_PL_MSTR × List PprCall))
    (hg : ∃ g, grid = Except.ok g)
    (hsm : ∀ g, grid = Except.ok g → ∃ r, samples g.1 pSspec.firstData pSspec.lastData 0 =
      Except.ok r) :
    ∃ r, gridThenSamples pSspec grid samples = Except.ok r := by
  obtain ⟨⟨m1, gops, n1⟩, hg⟩ := hg
  obtain ⟨⟨m2, ops⟩, hr⟩ := hsm _ hg
  simp only [] at hr
  simp [gridThenSamples, hg, hr]

theorem dead_slave_grid (lib : PprLib) (m : SYD_PL_MSTR) (s : SYD_PL_SLAVE) (n : Nat)
    (grid : PprLib → SYD_PL_MSTR → Nat → Except Fault (SYD_PL_MSTR × List GridCall × Nat))
    (hgrid : grid = sydPlot_TYGrid ∨ grid = sydPlot_TYYGrid ∨ grid = sydPlot_XYGrid ∨
      grid = sydPlot_XYYGrid ∨ grid = sydPlot_YGrid ∨ grid = sydPlot_YYGrid ∨
      grid = sydPlot_SmithGrid)
    (hs : m.slaves = [s]) (hopen : ∀ k, (lib.pprAreaOpen k).isSome = true) :
    ∃ g, grid lib m n = Except.ok g ∧ g.1.plotAxis = m.plotAxis ∧
      ∃ t, g.1.slaves = [t] ∧ t.pSChan = s.pSChan := by
  have ho : ∀ k, lib.pprAreaOpen k ≠ none := fun k hk => by
    have := hopen k
    rw [hk] at this
    cases this
  have hsu : ∀ nG, ∃ su ops, sydPlot_setup lib m nG n = Except.ok (su, ops, n + 1) := by
    intro nG
    obtain ⟨a, ha⟩ := Option.isSome_iff_exists.mp (hopen n)
    exact sydPlot_setup_ok lib m nG n a ha
  rcases hgrid with h | h | h | h | h | h | h <;> subst h
  · obtain ⟨su, ops, h⟩ := hsu m.nSlaves
    simp [sydPlot_TYGrid, h, hs, gridLoop, bandGrid_slave, slaveAreaOpen, ho]
  · obtain ⟨su, ops, h⟩ := hsu 1
    simp [sydPlot_TYYGrid, h, hs, gridLoop, sharedGrid_slave, slaveAreaOpen, ho]
  · obtain ⟨su, ops, h⟩ := hsu (m.nSlaves - 1)
    simp [sydPlot_XYGrid, h, hs, findXSlave_single, gridLoop]
  · obtain ⟨su, ops, h⟩ := hsu 1
    simp [sydPlot_XYYGrid, h, hs, findXSlave_single, gridLoop]
  · obtain ⟨su, ops, h⟩ := hsu m.nSlaves
    simp [sydPlot_YGrid, h, hs, gridLoop, bandGrid_slave, slaveAreaOpen, ho]
  · obtain ⟨su, ops, h⟩ := hsu 1
    simp [sydPlot_YYGrid, h, hs, gridLoop, sharedGrid_slave, slaveAreaOpen, ho]
  · obtain ⟨su, ops, h⟩ := hsu 1
    simp [sydPlot_SmithGrid, h, hs, findXSlave_single, gridLoop]

theorem dead_slave_sydPlot (lib : PprLib) (m : SYD_PL_MSTR) (s : SYD_PL_SLAVE)
    (info : Int × Int × Int × Int) (n fuel : Nat) (l : Locals) (junk : Dbl)
    (hs : m.slaves = [s]) (hd : s.pSChan.pData = none)
    (hopen : ∀ k, (lib.pprAreaOpen k).isSome = true) (hax : m.plotAxis ≠ SYD_PLAX.UNDEF) :
    ∃ r, sydPlot lib m info n fuel l junk = Except.ok r := by
  have key : ∀ (m1 : SYD_PL_MSTR)
      (grid : PprLib → SYD_PL_MSTR → Nat → Except Fault (SYD_PL_MSTR × List GridCall × Nat))
      (samples : SYD_PL_MSTR → Int → Int → Int → Except Fault (SYD_PL_MSTR × List PprCall)),
      (grid = sydPlot_TYGrid ∨ grid = sydPlot_TYYGrid ∨ grid = sydPlot_XYGrid ∨
        grid = sydPlot_XYYGrid ∨ grid = sydPlot_YGrid ∨ grid = sydPlot_YYGrid ∨
        grid = sydPlot_SmithGrid) →
      m1.slaves = [s] → m1.plotAxis ≠ SYD_PLAX.UNDEF →
      (∀ g : SYD_PL_MSTR, g.plotAxis = m1.plotAxis → ∀ b e incr,
        samples g b e incr = sydPlotSamples g b e incr fuel l junk) →
      ∃ r, gridThenSamples m1.pSspec (grid lib m1 n) samples = Except.ok r := by
    intro m1 grid samples hgrid hs1 hax1 hsam
    obtain ⟨g, hg, hgax, t, hgt, htc⟩ := dead_slave_grid lib m1 s n grid hgrid hs1 hopen
    refine gridThenSamples_ok _ _ _ ⟨g, hg⟩ ?_
    intro g2 hg2
    rw [hg] at hg2
    cases hg2
    rw [hsam g.1 hgax]
    exact dead_slave_samples g.1 t _ _ _ fuel l junk hgt (by rw [htc]; exact hd)
      (by rw [hgax]; exact hax1)
  unfold sydPlot
  simp only []
  split
  · rename_i h
    exact key _ sydPlot_TYGrid _ (Or.inl rfl) hs hax
      (fun g hg b e incr => (sydPlotSamples_TY g b e incr fuel l junk
        (Or.inl (hg.trans h))).symm)
  split
  · rename_i h
    exact key _ sydPlot_TYYGrid _ (Or.inr (Or.inl rfl)) hs hax
      (fun g hg b e incr => (sydPlotSamples_TY g b e incr fuel l junk
        (Or.inr (hg.trans h))).symm)
  split
  · rename_i h
    exact key _ sydPlot_XYGrid _ (Or.inr (Or.inr (Or.inl rfl))) hs hax
      (fun g hg b e incr => (sydPlotSamples_XY g b e incr fuel l junk
        (Or.inl (hg.trans h))).symm)
  split
  · rename_i h
    exact key _ sydPlot_XYYGrid _ (Or.inr (Or.inr (Or.inr (Or.inl rfl)))) hs hax
      (fun g hg b e incr => (sydPlotSamples_XY g b e incr fuel l junk
        (Or.inr (Or.inl (hg.trans h)))).symm)
  split
  · rename_i h
    exact key _ sydPlot_YGrid _ (Or.inr (Or.inr (Or.inr (Or.inr (Or.inl rfl))))) hs hax
      (fun g hg b e incr => (sydPlotSamples_Y g b e incr fuel l junk
        (Or.inl (hg.trans h))).symm)
  split
  · rename_i h
    exact key _ sydPlot_YYGrid _ (Or.inr (Or.inr (Or.inr (Or.inr (Or.inr (Or.inl rfl)))))) hs hax
      (fun g hg b e incr => (sydPlotSamples_Y g b e incr fuel l junk
        (Or.inr (hg.trans h))).symm)
  split
  · rename_i h
    exact key _ sydPlot_SmithGrid _
      (Or.inr (Or.inr (Or.inr (Or.inr (Or.inr (Or.inr rfl)))))) hs hax
      (fun g hg b e incr => (sydPlotSamples_XY g b e incr fuel l junk
        (Or.inr (Or.inr (by rw [hg]; exact h)))).symm)
  · rename_i h1 h2 h3 h4 h5 h6 h7
    exfalso
    revert h1 h2 h3 h4 h5 h6 h7 hax
    cases m.plotAxis <;> simp

theorem chanAdd_step (m : SYD_PL_MSTR) (c : SYD_CHAN) (raw : Option SYD_PL_SLAVE)
    (junkO junkE : Dbl) :
    (chanAddSucceeds (c, raw) = false ∧
      ∃ msgs, sydPlotChanAdd m c raw junkO junkE = Except.ok (none, m, msgs)) ∨
    (chanAddSucceeds (c, raw) = true ∧
      ∃ s, sydPlotChanAdd m c raw junkO junkE =
          Except.ok (some s, { m with nSlaves := m.nSlaves + 1, slaves := m.slaves ++ [s] }, []) ∧
        s.markNum = m.nSlaves ∧ s.lineKey = m.nSlaves + 1 ∧
        s.pSChan = (AxisSetup_byType c junkO junkE).1) := by
  by_cases ht : c.dbrType = DbrType.STRING
  · left
    exact ⟨by simp [chanAddSucceeds, ht],
      ["sydPlotChanAdd: can't plot DBF_STRING values\n"], by simp [sydPlotChanAdd, ht]⟩
  · cases raw with
    | none =>
      left
      exact ⟨by simp [chanAddSucceeds],
        ["sydPlotChanAdd: can't get memory\n"], by simp [sydPlotChanAdd, ht]⟩
    | some r =>
      right
      refine ⟨by simp [chanAddSucceeds, ht], ?_⟩
      by_cases he : c.dbrType = DbrType.ENUM
      · refine ⟨_, by simp only [sydPlotChanAdd, if_neg ht, if_pos he]; rfl, ?_, ?_, ?_⟩ <;>
          simp [sydPlotAxisSetup]
      · refine ⟨_, by simp only [sydPlotChanAdd, if_neg ht, if_neg he]; rfl, ?_, ?_, ?_⟩ <;>
          simp [sydPlotAxisSetup]

theorem chanAddAll_spec (junkO junkE : Dbl) :
    ∀ (adds : List (SYD_CHAN × Option SYD_PL_SLAVE)) (m : SYD_PL_MSTR),
      ∃ m1 added, chanAddAll junkO junkE m adds = Except.ok (m1, added) ∧
        m1.slaves = m.slaves ++ added ∧
        m1.nSlaves = m.nSlaves + (added.length : Int) ∧
        added.length = (adds.filter chanAddSucceeds).length ∧
        added.map (fun s => s.pSChan) =
          (adds.filter chanAddSucceeds).map (fun a => (AxisSetup_byType a.1 junkO junkE).1) ∧
        ∀ (i : Nat) (s : SYD_PL_SLAVE), added[i]? = some s →
          s.markNum = m.nSlaves + (i : Int) ∧ s.lineKey = m.nSlaves + (i : Int) + 1 := by
  intro adds
  induction adds with
  | nil =>
    intro m
    exact ⟨m, [], rfl, by simp, by simp, rfl, rfl, fun i s h => by simp at h⟩
  | cons a rest ih =>
    intro m
    obtain ⟨c, raw⟩ := a
    rcases chanAdd_step m c raw junkO junkE with ⟨hf, msgs, h⟩ | ⟨hs, s, h, hmark, hkey, hch⟩
    · obtain ⟨m1, added, h1, h2, h3, h4, h5, h6⟩ := ih m
      refine ⟨m1, added, ?_, h2, h3, ?_, ?_, h6⟩
      · simp [chanAddAll, h, h1]
      · simp [List.filter, hf, h4]
      · simp [List.filter, hf, h5]
    · obtain ⟨m1, added, h1, h2, h3, h4, h5, h6⟩ :=
        ih { m with nSlaves := m.nSlaves + 1, slaves := m.slaves ++ [s] }
      refine ⟨m1, s :: added, ?_, ?_, ?_, ?_, ?_, ?_⟩
      · simp [chanAddAll, h, h1]
      · simp [h2]
      · simp only [h3, List.length_cons, Nat.cast_add, Nat.cast_one]; ring
      · simp [List.filter, hs, h4]
      · simp [List.filter, hs, h5, hch]
      · intro i t hi
        cases i with
        | zero =>
          simp only [List.getElem?_cons_zero, Option.some.injEq] at hi
          subst hi
          simp [hmark, hkey]
        | succ i =>
          simp only [List.getElem?_cons_succ] at hi
          obtain ⟨h7, h8⟩ := h6 i t hi
          simp only [] at h7 h8
          constructor
          · rw [h7]; push_cast; ring
          · rw [h8]; push_cast; ring

theorem map_eq_range_of_index {α : Type} (l : List α) (f : α → Int) (c : Int)
    (h : ∀ (i : Nat) (s : α), l[i]? = some s → f s = c + (i : Int)) :
    l.map f = (List.range l.length).map (fun (i : Nat) => c + (i : Int)) := by
  apply List.ext_getElem?
  intro i
  rw [List.getElem?_map, List.getElem?_map]
  by_cases hi : i < l.length
  · rw [List.getElem?_eq_getElem hi, List.getElem?_range hi]
    simp only [Option.map_some']
    rw [h i _ (List.getElem?_eq_getElem hi)]
  · rw [List.getElem?_eq_none (by omega),
      List.getElem?_eq_none (by rw [List.length_range]; omega)]
    rfl

theorem nodup_of_index {α : Type} (l : List α) (f : α → Int) (c : Int)
    (h : ∀ (i : Nat) (s : α), l[i]? = some s → f s = c + (i : Int)) :
    (l.map f).Nodup := by
  rw [map_eq_range_of_index l f c h]
  exact (List.nodup_range _).map (fun a b hab => by simpa using hab)

theorem gridLoop_map_inv {σ β : Type} (P : SYD_PL_SLAVE → β)
    (f : SYD_PL_SLAVE → σ → Except Fault (SYD_PL_SLAVE × σ × List GridCall))
    (skip : Option Nat)
    (hf : ∀ s st r, f s st = Except.ok r → P r.1 = P s) :
    ∀ (ss : List SYD_PL_SLAVE) (k : Nat) (st : σ) (r : List SYD_PL_SLAVE × σ × List GridCall),
      gridLoop f skip ss k st = Except.ok r → r.1.map P = ss.map P := by
  intro ss
  induction ss with
  | nil =>
    intro k st r h
    simp only [gridLoop] at h
    cases h
    rfl
  | cons s rest ih =>
    intro k st r h
    simp only [gridLoop] at h
    split at h
    · cases h1 : gridLoop f skip rest (k + 1) st with
      | error e => rw [h1] at h; cases h
      | ok q =>
        rw [h1] at h
        cases h
        simp [ih _ _ _ h1]
    · cases h0 : f s st with
      | error e => rw [h0] at h; cases h
      | ok q0 =>
        obtain ⟨s1, st1, ops⟩ := q0
        rw [h0] at h
        simp only [] at h
        cases h1 : gridLoop f skip rest (k + 1) st1 with
        | error e => rw [h1] at h; cases h
        | ok q =>
          rw [h1] at h
          cases h
          simp [ih _ _ _ h1, hf s st _ h0]

theorem slaveLoop_map_inv {β : Type} (P : SYD_PL_SLAVE → β)
    (f : SYD_PL_SLAVE → Locals → Except Fault (SYD_PL_SLAVE × Locals × List PprCall))
    (hf : ∀ s l r, f s l = Except.ok r → P r.1 = P s) :
    ∀ (ss : List SYD_PL_SLAVE) (l : Locals) (r : List SYD_PL_SLAVE × Locals × List PprCall),
      slaveLoop f ss l = Except.ok r → r.1.map P = ss.map P := by
  intro ss
  induction ss with
  | nil =>
    intro l r h
    simp only [slaveLoop] at h
    cases h
    rfl
  | cons s rest ih =>
    intro l r h
    simp only [slaveLoop] at h
    cases h0 : f s l with
    | error e => rw [h0] at h; cases h
    | ok q0 =>
      obtain ⟨s1, l1, ops⟩ := q0
      rw [h0] at h
      simp only [] at h
      cases h1 : slaveLoop f rest l1 with
      | error e => rw [h1] at h; cases h
      | ok q =>
        rw [h1] at h
        cases h
        simp [ih _ _ h1, hf s l _ h0]

theorem XY_slaveLoop_map_inv {β : Type} (P : SYD_PL_SLAVE → β)
    (f : SYD_PL_SLAVE → Locals → Except Fault (SYD_PL_SLAVE × Locals × List PprCall))
    (xIdx : Nat)
    (hf : ∀ s l r, f s l = Except.ok r → P r.1 = P s) :
    ∀ (ss : List SYD_PL_SLAVE) (k : Nat) (l : Locals)
      (r : List SYD_PL_SLAVE × Locals × List PprCall),
      XY_slaveLoop f xIdx ss k l = Except.ok r → r.1.map P = ss.map P := by
  intro ss
  induction ss with
  | nil =>
    intro k l r h
    simp only [XY_slaveLoop] at h
    cases h
    rfl
  | cons s rest ih =>
    intro k l r h
    simp only [XY_slaveLoop] at h
    split at h
    · cases h1 : XY_slaveLoop f xIdx rest (k + 1) l with
      | error e => rw [h1] at h; cases h
      | ok q =>
        rw [h1] at h
        cases h
        simp [ih _ _ _ h1]
    · cases h0 : f s l with
      | error e => rw [h0] at h; cases h
      | ok q0 =>
        obtain ⟨s1, l1, ops⟩ := q0
        rw [h0] at h
        simp only [] at h
        cases h1 : XY_slaveLoop f xIdx rest (k + 1) l1 with
        | error e => rw [h1] at h; cases h
        | ok q =>
          rw [h1] at h
          cases h
          simp [ih _ _ _ h1, hf s l _ h0]

theorem map_set_inv {β : Type} (P : SYD_PL_SLAVE → β) (ss : List SYD_PL_SLAVE) (x : Nat)
    (sx sx1 : SYD_PL_SLAVE) (hget : ss[x]? = some sx) (hP : P sx1 = P sx) :
    (ss.set x sx1).map P = ss.map P := by
  apply List.ext_getElem?
  intro i
  rw [List.getElem?_map, List.getElem?_map, List.getElem?_set]
  by_cases h : x = i
  · subst h
    rw [if_pos rfl, hget]
    split
    · simp [hP]
    · rename_i hlen
      rw [List.getElem?_eq_none (by omega)] at hget
      cases hget
  · rw [if_neg h]

theorem slaveAreaOpen_ok (lib : PprLib) (s : SYD_PL_SLAVE) (n : Nat)
    (xlo ylo xhi yhi xmin ymin xmax ymax : Dbl) (xNint yNint : Int) (charHt : Dbl)
    (r : Option Nat × List GridCall)
    (h : slaveAreaOpen lib s n xlo ylo xhi yhi xmin ymin xmax ymax xNint yNint charHt =
      Except.ok r) :
    r.1 = lib.pprAreaOpen n ∧ (lib.pprAreaOpen n).isSome = true ∧
      r.2 = (if s.pArea.isSome then [GridCall.pprAreaClose s.pArea] else []) ++
        [GridCall.pprAreaOpen xlo ylo xhi yhi xmin ymin xmax ymax xNint yNint charHt
          (lib.pprAreaOpen n)] := by
  unfold slaveAreaOpen at h
  simp only [] at h
  split at h
  · cases h
  · rename_i hn
    cases h
    refine ⟨rfl, ?_, rfl⟩
    cases h0 : lib.pprAreaOpen n with
    | none => rw [h0] at hn; simp at hn
    | some a => rfl

theorem bandGrid_slave_style (lib : PprLib) (m : SYD_PL_MSTR) (su : SetupOut) (xLabel : String)
    (xmin xmax : Dbl) (xNint : Int) (s : SYD_PL_SLAVE) (st : BandSt)
    (r : SYD_PL_SLAVE × BandSt × List GridCall)
    (h : bandGrid_slave lib m su xLabel xmin xmax xNint s st = Except.ok r) :
    (r.1.markNum, r.1.lineKey) = (s.markNum, s.lineKey) := by
  unfold bandGrid_slave at h
  simp only [] at h
  split at h
  · cases h
  · cases h; rfl

theorem sharedGrid_slave_style (lib : PprLib) (m : SYD_PL_MSTR) (su : SetupOut) (xlo ylo : Dbl)
    (attr : SYD_PL_SLAVE → Option Nat → Int → List GridCall) (xLabel : String)
    (xmin xmax : Dbl) (xNint : Int) (s : SYD_PL_SLAVE) (st : AxisSt)
    (r : SYD_PL_SLAVE × AxisSt × List GridCall)
    (h : sharedGrid_slave lib m su xlo ylo attr xLabel xmin xmax xNint s st = Except.ok r) :
    (r.1.markNum, r.1.lineKey) = (s.markNum, s.lineKey) := by
  unfold sharedGrid_slave at h
  split at h
  · cases h
  · cases h; rfl

theorem XYGrid_slave_style (lib : PprLib) (m : SYD_PL_MSTR) (su : SetupOut)
    (sx s : SYD_PL_SLAVE) (st : BandSt) (r : SYD_PL_SLAVE × BandSt × List GridCall)
    (h : XYGrid_slave lib m su sx s st = Except.ok r) :
    (r.1.markNum, r.1.lineKey) = (s.markNum, s.lineKey) := by
  unfold XYGrid_slave at h
  split at h
  · cases h
  · cases h; rfl

theorem SmithGrid_slave_style (lib : PprLib) (m : SYD_PL_MSTR) (xlo ylo xhi yhi : Dbl)
    (sx s : SYD_PL_SLAVE) (n : Nat) (r : SYD_PL_SLAVE × Nat × List GridCall)
    (h : SmithGrid_slave lib m xlo ylo xhi yhi sx s n = Except.ok r) :
    (r.1.markNum, r.1.lineKey) = (s.markNum, s.lineKey) := by
  unfold SmithGrid_slave at h
  split at h
  · cases h
  · cases h; rfl

theorem grid_style (lib : PprLib) (m : SYD_PL_MSTR) (n : Nat)
    (grid : PprLib → SYD_PL_MSTR → Nat → Except Fault (SYD_PL_MSTR × List GridCall × Nat))
    (hgrid : grid = sydPlot_TYGrid ∨ grid = sydPlot_TYYGrid ∨ grid = sydPlot_XYGrid ∨
      grid = sydPlot_XYYGrid ∨ grid = sydPlot_YGrid ∨ grid = sydPlot_YYGrid ∨
      grid = sydPlot_SmithGrid)
    (r : SYD_PL_MSTR × List GridCall × Nat) (h : grid lib m n = Except.ok r) :
    r.1.slaves.map (fun s => (s.markNum, s.lineKey)) =
      m.slaves.map (fun s => (s.markNum, s.lineKey)) := by
  rcases hgrid with hg | hg | hg | hg | hg | hg | hg <;> subst hg
  · unfold sydPlot_TYGrid at h
    split at h
    · cases h
    · dsimp only at h
      split at h
      · cases h
      · rename_i hl
        cases h
        exact gridLoop_map_inv _ _ _ (bandGrid_slave_style lib m _ _ _ _ _) _ _ _ _ hl
  · unfold sydPlot_TYYGrid at h
    split at h
    · cases h
    · dsimp only at h
      split at h
      · cases h
      · rename_i hl
        cases h
        exact gridLoop_map_inv _ _ _ (sharedGrid_slave_style lib m _ _ _ _ _ _ _ _) _ _ _ _ hl
  · unfold sydPlot_XYGrid at h
    split at h
    · cases h
    · split at h
      · cases h
      · rename_i xIdx _ sx hget
        split at h
        · cases h
        · dsimp only at h
          split at h
          · cases h
          · rename_i hl
            cases h
            rw [gridLoop_map_inv _ _ _ (XYGrid_slave_style lib m _ _) _ _ _ _ hl]
            exact map_set_inv _ _ _ sx _ (by simpa using hget) rfl
  · unfold sydPlot_XYYGrid at h
    split at h
    · cases h
    · split at h
      · cases h
      · rename_i xIdx _ sx hget
        split at h
        · cases h
        · dsimp only at h
          split at h
          · cases h
          · rename_i hl
            cases h
            rw [gridLoop_map_inv _ _ _ (sharedGrid_slave_style lib m _ _ _ _ _ _ _ _) _ _ _ _ hl]
            exact map_set_inv _ _ _ sx _ (by simpa using hget) rfl
  · unfold sydPlot_YGrid at h
    split at h
    · cases h
    · split at h
      · cases h
      · rename_i hl
        cases h
        exact gridLoop_map_inv _ _ _ (bandGrid_slave_style lib m _ _ _ _ _) _ _ _ _ hl
  · unfold sydPlot_YYGrid at h
    split at h
    · cases h
    · dsimp only at h
      split at h
      · cases h
      · rename_i hl
        cases h
        exact gridLoop_map_inv _ _ _ (sharedGrid_slave_style lib m _ _ _ _ _ _ _ _) _ _ _ _ hl
  · unfold sydPlot_SmithGrid at h
    split at h
    · cases h
    · dsimp only at h
      split at h
      · cases h
      · split at h
        · cases h
        · rename_i xIdx _ sx hget
          split at h
          · cases h
          · rename_i hl
            cases h
            rw [gridLoop_map_inv _ _ _ (SmithGrid_slave_style lib m _ _ _ _ _) _ _ _ _ hl]
            exact map_set_inv _ _ _ sx _ (by simpa using hget) rfl

theorem TY_slave_style (m : SYD_PL_MSTR) (b e incr : Int) (fuel : Nat) (s : SYD_PL_SLAVE)
    (l : Locals) (r : SYD_PL_SLAVE × Locals × List PprCall)
    (h : TY_slave m b e incr fuel s l = Except.ok r) :
    (r.1.markNum, r.1.lineKey) = (s.markNum, s.lineKey) := by
  unfold TY_slave at h
  split at h
  · cases h; rfl
  · split at h
    · cases h
    · cases h; rfl

theorem Y_slave_style (m : SYD_PL_MSTR) (b e incr : Int) (fuel : Nat) (junk : Dbl)
    (s : SYD_PL_SLAVE) (l : Locals) (r : SYD_PL_SLAVE × Locals × List PprCall)
    (h : Y_slave m b e incr fuel junk s l = Except.ok r) :
    (r.1.markNum, r.1.lineKey) = (s.markNum, s.lineKey) := by
  unfold Y_slave at h
  split at h
  · cases h; rfl
  · split at h
    · cases h
    · cases h; rfl

theorem XY_slave_style (m : SYD_PL_MSTR) (cx : SYD_CHAN) (b e incr : Int) (fuel : Nat)
    (junk : Dbl) (s : SYD_PL_SLAVE) (l : Locals) (r : SYD_PL_SLAVE × Locals × List PprCall)
    (h : XY_slave m cx b e incr fuel junk s l = Except.ok r) :
    (r.1.markNum, r.1.lineKey) = (s.markNum, s.lineKey) := by
  unfold XY_slave at h
  split at h
  · cases h; rfl
  · split at h
    · cases h
    · cases h; rfl

theorem samples_style (m : SYD_PL_MSTR) (b e incr : Int) (fuel : Nat) (l : Locals)
    (junk : Dbl) :
    (∀ r, sydPlot_TYSamples m b e incr fuel l = Except.ok r →
      r.1.slaves.map (fun s => (s.markNum, s.lineKey)) =
        m.slaves.map (fun s => (s.markNum, s.lineKey))) ∧
    (∀ r, sydPlot_YSamples m b e incr fuel l junk = Except.ok r →
      r.1.slaves.map (fun s => (s.markNum, s.lineKey)) =
        m.slaves.map (fun s => (s.markNum, s.lineKey))) ∧
    (∀ r, sydPlot_XYSamples m b e incr fuel l junk = Except.ok r →
      r.1.slaves.map (fun s => (s.markNum, s.lineKey)) =
        m.slaves.map (fun s => (s.markNum, s.lineKey))) ∧
    (∀ r, sydPlotSamples m b e incr fuel l junk = Except.ok r →
      r.1.slaves.map (fun s => (s.markNum, s.lineKey)) =
        m.slaves.map (fun s => (s.markNum, s.lineKey))) := by
  have hTY : ∀ r, sydPlot_TYSamples m b e incr fuel l = Except.ok r →
      r.1.slaves.map (fun s => (s.markNum, s.lineKey)) =
        m.slaves.map (fun s => (s.markNum, s.lineKey)) := by
    intro r h
    unfold sydPlot_TYSamples at h
    split at h
    · cases h
    · rename_i hl
      cases h
      exact slaveLoop_map_inv _ _ (TY_slave_style m b e incr fuel) _ _ _ hl
  have hY : ∀ r, sydPlot_YSamples m b e incr fuel l junk = Except.ok r →
      r.1.slaves.map (fun s => (s.markNum, s.lineKey)) =
        m.slaves.map (fun s => (s.markNum, s.lineKey)) := by
    intro r h
    unfold sydPlot_YSamples at h
    split at h
    · cases h
    · rename_i hl
      cases h
      exact slaveLoop_map_inv _ _ (Y_slave_style m b e incr fuel junk) _ _ _ hl
  have hXY : ∀ r, sydPlot_XYSamples m b e incr fuel l junk = Except.ok r →
      r.1.slaves.map (fun s => (s.markNum, s.lineKey)) =
        m.slaves.map (fun s => (s.markNum, s.lineKey)) := by
    intro r h
    unfold sydPlot_XYSamples at h
    split at h
    · cases h
    · split at h
      · cases h
      · split at h
        · cases h
        · rename_i hl
          cases h
          exact XY_slaveLoop_map_inv _ _ _ (XY_slave_style m _ b e incr fuel junk) _ _ _ _ hl
  refine ⟨hTY, hY, hXY, ?_⟩
  intro r h
  rcases plotAxis_cases m.plotAxis with hax | hax | hax | hax
  · rw [sydPlotSamples_TY m b e incr fuel l junk hax] at h
    exact hTY r h
  · rw [sydPlotSamples_Y m b e incr fuel l junk hax] at h
    exact hY r h
  · rw [sydPlotSamples_XY m b e incr fuel l junk hax] at h
    exact hXY r h
  · rw [sydPlotSamples_UNDEF m b e incr fuel l junk hax] at h
    cases h

theorem xSearch_eq_findIdx : ∀ (ss : List SYD_PL_SLAVE) (k : Nat),
    xSearch ss k = ss.findIdx? (fun s => decide (s.xChan ≠ 0)) k := by
  intro ss
  induction ss with
  | nil => intro k; rfl
  | cons s rest ih =>
    intro k
    rw [List.findIdx?_cons, xSearch, ih (k + 1)]
    by_cases h : s.xChan = 0 <;> simp [h]

theorem xSearch_spec : ∀ (ss : List SYD_PL_SLAVE) (k : Nat),
    (xSearch ss k = none ∧ ∀ s ∈ ss, s.xChan = 0) ∨
    (∃ i sx, xSearch ss k = some (k + i) ∧ ss[i]? = some sx ∧ sx.xChan ≠ 0 ∧
      ∀ (j : Nat) (t : SYD_PL_SLAVE), j < i → ss[j]? = some t → t.xChan = 0) := by
  intro ss
  induction ss with
  | nil => intro k; left; exact ⟨rfl, fun s hs => by cases hs⟩
  | cons s rest ih =>
    intro k
    by_cases h : s.xChan = 0
    · rcases ih (k + 1) with ⟨hn, hall⟩ | ⟨i, sx, hi, hget, hx, hbefore⟩
      · left
        refine ⟨by simp [xSearch, h, hn], ?_⟩
        intro t ht
        rcases List.mem_cons.mp ht with rfl | ht
        · exact h
        · exact hall t ht
      · right
        refine ⟨i + 1, sx, ?_, by simpa using hget, hx, ?_⟩
        · simp only [xSearch, h, ne_eq, not_true_eq_false, if_false, hi]
          congr 1
          omega
        · intro j t hj hjt
          cases j with
          | zero =>
            simp only [List.getElem?_cons_zero, Option.some.injEq] at hjt
            subst hjt
            exact h
          | succ j =>
            simp only [List.getElem?_cons_succ] at hjt
            exact hbefore j t (by omega) hjt
    · right
      exact ⟨0, s, by simp [xSearch, h], by simp, h, fun j t hj _ => by omega⟩

theorem findXSlave_eq_xIndex (ss : List SYD_PL_SLAVE) (h : ss ≠ []) :
    findXSlave ss = Except.ok (xIndex ss) := by
  cases ss with
  | nil => exact absurd rfl h
  | cons s rest =>
    simp only [findXSlave, xIndex, xSearch_eq_findIdx]

theorem xIndex_spec (ss : List SYD_PL_SLAVE) (h : ss ≠ []) :
    ∃ sx, ss[xIndex ss]? = some sx ∧
      ((∃ s ∈ ss, s.xChan ≠ 0) →
        sx.xChan ≠ 0 ∧
        ∀ (j : Nat) (t : SYD_PL_SLAVE), j < xIndex ss → ss[j]? = some t → t.xChan = 0) ∧
      ((∀ s ∈ ss, s.xChan = 0) → xIndex ss = 0 ∧ ss.head? = some sx) := by
  have hx : xIndex ss = (xSearch ss 0).getD 0 := by
    simp only [xIndex, xSearch_eq_findIdx]
  rcases xSearch_spec ss 0 with ⟨hn, hall⟩ | ⟨i, sx, hi, hget, hxc, hbefore⟩
  · have h0 : xIndex ss = 0 := by rw [hx, hn]; rfl
    cases ss with
    | nil => exact absurd rfl h
    | cons s rest =>
      refine ⟨s, by rw [h0]; simp, ?_, fun _ => ⟨h0, rfl⟩⟩
      rintro ⟨t, ht, htx⟩
      exact absurd (hall t ht) htx
  · have h0 : xIndex ss = i := by rw [hx, hi]; simp
    refine ⟨sx, by rw [h0]; exact hget, fun _ => ⟨hxc, by rw [h0]; exact hbefore⟩, ?_⟩
    intro hall
    have hmem : sx ∈ ss := List.mem_iff_getElem?.mpr ⟨_, hget⟩
    exact absurd (hall sx hmem) hxc

theorem gridCount_none : ∀ (ss : List SYD_PL_SLAVE) (k : Nat),
    gridCount none ss k = ss.length := by
  intro ss
  induction ss with
  | nil => intro k; rfl
  | cons s rest ih =>
    intro k
    simp [gridCount, ih (k + 1)]
    omega

theorem gridLoop_outcome {σ : Type} (lib : PprLib) (cnt : σ → Nat)
    (f : SYD_PL_SLAVE → σ → Except Fault (SYD_PL_SLAVE × σ × List GridCall))
    (skip : Option Nat)
    (hfail : ∀ s st, lib.pprAreaOpen (cnt st) = none → f s st = Except.error Fault.assertFail)
    (hok : ∀ s st, lib.pprAreaOpen (cnt st) ≠ none →
      ∃ s1 st1 ops, f s st = Except.ok (s1, st1, ops) ∧ cnt st1 = cnt st + 1) :
    ∀ (ss : List SYD_PL_SLAVE) (k : Nat) (st : σ),
      ((∀ j, j < gridCount skip ss k → lib.pprAreaOpen (cnt st + j) ≠ none) ∧
        ∃ r, gridLoop f skip ss k st = Except.ok r ∧
          cnt r.2.1 = cnt st + gridCount skip ss k ∧ r.1.length = ss.length) ∨
      ((∃ j, j < gridCount skip ss k ∧ lib.pprAreaOpen (cnt st + j) = none) ∧
        gridLoop f skip ss k st = Except.error Fault.assertFail) := by
  intro ss
  induction ss with
  | nil =>
    intro k st
    left
    exact ⟨fun j hj => by simp [gridCount] at hj, _, rfl, by simp [gridCount], rfl⟩
  | cons s rest ih =>
    intro k st
    by_cases hsk : skip = some k
    · subst hsk
      rcases ih (k + 1) st with ⟨hall, ⟨rest1, st2, ops2⟩, hr, hc, hlen⟩ | ⟨⟨j, hj, hnone⟩, herr⟩
      · left
        refine ⟨fun j hj => hall j (by simpa [gridCount] using hj),
          (s :: rest1, st2, ops2), ?_, ?_, ?_⟩
        · simp only [gridLoop, if_true, hr]
        · simpa [gridCount] using hc
        · simp [hlen]
      · right
        refine ⟨⟨j, by simpa [gridCount] using hj, hnone⟩, ?_⟩
        simp only [gridLoop, if_true, herr]
    · by_cases h0 : lib.pprAreaOpen (cnt st) = none
      · right
        refine ⟨⟨0, by simp [gridCount, hsk], by simpa using h0⟩, ?_⟩
        simp only [gridLoop, hsk, if_false, hfail s st h0]
      · obtain ⟨s1, st1, ops, hf, hc1⟩ := hok s st h0
        rcases ih (k + 1) st1 with
          ⟨hall, ⟨rest1, st2, ops2⟩, hr, hc, hlen⟩ | ⟨⟨j, hj, hnone⟩, herr⟩
        · left
          refine ⟨?_, (s1 :: rest1, st2, ops ++ ops2), ?_, ?_, ?_⟩
          · intro j hj
            cases j with
            | zero => simpa using h0
            | succ j =>
              have := hall j (by simp [gridCount, hsk] at hj; omega)
              rw [hc1] at this
              rw [show cnt st + (j + 1) = cnt st + 1 + j by omega]
              exact this
          · simp only [gridLoop, hsk, if_false, hf, hr]
          · simp only [hc, hc1, gridCount, hsk, if_false]
            omega
          · simp [hlen]
        · right
          refine ⟨⟨j + 1, by simp [gridCount, hsk]; omega, ?_⟩, ?_⟩
          · rw [show cnt st + (j + 1) = cnt st + 1 + j by omega, ← hc1]
            exact hnone
          · simp only [gridLoop, hsk, if_false, hf, herr]

theorem slaveAreaOpen_cases (lib : PprLib) (s : SYD_PL_SLAVE) (n : Nat)
    (xlo ylo xhi yhi xmin ymin xmax ymax : Dbl) (xNint yNint : Int) (charHt : Dbl) :
    (lib.pprAreaOpen n = none →
      slaveAreaOpen lib s n xlo ylo xhi yhi xmin ymin xmax ymax xNint yNint charHt =
        Except.error Fault.assertFail) ∧
    (lib.pprAreaOpen n ≠ none →
      slaveAreaOpen lib s n xlo ylo xhi yhi xmin ymin xmax ymax xNint yNint charHt =
        Except.ok (lib.pprAreaOpen n,
          (if s.pArea.isSome then [GridCall.pprAreaClose s.pArea] else []) ++
            [GridCall.pprAreaOpen xlo ylo xhi yhi xmin ymin xmax ymax xNint yNint charHt
              (lib.pprAreaOpen n)])) := by
  constructor
  · intro h
    simp [slaveAreaOpen, h]
  · intro h
    cases h0 : lib.pprAreaOpen n with
    | none => exact absurd h0 h
    | some a => simp [slaveAreaOpen, h0]

theorem bandGrid_slave_cases (lib : PprLib) (m : SYD_PL_MSTR) (su : SetupOut) (xLabel : String)
    (xmin xmax : Dbl) (xNint : Int) (s : SYD_PL_SLAVE) (st : BandSt) :
    (lib.pprAreaOpen st.nOpen = none →
      bandGrid_slave lib m su xLabel xmin xmax xNint s st = Except.error Fault.assertFail) ∧
    (lib.pprAreaOpen st.nOpen ≠ none →
      ∃ s1 st1 ops, bandGrid_slave lib m su xLabel xmin xmax xNint s st =
          Except.ok (s1, st1, ops) ∧ st1.nOpen = st.nOpen + 1) := by
  constructor
  · intro h
    simp only [bandGrid_slave, (slaveAreaOpen_cases lib s st.nOpen _ _ _ _ _ _ _ _ _ _ _).1 h]
  · intro h
    simp only [bandGrid_slave, (slaveAreaOpen_cases lib s st.nOpen _ _ _ _ _ _ _ _ _ _ _).2 h]
    exact ⟨_, _, _, rfl, rfl⟩

theorem sharedGrid_slave_cases (lib : PprLib) (m : SYD_PL_MSTR) (su : SetupOut) (xlo ylo : Dbl)
    (attr : SYD_PL_SLAVE → Option Nat → Int → List GridCall) (xLabel : String)
    (xmin xmax : Dbl) (xNint : Int) (s : SYD_PL_SLAVE) (st : AxisSt) :
    (lib.pprAreaOpen st.nOpen = none →
      sharedGrid_slave lib m su xlo ylo attr xLabel xmin xmax xNint s st =
        Except.error Fault.assertFail) ∧
    (lib.pprAreaOpen st.nOpen ≠ none →
      ∃ s1 st1 ops, sharedGrid_slave lib m su xlo ylo attr xLabel xmin xmax xNint s st =
          Except.ok (s1, st1, ops) ∧ st1.nOpen = st.nOpen + 1) := by
  constructor
  · intro h
    simp only [sharedGrid_slave, (slaveAreaOpen_cases lib s st.nOpen _ _ _ _ _ _ _ _ _ _ _).1 h]
  · intro h
    simp only [sharedGrid_slave, (slaveAreaOpen_cases lib s st.nOpen _ _ _ _ _ _ _ _ _ _ _).2 h]
    exact ⟨_, _, _, rfl, rfl⟩

theorem XYGrid_slave_cases (lib : PprLib) (m : SYD_PL_MSTR) (su : SetupOut)
    (sx s : SYD_PL_SLAVE) (st : BandSt) :
    (lib.pprAreaOpen st.nOpen = none →
      XYGrid_slave lib m su sx s st = Except.error Fault.assertFail) ∧
    (lib.pprAreaOpen st.nOpen ≠ none →
      ∃ s1 st1 ops, XYGrid_slave lib m su sx s st = Except.ok (s1, st1, ops) ∧
        st1.nOpen = st.nOpen + 1) := by
  constructor
  · intro h
    simp only [XYGrid_slave, (slaveAreaOpen_cases lib s st.nOpen _ _ _ _ _ _ _ _ _ _ _).1 h]
  · intro h
    simp only [XYGrid_slave, (slaveAreaOpen_cases lib s st.nOpen _ _ _ _ _ _ _ _ _ _ _).2 h]
    exact ⟨_, _, _, rfl, rfl⟩

theorem SmithGrid_slave_cases (lib : PprLib) (m : SYD_PL_MSTR) (xlo ylo xhi yhi : Dbl)
    (sx s : SYD_PL_SLAVE) (n : Nat) :
    (lib.pprAreaOpen n = none →
      SmithGrid_slave lib m xlo ylo xhi yhi sx s n = Except.error Fault.assertFail) ∧
    (lib.pprAreaOpen n ≠ none →
      ∃ s1 n1 ops, SmithGrid_slave lib m xlo ylo xhi yhi sx s n = Except.ok (s1, n1, ops) ∧
        n1 = n + 1) := by
  constructor
  · intro h
    simp only [SmithGrid_slave, (slaveAreaOpen_cases lib s n _ _ _ _ _ _ _ _ _ _ _).1 h]
  · intro h
    simp only [SmithGrid_slave, (slaveAreaOpen_cases lib s n _ _ _ _ _ _ _ _ _ _ _).2 h]
    exact ⟨_, _, _, rfl, rfl⟩

theorem extentTop_val (m : SYD_PL_MSTR) :
    extentTop m = if m.title.length > 0 then 2170735020392579 / 2251799813685248
      else 2206763817411543 / 2251799813685248 := by
  unfold extentTop
  rw [roundDbl_c012, roundDbl_c024, roundDbl_c988, roundDbl_c964, roundDbl_c98]

theorem extentBot_val (m : SYD_PL_MSTR) :
    extentBot m = if m.bTitle.length > 0 then 3458764513820541 / 72057594037927936 else 0 := by
  unfold extentBot
  rw [roundDbl_c012, roundDbl_c024, roundDbl_c048]

theorem extentBot_fix (m : SYD_PL_MSTR) :
    0 ≤ extentBot m ∧ roundDbl (extentBot m) = extentBot m := by
  unfold extentBot
  split
  · have h : (0 : Dbl) ≤ roundDbl (2 * roundDbl (12 / 1000)) + roundDbl (2 * roundDbl (12 / 1000)) := by
      rw [roundDbl_c012, roundDbl_c024]; norm_num
    exact ⟨roundDbl_nonneg _ h, roundDbl_idem _ h⟩
  · exact ⟨le_refl 0, roundDbl_zero⟩

theorem sydPlot_setup_cases (lib : PprLib) (m : SYD_PL_MSTR) (nGrids : Int) (n : Nat) :
    (lib.pprAreaOpen n = none →
      sydPlot_setup lib m nGrids n = Except.error Fault.assertFail) ∧
    (lib.pprAreaOpen n ≠ none →
      ∃ su ops, sydPlot_setup lib m nGrids n = Except.ok (su, ops, n + 1) ∧
        su.ylo = extentBot m ∧
        su.yPart = roundDbl (roundDbl (extentTop m - extentBot m) / (nGrids : Dbl)) ∧
        su.yhi = roundDbl (su.yPart + su.ylo)) := by
  constructor
  · intro h
    simp [sydPlot_setup, h]
  · intro h
    cases h0 : lib.pprAreaOpen n with
    | none => exact absurd h0 h
    | some a =>
      refine ⟨_, _, by simp only [sydPlot_setup, h0, Option.isNone_some]; rfl, ?_, ?_, ?_⟩
      · simp only [extentBot]
        split <;> rfl
      · simp only [extentBot, extentTop]
        split <;> split <;> rfl
      · rfl

theorem gridCount_skip : ∀ (ss : List SYD_PL_SLAVE) (x k : Nat),
    gridCount (some x) ss k =
      ss.length - (if k ≤ x ∧ x < k + ss.length then 1 else 0) := by
  intro ss
  induction ss with
  | nil => intro x k; simp [gridCount]
  | cons s rest ih =>
    intro x k
    simp only [gridCount, ih x (k + 1), List.length_cons, Option.some.injEq]
    by_cases h1 : x = k
    · subst h1
      simp
    · by_cases h2 : k + 1 ≤ x ∧ x < k + 1 + rest.length
      · have h3 : k ≤ x ∧ x < k + (rest.length + 1) := ⟨by omega, by omega⟩
        simp only [h1, if_false, h2, h3, and_self, if_true]
        omega
      · have h3 : ¬ (k ≤ x ∧ x < k + (rest.length + 1)) := by
          intro h; apply h2; constructor <;> omega
        simp only [h1, if_false, h2, h3]
        omega

theorem plainGrid_outcome (lib : PprLib) (m : SYD_PL_MSTR) (n : Nat)
    (grid : PprLib → SYD_PL_MSTR → Nat → Except Fault (SYD_PL_MSTR × List GridCall × Nat))
    (hgrid : grid = sydPlot_TYGrid ∨ grid = sydPlot_TYYGrid ∨ grid = sydPlot_YGrid ∨
      grid = sydPlot_YYGrid) :
    ((∀ j, j ≤ m.slaves.length → lib.pprAreaOpen (n + j) ≠ none) ∧
      ∃ r, grid lib m n = Except.ok r ∧ r.2.2 = n + m.slaves.length + 1 ∧
        r.1.slaves.length = m.slaves.length) ∨
    ((∃ j, j ≤ m.slaves.length ∧ lib.pprAreaOpen (n + j) = none) ∧
      grid lib m n = Except.error Fault.assertFail) := by
  have key : ∀ {σ : Type} (cnt : σ → Nat)
      (f : SYD_PL_SLAVE → σ → Except Fault (SYD_PL_SLAVE × σ × List GridCall)) (st : σ),
      cnt st = n + 1 → lib.pprAreaOpen n ≠ none →
      (∀ s st, lib.pprAreaOpen (cnt st) = none → f s st = Except.error Fault.assertFail) →
      (∀ s st, lib.pprAreaOpen (cnt st) ≠ none →
        ∃ s1 st1 ops, f s st = Except.ok (s1, st1, ops) ∧ cnt st1 = cnt st + 1) →
      ((∀ j, j ≤ m.slaves.length → lib.pprAreaOpen (n + j) ≠ none) ∧
        ∃ r, gridLoop f none m.slaves 0 st = Except.ok r ∧
          cnt r.2.1 = n + m.slaves.length + 1 ∧ r.1.length = m.slaves.length) ∨
      ((∃ j, j ≤ m.slaves.length ∧ lib.pprAreaOpen (n + j) = none) ∧
        gridLoop f none m.slaves 0 st = Except.error Fault.assertFail) := by
    intro σ cnt f st hst h0 hfail hok
    rcases gridLoop_outcome lib cnt f none hfail hok m.slaves 0 st with
      ⟨hall, r, hr, hc, hlen⟩ | ⟨⟨j, hj, hnone⟩, herr⟩
    · left
      rw [gridCount_none] at hall hc
      refine ⟨?_, r, hr, by rw [hc, hst]; omega, hlen⟩
      intro j hj
      cases j with
      | zero => exact h0
      | succ j =>
        have := hall j (by omega)
        rw [hst] at this
        rw [show n + (j + 1) = n + 1 + j by omega]
        exact this
    · right
      rw [gridCount_none] at hj
      refine ⟨⟨j + 1, by omega, ?_⟩, herr⟩
      rw [hst] at hnone
      rw [show n + (j + 1) = n + 1 + j by omega]
      exact hnone
  by_cases h0 : lib.pprAreaOpen n = none
  · right
    refine ⟨⟨0, by omega, h0⟩, ?_⟩
    rcases hgrid with hg | hg | hg | hg <;> subst hg
    · simp only [sydPlot_TYGrid, (sydPlot_setup_cases lib m _ n).1 h0]
    · simp only [sydPlot_TYYGrid, (sydPlot_setup_cases lib m _ n).1 h0]
    · simp only [sydPlot_YGrid, (sydPlot_setup_cases lib m _ n).1 h0]
    · simp only [sydPlot_YYGrid, (sydPlot_setup_cases lib m _ n).1 h0]
  · rcases hgrid with hg | hg | hg | hg <;> subst hg
    · obtain ⟨su, ops, hsu, -⟩ := (sydPlot_setup_cases lib m m.nSlaves n).2 h0
      rcases key BandSt.nOpen
          (bandGrid_slave lib m su m.label (TY_xDomain m).1 (TY_xDomain m).2.1
            (TY_xDomain m).2.2)
          { ylo := su.ylo, yhi := su.yhi, nOpen := n + 1 } rfl h0
          (fun s st => (bandGrid_slave_cases lib m su _ _ _ _ s st).1)
          (fun s st => (bandGrid_slave_cases lib m su _ _ _ _ s st).2) with
        ⟨hall, ⟨sl, st, ops1⟩, hr, hc, hlen⟩ | ⟨hex, herr⟩
      · left
        exact ⟨hall, ({ m with slaves := sl }, ops ++ ops1, st.nOpen),
          by simp only [sydPlot_TYGrid, hsu, hr], hc, hlen⟩
      · right
        exact ⟨hex, by simp only [sydPlot_TYGrid, hsu, herr]⟩
    · obtain ⟨su, ops, hsu, -⟩ := (sydPlot_setup_cases lib m 1 n).2 h0
      rcases key AxisSt.nOpen
          (sharedGrid_slave lib m su (su.xlo + 6 * su.charHtX * (m.nSlaves : Dbl))
            (su.ylo + 6 * su.charHt) (fun s a _ => sharedAttr m s a) m.label
            (TY_xDomain m).1 (TY_xDomain m).2.1 (TY_xDomain m).2.2)
          { offsetAnnotY := 0, drawAxis := 0, nOpen := n + 1 } rfl h0
          (fun s st => (sharedGrid_slave_cases lib m su _ _ _ _ _ _ _ s st).1)
          (fun s st => (sharedGrid_slave_cases lib m su _ _ _ _ _ _ _ s st).2) with
        ⟨hall, ⟨sl, st, ops1⟩, hr, hc, hlen⟩ | ⟨hex, herr⟩
      · left
        exact ⟨hall, ({ m with slaves := sl }, ops ++ ops1, st.nOpen),
          by simp only [sydPlot_TYYGrid, hsu, hr], hc, hlen⟩
      · right
        exact ⟨hex, by simp only [sydPlot_TYYGrid, hsu, herr]⟩
    · obtain ⟨su, ops, hsu, -⟩ := (sydPlot_setup_cases lib m m.nSlaves n).2 h0
      rcases key BandSt.nOpen
          (bandGrid_slave lib m su "" 0 (Y_xmax m) 1)
          { ylo := su.ylo, yhi := su.yhi, nOpen := n + 1 } rfl h0
          (fun s st => (bandGrid_slave_cases lib m su _ _ _ _ s st).1)
          (fun s st => (bandGrid_slave_cases lib m su _ _ _ _ s st).2) with
        ⟨hall, ⟨sl, st, ops1⟩, hr, hc, hlen⟩ | ⟨hex, herr⟩
      · left
        exact ⟨hall, ({ m with slaves := sl }, ops ++ ops1, st.nOpen),
          by simp only [sydPlot_YGrid, hsu, hr], hc, hlen⟩
      · right
        exact ⟨hex, by simp only [sydPlot_YGrid, hsu, herr]⟩
    · obtain ⟨su, ops, hsu, -⟩ := (sydPlot_setup_cases lib m 1 n).2 h0
      rcases key AxisSt.nOpen
          (sharedGrid_slave lib m su (su.xlo + 6 * su.charHtX * (m.nSlaves : Dbl))
            (su.ylo + 6 * su.charHt) (fun s a _ => sharedAttr m s a) ""
            0 (Y_xmax m) 1)
          { offsetAnnotY := 0, drawAxis := 0, nOpen := n + 1 } rfl h0
          (fun s st => (sharedGrid_slave_cases lib m su _ _ _ _ _ _ _ s st).1)
          (fun s st => (sharedGrid_slave_cases lib m su _ _ _ _ _ _ _ s st).2) with
        ⟨hall, ⟨sl, st, ops1⟩, hr, hc, hlen⟩ | ⟨hex, herr⟩
      · left
        exact ⟨hall, ({ m with slaves := sl }, ops ++ ops1, st.nOpen),
          by simp only [sydPlot_YYGrid, hsu, hr], hc, hlen⟩
      · right
        exact ⟨hex, by simp only [sydPlot_YYGrid, hsu, herr]⟩

theorem gridCount_paired (ss : List SYD_PL_SLAVE) (x : Nat) (sx : SYD_PL_SLAVE)
    (hx : x < ss.length) :
    gridCount (some x) (ss.set x sx) 0 = ss.length - 1 := by
  rw [gridCount_skip, List.length_set]
  simp [hx]

theorem xIndex_lt (ss : List SYD_PL_SLAVE) (h : ss ≠ []) : xIndex ss < ss.length := by
  obtain ⟨sx, hget, -⟩ := xIndex_spec ss h
  by_contra hlt
  rw [List.getElem?_eq_none (by omega)] at hget
  cases hget

theorem pairedGrid_outcome (lib : PprLib) (m : SYD_PL_MSTR) (n : Nat)
    (grid : PprLib → SYD_PL_MSTR → Nat → Except Fault (SYD_PL_MSTR × List GridCall × Nat))
    (hgrid : grid = sydPlot_XYGrid ∨ grid = sydPlot_XYYGrid) (hne : m.slaves ≠ []) :
    ((∀ j, j < m.slaves.length → lib.pprAreaOpen (n + j) ≠ none) ∧
      ∃ r, grid lib m n = Except.ok r ∧ r.2.2 = n + m.slaves.length ∧
        r.1.slaves.length = m.slaves.length) ∨
    ((∃ j, j < m.slaves.length ∧ lib.pprAreaOpen (n + j) = none) ∧
      grid lib m n = Except.error Fault.assertFail) := by
  obtain ⟨sx, hget, -⟩ := xIndex_spec m.slaves hne
  have hfind := findXSlave_eq_xIndex m.slaves hne
  have hxlt := xIndex_lt m.slaves hne
  have hpos : 0 < m.slaves.length := by omega
  have key : ∀ {σ : Type} (cnt : σ → Nat)
      (f : SYD_PL_SLAVE → σ → Except Fault (SYD_PL_SLAVE × σ × List GridCall)) (st : σ)
      (sx1 : SYD_PL_SLAVE),
      cnt st = n + 1 → lib.pprAreaOpen n ≠ none →
      (∀ s st, lib.pprAreaOpen (cnt st) = none → f s st = Except.error Fault.assertFail) →
      (∀ s st, lib.pprAreaOpen (cnt st) ≠ none →
        ∃ s1 st1 ops, f s st = Except.ok (s1, st1, ops) ∧ cnt st1 = cnt st + 1) →
      ((∀ j, j < m.slaves.length → lib.pprAreaOpen (n + j) ≠ none) ∧
        ∃ r, gridLoop f (some (xIndex m.slaves)) (m.slaves.set (xIndex m.slaves) sx1) 0 st =
            Except.ok r ∧
          cnt r.2.1 = n + m.slaves.length ∧ r.1.length = m.slaves.length) ∨
      ((∃ j, j < m.slaves.length ∧ lib.pprAreaOpen (n + j) = none) ∧
        gridLoop f (some (xIndex m.slaves)) (m.slaves.set (xIndex m.slaves) sx1) 0 st =
          Except.error Fault.assertFail) := by
    intro σ cnt f st sx1 hst h0 hfail hok
    rcases gridLoop_outcome lib cnt f (some (xIndex m.slaves)) hfail hok
        (m.slaves.set (xIndex m.slaves) sx1) 0 st with
      ⟨hall, r, hr, hc, hlen⟩ | ⟨⟨j, hj, hnone⟩, herr⟩
    · left
      rw [gridCount_paired _ _ _ hxlt] at hall hc
      refine ⟨?_, r, hr, by rw [hc, hst]; omega, by rw [hlen, List.length_set]⟩
      intro j hj
      cases j with
      | zero => exact h0
      | succ j =>
        have := hall j (by omega)
        rw [hst] at this
        rw [show n + (j + 1) = n + 1 + j by omega]
        exact this
    · right
      rw [gridCount_paired _ _ _ hxlt] at hj
      refine ⟨⟨j + 1, by omega, ?_⟩, herr⟩
      rw [hst] at hnone
      rw [show n + (j + 1) = n + 1 + j by omega]
      exact hnone
  by_cases h0 : lib.pprAreaOpen n = none
  · right
    refine ⟨⟨0, hpos, h0⟩, ?_⟩
    rcases hgrid with hg | hg <;> subst hg
    · simp only [sydPlot_XYGrid, hfind, List.get?_eq_getElem?, hget,
        (sydPlot_setup_cases lib m _ n).1 h0]
    · simp only [sydPlot_XYYGrid, hfind, List.get?_eq_getElem?, hget,
        (sydPlot_setup_cases lib m _ n).1 h0]
  · rcases hgrid with hg | hg <;> subst hg
    · obtain ⟨su, ops, hsu, -⟩ := (sydPlot_setup_cases lib m (m.nSlaves - 1) n).2 h0
      rcases key BandSt.nOpen (XYGrid_slave lib m su { sx with pArea := none })
          { ylo := su.ylo, yhi := su.yhi, nOpen := n + 1 } { sx with pArea := none } rfl h0
          (fun s st => (XYGrid_slave_cases lib m su _ s st).1)
          (fun s st => (XYGrid_slave_cases lib m su _ s st).2) with
        ⟨hall, ⟨sl, st, ops1⟩, hr, hc, hlen⟩ | ⟨hex, herr⟩
      · left
        exact ⟨hall, ({ m with slaves := sl }, ops ++ ops1, st.nOpen),
          by simp only [sydPlot_XYGrid, hfind, List.get?_eq_getElem?, hget, hsu, hr], hc, hlen⟩
      · right
        exact ⟨hex,
          by simp only [sydPlot_XYGrid, hfind, List.get?_eq_getElem?, hget, hsu, herr]⟩
    · obtain ⟨su, ops, hsu, -⟩ := (sydPlot_setup_cases lib m 1 n).2 h0
      rcases key AxisSt.nOpen
          (sharedGrid_slave lib m su
            (su.xlo + 6 * su.charHtX * ((m.nSlaves - 1 : Int) : Dbl))
            (su.ylo + 6 * su.charHt) (XYY_attr m) sx.pSChan.label
            sx.originVal sx.extentVal sx.nInt)
          { offsetAnnotY := 0, drawAxis := 0, nOpen := n + 1 }
          { sx with pArea := none, yFracBot := 0, yFracTop := 0 } rfl h0
          (fun s st => (sharedGrid_slave_cases lib m su _ _ _ _ _ _ _ s st).1)
          (fun s st => (sharedGrid_slave_cases lib m su _ _ _ _ _ _ _ s st).2) with
        ⟨hall, ⟨sl, st, ops1⟩, hr, hc, hlen⟩ | ⟨hex, herr⟩
      · left
        exact ⟨hall, ({ m with slaves := sl }, ops ++ ops1, st.nOpen),
          by simp only [sydPlot_XYYGrid, hfind, List.get?_eq_getElem?, hget, hsu, hr], hc, hlen⟩
      · right
        exact ⟨hex,
          by simp only [sydPlot_XYYGrid, hfind, List.get?_eq_getElem?, hget, hsu, herr]⟩

theorem SmithGrid_outcome (lib : PprLib) (m : SYD_PL_MSTR) (n : Nat) (hne : m.slaves ≠ []) :
    ((lib.pprAreaOpen n ≠ none ∧
        ∀ j, j + 1 < m.slaves.length → lib.pprAreaOpen (n + 2 + j) ≠ none) ∧
      ∃ r, sydPlot_SmithGrid lib m n = Except.ok r ∧ r.2.2 = n + 1 + m.slaves.length ∧
        r.1.slaves.length = m.slaves.length) ∨
    ((lib.pprAreaOpen n = none ∨
        ∃ j, j + 1 < m.slaves.length ∧ lib.pprAreaOpen (n + 2 + j) = none) ∧
      sydPlot_SmithGrid lib m n = Except.error Fault.assertFail) := by
  obtain ⟨sx, hget, -⟩ := xIndex_spec m.slaves hne
  have hfind := findXSlave_eq_xIndex m.slaves hne
  have hxlt := xIndex_lt m.slaves hne
  by_cases h0 : lib.pprAreaOpen n = none
  · right
    exact ⟨Or.inl h0, by simp only [sydPlot_SmithGrid, (sydPlot_setup_cases lib m _ n).1 h0]⟩
  · obtain ⟨su, ops, hsu, -⟩ := (sydPlot_setup_cases lib m 1 n).2 h0
    rcases gridLoop_outcome lib (fun k : Nat => k)
        (SmithGrid_slave lib m (su.xlo + 3 * su.charHtX) (su.ylo + 2 * su.charHt)
          (su.xhi - su.charHt) (su.yhi - 2 * su.charHt) { sx with pArea := none })
        (some (xIndex m.slaves))
        (fun s k => (SmithGrid_slave_cases lib m _ _ _ _ _ s k).1)
        (fun s k => (SmithGrid_slave_cases lib m _ _ _ _ _ s k).2)
        (m.slaves.set (xIndex m.slaves) { sx with pArea := none }) 0 (n + 1 + 1) with
      ⟨hall, ⟨sl, n1, ops1⟩, hr, hc, hlen⟩ | ⟨⟨j, hj, hnone⟩, herr⟩
    · left
      rw [gridCount_paired _ _ _ hxlt] at hall hc
      refine ⟨⟨h0, fun j hj => ?_⟩,
        ({ m with slaves := sl },
          ops ++ Smith_overlay m (lib.pprAreaOpen (n + 1)) (su.xlo + 3 * su.charHtX)
            (su.ylo + 2 * su.charHt) (su.xhi - su.charHt) (su.yhi - 2 * su.charHt) ++ ops1,
          n1), ?_, ?_, ?_⟩
      · have := hall j (by omega)
        simpa using this
      · simp only [sydPlot_SmithGrid, hsu, hfind, List.get?_eq_getElem?, hget, hr]
      · simp only [] at hc ⊢
        omega
      · simp only [] at hlen ⊢
        rw [hlen, List.length_set]
    · right
      rw [gridCount_paired _ _ _ hxlt] at hj
      refine ⟨Or.inr ⟨j, by omega, by simpa using hnone⟩, ?_⟩
      simp only [sydPlot_SmithGrid, hsu, hfind, List.get?_eq_getElem?, hget, herr]

theorem bandGrid_loop_bands (lib : PprLib) (m : SYD_PL_MSTR) (su : SetupOut) (xLabel : String)
    (xmin xmax : Dbl) (xNint : Int) :
    ∀ (ss : List SYD_PL_SLAVE) (k0 : Nat) (st : BandSt)
      (r : List SYD_PL_SLAVE × BandSt × List GridCall),
      gridLoop (bandGrid_slave lib m su xLabel xmin xmax xNint) none ss k0 st = Except.ok r →
      ∀ (i : Nat) (t : SYD_PL_SLAVE), r.1[i]? = some t →
        t.yFracTop = bandLine su.yPart st.yhi i ∧
        t.yFracBot = roundDbl (bandLine su.yPart st.ylo i +
          roundDbl (6 * lib.PprDfltCharHt (bandLine su.yPart st.ylo i)
            (bandLine su.yPart st.yhi i))) := by
  intro ss
  induction ss with
  | nil =>
    intro k0 st r h i t hi
    simp only [gridLoop] at h
    cases h
    simp at hi
  | cons s rest ih =>
    intro k0 st r h i t hi
    simp only [gridLoop, reduceCtorEq, if_false] at h
    cases h0 : bandGrid_slave lib m su xLabel xmin xmax xNint s st with
    | error e => rw [h0] at h; cases h
    | ok q0 =>
      obtain ⟨s1, st1, ops⟩ := q0
      rw [h0] at h
      simp only [] at h
      cases h1 : gridLoop (bandGrid_slave lib m su xLabel xmin xmax xNint) none rest (k0 + 1)
          st1 with
      | error e => rw [h1] at h; cases h
      | ok q =>
        rw [h1] at h
        cases h
        unfold bandGrid_slave at h0
        simp only [] at h0
        split at h0
        · cases h0
        · cases h0
          cases i with
          | zero =>
            simp only [List.getElem?_cons_zero, Option.some.injEq] at hi
            subst hi
            exact ⟨rfl, rfl⟩
          | succ i =>
            simp only [List.getElem?_cons_succ] at hi
            exact ih _ _ _ h1 i t hi

theorem extent_pos (m : SYD_PL_MSTR) : 0 < extentTop m - extentBot m := by
  rw [extentTop_val, extentBot_val]
  split <;> split <;> norm_num

theorem yPart_pos (m : SYD_PL_MSTR) (N : Int) (hN : 1 ≤ N) :
    0 < roundDbl (roundDbl (extentTop m - extentBot m) / (N : Dbl)) := by
  have hNpos : (0 : Dbl) < (N : Dbl) := by exact_mod_cast (by omega : 0 < N)
  exact roundDbl_pos _ (div_pos (roundDbl_pos _ (extent_pos m)) hNpos)

theorem bandLine_succ (yPart : Dbl) :
    ∀ (k : Nat) (y : Dbl), bandLine yPart y (k + 1) = roundDbl (bandLine yPart y k + yPart) := by
  intro k
  induction k with
  | zero => intro y; rfl
  | succ k ih =>
    intro y
    show bandLine yPart (roundDbl (y + yPart)) (k + 1) = _
    rw [ih]
    rfl

theorem bandLine_fix (yPart : Dbl) (hP : 0 ≤ yPart) (y : Dbl) (hy : 0 ≤ y)
    (hfix : roundDbl y = y) :
    ∀ k : Nat, 0 ≤ bandLine yPart y k ∧ roundDbl (bandLine yPart y k) = bandLine yPart y k := by
  intro k
  induction k with
  | zero => exact ⟨hy, hfix⟩
  | succ k ih =>
    rw [bandLine_succ]
    have h : 0 ≤ bandLine yPart y k + yPart := add_nonneg ih.1 hP
    exact ⟨roundDbl_nonneg _ h, roundDbl_idem _ h⟩

theorem bandLine_mono (yPart : Dbl) (hP : 0 ≤ yPart) (y : Dbl) (hy : 0 ≤ y)
    (hfix : roundDbl y = y) (k : Nat) :
    bandLine yPart y k ≤ bandLine yPart y (k + 1) := by
  rw [bandLine_succ]
  obtain ⟨h0, h1⟩ := bandLine_fix yPart hP y hy hfix k
  exact roundDbl_ge _ _ h0 h1 (by linarith)

theorem TYGrid_bands (lib : PprLib) (m : SYD_PL_MSTR) (n : Nat)
    (hopen : ∀ j, j ≤ m.slaves.length → lib.pprAreaOpen (n + j) ≠ none) :
    ∃ r, sydPlot_TYGrid lib m n = Except.ok r ∧ r.1.slaves.length = m.slaves.length ∧
      ∀ (k : Nat) (t : SYD_PL_SLAVE), r.1.slaves[k]? = some t →
        t.yFracTop =
          bandLine (roundDbl (roundDbl (extentTop m - extentBot m) / (m.nSlaves : Dbl)))
            (extentBot m) (k + 1) ∧
        t.yFracBot =
          roundDbl
            (bandLine (roundDbl (roundDbl (extentTop m - extentBot m) / (m.nSlaves : Dbl)))
                (extentBot m) k +
              roundDbl (6 * lib.PprDfltCharHt
                (bandLine (roundDbl (roundDbl (extentTop m - extentBot m) / (m.nSlaves : Dbl)))
                  (extentBot m) k)
                (bandLine (roundDbl (roundDbl (extentTop m - extentBot m) / (m.nSlaves : Dbl)))
                  (extentBot m) (k + 1)))) := by
  have h0 : lib.pprAreaOpen n ≠ none := hopen 0 (by omega)
  obtain ⟨su, ops, hsu, hylo, hyPart, hyhi⟩ := (sydPlot_setup_cases lib m m.nSlaves n).2 h0
  rcases gridLoop_outcome lib BandSt.nOpen
      (bandGrid_slave lib m su m.label (TY_xDomain m).1 (TY_xDomain m).2.1 (TY_xDomain m).2.2)
      none
      (fun s st => (bandGrid_slave_cases lib m su _ _ _ _ s st).1)
      (fun s st => (bandGrid_slave_cases lib m su _ _ _ _ s st).2)
      m.slaves 0 { ylo := su.ylo, yhi := su.yhi, nOpen := n + 1 } with
    ⟨-, ⟨sl, st, ops1⟩, hr, -, hlen⟩ | ⟨⟨j, hj, hnone⟩, -⟩
  · refine ⟨({ m with slaves := sl }, ops ++ ops1, st.nOpen),
      by simp only [sydPlot_TYGrid, hsu, hr], hlen, ?_⟩
    intro k t hk
    obtain ⟨ha, hb⟩ := bandGrid_loop_bands lib m su _ _ _ _ _ _ _ _ hr k t hk
    simp only [] at ha hb
    have hyhi2 : su.yhi = roundDbl (su.ylo + su.yPart) := by rw [hyhi, add_comm]
    have htop : bandLine su.yPart su.yhi k = bandLine su.yPart su.ylo (k + 1) := by
      rw [hyhi2]; rfl
    rw [htop] at ha hb
    rw [ha, hb, hylo, hyPart]
    exact ⟨rfl, rfl⟩
  · rw [gridCount_none] at hj
    exact absurd (by simpa [Nat.add_assoc, Nat.add_comm 1 j] using hnone) (hopen (j + 1) (by omega))

theorem Done_loop_spec : ∀ (ss : List SYD_PL_SLAVE) (nSlaves : Int),
    (Done_loop ss nSlaves).1 = nSlaves - (ss.length : Int) ∧
    (Done_loop ss nSlaves).2 =
      (ss.map fun s =>
        (if s.pArea.isSome then [DoneCall.pprAreaClose s.pArea] else []) ++
          [DoneCall.GenFree s]).flatten := by
  intro ss
  induction ss with
  | nil => intro n; simp [Done_loop]
  | cons s rest ih =>
    intro n
    obtain ⟨h1, h2⟩ := ih (n - 1)
    constructor
    · simp only [Done_loop, h1, List.length_cons]
      push_cast
      ring
    · simp only [Done_loop, h2, List.map_cons, List.flatten_cons, List.append_assoc]

theorem cont_segments (m : SYD_PL_MSTR) (s : SYD_PL_SLAVE) (d : Int → Dbl) (fuel : Nat)
    (junk : Dbl) (i : Int) (l : Locals) (newX : Dbl) (hd : s.pSChan.pData = some d)
    (ht : s.pSChan.dbrType ≠ DbrType.STRING) :
    (TY_fetchX m fuel i = Except.ok newX →
      TY_cont m s fuel i l = Except.ok
        ({ l with oldX := newX, oldY := d i },
          (if m.linePlot ≠ 0 ∧ s.pSChan.dbrType = DbrType.ENUM then
            [PprCall.pprLineSegD s.pArea l.oldX l.oldY newX l.oldY,
              PprCall.pprLineSegD s.pArea newX l.oldY newX (d i)]
           else if m.linePlot ≠ 0 then
            [PprCall.pprLineSegD s.pArea l.oldX l.oldY newX (d i)]
           else []) ++
          plotGlyphs m s.pArea s.markNum newX (d i) (s.pSChan.pDataCodeR i))) ∧
    (s.pSChan.elCount = 1 →
      Y_cont m s junk i l = Except.ok
        ({ l with oldX := (i : Dbl), oldY := d i },
          (if m.linePlot ≠ 0 ∧ s.pSChan.dbrType = DbrType.ENUM then
            [PprCall.pprLineSegD s.pArea l.oldX l.oldY (i : Dbl) l.oldY,
              PprCall.pprLineSegD s.pArea (i : Dbl) l.oldY (i : Dbl) (d i)]
           else if m.linePlot ≠ 0 then
            [PprCall.pprLineSegD s.pArea l.oldX l.oldY (i : Dbl) (d i)]
           else []) ++
          plotGlyphs m s.pArea s.markNum (i : Dbl) (d i) (s.pSChan.pDataCodeR i))) := by
  have f1 : FetchIthValInto s.pSChan i = Except.ok (d i) := by
    unfold FetchIthValInto
    cases h : s.pSChan.dbrType <;> simp [hd]
    exact ht h
  constructor
  · intro hx
    simp only [TY_cont, hx, f1]
    by_cases h1 : m.linePlot = 0
    · simp [h1]
    · by_cases h2 : s.pSChan.dbrType = DbrType.ENUM
      · simp [h1, h2]
      · simp [h1, h2]
  · intro hel
    simp only [Y_cont, hel, if_true, f1]
    by_cases h1 : m.linePlot = 0
    · simp [h1]
    · by_cases h2 : s.pSChan.dbrType = DbrType.ENUM
      · simp [h1, h2]
      · simp [h1, h2]

theorem TY_xDomain_spec (m : SYD_PL_MSTR) :
    (TY_xDomain m).1 ≠ (TY_xDomain m).2.1 ∧
    (m.originVal ≠ m.extentVal → TY_xDomain m = (m.originVal, m.extentVal, m.nInt)) ∧
    (m.originVal = m.extentVal → TY_xDomain m = (0, 100, 5)) := by
  unfold TY_xDomain
  by_cases h : m.originVal = m.extentVal
  · simp [h]
  · simp [h]

theorem gridLoop_ops_forall {σ : Type} (P : GridCall → Prop)
    (f : SYD_PL_SLAVE → σ → Except Fault (SYD_PL_SLAVE × σ × List GridCall))
    (skip : Option Nat)
    (hf : ∀ s st r, f s st = Except.ok r → ∀ op ∈ r.2.2, P op) :
    ∀ (ss : List SYD_PL_SLAVE) (k : Nat) (st : σ) (r : List SYD_PL_SLAVE × σ × List GridCall),
      gridLoop f skip ss k st = Except.ok r → ∀ op ∈ r.2.2, P op := by
  intro ss
  induction ss with
  | nil =>
    intro k st r h op hop
    simp only [gridLoop] at h
    cases h
    cases hop
  | cons s rest ih =>
    intro k st r h op hop
    simp only [gridLoop] at h
    split at h
    · cases h1 : gridLoop f skip rest (k + 1) st with
      | error e => rw [h1] at h; cases h
      | ok q =>
        rw [h1] at h
        cases h
        exact ih _ _ _ h1 op hop
    · cases h0 : f s st with
      | error e => rw [h0] at h; cases h
      | ok q0 =>
        obtain ⟨s1, st1, ops⟩ := q0
        rw [h0] at h
        simp only [] at h
        cases h1 : gridLoop f skip rest (k + 1) st1 with
        | error e => rw [h1] at h; cases h
        | ok q =>
          rw [h1] at h
          cases h
          rcases List.mem_append.mp hop with hop | hop
          · exact hf s st _ h0 op hop
          · exact ih _ _ _ h1 op hop

theorem bandAttr_xRange (m : SYD_PL_MSTR) (s : SYD_PL_SLAVE) (a : Option Nat) :
    ∀ op ∈ bandAttr m s a, op.xRange = none ∧ op.opened = none ∧ op.closed = none := by
  intro op hop
  unfold bandAttr at hop
  split at hop
  · rw [List.mem_singleton] at hop; subst hop; exact ⟨rfl, rfl, rfl⟩
  · split at hop
    · split at hop
      · rw [List.mem_singleton] at hop; subst hop; exact ⟨rfl, rfl, rfl⟩
      · cases hop
    · cases hop

theorem sharedAttr_xRange (m : SYD_PL_MSTR) (s : SYD_PL_SLAVE) (a : Option Nat) :
    ∀ op ∈ sharedAttr m s a, op.xRange = none ∧ op.opened = none ∧ op.closed = none := by
  intro op hop
  unfold sharedAttr at hop
  split at hop
  · rw [List.mem_singleton] at hop; subst hop; exact ⟨rfl, rfl, rfl⟩
  · split at hop
    · rcases List.mem_append.mp hop with h | h
      · split at h
        · rw [List.mem_singleton] at h; subst h; exact ⟨rfl, rfl, rfl⟩
        · cases h
      · split at h
        · rw [List.mem_singleton] at h; subst h; exact ⟨rfl, rfl, rfl⟩
        · cases h
    · split at hop
      · rw [List.mem_singleton] at hop; subst hop; exact ⟨rfl, rfl, rfl⟩
      · cases hop

theorem bandGrid_slave_xRange (lib : PprLib) (m : SYD_PL_MSTR) (su : SetupOut) (xLabel : String)
    (xmin xmax : Dbl) (xNint : Int) (s : SYD_PL_SLAVE) (st : BandSt)
    (r : SYD_PL_SLAVE × BandSt × List GridCall)
    (h : bandGrid_slave lib m su xLabel xmin xmax xNint s st = Except.ok r) :
    ∀ op ∈ r.2.2, ∀ rng, op.xRange = some rng → rng = (xmin, xmax, xNint) := by
  unfold bandGrid_slave at h
  simp only [] at h
  split at h
  · cases h
  · rename_i pArea ops hopen
    cases h
    obtain ⟨-, -, hops⟩ := slaveAreaOpen_ok lib s st.nOpen _ _ _ _ _ _ _ _ _ _ _ _ hopen
    simp only [] at hops
    intro op hop rng hrng
    simp only [List.mem_append, List.mem_singleton] at hop
    rcases hop with (hop | hop) | hop
    · rw [hops] at hop
      rcases List.mem_append.mp hop with h1 | h1
      · split at h1
        · rw [List.mem_singleton] at h1; subst h1; cases hrng
        · cases h1
      · rw [List.mem_singleton] at h1
        subst h1
        simp only [GridCall.xRange, Option.some.injEq] at hrng
        exact hrng.symm
    · rw [(bandAttr_xRange m s pArea op hop).1] at hrng
      cases hrng
    · subst hop
      cases hrng

theorem sharedGrid_slave_xRange (lib : PprLib) (m : SYD_PL_MSTR) (su : SetupOut)
    (xlo ylo : Dbl) (xLabel : String) (xmin xmax : Dbl) (xNint : Int) (s : SYD_PL_SLAVE)
    (st : AxisSt) (r : SYD_PL_SLAVE × AxisSt × List GridCall)
    (h : sharedGrid_slave lib m su xlo ylo (fun s a _ => sharedAttr m s a) xLabel xmin xmax
      xNint s st = Except.ok r) :
    ∀ op ∈ r.2.2, ∀ rng, op.xRange = some rng → rng = (xmin, xmax, xNint) := by
  unfold sharedGrid_slave at h
  split at h
  · cases h
  · rename_i pArea ops hopen
    cases h
    obtain ⟨-, -, hops⟩ := slaveAreaOpen_ok lib s st.nOpen _ _ _ _ _ _ _ _ _ _ _ _ hopen
    simp only [] at hops
    intro op hop rng hrng
    simp only [List.mem_append, List.mem_singleton] at hop
    rcases hop with (((hop | hop) | hop) | hop) | hop
    · rw [hops] at hop
      rcases List.mem_append.mp hop with h1 | h1
      · split at h1
        · rw [List.mem_singleton] at h1; subst h1; cases hrng
        · cases h1
      · rw [List.mem_singleton] at h1
        subst h1
        simp only [GridCall.xRange, Option.some.injEq] at hrng
        exact hrng.symm
    · rw [(sharedAttr_xRange m s pArea op hop).1] at hrng
      cases hrng
    · split at hop
      · simp only [List.mem_cons, List.mem_singleton, List.not_mem_nil, or_false] at hop
        rcases hop with hop | hop <;> subst hop <;> cases hrng
      · cases hop
    · subst hop
      cases hrng
    · split at hop
      · rw [List.mem_singleton] at hop; subst hop; cases hrng
      · cases hop

theorem TY_grids_xRange (lib : PprLib) (m : SYD_PL_MSTR) (n : Nat)
    (grid : PprLib → SYD_PL_MSTR → Nat → Except Fault (SYD_PL_MSTR × List GridCall × Nat))
    (hgrid : grid = sydPlot_TYGrid ∨ grid = sydPlot_TYYGrid)
    (r : SYD_PL_MSTR × List GridCall × Nat) (h : grid lib m n = Except.ok r) :
    ∃ su ops0 n0 ops1 nGrids, sydPlot_setup lib m nGrids n = Except.ok (su, ops0, n0) ∧
      r.2.1 = ops0 ++ ops1 ∧
      ∀ op ∈ ops1, ∀ rng, op.xRange = some rng → rng = TY_xDomain m := by
  rcases hgrid with hg | hg <;> subst hg
  · unfold sydPlot_TYGrid at h
    split at h
    · cases h
    · rename_i su ops0 n0 hsu
      dsimp only at h
      split at h
      · cases h
      · rename_i sl st ops1 hl
        cases h
        exact ⟨su, ops0, n0, ops1, _, hsu, rfl,
          gridLoop_ops_forall _ _ _ (bandGrid_slave_xRange lib m su _ _ _ _) _ _ _ _ hl⟩
  · unfold sydPlot_TYYGrid at h
    split at h
    · cases h
    · rename_i su ops0 n0 hsu
      dsimp only at h
      split at h
      · cases h
      · rename_i sl st ops1 hl
        cases h
        exact ⟨su, ops0, n0, ops1, _, hsu, rfl,
          gridLoop_ops_forall _ _ _ (sharedGrid_slave_xRange lib m su _ _ _ _ _ _) _ _ _ _ hl⟩

theorem grid_master_frame (lib : PprLib) (m : SYD_PL_MSTR) (n : Nat)
    (grid : PprLib → SYD_PL_MSTR → Nat → Except Fault (SYD_PL_MSTR × List GridCall × Nat))
    (hgrid : grid = sydPlot_TYGrid ∨ grid = sydPlot_TYYGrid ∨ grid = sydPlot_XYGrid ∨
      grid = sydPlot_XYYGrid ∨ grid = sydPlot_YGrid ∨ grid = sydPlot_YYGrid ∨
      grid = sydPlot_SmithGrid)
    (r : SYD_PL_MSTR × List GridCall × Nat) (h : grid lib m n = Except.ok r) :
    r.1 = { m with slaves := r.1.slaves } := by
  rcases hgrid with hg | hg | hg | hg | hg | hg | hg <;> subst hg
  · unfold sydPlot_TYGrid at h
    split at h
    · cases h
    · dsimp only at h
      split at h
      · cases h
      · cases h; rfl
  · unfold sydPlot_TYYGrid at h
    split at h
    · cases h
    · dsimp only at h
      split at h
      · cases h
      · cases h; rfl
  · unfold sydPlot_XYGrid at h
    split at h
    · cases h
    · split at h
      · cases h
      · split at h
        · cases h
        · dsimp only at h
          split at h
          · cases h
          · cases h; rfl
  · unfold sydPlot_XYYGrid at h
    split at h
    · cases h
    · split at h
      · cases h
      · split at h
        · cases h
        · dsimp only at h
          split at h
          · cases h
          · cases h; rfl
  · unfold sydPlot_YGrid at h
    split at h
    · cases h
    · split at h
      · cases h
      · cases h; rfl
  · unfold sydPlot_YYGrid at h
    split at h
    · cases h
    · dsimp only at h
      split at h
      · cases h
      · cases h; rfl
  · unfold sydPlot_SmithGrid at h
    split at h
    · cases h
    · dsimp only at h
      split at h
      · cases h
      · split at h
        · cases h
        · split at h
          · cases h
          · cases h; rfl

theorem samples_master_frame (m : SYD_PL_MSTR) (b e incr : Int) (fuel : Nat) (l : Locals)
    (junk : Dbl) :
    (∀ r, sydPlot_TYSamples m b e incr fuel l = Except.ok r →
      r.1 = { m with slaves := r.1.slaves }) ∧
    (∀ r, sydPlot_YSamples m b e incr fuel l junk = Except.ok r →
      r.1 = { m with slaves := r.1.slaves }) ∧
    (∀ r, sydPlot_XYSamples m b e incr fuel l junk = Except.ok r →
      r.1 = { m with slaves := r.1.slaves }) := by
  refine ⟨?_, ?_, ?_⟩
  · intro r h
    unfold sydPlot_TYSamples at h
    split at h
    · cases h
    · cases h; rfl
  · intro r h
    unfold sydPlot_YSamples at h
    split at h
    · cases h
    · cases h; rfl
  · intro r h
    unfold sydPlot_XYSamples at h
    split at h
    · cases h
    · split at h
      · cases h
      · split at h
        · cases h
        · cases h; rfl

theorem gridThenSamples_frame (m : SYD_PL_MSTR) (pSspec : SYD_SPEC)
    (grid : Except Fault (SYD_PL_MSTR × List GridCall × Nat))
    (samples : SYD_PL_MSTR → Int → Int → Int → Except Fault (SYD_PL_MSTR × List PprCall))
    (hg : ∀ g, grid = Except.ok g → g.1 = { m with slaves := g.1.slaves })
    (hs : ∀ (g : SYD_PL_MSTR) b e incr r, samples g b e incr = Except.ok r →
      r.1 = { g with slaves := r.1.slaves })
    (r : SYD_PL_MSTR × List GridCall × List PprCall × Nat)
    (h : gridThenSamples pSspec grid samples = Except.ok r) :
    r.1 = { m with slaves := r.1.slaves } := by
  cases grid with
  | error e => simp [gridThenSamples] at h
  | ok g =>
    obtain ⟨m1, gops, n1⟩ := g
    simp only [gridThenSamples] at h
    cases hsm : samples m1 pSspec.firstData pSspec.lastData 0 with
    | error e => rw [hsm] at h; cases h
    | ok q =>
      obtain ⟨m2, ops⟩ := q
      rw [hsm] at h
      cases h
      have h1 := hg _ rfl
      have h2 := hs _ _ _ _ _ hsm
      simp only [] at h1 h2 ⊢
      rw [h2, h1]

theorem sydPlot_master_frame (lib : PprLib) (m : SYD_PL_MSTR) (info : Int × Int × Int × Int)
    (n fuel : Nat) (l : Locals) (junk : Dbl)
    (r : SYD_PL_MSTR × List GridCall × List PprCall × Nat)
    (h : sydPlot lib m info n fuel l junk = Except.ok r) :
    r.1 = { m with slaves := r.1.slaves, x := info.1, y := info.2.1, width := info.2.2.1,
                   height := info.2.2.2 } := by
  have hTY := fun (g : SYD_PL_MSTR) b e incr r =>
    (samples_master_frame g b e incr fuel l junk).1 r
  have hY := fun (g : SYD_PL_MSTR) b e incr r =>
    (samples_master_frame g b e incr fuel l junk).2.1 r
  have hXY := fun (g : SYD_PL_MSTR) b e incr r =>
    (samples_master_frame g b e incr fuel l junk).2.2 r
  unfold sydPlot at h
  dsimp only at h
  split at h
  · exact gridThenSamples_frame _ _ _ _
      (fun g hg => grid_master_frame lib _ n sydPlot_TYGrid (Or.inl rfl) g hg) hTY r h
  split at h
  · exact gridThenSamples_frame _ _ _ _
      (fun g hg => grid_master_frame lib _ n sydPlot_TYYGrid (Or.inr (Or.inl rfl)) g hg) hTY r h
  split at h
  · exact gridThenSamples_frame _ _ _ _
      (fun g hg => grid_master_frame lib _ n sydPlot_XYGrid
        (Or.inr (Or.inr (Or.inl rfl))) g hg) hXY r h
  split at h
  · exact gridThenSamples_frame _ _ _ _
      (fun g hg => grid_master_frame lib _ n sydPlot_XYYGrid
        (Or.inr (Or.inr (Or.inr (Or.inl rfl)))) g hg) hXY r h
  split at h
  · exact gridThenSamples_frame _ _ _ _
      (fun g hg => grid_master_frame lib _ n sydPlot_YGrid
        (Or.inr (Or.inr (Or.inr (Or.inr (Or.inl rfl))))) g hg) hY r h
  split at h
  · exact gridThenSamples_frame _ _ _ _
      (fun g hg => grid_master_frame lib _ n sydPlot_YYGrid
        (Or.inr (Or.inr (Or.inr (Or.inr (Or.inr (Or.inl rfl)))))) g hg) hY r h
  split at h
  · exact gridThenSamples_frame _ _ _ _
      (fun g hg => grid_master_frame lib _ n sydPlot_SmithGrid
        (Or.inr (Or.inr (Or.inr (Or.inr (Or.inr (Or.inr rfl)))))) g hg) hXY r h
  · cases h

theorem drawCalls_domain (lib : PprLib) (fuel : Nat) (l : Locals) (junk : Dbl) :
    ∀ (draws : List (Int × Int × Int × Int)) (m : SYD_PL_MSTR) (n : Nat)
      (r : SYD_PL_MSTR × List GridCall × List PprCall × Nat),
      drawCalls lib fuel l junk draws m n = Except.ok r →
      r.1.originVal = m.originVal ∧ r.1.extentVal = m.extentVal ∧ r.1.nInt = m.nInt := by
  intro draws
  induction draws with
  | nil =>
    intro m n r h
    simp only [drawCalls] at h
    cases h
    exact ⟨rfl, rfl, rfl⟩
  | cons info rest ih =>
    intro m n r h
    simp only [drawCalls] at h
    cases h0 : sydPlot lib m info n fuel l junk with
    | error e => rw [h0] at h; cases h
    | ok q0 =>
      obtain ⟨m1, g1, p1, n1⟩ := q0
      rw [h0] at h
      simp only [] at h
      cases h1 : drawCalls lib fuel l junk rest m1 n1 with
      | error e => rw [h1] at h; cases h
      | ok q =>
        rw [h1] at h
        cases h
        obtain ⟨a, b, c⟩ := ih _ _ _ h1
        have hf := sydPlot_master_frame lib m info n fuel l junk _ h0
        simp only [] at hf a b c ⊢
        rw [a, b, c, hf]
        exact ⟨rfl, rfl, rfl⟩

theorem plotGlyphs_content (m : SYD_PL_MSTR) (a : Option Nat) (mk : Int) (x y : Dbl)
    (c : Char) :
    (PprCall.pprMarkD a x y mk ∈ plotGlyphs m a mk x y c ↔ m.markPlot ≠ 0) ∧
    (PprCall.pprChar a x y c ∈ plotGlyphs m a mk x y c ↔ (m.showStat ≠ 0 ∧ c ≠ ' ')) ∧
    (PprCall.pprPointD a x y ∈ plotGlyphs m a mk x y c ↔
      (m.pointPlot ≠ 0 ∧ ¬ (m.showStat ≠ 0 ∧ c ≠ ' '))) ∧
    (∀ op ∈ plotGlyphs m a mk x y c,
      op = PprCall.pprMarkD a x y mk ∨ op = PprCall.pprChar a x y c ∨
        op = PprCall.pprPointD a x y) ∧
    (plotGlyphs m a mk x y c).Nodup := by
  unfold plotGlyphs
  by_cases h1 : m.markPlot ≠ 0 <;> by_cases h2 : (m.showStat ≠ 0 ∧ c ≠ ' ') <;>
    by_cases h3 : m.pointPlot ≠ 0 <;> simp [h1, h2, h3]

theorem scalar_sample_glyphs (m : SYD_PL_MSTR) (s : SYD_PL_SLAVE) (cx : SYD_CHAN)
    (fuel : Nat) (junk : Dbl) (i : Int) (l : Locals) (x y : Dbl)
    (hy : FetchIthValInto s.pSChan i = Except.ok y) :
    (TY_fetchX m fuel i = Except.ok x →
      TY_anchor m s fuel i l = Except.ok ({ l with oldX := x, oldY := y, skip := 0 },
        plotGlyphs m s.pArea s.markNum x y (s.pSChan.pDataCodeR i)) ∧
      ∃ segs, (∀ op ∈ segs, op.isLineSeg = true) ∧
        TY_cont m s fuel i l = Except.ok ({ l with oldX := x, oldY := y },
          segs ++ plotGlyphs m s.pArea s.markNum x y (s.pSChan.pDataCodeR i))) ∧
    (s.pSChan.elCount = 1 →
      Y_anchor m s junk i l = Except.ok ({ l with oldX := (i : Dbl), oldY := y, skip := 0 },
        plotGlyphs m s.pArea s.markNum (i : Dbl) y (s.pSChan.pDataCodeR i)) ∧
      ∃ segs, (∀ op ∈ segs, op.isLineSeg = true) ∧
        Y_cont m s junk i l = Except.ok ({ l with oldX := (i : Dbl), oldY := y },
          segs ++ plotGlyphs m s.pArea s.markNum (i : Dbl) y (s.pSChan.pDataCodeR i))) ∧
    (XY_nEl cx s.pSChan = 1 → FetchIthValInto cx i = Except.ok x →
      XY_anchor m cx s junk i l = Except.ok ({ l with oldX := x, oldY := y, skip := 0 },
        plotGlyphs m s.pArea s.markNum x y (s.pSChan.pDataCodeR i)) ∧
      ∃ segs, (∀ op ∈ segs, op.isLineSeg = true) ∧
        XY_cont m cx s junk i l = Except.ok ({ l with oldX := x, oldY := y },
          segs ++ plotGlyphs m s.pArea s.markNum x y (s.pSChan.pDataCodeR i))) := by
  refine ⟨fun hx => ⟨?_, ?_⟩, fun h1 => ⟨?_, ?_⟩, fun h1 hx => ⟨?_, ?_⟩⟩
  · simp [TY_anchor, hx, hy]
  · refine ⟨(if m.linePlot ≠ 0 ∧ s.pSChan.dbrType = DbrType.ENUM then
        [PprCall.pprLineSegD s.pArea l.oldX l.oldY x l.oldY] else []) ++
      (if m.linePlot ≠ 0 then
        [PprCall.pprLineSegD s.pArea
          (if m.linePlot ≠ 0 ∧ s.pSChan.dbrType = DbrType.ENUM then x else l.oldX)
          l.oldY x y] else []), ?_, ?_⟩
    · intro op hop
      rw [List.mem_append] at hop
      rcases hop with hop | hop
      · split at hop
        · rw [List.mem_singleton] at hop; subst hop; rfl
        · cases hop
      · split at hop
        · rw [List.mem_singleton] at hop; subst hop; rfl
        · cases hop
    · simp [TY_cont, hx, hy]
  · simp [Y_anchor, h1, hy]
  · refine ⟨(if m.linePlot ≠ 0 ∧ s.pSChan.dbrType = DbrType.ENUM then
        [PprCall.pprLineSegD s.pArea l.oldX l.oldY (i : Dbl) l.oldY] else []) ++
      (if m.linePlot ≠ 0 then
        [PprCall.pprLineSegD s.pArea
          (if m.linePlot ≠ 0 ∧ s.pSChan.dbrType = DbrType.ENUM then (i : Dbl) else l.oldX)
          l.oldY (i : Dbl) y] else []), ?_, ?_⟩
    · intro op hop
      rw [List.mem_append] at hop
      rcases hop with hop | hop
      · split at hop
        · rw [List.mem_singleton] at hop; subst hop; rfl
        · cases hop
      · split at hop
        · rw [List.mem_singleton] at hop; subst hop; rfl
        · cases hop
    · simp [Y_cont, h1, hy]
  · simp [XY_anchor, h1, hx, hy]
  · refine ⟨(if m.linePlot ≠ 0 then [PprCall.pprLineSegD s.pArea l.oldX l.oldY x y] else []),
      ?_, ?_⟩
    · intro op hop
      split at hop
      · rw [List.mem_singleton] at hop; subst hop; rfl
      · cases hop
    · simp [XY_cont, h1, hx, hy]

theorem YSamples_wrapX (pMstr : SYD_PL_MSTR) (w : Int) (b e incr : Int) (fuel : Nat)
    (l0 : Locals) (junk : Dbl) :
    sydPlot_YSamples { pMstr with wrapX := w } b e incr fuel l0 junk =
      (sydPlot_YSamples pMstr b e incr fuel l0 junk).map
        fun r => ({ r.1 with wrapX := w }, r.2) := by
  unfold sydPlot_YSamples
  have h : Y_slave { pMstr with wrapX := w } b e incr fuel junk =
      Y_slave pMstr b e incr fuel junk := rfl
  rw [h]
  cases slaveLoop (Y_slave pMstr b e incr fuel junk) pMstr.slaves l0 with
  | error f => rfl
  | ok r => rfl

theorem XYSamples_wrapX (pMstr : SYD_PL_MSTR) (w : Int) (b e incr : Int) (fuel : Nat)
    (l0 : Locals) (junk : Dbl) :
    sydPlot_XYSamples { pMstr with wrapX := w } b e incr fuel l0 junk =
      (sydPlot_XYSamples pMstr b e incr fuel l0 junk).map
        fun r => ({ r.1 with wrapX := w }, r.2) := by
  unfold sydPlot_XYSamples
  simp only []
  cases findXSlave pMstr.slaves with
  | error f => rfl
  | ok xIdx =>
    simp only []
    cases pMstr.slaves.get? xIdx with
    | none => rfl
    | some sx =>
      simp only []
      have h : XY_slave { pMstr with wrapX := w } sx.pSChan b e incr fuel junk =
          XY_slave pMstr sx.pSChan b e incr fuel junk := rfl
      rw [h]
      cases XY_slaveLoop (XY_slave pMstr sx.pSChan b e incr fuel junk) xIdx pMstr.slaves 0 l0 with
      | error f => rfl
      | ok r => rfl

theorem AxisSetup_ends_ne (c : SYD_CHAN) (o e : Dbl) :
    (AxisSetup_ends c o e).1 ≠ (AxisSetup_ends c o e).2 := by
  unfold AxisSetup_ends
  dsimp only
  generalize (if o = e then c.minDataVal else o) = o1
  generalize (if o = e then c.maxDataVal else e) = e1
  by_cases h : o1 = e1
  · rw [if_pos h]
    by_cases h0 : o1 = 0
    · rw [if_pos h0, h0]
      norm_num
    · rw [if_neg h0]
      by_cases hneg : o1 < 0
      · rw [if_pos hneg]
        exact ne_of_lt hneg
      · rw [if_neg hneg]
        rw [← h]
        exact fun hh => h0 hh.symm
  · rw [if_neg h]
    exact h

theorem AxisSetup_ne (s : SYD_PL_SLAVE) (jo je : Dbl) :
    (sydPlotAxisSetup s jo je).originVal ≠ (sydPlotAxisSetup s jo je).extentVal := by
  unfold sydPlotAxisSetup
  exact AxisSetup_ends_ne _ _ _

theorem ChanAdd_ne (m : SYD_PL_MSTR) (c : SYD_CHAN) (raw : SYD_PL_SLAVE) (jo je : Dbl)
    (ht : c.dbrType ≠ DbrType.STRING) :
    ∃ s, sydPlotChanAdd m c (some raw) jo je =
        Except.ok (some s, { m with nSlaves := m.nSlaves + 1, slaves := m.slaves ++ [s] }, []) ∧
      s.originVal ≠ s.extentVal := by
  unfold sydPlotChanAdd
  rw [if_neg ht]
  dsimp only
  refine ⟨_, rfl, ?_⟩
  split
  · exact AxisSetup_ne _ _ _
  · exact AxisSetup_ne _ _ _

theorem XY_slaveLoop_past
    (f : SYD_PL_SLAVE → Locals → Except Fault (SYD_PL_SLAVE × Locals × List PprCall))
    (xi : Nat) :
    ∀ (ss : List SYD_PL_SLAVE) (k : Nat) (l : Locals), xi < k →
      XY_slaveLoop f xi ss k l = slaveLoop f ss l := by
  intro ss
  induction ss with
  | nil => intro k l _; rfl
  | cons s rest ih =>
    intro k l hk
    simp only [XY_slaveLoop, slaveLoop, if_neg (by omega : ¬ k = xi)]
    cases f s l with
    | error e => rfl
    | ok q =>
      obtain ⟨s1, l1, ops⟩ := q
      simp only [ih (k + 1) l1 (by omega)]

theorem XY_slaveLoop_erase
    (f : SYD_PL_SLAVE → Locals → Except Fault (SYD_PL_SLAVE × Locals × List PprCall)) :
    ∀ (ss : List SYD_PL_SLAVE) (x k : Nat) (l : Locals) (sx : SYD_PL_SLAVE),
      ss[x]? = some sx →
      XY_slaveLoop f (x + k) ss k l =
        (slaveLoop f (ss.eraseIdx x) l).map
          fun r => (r.1.take x ++ sx :: r.1.drop x, r.2) := by
  intro ss
  induction ss with
  | nil => intro x k l sx h; simp at h
  | cons s rest ih =>
    intro x k l sx h
    cases x with
    | zero =>
      simp only [List.getElem?_cons_zero, Option.some.injEq] at h
      subst h
      simp only [XY_slaveLoop, Nat.zero_add, if_true, List.eraseIdx_cons_zero,
        XY_slaveLoop_past f k rest (k + 1) l (by omega)]
      cases slaveLoop f rest l with
      | error e => rfl
      | ok q => rfl
    | succ x' =>
      simp only [List.getElem?_cons_succ] at h
      simp only [XY_slaveLoop, if_neg (by omega : ¬ k = x' + 1 + k), List.eraseIdx_cons_succ,
        slaveLoop]
      cases f s l with
      | error e => rfl
      | ok q =>
        obtain ⟨s1, l1, ops⟩ := q
        have hidx : x' + 1 + k = x' + (k + 1) := by omega
        simp only [hidx, ih x' (k + 1) l1 sx h]
        cases slaveLoop f (rest.eraseIdx x') l1 with
        | error e => rfl
        | ok q2 => rfl

theorem gridLoop_none_k {σ : Type}
    (f : SYD_PL_SLAVE → σ → Except Fault (SYD_PL_SLAVE × σ × List GridCall)) :
    ∀ (ss : List SYD_PL_SLAVE) (k k' : Nat) (st : σ),
      gridLoop f none ss k st = gridLoop f none ss k' st := by
  intro ss
  induction ss with
  | nil => intro k k' st; rfl
  | cons s rest ih =>
    intro k k' st
    simp only [gridLoop, if_neg (by simp : ¬ (none : Option Nat) = some k),
      if_neg (by simp : ¬ (none : Option Nat) = some k')]
    cases f s st with
    | error e => rfl
    | ok q =>
      obtain ⟨s1, st1, ops⟩ := q
      simp only [ih (k + 1) (k' + 1) st1]

theorem gridLoop_past {σ : Type}
    (f : SYD_PL_SLAVE → σ → Except Fault (SYD_PL_SLAVE × σ × List GridCall)) (xi : Nat) :
    ∀ (ss : List SYD_PL_SLAVE) (k : Nat) (st : σ), xi < k →
      gridLoop f (some xi) ss k st = gridLoop f none ss 0 st := by
  intro ss
  induction ss with
  | nil => intro k st _; rfl
  | cons s rest ih =>
    intro k st hk
    have hne : ¬ (some xi : Option Nat) = some k := by
      rw [Option.some.injEq]
      omega
    simp only [gridLoop, if_neg hne, if_neg (by simp : ¬ (none : Option Nat) = some 0)]
    cases f s st with
    | error e => rfl
    | ok q =>
      obtain ⟨s1, st1, ops⟩ := q
      simp only [ih (k + 1) st1 (by omega), gridLoop_none_k f rest (0 + 1) 0 st1]

theorem gridLoop_erase {σ : Type}
    (f : SYD_PL_SLAVE → σ → Except Fault (SYD_PL_SLAVE × σ × List GridCall)) :
    ∀ (ss : List SYD_PL_SLAVE) (x k : Nat) (st : σ) (sx : SYD_PL_SLAVE),
      ss[x]? = some sx →
      gridLoop f (some (x + k)) ss k st =
        (gridLoop f none (ss.eraseIdx x) 0 st).map
          fun r => (r.1.take x ++ sx :: r.1.drop x, r.2) := by
  intro ss
  induction ss with
  | nil => intro x k st sx h; simp at h
  | cons s rest ih =>
    intro x k st sx h
    cases x with
    | zero =>
      simp only [List.getElem?_cons_zero, Option.some.injEq] at h
      subst h
      simp only [gridLoop, Nat.zero_add, if_true, List.eraseIdx_cons_zero,
        gridLoop_past f k rest (k + 1) st (by omega)]
      cases gridLoop f none rest 0 st with
      | error e => rfl
      | ok q => rfl
    | succ x' =>
      simp only [List.getElem?_cons_succ] at h
      have hne : ¬ (some (x' + 1 + k) : Option Nat) = some k := by
        rw [Option.some.injEq]
        omega
      simp only [gridLoop, if_neg hne, List.eraseIdx_cons_succ,
        if_neg (by simp : ¬ (none : Option Nat) = some 0)]
      cases f s st with
      | error e => rfl
      | ok q =>
        obtain ⟨s1, st1, ops⟩ := q
        have hidx : x' + 1 + k = x' + (k + 1) := by omega
        simp only [hidx, ih x' (k + 1) st1 sx h,
          gridLoop_none_k f (rest.eraseIdx x') (0 + 1) 0 st1]
        cases gridLoop f none (rest.eraseIdx x') 0 st1 with
        | error e => rfl
        | ok q2 => rfl

theorem eraseIdx_set_self {α : Type} : ∀ (l : List α) (x : Nat) (a : α),
    (l.set x a).eraseIdx x = l.eraseIdx x := by
  intro l
  induction l with
  | nil => intro x a; rfl
  | cons b rest ih =>
    intro x a
    cases x with
    | zero => rfl
    | succ x' => simp only [List.set_cons_succ, List.eraseIdx_cons_succ, ih x' a]

theorem XYSamples_as_slaveLoop (m : SYD_PL_MSTR) (sx : SYD_PL_SLAVE)
    (hne : m.slaves ≠ []) (hget : m.slaves[xIndex m.slaves]? = some sx)
    (b e incr : Int) (fuel : Nat) (l : Locals) (junk : Dbl) :
    sydPlot_XYSamples m b e incr fuel l junk =
      (slaveLoop (XY_slave m sx.pSChan b e incr fuel junk)
          (m.slaves.eraseIdx (xIndex m.slaves)) l).map
        fun r => ({ m with slaves := r.1.take (xIndex m.slaves) ++
                      sx :: r.1.drop (xIndex m.slaves) }, r.2.2) := by
  have h := XY_slaveLoop_erase (XY_slave m sx.pSChan b e incr fuel junk) m.slaves
    (xIndex m.slaves) 0 l sx hget
  rw [Nat.add_zero] at h
  simp only [sydPlot_XYSamples, findXSlave_eq_xIndex m.slaves hne, List.get?_eq_getElem?, hget, h]
  cases slaveLoop (XY_slave m sx.pSChan b e incr fuel junk)
      (m.slaves.eraseIdx (xIndex m.slaves)) l with
  | error e => rfl
  | ok q => rfl

theorem XYGrid_as_loop (lib : PprLib) (m : SYD_PL_MSTR) (sx : SYD_PL_SLAVE)
    (hne : m.slaves ≠ []) (hget : m.slaves[xIndex m.slaves]? = some sx) (n : Nat) :
    sydPlot_XYGrid lib m n =
      match sydPlot_setup lib m (m.nSlaves - 1) n with
      | Except.error e => Except.error e
      | Except.ok (su, ops0, n0) =>
        (gridLoop (XYGrid_slave lib m su { sx with pArea := none }) none
            (m.slaves.eraseIdx (xIndex m.slaves)) 0
            { ylo := su.ylo, yhi := su.yhi, nOpen := n0 }).map
          fun r => ({ m with slaves := r.1.take (xIndex m.slaves) ++
                        { sx with pArea := none } :: r.1.drop (xIndex m.slaves) },
                    ops0 ++ r.2.2, r.2.1.nOpen) := by
  have hlt := xIndex_lt m.slaves hne
  have hget1 : (m.slaves.set (xIndex m.slaves) { sx with pArea := none })[xIndex m.slaves]? =
      some { sx with pArea := none } := by
    simp [hlt]
  simp only [sydPlot_XYGrid, findXSlave_eq_xIndex m.slaves hne, List.get?_eq_getElem?, hget]
  cases sydPlot_setup lib m (m.nSlaves - 1) n with
  | error e => rfl
  | ok q =>
    obtain ⟨su, ops0, n0⟩ := q
    have h := gridLoop_erase (XYGrid_slave lib m su { sx with pArea := none })
      (m.slaves.set (xIndex m.slaves) { sx with pArea := none }) (xIndex m.slaves) 0
      { ylo := su.ylo, yhi := su.yhi, nOpen := n0 } _ hget1
    rw [Nat.add_zero, eraseIdx_set_self] at h
    simp only [h]
    cases gridLoop (XYGrid_slave lib m su { sx with pArea := none }) none
        (m.slaves.eraseIdx (xIndex m.slaves)) 0 { ylo := su.ylo, yhi := su.yhi, nOpen := n0 } with
    | error e => rfl
    | ok q => rfl

theorem XYYGrid_as_loop (lib : PprLib) (m : SYD_PL_MSTR) (sx : SYD_PL_SLAVE)
    (hne : m.slaves ≠ []) (hget : m.slaves[xIndex m.slaves]? = some sx) (n : Nat) :
    sydPlot_XYYGrid lib m n =
      match sydPlot_setup lib m 1 n with
      | Except.error e => Except.error e
      | Except.ok (su, ops0, n0) =>
        (gridLoop
            (sharedGrid_slave lib m su
              (su.xlo + 6 * su.charHtX * ((m.nSlaves - 1 : Int) : Dbl))
              (su.ylo + 6 * su.charHt) (XYY_attr m) sx.pSChan.label
              sx.originVal sx.extentVal sx.nInt)
            none (m.slaves.eraseIdx (xIndex m.slaves)) 0
            { offsetAnnotY := 0, drawAxis := 0, nOpen := n0 }).map
          fun r => ({ m with slaves := r.1.take (xIndex m.slaves) ++
                        { sx with pArea := none, yFracBot := 0, yFracTop := 0 } ::
                          r.1.drop (xIndex m.slaves) },
                    ops0 ++ r.2.2, r.2.1.nOpen) := by
  have hlt := xIndex_lt m.slaves hne
  have hget1 : (m.slaves.set (xIndex m.slaves)
      { sx with pArea := none, yFracBot := 0, yFracTop := 0 })[xIndex m.slaves]? =
      some { sx with pArea := none, yFracBot := 0, yFracTop := 0 } := by
    simp [hlt]
  simp only [sydPlot_XYYGrid, findXSlave_eq_xIndex m.slaves hne, List.get?_eq_getElem?, hget]
  cases sydPlot_setup lib m 1 n with
  | error e => rfl
  | ok q =>
    obtain ⟨su, ops0, n0⟩ := q
    have h := gridLoop_erase
      (sharedGrid_slave lib m su
        (su.xlo + 6 * su.charHtX * ((m.nSlaves - 1 : Int) : Dbl))
        (su.ylo + 6 * su.charHt) (XYY_attr m) sx.pSChan.label
        sx.originVal sx.extentVal sx.nInt)
      (m.slaves.set (xIndex m.slaves) { sx with pArea := none, yFracBot := 0, yFracTop := 0 })
      (xIndex m.slaves) 0 { offsetAnnotY := 0, drawAxis := 0, nOpen := n0 } _ hget1
    rw [Nat.add_zero, eraseIdx_set_self] at h
    simp only [h]
    cases gridLoop
        (sharedGrid_slave lib m su
          (su.xlo + 6 * su.charHtX * ((m.nSlaves - 1 : Int) : Dbl))
          (su.ylo + 6 * su.charHt) (XYY_attr m) sx.pSChan.label
          sx.originVal sx.extentVal sx.nInt)
        none (m.slaves.eraseIdx (xIndex m.slaves)) 0
        { offsetAnnotY := 0, drawAxis := 0, nOpen := n0 } with
    | error e => rfl
    | ok q => rfl

theorem slaveLoop_length
    (f : SYD_PL_SLAVE → Locals → Except Fault (SYD_PL_SLAVE × Locals × List PprCall))
    (ss : List SYD_PL_SLAVE) (l : Locals) (r : List SYD_PL_SLAVE × Locals × List PprCall)
    (h : slaveLoop f ss l = Except.ok r) : r.1.length = ss.length := by
  have := slaveLoop_map_inv (fun _ => ()) f (fun _ _ _ _ => rfl) ss l r h
  simpa using congrArg List.length this

theorem gridLoop_length {σ : Type}
    (f : SYD_PL_SLAVE → σ → Except Fault (SYD_PL_SLAVE × σ × List GridCall))
    (skip : Option Nat) (ss : List SYD_PL_SLAVE) (k : Nat) (st : σ)
    (r : List SYD_PL_SLAVE × σ × List GridCall)
    (h : gridLoop f skip ss k st = Except.ok r) : r.1.length = ss.length := by
  have := gridLoop_map_inv (fun _ => ()) f skip (fun _ _ _ _ => rfl) ss k st r h
  simpa using congrArg List.length this

theorem reinsert_get {α : Type} (l : List α) (x : Nat) (a : α) (h : x ≤ l.length) :
    (l.take x ++ a :: l.drop x)[x]? = some a ∧
      (l.take x ++ a :: l.drop x).eraseIdx x = l := by
  have hlen : (l.take x).length = x := by simp [h]
  constructor
  · rw [List.getElem?_append_right (by omega)]
    simp [hlen]
  · rw [List.eraseIdx_append_of_length_le (by omega)]
    simp [hlen]

theorem map_ok_inv {α β : Type} (x : Except Fault α) (g : α → β) (r : β)
    (h : x.map g = Except.ok r) : ∃ q, x = Except.ok q ∧ r = g q := by
  cases x with
  | error e => cases h
  | ok q =>
    refine ⟨q, rfl, ?_⟩
    simp only [Except.map] at h
    cases h
    rfl

theorem eraseIdx_length_ge (ss : List SYD_PL_SLAVE) (hne : ss ≠ []) :
    xIndex ss ≤ (ss.eraseIdx (xIndex ss)).length := by
  have hlt := xIndex_lt ss hne
  rw [List.length_eraseIdx]
  split <;> omega

theorem XYarray_loop_eq (a : Option Nat) (cx c : SYD_CHAN) (dx d : Int → Dbl) (sub : Int)
    (junk : Dbl) (hdx : cx.pData = some dx) (htx : cx.dbrType ≠ DbrType.STRING)
    (hd : c.pData = some d) (ht : c.dbrType ≠ DbrType.STRING) :
    ∀ (n : Nat) (p : Int), 0 ≤ p →
      XYarray_loop a cx c sub junk n (p + 1)
          (arrayVal cx dx (sub * cx.elCount + p), arrayVal c d (sub * c.elCount + p)) =
        Except.ok ((List.range n).map fun (t : Nat) =>
          PprCall.pprLineSegD a
            (arrayVal cx dx (sub * cx.elCount + (p + (t : Int))))
            (arrayVal c d (sub * c.elCount + (p + (t : Int))))
            (arrayVal cx dx (sub * cx.elCount + (p + (t : Int) + 1)))
            (arrayVal c d (sub * c.elCount + (p + (t : Int) + 1)))) := by
  intro n
  induction n with
  | zero => intro p _; rfl
  | succ n ih =>
    intro p hp
    have h := ih (p + 1) (by omega)
    simp only [XYarray_loop, arrayEl_eq cx dx junk _ hdx htx, arrayEl_eq c d junk _ hd ht]
    rw [h]
    simp only [if_pos (show p + 1 > 0 by omega)]
    rw [List.range_succ_eq_map, List.map_cons, List.map_map]
    simp only [List.singleton_append, Nat.cast_zero, add_zero]
    congr 2
    apply List.map_congr_left
    intro t _
    simp only [Function.comp, Nat.cast_succ]
    have e1 : p + 1 + (t : Int) = p + ((t : Int) + 1) := by ring
    rw [e1]

theorem XYarray_eq (a : Option Nat) (cx c : SYD_CHAN) (dx d : Int → Dbl) (sub : Int)
    (junk : Dbl) (hdx : cx.pData = some dx) (htx : cx.dbrType ≠ DbrType.STRING)
    (hd : c.pData = some d) (ht : c.dbrType ≠ DbrType.STRING) :
    sydPlot_XYarray a cx c sub junk = Except.ok (polylineXY a cx c dx d sub (XY_nEl cx c)) := by
  unfold sydPlot_XYarray polylineXY
  change XYarray_loop a cx c sub junk (XY_nEl cx c).toNat 0 (junk, junk) = _
  by_cases hk : 1 ≤ XY_nEl cx c
  · obtain ⟨n, hn⟩ : ∃ n : Nat, (XY_nEl cx c).toNat = n + 1 :=
      ⟨(XY_nEl cx c).toNat - 1, by omega⟩
    have hn2 : (XY_nEl cx c - 1).toNat = n := by omega
    rw [hn, hn2]
    simp only [XYarray_loop, arrayEl_eq cx dx junk _ hdx htx, arrayEl_eq c d junk _ hd ht]
    have h := XYarray_loop_eq a cx c dx d sub junk hdx htx hd ht n 0 (le_refl 0)
    rw [h]
    simp
  · have h0 : (XY_nEl cx c).toNat = 0 := by omega
    have h1 : (XY_nEl cx c - 1).toNat = 0 := by omega
    rw [h0, h1]
    rfl

theorem XY_anchor_array (m : SYD_PL_MSTR) (cx : SYD_CHAN) (s : SYD_PL_SLAVE)
    (dx d : Int → Dbl) (junk : Dbl) (i : Int) (l : Locals)
    (hdx : cx.pData = some dx) (htx : cx.dbrType ≠ DbrType.STRING)
    (hd : s.pSChan.pData = some d) (ht : s.pSChan.dbrType ≠ DbrType.STRING)
    (hk : XY_nEl cx s.pSChan ≠ 1) :
    XY_anchor m cx s junk i l =
        Except.ok ({ l with skip := 0 },
          polylineXY s.pArea cx s.pSChan dx d i (XY_nEl cx s.pSChan)) ∧
      XY_cont m cx s junk i l =
        Except.ok (l, polylineXY s.pArea cx s.pSChan dx d i (XY_nEl cx s.pSChan)) := by
  unfold XY_anchor XY_cont
  rw [if_neg hk, if_neg hk, XYarray_eq s.pArea cx s.pSChan dx d i junk hdx htx hd ht]
  exact ⟨rfl, rfl⟩

theorem array_sample_body (missing restart filled : Prop) [Decidable missing]
    [Decidable restart] [Decidable filled]
    (anchor cont : Locals → Except Fault (Locals × List PprCall)) (P : List PprCall)
    (hanchor : ∀ l, anchor l = Except.ok ({ l with skip := 0 }, P))
    (hcont : ∀ l, cont l = Except.ok (l, P)) (l : Locals) (hm : ¬ missing) :
    ((¬ filled ∨ l.first ≠ 0 ∨ l.skip ≠ 0 ∨ restart) →
      (if missing then Except.ok ({ l with skip := 1 }, [])
       else if l.first ≠ 0 ∨ l.skip ≠ 0 ∨ restart then anchor l
       else if filled then Except.ok (l, [])
       else cont l) = Except.ok ({ l with skip := 0 }, P)) ∧
    ((filled ∧ l.first = 0 ∧ l.skip = 0 ∧ ¬ restart) →
      (if missing then Except.ok ({ l with skip := 1 }, [])
       else if l.first ≠ 0 ∨ l.skip ≠ 0 ∨ restart then anchor l
       else if filled then Except.ok (l, [])
       else cont l) = Except.ok (l, [])) := by
  constructor
  · intro h
    rw [if_neg hm]
    by_cases ha : l.first ≠ 0 ∨ l.skip ≠ 0 ∨ restart
    · rw [if_pos ha, hanchor]
    · rw [if_neg ha]
      have hnf : ¬ filled := by
        rcases h with h | h
        · exact h
        · exact absurd h ha
      rw [if_neg hnf, hcont]
      have hsk : l.skip = 0 := by
        by_contra hne
        exact ha (Or.inr (Or.inl hne))
      cases l
      simp only at hsk
      subst hsk
      rfl
  · rintro ⟨hf, h1, h2, h3⟩
    have ha : ¬ (l.first ≠ 0 ∨ l.skip ≠ 0 ∨ restart) := by
      rintro (h | h | h)
      · exact h h1
      · exact h h2
      · exact h3 h
    rw [if_neg hm, if_neg ha, if_pos hf]

theorem runSamples_uniform (body : Int → Locals → Except Fault (Locals × List PprCall))
    (P : Int → List PprCall) :
    ∀ (is : List Int) (l : Locals),
      (∀ i ∈ is, ∀ l, body i l = Except.ok ({ l with skip := 0 }, P i)) →
      runSamples body is l =
        Except.ok (if is = [] then l else { l with first := 0, skip := 0 },
          (is.map P).flatten) := by
  intro is
  induction is with
  | nil => intro l _; rfl
  | cons i rest ih =>
    intro l h
    have h1 := h i (List.mem_cons_self _ _) l
    have h2 := ih { first := 0, skip := 0, oldX := l.oldX, oldY := l.oldY }
      fun j hj => h j (List.mem_cons_of_mem _ hj)
    simp only [runSamples, h1, h2]
    by_cases hr : rest = []
    · simp [hr]
    · simp [hr]

theorem Y_sample_array (m : SYD_PL_MSTR) (s : SYD_PL_SLAVE) (d : Int → Dbl) (junk : Dbl)
    (i : Int) (l : Locals) (hd : s.pSChan.pData = some d)
    (ht : s.pSChan.dbrType ≠ DbrType.STRING) (hk : 2 ≤ s.pSChan.elCount)
    (hm : (s.pSChan.pFlags i).missing = false) :
    (((s.pSChan.pFlags i).filled = false ∨ l.first ≠ 0 ∨ l.skip ≠ 0 ∨
        (s.pSChan.pFlags i).restart = true) →
      Y_sample m s junk i l =
        Except.ok ({ l with skip := 0 }, polyline s.pArea s.pSChan d i s.pSChan.elCount)) ∧
    (((s.pSChan.pFlags i).filled = true ∧ l.first = 0 ∧ l.skip = 0 ∧
        (s.pSChan.pFlags i).restart = false) →
      Y_sample m s junk i l = Except.ok (l, [])) := by
  have h := array_sample_body ((s.pSChan.pFlags i).missing = true)
    ((s.pSChan.pFlags i).restart = true) ((s.pSChan.pFlags i).filled = true)
    (Y_anchor m s junk i) (Y_cont m s junk i) (polyline s.pArea s.pSChan d i s.pSChan.elCount)
    (fun l => (Y_anchor_array m s d junk i l hd ht hk).1)
    (fun l => (Y_anchor_array m s d junk i l hd ht hk).2) l (by simp [hm])
  unfold Y_sample
  refine ⟨fun hc => h.1 ?_, fun hc => h.2 ?_⟩
  · rcases hc with hc | hc | hc | hc
    · exact Or.inl (by simp [hc])
    · exact Or.inr (Or.inl hc)
    · exact Or.inr (Or.inr (Or.inl hc))
    · exact Or.inr (Or.inr (Or.inr hc))
  · exact ⟨hc.1, hc.2.1, hc.2.2.1, by simp [hc.2.2.2]⟩

theorem XY_sample_array (m : SYD_PL_MSTR) (cx : SYD_CHAN) (s : SYD_PL_SLAVE)
    (dx d : Int → Dbl) (junk : Dbl) (i : Int) (l : Locals)
    (hdx : cx.pData = some dx) (htx : cx.dbrType ≠ DbrType.STRING)
    (hd : s.pSChan.pData = some d) (ht : s.pSChan.dbrType ≠ DbrType.STRING)
    (hk : XY_nEl cx s.pSChan ≠ 1)
    (hm : (s.pSChan.pFlags i).missing = false) (hmx : (cx.pFlags i).missing = false) :
    (((s.pSChan.pFlags i).filled = false ∨ l.first ≠ 0 ∨ l.skip ≠ 0 ∨
        (s.pSChan.pFlags i).restart = true ∨ (cx.pFlags i).restart = true) →
      XY_sample m cx s junk i l =
        Except.ok ({ l with skip := 0 },
          polylineXY s.pArea cx s.pSChan dx d i (XY_nEl cx s.pSChan))) ∧
    (((s.pSChan.pFlags i).filled = true ∧ l.first = 0 ∧ l.skip = 0 ∧
        (s.pSChan.pFlags i).restart = false ∧ (cx.pFlags i).restart = false) →
      XY_sample m cx s junk i l = Except.ok (l, [])) := by
  have h := array_sample_body
    ((s.pSChan.pFlags i).missing = true ∨ (cx.pFlags i).missing = true)
    ((s.pSChan.pFlags i).restart = true ∨ (cx.pFlags i).restart = true)
    ((s.pSChan.pFlags i).filled = true)
    (XY_anchor m cx s junk i) (XY_cont m cx s junk i)
    (polylineXY s.pArea cx s.pSChan dx d i (XY_nEl cx s.pSChan))
    (fun l => (XY_anchor_array m cx s dx d junk i l hdx htx hd ht hk).1)
    (fun l => (XY_anchor_array m cx s dx d junk i l hdx htx hd ht hk).2) l (by simp [hm, hmx])
  unfold XY_sample
  refine ⟨fun hc => h.1 ?_, fun hc => h.2 ?_⟩
  · rcases hc with hc | hc | hc | hc | hc
    · exact Or.inl (by simp [hc])
    · exact Or.inr (Or.inl hc)
    · exact Or.inr (Or.inr (Or.inl hc))
    · exact Or.inr (Or.inr (Or.inr (Or.inl hc)))
    · exact Or.inr (Or.inr (Or.inr (Or.inr hc)))
  · exact ⟨hc.1, hc.2.1, hc.2.2.1, by simp [hc.2.2.2.1, hc.2.2.2.2]⟩

theorem array_slave_block (body : Int → Locals → Except Fault (Locals × List PprCall))
    (P : Int → List PprCall) (D b e : Int) (fuel : Nat) (s : SYD_PL_SLAVE) (l : Locals)
    (hb : 0 ≤ b) (hbD : b < D) (he : 0 ≤ e) (heD : e < D) (hf : walkLen D b e ≤ fuel)
    (hbody : ∀ i l, body i l = Except.ok ({ l with skip := 0 }, P i)) :
    (match sampleLoop body D e fuel b l with
      | Except.error f => (Except.error f : Except Fault (SYD_PL_SLAVE × Locals × List PprCall))
      | Except.ok (l1, ops) => Except.ok (saveLocals s l1, l1, ops)) =
      Except.ok (saveLocals s { l with first := 0, skip := 0 }, { l with first := 0, skip := 0 },
        ((circRange D b (walkLen D b e)).map P).flatten) := by
  have hw := walkLen_le D b e hb hbD he heD
  have key : sampleLoop body D e fuel b l =
      runSamples body (circRange D b (walkLen D b e)) l :=
    sampleLoop_eq_runSamples_aux body D e he heD ((e - b) % D).toNat b hb hbD hw.2.symm
      fuel hf l
  have hne : circRange D b (walkLen D b e) ≠ [] := by
    unfold walkLen
    rw [circRange_succ D b _ hb hbD]; simp
  rw [key, runSamples_uniform body P _ l (fun i _ l => hbody i l), if_neg hne]

theorem chain_example :
    chainSegs (some 1) (fun i => ((i : Dbl), exData i)) (55, 66)
      (caseWalk exGapSlave.pSChan.pFlags (circRange 10 0 (walkLen 10 0 6)) 1 3) =
      [PprCall.pprLineSegD (some 1) 0 0 1 10, PprCall.pprLineSegD (some 1) 1 10 2 20,
        PprCall.pprLineSegD (some 1) 5 50 6 60] := by
  simp [caseWalk, circRange, walkLen, sampleCase, chainSegs, exGapSlave, exGapChan, exSlave,
    exChan, exData, List.range_succ]
  norm_num

theorem gridThenSamples_length (m : SYD_PL_MSTR) (pSspec : SYD_SPEC)
    (grid : Except Fault (SYD_PL_MSTR × List GridCall × Nat))
    (samples : SYD_PL_MSTR → Int → Int → Int → Except Fault (SYD_PL_MSTR × List PprCall))
    (hg : ∀ g, grid = Except.ok g → g.1.slaves.length = m.slaves.length)
    (hs : ∀ (g : SYD_PL_MSTR) b e incr r, samples g b e incr = Except.ok r →
      r.1.slaves.length = g.slaves.length)
    (r : SYD_PL_MSTR × List GridCall × List PprCall × Nat)
    (h : gridThenSamples pSspec grid samples = Except.ok r) :
    r.1.slaves.length = m.slaves.length := by
  cases grid with
  | error e => simp [gridThenSamples] at h
  | ok g =>
    obtain ⟨m1, gops, n1⟩ := g
    simp only [gridThenSamples] at h
    cases hsm : samples m1 pSspec.firstData pSspec.lastData 0 with
    | error e => rw [hsm] at h; cases h
    | ok q =>
      obtain ⟨m2, ops⟩ := q
      rw [hsm] at h
      cases h
      have h1 := hg _ rfl
      have h2 := hs _ _ _ _ _ hsm
      simp only [] at h1 h2 ⊢
      rw [h2, h1]

theorem grid_length (lib : PprLib) (m : SYD_PL_MSTR) (n : Nat)
    (grid : PprLib → SYD_PL_MSTR → Nat → Except Fault (SYD_PL_MSTR × List GridCall × Nat))
    (hgrid : grid = sydPlot_TYGrid ∨ grid = sydPlot_TYYGrid ∨ grid = sydPlot_XYGrid ∨
      grid = sydPlot_XYYGrid ∨ grid = sydPlot_YGrid ∨ grid = sydPlot_YYGrid ∨
      grid = sydPlot_SmithGrid)
    (r : SYD_PL_MSTR × List GridCall × Nat) (h : grid lib m n = Except.ok r) :
    r.1.slaves.length = m.slaves.length ∧ r.1.nSlaves = m.nSlaves := by
  have h1 := grid_style lib m n grid hgrid r h
  have h2 := grid_master_frame lib m n grid hgrid r h
  refine ⟨by simpa using congrArg List.length h1, ?_⟩
  rw [h2]

theorem samples_length (m : SYD_PL_MSTR) (b e incr : Int) (fuel : Nat) (l : Locals)
    (junk : Dbl) :
    (∀ r, sydPlot_TYSamples m b e incr fuel l = Except.ok r →
      r.1.slaves.length = m.slaves.length ∧ r.1.nSlaves = m.nSlaves) ∧
    (∀ r, sydPlot_YSamples m b e incr fuel l junk = Except.ok r →
      r.1.slaves.length = m.slaves.length ∧ r.1.nSlaves = m.nSlaves) ∧
    (∀ r, sydPlot_XYSamples m b e incr fuel l junk = Except.ok r →
      r.1.slaves.length = m.slaves.length ∧ r.1.nSlaves = m.nSlaves) := by
  obtain ⟨s1, s2, s3, -⟩ := samples_style m b e incr fuel l junk
  obtain ⟨f1, f2, f3⟩ := samples_master_frame m b e incr fuel l junk
  refine ⟨fun r h => ⟨by simpa using congrArg List.length (s1 r h), ?_⟩,
    fun r h => ⟨by simpa using congrArg List.length (s2 r h), ?_⟩,
    fun r h => ⟨by simpa using congrArg List.length (s3 r h), ?_⟩⟩
  · rw [f1 r h]
  · rw [f2 r h]
  · rw [f3 r h]

theorem sydPlotSamples_length (m : SYD_PL_MSTR) (b e incr : Int) (fuel : Nat) (l : Locals)
    (junk : Dbl) (r : SYD_PL_MSTR × List PprCall)
    (h : sydPlotSamples m b e incr fuel l junk = Except.ok r) :
    r.1.slaves.length = m.slaves.length ∧ r.1.nSlaves = m.nSlaves := by
  obtain ⟨h1, h2, h3⟩ := samples_length m b e incr fuel l junk
  rcases plotAxis_cases m.plotAxis with ha | ha | ha | ha
  · rw [sydPlotSamples_TY m b e incr fuel l junk ha] at h
    exact h1 r h
  · rw [sydPlotSamples_Y m b e incr fuel l junk ha] at h
    exact h2 r h
  · rw [sydPlotSamples_XY m b e incr fuel l junk ha] at h
    exact h3 r h
  · rw [sydPlotSamples_UNDEF m b e incr fuel l junk ha] at h
    cases h

theorem sydPlot_length (lib : PprLib) (m : SYD_PL_MSTR) (info : Int × Int × Int × Int)
    (n fuel : Nat) (l : Locals) (junk : Dbl)
    (r : SYD_PL_MSTR × List GridCall × List PprCall × Nat)
    (h : sydPlot lib m info n fuel l junk = Except.ok r) :
    r.1.slaves.length = m.slaves.length ∧ r.1.nSlaves = m.nSlaves := by
  have hfr := sydPlot_master_frame lib m info n fuel l junk r h
  refine ⟨?_, by rw [hfr]⟩
  have hTY := fun (g : SYD_PL_MSTR) b e incr r hr =>
    ((samples_length g b e incr fuel l junk).1 r hr).1
  have hY := fun (g : SYD_PL_MSTR) b e incr r hr =>
    ((samples_length g b e incr fuel l junk).2.1 r hr).1
  have hXY := fun (g : SYD_PL_MSTR) b e incr r hr =>
    ((samples_length g b e incr fuel l junk).2.2 r hr).1
  unfold sydPlot at h
  dsimp only at h
  generalize hm' : ({ m with x := info.1, y := info.2.1, width := info.2.2.1,
                             height := info.2.2.2 } : SYD_PL_MSTR) = m' at h
  have hsl : m'.slaves = m.slaves := by subst hm'; rfl
  rw [← hsl]
  split at h
  · exact gridThenSamples_length _ _ _ _
      (fun g hg => (grid_length lib _ n sydPlot_TYGrid (Or.inl rfl) g hg).1) hTY r h
  split at h
  · exact gridThenSamples_length _ _ _ _
      (fun g hg => (grid_length lib _ n sydPlot_TYYGrid (Or.inr (Or.inl rfl)) g hg).1) hTY r h
  split at h
  · exact gridThenSamples_length _ _ _ _
      (fun g hg => (grid_length lib _ n sydPlot_XYGrid
        (Or.inr (Or.inr (Or.inl rfl))) g hg).1) hXY r h
  split at h
  · exact gridThenSamples_length _ _ _ _
      (fun g hg => (grid_length lib _ n sydPlot_XYYGrid
        (Or.inr (Or.inr (Or.inr (Or.inl rfl)))) g hg).1) hXY r h
  split at h
  · exact gridThenSamples_length _ _ _ _
      (fun g hg => (grid_length lib _ n sydPlot_YGrid
        (Or.inr (Or.inr (Or.inr (Or.inr (Or.inl rfl))))) g hg).1) hY r h
  split at h
  · exact gridThenSamples_length _ _ _ _
      (fun g hg => (grid_length lib _ n sydPlot_YYGrid
        (Or.inr (Or.inr (Or.inr (Or.inr (Or.inr (Or.inl rfl)))))) g hg).1) hY r h
  split at h
  · exact gridThenSamples_length _ _ _ _
      (fun g hg => (grid_length lib _ n sydPlot_SmithGrid
        (Or.inr (Or.inr (Or.inr (Or.inr (Or.inr (Or.inr rfl)))))) g hg).1) hXY r h
  · cases h

theorem SetAttr_frame (m : SYD_PL_MSTR) (attr : SYD_PLATTR) (value : Int) (pArg : Option Nat)
    (r : SydStatus × SYD_PL_MSTR) (h : sydPlotSetAttr m attr value pArg = Except.ok r) :
    r.2.slaves = m.slaves ∧ r.2.nSlaves = m.nSlaves := by
  cases attr <;> cases pArg <;> simp [sydPlotSetAttr] at h <;> rw [← h] <;> exact ⟨rfl, rfl⟩

theorem SetTitles_frame (sz : TitleSizes) (m : SYD_PL_MSTR)
    (top left bottom right : Option String) (r : SydStatus × SYD_PL_MSTR)
    (h : sydPlotSetTitles sz m top left bottom right = Except.ok r) :
    r.2.slaves = m.slaves ∧ r.2.nSlaves = m.nSlaves := by
  unfold sydPlotSetTitles at h
  split at h
  · cases h
  · split at h
    · cases h
    · split at h
      · cases h
      · split at h
        · cases h
        · cases h
          exact ⟨rfl, rfl⟩

theorem onSlave_frame (m : SYD_PL_MSTR) (k : Nat) (f : SYD_PL_SLAVE → Except Fault SYD_PL_SLAVE)
    (m1 : SYD_PL_MSTR) (h : onSlave m k f = Except.ok m1) :
    m1.slaves.length = m.slaves.length ∧ m1.nSlaves = m.nSlaves := by
  unfold onSlave at h
  split at h
  · cases h
    exact ⟨rfl, rfl⟩
  · split at h
    · cases h
    · cases h
      exact ⟨by simp, rfl⟩

theorem ChanAdd_count (m : SYD_PL_MSTR) (c : SYD_CHAN) (raw : Option SYD_PL_SLAVE)
    (junkO junkE : Dbl) (r : Option SYD_PL_SLAVE × SYD_PL_MSTR × List String)
    (h : sydPlotChanAdd m c raw junkO junkE = Except.ok r)
    (hinv : m.nSlaves = (m.slaves.length : Int)) :
    r.2.1.nSlaves = (r.2.1.slaves.length : Int) := by
  rcases chanAdd_step m c raw junkO junkE with ⟨-, msgs, h1⟩ | ⟨-, s, h1, -⟩
  · rw [h1] at h
    cases h
    exact hinv
  · rw [h1] at h
    cases h
    simp only [List.length_append, List.length_singleton, Nat.cast_add, Nat.cast_one, hinv]

theorem Done_count (m : SYD_PL_MSTR) (quitFlag : Int) (info : Int × Int × Int × Int)
    (hinv : m.nSlaves = (m.slaves.length : Int)) :
    (sydPlotDone m quitFlag info).2.1.nSlaves =
        ((sydPlotDone m quitFlag info).2.1.slaves.length : Int) ∧
      (quitFlag ≠ 0 → (sydPlotDone m quitFlag info).2.1.nSlaves = 0 ∧
        (sydPlotDone m quitFlag info).2.1.slaves = []) ∧
      (quitFlag = 0 → (sydPlotDone m quitFlag info).2.1 = m) := by
  unfold sydPlotDone
  by_cases hq : quitFlag ≠ 0
  · have hd : (Done_loop m.slaves m.nSlaves).1 = 0 := by
      rw [(Done_loop_spec m.slaves m.nSlaves).1, hinv, sub_self]
    rw [if_pos hq]
    exact ⟨hd, fun _ => ⟨hd, rfl⟩, fun h0 => absurd h0 hq⟩
  · have : quitFlag = 0 := by
      by_contra h
      exact hq h
    simp [this, hinv]

theorem runOp_inv (lib : PprLib) (fuel : Nat) (op : PlotOp) (st st1 : SYD_PL_MSTR × Nat)
    (h : runOp lib fuel op st = Except.ok st1)
    (hinv : st.1.nSlaves = (st.1.slaves.length : Int)) :
    st1.1.nSlaves = (st1.1.slaves.length : Int) := by
  cases op with
  | chanAdd c raw jo je =>
    obtain ⟨q, hq, rfl⟩ := map_ok_inv _ _ _ h
    exact ChanAdd_count st.1 c raw jo je q hq hinv
  | axisSetup k jo je =>
    obtain ⟨q, hq, rfl⟩ := map_ok_inv _ _ _ h
    obtain ⟨h1, h2⟩ := onSlave_frame _ _ _ _ hq
    simp only [h1, h2, hinv]
  | axisAutoRange k =>
    obtain ⟨q, hq, rfl⟩ := map_ok_inv _ _ _ h
    obtain ⟨h1, h2⟩ := onSlave_frame _ _ _ _ hq
    simp only [h1, h2, hinv]
  | axisSetAttr k attr value pArg =>
    obtain ⟨q, hq, rfl⟩ := map_ok_inv _ _ _ h
    obtain ⟨h1, h2⟩ := onSlave_frame _ _ _ _ hq
    simp only [h1, h2, hinv]
  | setAttr attr value pArg =>
    obtain ⟨q, hq, rfl⟩ := map_ok_inv _ _ _ h
    obtain ⟨h1, h2⟩ := SetAttr_frame _ _ _ _ _ hq
    simp only [h1, h2, hinv]
  | setTitles sz top left bottom right =>
    obtain ⟨q, hq, rfl⟩ := map_ok_inv _ _ _ h
    obtain ⟨h1, h2⟩ := SetTitles_frame _ _ _ _ _ _ _ hq
    simp only [h1, h2, hinv]
  | setPlotAxis a =>
    simp only [runOp] at h
    cases h
    exact hinv
  | grid kind =>
    obtain ⟨q, hq, rfl⟩ := map_ok_inv _ _ _ h
    have hg : q.1.slaves.length = st.1.slaves.length ∧ q.1.nSlaves = st.1.nSlaves := by
      cases kind
      · exact grid_length lib st.1 st.2 sydPlot_TYGrid (Or.inl rfl) q hq
      · exact grid_length lib st.1 st.2 sydPlot_TYYGrid (Or.inr (Or.inl rfl)) q hq
      · exact grid_length lib st.1 st.2 sydPlot_XYGrid (Or.inr (Or.inr (Or.inl rfl))) q hq
      · exact grid_length lib st.1 st.2 sydPlot_XYYGrid
          (Or.inr (Or.inr (Or.inr (Or.inl rfl)))) q hq
      · exact grid_length lib st.1 st.2 sydPlot_YGrid
          (Or.inr (Or.inr (Or.inr (Or.inr (Or.inl rfl))))) q hq
      · exact grid_length lib st.1 st.2 sydPlot_YYGrid
          (Or.inr (Or.inr (Or.inr (Or.inr (Or.inr (Or.inl rfl)))))) q hq
      · exact grid_length lib st.1 st.2 sydPlot_SmithGrid
          (Or.inr (Or.inr (Or.inr (Or.inr (Or.inr (Or.inr rfl)))))) q hq
    simp only [hg.1, hg.2, hinv]
  | sampleRoutine kind b e incr l0 junk =>
    obtain ⟨q, hq, rfl⟩ := map_ok_inv _ _ _ h
    obtain ⟨h1, h2, h3⟩ := samples_length st.1 b e incr fuel l0 junk
    have hg : q.1.slaves.length = st.1.slaves.length ∧ q.1.nSlaves = st.1.nSlaves := by
      cases kind
      · exact h1 q hq
      · exact h1 q hq
      · exact h3 q hq
      · exact h3 q hq
      · exact h2 q hq
      · exact h2 q hq
      · exact h3 q hq
    simp only [hg.1, hg.2, hinv]
  | samples b e incr l0 junk =>
    obtain ⟨q, hq, rfl⟩ := map_ok_inv _ _ _ h
    obtain ⟨h1, h2⟩ := sydPlotSamples_length _ _ _ _ _ _ _ _ hq
    simp only [h1, h2, hinv]
  | plot info l0 junk =>
    obtain ⟨q, hq, rfl⟩ := map_ok_inv _ _ _ h
    obtain ⟨h1, h2⟩ := sydPlot_length _ _ _ _ _ _ _ _ hq
    simp only [h1, h2, hinv]
  | eraseSamples =>
    simp only [runOp] at h
    cases h
    simp only [sydPlotEraseSamples, List.length_map, hinv]
  | done quitFlag info =>
    simp only [runOp] at h
    cases h
    exact (Done_count st.1 quitFlag info hinv).1

theorem runOps_inv (lib : PprLib) (fuel : Nat) :
    ∀ (ops : List PlotOp) (st st1 : SYD_PL_MSTR × Nat),
      runOps lib fuel ops st = Except.ok st1 →
      st.1.nSlaves = (st.1.slaves.length : Int) →
      st1.1.nSlaves = (st1.1.slaves.length : Int) := by
  intro ops
  induction ops with
  | nil =>
    intro st st1 h hinv
    simp only [runOps] at h
    cases h
    exact hinv
  | cons op rest ih =>
    intro st st1 h hinv
    simp only [runOps] at h
    cases h0 : runOp lib fuel op st with
    | error e => rw [h0] at h; cases h
    | ok st0 =>
      rw [h0] at h
      exact ih st0 st1 h (runOp_inv lib fuel op st st0 h0 hinv)

theorem TY_sample_first_indep (m : SYD_PL_MSTR) (s : SYD_PL_SLAVE) (fuel : Nat) (i : Int)
    (l l' : Locals) (h1 : l.first ≠ 0) (hf : l'.first = l.first) (hx : l'.oldX = l.oldX)
    (hy : l'.oldY = l.oldY) : TY_sample m s fuel i l = TY_sample m s fuel i l' := by
  obtain ⟨f, sk, ox, oy⟩ := l
  obtain ⟨f', sk', ox', oy'⟩ := l'
  simp only [] at h1 hf hx hy
  subst hf; subst hx; subst hy
  simp [TY_sample, TY_anchor, h1]

theorem Y_sample_first_indep (m : SYD_PL_MSTR) (s : SYD_PL_SLAVE) (junk : Dbl) (i : Int)
    (l l' : Locals) (h1 : l.first ≠ 0) (hf : l'.first = l.first) (hx : l'.oldX = l.oldX)
    (hy : l'.oldY = l.oldY) : Y_sample m s junk i l = Y_sample m s junk i l' := by
  obtain ⟨f, sk, ox, oy⟩ := l
  obtain ⟨f', sk', ox', oy'⟩ := l'
  simp only [] at h1 hf hx hy
  subst hf; subst hx; subst hy
  simp [Y_sample, Y_anchor, h1]

theorem XY_sample_first_indep (m : SYD_PL_MSTR) (cx : SYD_CHAN) (s : SYD_PL_SLAVE)
    (junk : Dbl) (i : Int)
    (l l' : Locals) (h1 : l.first ≠ 0) (hf : l'.first = l.first) (hx : l'.oldX = l.oldX)
    (hy : l'.oldY = l.oldY) : XY_sample m cx s junk i l = XY_sample m cx s junk i l' := by
  obtain ⟨f, sk, ox, oy⟩ := l
  obtain ⟨f', sk', ox', oy'⟩ := l'
  simp only [] at h1 hf hx hy
  subst hf; subst hx; subst hy
  simp [XY_sample, XY_anchor, h1]

theorem slave_block_indep (body : Int → Locals → Except Fault (Locals × List PprCall))
    (hbody : ∀ i l l', l.first ≠ 0 → l'.first = l.first → l'.oldX = l.oldX →
      l'.oldY = l.oldY → body i l = body i l')
    (D b e incr : Int) (fuel : Nat) (s : SYD_PL_SLAVE) (l l' : Locals) (hb : 0 ≤ b)
    (hx : l'.oldX = l.oldX) (hy : l'.oldY = l.oldY) :
    sampleLoop body D e fuel b (loadLocals s incr l) =
      sampleLoop body D e fuel b (loadLocals s incr l') := by
  unfold loadLocals
  by_cases h0 : incr = 0
  · rw [if_pos h0, if_pos h0]
    cases fuel with
    | zero => simp [sampleLoop, hb]
    | succ n =>
      simp only [sampleLoop, ge_iff_le, hb, if_true]
      rw [hbody b { l with first := 1 } { l' with first := 1 } one_ne_zero rfl hx hy]
  · rw [if_neg h0, if_neg h0]

theorem TYSamples_indep (m : SYD_PL_MSTR) (b e incr : Int) (fuel : Nat) (l l' : Locals)
    (hb : 0 ≤ b)
    (hconn : ∀ s ∈ m.slaves, s.pSChan.pData.isNone = false ∧ s.pSChan.dataChan ≠ 0)
    (hx : l'.oldX = l.oldX) (hy : l'.oldY = l.oldY) :
    sydPlot_TYSamples m b e incr fuel l = sydPlot_TYSamples m b e incr fuel l' := by
  unfold sydPlot_TYSamples
  cases hs : m.slaves with
  | nil => rfl
  | cons s rest =>
    obtain ⟨hd, hc⟩ := hconn s (by rw [hs]; exact List.mem_cons_self s rest)
    have h : TY_slave m b e incr fuel s l = TY_slave m b e incr fuel s l' := by
      unfold TY_slave
      simp only [hd, hc, Bool.false_eq_true, or_self, if_false]
      rw [slave_block_indep _ (TY_sample_first_indep m s fuel) _ b e incr fuel s l l' hb hx hy]
    simp only [slaveLoop, h]

theorem YSamples_indep (m : SYD_PL_MSTR) (b e incr : Int) (fuel : Nat) (l l' : Locals)
    (junk : Dbl) (hb : 0 ≤ b)
    (hconn : ∀ s ∈ m.slaves, s.pSChan.pData.isNone = false ∧ s.pSChan.dataChan ≠ 0)
    (hx : l'.oldX = l.oldX) (hy : l'.oldY = l.oldY) :
    sydPlot_YSamples m b e incr fuel l junk = sydPlot_YSamples m b e incr fuel l' junk := by
  unfold sydPlot_YSamples
  cases hs : m.slaves with
  | nil => rfl
  | cons s rest =>
    obtain ⟨hd, hc⟩ := hconn s (by rw [hs]; exact List.mem_cons_self s rest)
    have h : Y_slave m b e incr fuel junk s l = Y_slave m b e incr fuel junk s l' := by
      unfold Y_slave
      simp only [hd, hc, Bool.false_eq_true, or_self, if_false]
      rw [slave_block_indep _ (Y_sample_first_indep m s junk) _ b e incr fuel s l l' hb hx hy]
    simp only [slaveLoop, h]

theorem XY_slaveLoop_indep
    (f : SYD_PL_SLAVE → Locals → Except Fault (SYD_PL_SLAVE × Locals × List PprCall))
    (xIdx : Nat) :
    ∀ (ss : List SYD_PL_SLAVE) (k : Nat) (l l' : Locals),
      (∀ s ∈ ss, f s l = f s l') →
      (match XY_slaveLoop f xIdx ss k l with
        | Except.error e => (Except.error e : Except Fault (List SYD_PL_SLAVE × List PprCall))
        | Except.ok (a, _, c) => Except.ok (a, c)) =
      (match XY_slaveLoop f xIdx ss k l' with
        | Except.error e => Except.error e
        | Except.ok (a, _, c) => Except.ok (a, c)) := by
  intro ss
  induction ss with
  | nil => intro k l l' _; rfl
  | cons s rest ih =>
    intro k l l' h
    simp only [XY_slaveLoop]
    by_cases hk : k = xIdx
    · rw [if_pos hk, if_pos hk]
      have h2 := ih (k + 1) l l' (fun t ht => h t (List.mem_cons_of_mem s ht))
      cases h3 : XY_slaveLoop f xIdx rest (k + 1) l with
      | error e =>
        cases h4 : XY_slaveLoop f xIdx rest (k + 1) l' with
        | error e' => rw [h3, h4] at h2; simpa using h2
        | ok r' => rw [h3, h4] at h2; obtain ⟨a, b, c⟩ := r'; simp at h2
      | ok r =>
        obtain ⟨a, b, c⟩ := r
        cases h4 : XY_slaveLoop f xIdx rest (k + 1) l' with
        | error e' => rw [h3, h4] at h2; simp at h2
        | ok r' =>
          obtain ⟨a', b', c'⟩ := r'
          rw [h3, h4] at h2
          simp only [Except.ok.injEq, Prod.mk.injEq] at h2
          obtain ⟨h5, h6⟩ := h2
          subst h5; subst h6
          rfl
    · rw [if_neg hk, if_neg hk, h s (List.mem_cons_self s rest)]

theorem XYSamples_indep (m : SYD_PL_MSTR) (b e incr : Int) (fuel : Nat) (l l' : Locals)
    (junk : Dbl) (hb : 0 ≤ b)
    (hconn : ∀ s ∈ m.slaves, s.pSChan.pData.isNone = false ∧ s.pSChan.dataChan ≠ 0)
    (hx : l'.oldX = l.oldX) (hy : l'.oldY = l.oldY) :
    sydPlot_XYSamples m b e incr fuel l junk = sydPlot_XYSamples m b e incr fuel l' junk := by
  unfold sydPlot_XYSamples
  cases findXSlave m.slaves with
  | error f => rfl
  | ok xIdx =>
    simp only []
    cases m.slaves.get? xIdx with
    | none => rfl
    | some sx =>
      simp only []
      have h := XY_slaveLoop_indep (XY_slave m sx.pSChan b e incr fuel junk) xIdx m.slaves 0 l l'
        (fun s hs => by
          obtain ⟨hd, hc⟩ := hconn s hs
          unfold XY_slave
          simp only [hd, hc, Bool.false_eq_true, or_self, if_false]
          rw [slave_block_indep _ (XY_sample_first_indep m sx.pSChan s junk) _ b e incr fuel s
            l l' hb hx hy])
      cases h3 : XY_slaveLoop (XY_slave m sx.pSChan b e incr fuel junk) xIdx m.slaves 0 l with
      | error er =>
        cases h4 : XY_slaveLoop (XY_slave m sx.pSChan b e incr fuel junk) xIdx m.slaves 0 l' with
        | error e' => rw [h3, h4] at h; simpa using h
        | ok r' => rw [h3, h4] at h; obtain ⟨a, lb, c⟩ := r'; simp at h
      | ok r =>
        obtain ⟨a, lb, c⟩ := r
        cases h4 : XY_slaveLoop (XY_slave m sx.pSChan b e incr fuel junk) xIdx m.slaves 0 l' with
        | error e' => rw [h3, h4] at h; simp at h
        | ok r' =>
          obtain ⟨a', lb', c'⟩ := r'
          rw [h3, h4] at h
          simp only [Except.ok.injEq, Prod.mk.injEq] at h
          obtain ⟨h5, h6⟩ := h
          subst h5; subst h6
          rfl

theorem sydPlotSamples_indep (m : SYD_PL_MSTR) (b e incr : Int) (fuel : Nat) (l l' : Locals)
    (junk : Dbl) (hb : 0 ≤ b)
    (hconn : ∀ s ∈ m.slaves, s.pSChan.pData.isNone = false ∧ s.pSChan.dataChan ≠ 0)
    (hx : l'.oldX = l.oldX) (hy : l'.oldY = l.oldY) :
    sydPlotSamples m b e incr fuel l junk = sydPlotSamples m b e incr fuel l' junk := by
  unfold sydPlotSamples sydPlot_SmithSamples
  rw [TYSamples_indep m b e incr fuel l l' hb hconn hx hy,
    YSamples_indep m b e incr fuel l l' junk hb hconn hx hy,
    XYSamples_indep m b e incr fuel l l' junk hb hconn hx hy]

theorem walk_first_anchor (body anchor : Int → Locals → Except Fault (Locals × List PprCall))
    (miss : Int → Prop)
    (hmiss : ∀ i l, miss i → body i l = Except.ok ({ l with skip := 1 }, []))
    (hanch : ∀ i l, ¬ miss i → (l.first ≠ 0 ∨ l.skip ≠ 0) → body i l = anchor i l)
    (i : Int) (post : List Int) (hi : ¬ miss i) :
    ∀ (pre : List Int) (l : Locals), (∀ j ∈ pre, miss j) → (l.first ≠ 0 ∨ l.skip ≠ 0) →
      ∃ lk : Locals, (lk.first ≠ 0 ∨ lk.skip ≠ 0) ∧
        runSamples body (pre ++ i :: post) l =
          match anchor i lk with
          | Except.error f => Except.error f
          | Except.ok (l1, ops) =>
            match runSamples body post { l1 with first := 0 } with
            | Except.error f => Except.error f
            | Except.ok (l2, ops2) => Except.ok (l2, ops ++ ops2) := by
  intro pre
  induction pre with
  | nil =>
    intro l _ hl
    refine ⟨l, hl, ?_⟩
    simp only [List.nil_append, runSamples, hanch i l hi hl]
  | cons j pre ih =>
    intro l hpre hl
    obtain ⟨lk, hlk, h⟩ := ih { first := 0, skip := 1, oldX := l.oldX, oldY := l.oldY }
      (fun t ht => hpre t (List.mem_cons_of_mem j ht)) (Or.inr one_ne_zero)
    refine ⟨lk, hlk, ?_⟩
    rw [List.cons_append, runSamples_cons_ok body j _ l _ _ (hmiss j l (hpre j
      (List.mem_cons_self j pre)))]
    show (match runSamples body (pre ++ i :: post)
        { first := 0, skip := 1, oldX := l.oldX, oldY := l.oldY } with
      | Except.error f => Except.error f
      | Except.ok (l2, ops2) => Except.ok (l2, [] ++ ops2)) = _
    rw [h]
    cases anchor i lk with
    | error f => rfl
    | ok r =>
      obtain ⟨l1, ops⟩ := r
      simp only []
      cases runSamples body post { l1 with first := 0 } with
      | error f => rfl
      | ok q => rfl

/-- The block of a connected slave in a batch call: when the walk splits into
samples flagged missing, a sample `i` that is not, and the rest, the block is
the anchor case at `i` followed by the rest of the walk. -/
theorem batch_block_anchor (body anchor : Int → Locals → Except Fault (Locals × List PprCall))
    (miss : Int → Prop)
    (hmiss : ∀ i l, miss i → body i l = Except.ok ({ l with skip := 1 }, []))
    (hanch : ∀ i l, ¬ miss i → (l.first ≠ 0 ∨ l.skip ≠ 0) → body i l = anchor i l)
    (D b e : Int) (fuel : Nat) (s : SYD_PL_SLAVE) (l : Locals)
    (hb : 0 ≤ b) (hbD : b < D) (he : 0 ≤ e) (heD : e < D) (hf : walkLen D b e ≤ fuel)
    (pre : List Int) (i : Int) (post : List Int)
    (hsplit : circRange D b (walkLen D b e) = pre ++ i :: post)
    (hpre : ∀ j ∈ pre, miss j) (hi : ¬ miss i) :
    ∃ lk : Locals, (lk.first ≠ 0 ∨ lk.skip ≠ 0) ∧
      (match sampleLoop body D e fuel b (loadLocals s 0 l) with
        | Except.error f =>
          (Except.error f : Except Fault (SYD_PL_SLAVE × Locals × List PprCall))
        | Except.ok (l1, ops) => Except.ok (saveLocals s l1, l1, ops)) =
        match anchor i lk with
        | Except.error f => Except.error f
        | Except.ok (l1, ops) =>
          match runSamples body post { l1 with first := 0 } with
          | Except.error f => Except.error f
          | Except.ok (l2, ops2) => Except.ok (saveLocals s l2, l2, ops ++ ops2) := by
  have hw := walkLen_le D b e hb hbD he heD
  have key : sampleLoop body D e fuel b (loadLocals s 0 l) =
      runSamples body (circRange D b (walkLen D b e)) (loadLocals s 0 l) :=
    sampleLoop_eq_runSamples_aux body D e he heD ((e - b) % D).toNat b hb hbD hw.2.symm
      fuel hf _
  obtain ⟨lk, hlk, h⟩ := walk_first_anchor body anchor miss hmiss hanch i post hi pre
    (loadLocals s 0 l) hpre (Or.inl (by simp [loadLocals]))
  refine ⟨lk, hlk, ?_⟩
  rw [key, hsplit, h]
  cases anchor i lk with
  | error f => rfl
  | ok r =>
    obtain ⟨l1, ops⟩ := r
    simp only []
    cases runSamples body post { l1 with first := 0 } with
    | error f => rfl
    | ok q => rfl

theorem roundDbl_p7 : roundDbl ((2206763817411543 / 2251799813685248 : Dbl) / 7) = 5044031582654955
      / 36028797018963968 := by
  have h := roundDbl_eq ((2206763817411543 / 2251799813685248 : Dbl) / 7) (-3) 5044031582654955 (by
      norm_num) (by norm_num)
    (by norm_num)
    (by norm_num)
  rw [h]; norm_num

theorem roundDbl_m7 : roundDbl (7 * ((5044031582654955 / 36028797018963968) : Dbl)) =
      8827055269646171 / 9007199254740992 := by
  have h := roundDbl_eq (7 * ((5044031582654955 / 36028797018963968) : Dbl)) (-1) 8827055269646171
      (by norm_num) (by norm_num)
    (by norm_num)
    (by norm_num)
  rw [h]; norm_num

theorem roundDbl_p8 : roundDbl ((2206763817411543 / 2251799813685248 : Dbl) / 8) = 2206763817411543
      / 18014398509481984 := by
  have h := roundDbl_eq ((2206763817411543 / 2251799813685248 : Dbl) / 8) (-4) 8827055269646172 (by
      norm_num) (by norm_num)
    (by norm_num)
    (by norm_num)
  rw [h]; norm_num

theorem roundDbl_b8_0 : roundDbl ((0 : Dbl) + (2206763817411543 / 18014398509481984)) =
      2206763817411543 / 18014398509481984 := by
  have h := roundDbl_eq ((0 : Dbl) + (2206763817411543 / 18014398509481984)) (-4) 8827055269646172
      (by norm_num) (by norm_num)
    (by norm_num)
    (by norm_num)
  rw [h]; norm_num

theorem roundDbl_b8_1 : roundDbl ((2206763817411543 / 18014398509481984 : Dbl) + (2206763817411543
      / 18014398509481984)) = 2206763817411543 / 9007199254740992 := by
  have h := roundDbl_eq ((2206763817411543 / 18014398509481984 : Dbl) + (2206763817411543 /
      18014398509481984)) (-3) 8827055269646172 (by norm_num) (by norm_num)
    (by norm_num)
    (by norm_num)
  rw [h]; norm_num

theorem roundDbl_b8_2 : roundDbl ((2206763817411543 / 9007199254740992 : Dbl) + (2206763817411543 /
      18014398509481984)) = 6620291452234629 / 18014398509481984 := by
  have h := roundDbl_eq ((2206763817411543 / 9007199254740992 : Dbl) + (2206763817411543 /
      18014398509481984)) (-2) 6620291452234629 (by norm_num) (by norm_num)
    (by norm_num)
    (by norm_num)
  rw [h]; norm_num

theorem roundDbl_b8_3 : roundDbl ((6620291452234629 / 18014398509481984 : Dbl) + (2206763817411543
      / 18014398509481984)) = 2206763817411543 / 4503599627370496 := by
  have h := roundDbl_eq ((6620291452234629 / 18014398509481984 : Dbl) + (2206763817411543 /
      18014398509481984)) (-2) 8827055269646172 (by norm_num) (by norm_num)
    (by norm_num)
    (by norm_num)
  rw [h]; norm_num

theorem roundDbl_b8_4 : roundDbl ((2206763817411543 / 4503599627370496 : Dbl) + (2206763817411543 /
      18014398509481984)) = 2758454771764429 / 4503599627370496 := by
  have h := roundDbl_tie ((2206763817411543 / 4503599627370496 : Dbl) + (2206763817411543 /
      18014398509481984)) (-1) 5516909543528857 (by norm_num) (by norm_num)
    (by norm_num)
  rw [h]; norm_num

theorem roundDbl_b8_5 : roundDbl ((2758454771764429 / 4503599627370496 : Dbl) + (2206763817411543 /
      18014398509481984)) = 3310145726117315 / 4503599627370496 := by
  have h := roundDbl_tie ((2758454771764429 / 4503599627370496 : Dbl) + (2206763817411543 /
      18014398509481984)) (-1) 6620291452234629 (by norm_num) (by norm_num)
    (by norm_num)
  rw [h]; norm_num

theorem roundDbl_b8_6 : roundDbl ((3310145726117315 / 4503599627370496 : Dbl) + (2206763817411543 /
      18014398509481984)) = 3861836680470201 / 4503599627370496 := by
  have h := roundDbl_tie ((3310145726117315 / 4503599627370496 : Dbl) + (2206763817411543 /
      18014398509481984)) (-1) 7723673360940401 (by norm_num) (by norm_num)
    (by norm_num)
  rw [h]; norm_num

theorem roundDbl_b8_7 : roundDbl ((3861836680470201 / 4503599627370496 : Dbl) + (2206763817411543 /
      18014398509481984)) = 4413527634823087 / 4503599627370496 := by
  have h := roundDbl_tie ((3861836680470201 / 4503599627370496 : Dbl) + (2206763817411543 /
      18014398509481984)) (-1) 8827055269646173 (by norm_num) (by norm_num)
    (by norm_num)
  rw [h]; norm_num

theorem bandLine_eight :
    bandLine (2206763817411543 / 18014398509481984) 0 8 =
      4413527634823087 / 4503599627370496 := by
  simp only [bandLine]
  rw [roundDbl_b8_0, roundDbl_b8_1, roundDbl_b8_2, roundDbl_b8_3, roundDbl_b8_4, roundDbl_b8_5,
    roundDbl_b8_6, roundDbl_b8_7]

/-! ## The claims -/

/-- C1: on a master with one connected channel whose slave has the first flag
set and whose samples `b .. e` carry no missing or restart flag, with
`0 <= b <= m < e < dataDim` and fuel for `e - b + 1` iterations, the batch
call `sydPlot_TYSamples(b, e, 0)` gives the same outcome as the incremental
call over `[b, m]` followed by the incremental call over `[m+1, e]`: the same
fault, or the same final master and the same sequence of plotting calls (the
calls of the first call followed by those of the second), hence the same line
segments in the same order with the same end points. -/
theorem TYSamples_split_eq_batch (pMstr : SYD_PL_MSTR) (s : SYD_PL_SLAVE)
    (b m e : Int) (fuel : Nat) (l0 l1 l2 : Locals)
    (hs : pMstr.slaves = [s])
    (hd : s.pSChan.pData.isNone = false) (hc : s.pSChan.dataChan ≠ 0)
    (hfirst : s.first = 1)
    (hflags : ∀ i, b ≤ i → i ≤ e →
      (s.pSChan.pFlags i).missing = false ∧ (s.pSChan.pFlags i).restart = false)
    (hb : 0 ≤ b) (hbm : b ≤ m) (hme : m < e) (heD : e < pMstr.pSspec.dataDim)
    (hf : e - b < (fuel : Int)) :
    sydPlot_TYSamples pMstr b e 0 fuel l0 =
      match sydPlot_TYSamples pMstr b m 1 fuel l1 with
      | Except.error f => Except.error f
      | Except.ok (m1, ops1) =>
        match sydPlot_TYSamples m1 (m + 1) e 1 fuel l2 with
        | Except.error f => Except.error f
        | Except.ok (m2, ops2) => Except.ok (m2, ops1 ++ ops2) := by
  have hD := heD
  generalize hDD : pMstr.pSspec.dataDim = D at hD
  have hwe : walkLen D b e ≤ fuel := by
    unfold walkLen
    rw [emod_dist D b e hb (by omega) (by omega) hD, if_pos (by omega)]; omega
  have hwm : walkLen D b m ≤ fuel := by
    unfold walkLen
    rw [emod_dist D b m hb (by omega) (by omega) (by omega), if_pos hbm]; omega
  have hw2 : walkLen D (m + 1) e ≤ fuel := by
    unfold walkLen
    rw [emod_dist D (m + 1) e (by omega) (by omega) (by omega) hD, if_pos (by omega)]; omega
  have hlen : ∀ x y : Int, 0 ≤ x → x < D → 0 ≤ y → y < D →
      ((y - x) % D).toNat + 1 = walkLen D x y := fun _ _ _ _ _ _ => rfl
  have loop : ∀ (x y : Int), 0 ≤ x → x < D → 0 ≤ y → y < D → walkLen D x y ≤ fuel →
      ∀ l, sampleLoop (TY_sample pMstr s fuel) D y fuel x l =
        runSamples (TY_sample pMstr s fuel) (circRange D x (walkLen D x y)) l := by
    intro x y hx hxD hy hyD hfu l
    exact sampleLoop_eq_runSamples_aux _ D y hy hyD ((y - x) % D).toNat x hx hxD
      (walkLen_le D x y hx hxD hy hyD).2.symm fuel hfu l
  rw [TYSamples_single pMstr s b e 0 fuel l0 hs hd hc,
    TYSamples_single pMstr s b m 1 fuel l1 hs hd hc, hDD,
    loop b e hb (by omega) (by omega) hD hwe, loop b m hb (by omega) (by omega) (by omega) hwm,
    circRange_split D b m e hb hbm hme hD]
  have hhead : circRange D b (walkLen D b m) =
      b :: circRange D (if b + 1 ≥ D then 0 else b + 1) (walkLen D b m - 1) := by
    have : walkLen D b m = (walkLen D b m - 1) + 1 := by unfold walkLen; omega
    rw [this, circRange_succ D b _ hb (by omega)]; simp
  have hindep : ∀ rest, runSamples (TY_sample pMstr s fuel)
        (circRange D b (walkLen D b m) ++ rest) (loadLocals s 0 l0) =
      runSamples (TY_sample pMstr s fuel)
        (circRange D b (walkLen D b m) ++ rest) (loadLocals s 1 l1) := by
    intro rest
    rw [hhead, List.cons_append]
    exact TY_sample_anchor_indep pMstr s fuel b _ _ (hflags b (le_refl b) (by omega)).1
      (by simp [loadLocals]) (by simp [loadLocals, hfirst]) _
  rw [hindep, runSamples_append]
  cases h1 : runSamples (TY_sample pMstr s fuel) (circRange D b (walkLen D b m))
      (loadLocals s 1 l1) with
  | error f => rfl
  | ok r =>
    obtain ⟨la, ops1⟩ := r
    simp only []
    rw [TYSamples_single { pMstr with slaves := [saveLocals s la] } (saveLocals s la)
      (m + 1) e 1 fuel l2 rfl hd hc]
    have hbody : TY_sample { pMstr with slaves := [saveLocals s la] } (saveLocals s la) fuel =
        TY_sample pMstr s fuel := rfl
    have hload : loadLocals (saveLocals s la) 1 l2 = la := by
      simp [loadLocals, saveLocals]
    rw [hbody, hload]
    show _ = match (match sampleLoop (TY_sample pMstr s fuel) pMstr.pSspec.dataDim e fuel
      (m + 1) la with
      | Except.error f => Except.error f
      | Except.ok (l1, ops) => Except.ok
          ({ pMstr with slaves := [saveLocals s l1] }, ops)) with
      | Except.error f => Except.error f
      | Except.ok (m2, ops2) => Except.ok (m2, ops1 ++ ops2)
    rw [hDD, loop (m + 1) e (by omega) (by omega) (by omega) hD hw2]
    cases runSamples (TY_sample pMstr s fuel) (circRange D (m + 1) (walkLen D (m + 1) e)) la with
    | error f => rfl
    | ok r2 => obtain ⟨lb, ops2⟩ := r2; rfl

theorem TYSamples_split_eq_batch_witness :
    (exMstr.slaves = [exSlave] ∧ exSlave.pSChan.pData.isNone = false ∧
      exSlave.pSChan.dataChan ≠ 0 ∧ exSlave.first = 1 ∧
      (∀ i : Int, 0 ≤ i → i ≤ 9 → (exSlave.pSChan.pFlags i).missing = false ∧
        (exSlave.pSChan.pFlags i).restart = false) ∧
      (0 : Int) ≤ 0 ∧ (0 : Int) ≤ 4 ∧ (4 : Int) < 9 ∧ (9 : Int) < exMstr.pSspec.dataDim ∧
      (9 : Int) - 0 < ((10 : Nat) : Int)) ∧
    sydPlot_TYSamples exMstr 0 9 0 10 exLocals =
      match sydPlot_TYSamples exMstr 0 4 1 10 exLocals with
      | Except.error f => Except.error f
      | Except.ok (m1, ops1) =>
        match sydPlot_TYSamples m1 (4 + 1) 9 1 10 exLocals with
        | Except.error f => Except.error f
        | Except.ok (m2, ops2) => Except.ok (m2, ops1 ++ ops2) :=
  ⟨⟨rfl, rfl, by decide, rfl, fun _ _ _ => ⟨rfl, rfl⟩, by decide, by decide, by decide,
      by decide, by decide⟩,
    TYSamples_split_eq_batch exMstr exSlave 0 4 9 10 exLocals exLocals exLocals rfl rfl
      (by decide) rfl (fun _ _ _ => ⟨rfl, rfl⟩) (by decide) (by decide) (by decide) (by decide)
      (by decide)⟩

/-- C2: in `sydPlot_TYSamples` and in `sydPlot_YSamples`, (1) a sample
flagged missing draws nothing and sets skip-pending, leaving the last drawn
point alone; (2) from any state in which the first flag or skip-pending is
set (the state after a missing sample, the state an incremental call resumes
with after a gap, the state a batch call starts with), the run over further
missing samples and then a sample `j` that is not missing draws exactly what
the anchor case draws for `j`; (3) the calls of the anchor case do not depend
on the last drawn point, and for a scalar sample none of them is a line
segment; (4) an incremental call resumes with exactly the locals the previous
call saved, and a batch call starts with the first flag set. -/
theorem missing_then_anchor (m : SYD_PL_MSTR) (s : SYD_PL_SLAVE) (fuel : Nat) (junk : Dbl) :
    (∀ (i : Int) (l : Locals), (s.pSChan.pFlags i).missing = true →
      TY_sample m s fuel i l = Except.ok ({ l with skip := 1 }, []) ∧
      Y_sample m s junk i l = Except.ok ({ l with skip := 1 }, [])) ∧
    (∀ (gap : List Int) (j : Int) (l : Locals),
      (∀ k ∈ gap, (s.pSChan.pFlags k).missing = true) → (s.pSChan.pFlags j).missing = false →
      (l.first ≠ 0 ∨ l.skip ≠ 0) →
      runSamples (TY_sample m s fuel) (gap ++ [j]) l =
          (TY_anchor m s fuel j l).map (fun r => ({ r.1 with first := 0 }, r.2)) ∧
        runSamples (Y_sample m s junk) (gap ++ [j]) l =
          (Y_anchor m s junk j l).map (fun r => ({ r.1 with first := 0 }, r.2))) ∧
    (∀ (j : Int) (l l' : Locals),
      (TY_anchor m s fuel j l).map Prod.snd = (TY_anchor m s fuel j l').map Prod.snd ∧
      (Y_anchor m s junk j l).map Prod.snd = (Y_anchor m s junk j l').map Prod.snd ∧
      (∀ r, TY_anchor m s fuel j l = Except.ok r → r.1.skip = 0 ∧
        ∀ op ∈ r.2, op.isLineSeg = false) ∧
      (∀ r, Y_anchor m s junk j l = Except.ok r → r.1.skip = 0 ∧
        (s.pSChan.elCount = 1 → ∀ op ∈ r.2, op.isLineSeg = false))) ∧
    (∀ (l l' : Locals) (incr : Int),
      (incr ≠ 0 → loadLocals (saveLocals s l) incr l' = l) ∧
      (loadLocals s 0 l').first = 1) := by
  refine ⟨?_, ?_, ?_, ?_⟩
  · intro i l hm
    exact ⟨by simp [TY_sample, hm], by simp [Y_sample, hm]⟩
  · intro gap j l hgap hj hl
    constructor
    · exact runSamples_gap (TY_sample m s fuel) (fun i => (s.pSChan.pFlags i).missing = true)
        (fun i => (s.pSChan.pFlags i).restart = true)
        (fun i => (s.pSChan.pFlags i).filled = true)
        (TY_anchor m s fuel) (TY_cont m s fuel) (fun _ _ => rfl) (TY_anchor_first m s fuel) j
        (by simp [hj]) gap l hgap hl
    · exact runSamples_gap (Y_sample m s junk) (fun i => (s.pSChan.pFlags i).missing = true)
        (fun i => (s.pSChan.pFlags i).restart = true)
        (fun i => (s.pSChan.pFlags i).filled = true)
        (Y_anchor m s junk) (Y_cont m s junk) (fun _ _ => rfl) (Y_anchor_first m s junk) j
        (by simp [hj]) gap l hgap hl
  · intro j l l'
    refine ⟨?_, ?_, ?_, ?_⟩
    · unfold TY_anchor
      cases TY_fetchX m fuel j with
      | error e => rfl
      | ok x =>
        cases FetchIthValInto s.pSChan j with
        | error e => rfl
        | ok y => rfl
    · unfold Y_anchor
      split
      · cases FetchIthValInto s.pSChan j with
        | error e => rfl
        | ok y => rfl
      · cases sydPlot_Yarray s.pArea s.pSChan j junk with
        | error e => rfl
        | ok ops => rfl
    · intro r hr
      unfold TY_anchor at hr
      cases hx : TY_fetchX m fuel j with
      | error e => rw [hx] at hr; cases hr
      | ok x =>
        cases hy : FetchIthValInto s.pSChan j with
        | error e => rw [hx, hy] at hr; cases hr
        | ok y =>
          rw [hx, hy] at hr
          cases hr
          exact ⟨rfl, plotGlyphs_no_seg _ _ _ _ _ _⟩
    · intro r hr
      unfold Y_anchor at hr
      split at hr
      · cases hy : FetchIthValInto s.pSChan j with
        | error e => rw [hy] at hr; cases hr
        | ok y =>
          rw [hy] at hr
          cases hr
          exact ⟨rfl, fun _ => plotGlyphs_no_seg _ _ _ _ _ _⟩
      · rename_i hne
        cases hy : sydPlot_Yarray s.pArea s.pSChan j junk with
        | error e => rw [hy] at hr; cases hr
        | ok ops =>
          rw [hy] at hr
          cases hr
          exact ⟨rfl, fun h1 => absurd h1 hne⟩
  · intro l l' incr
    constructor
    · intro hi
      simp [loadLocals, saveLocals, hi]
    · simp [loadLocals]

theorem missing_then_anchor_witness :
    ((exGapSlave.pSChan.pFlags 3).missing = true ∧
      TY_sample exMstr exGapSlave 10 3 exLocals = Except.ok ({ exLocals with skip := 1 }, []) ∧
      Y_sample exMstr exGapSlave 0 3 exLocals = Except.ok ({ exLocals with skip := 1 }, [])) ∧
    (((∀ k ∈ [(4 : Int)], (exGapSlave.pSChan.pFlags k).missing = true) ∧
        (exGapSlave.pSChan.pFlags 5).missing = false ∧
        ((({ exLocals with skip := 1 } : Locals).first ≠ 0 ∨
          ({ exLocals with skip := 1 } : Locals).skip ≠ 0))) ∧
      runSamples (TY_sample exMstr exGapSlave 10) ([4] ++ [5]) { exLocals with skip := 1 } =
          (TY_anchor exMstr exGapSlave 10 5 { exLocals with skip := 1 }).map
            (fun r => ({ r.1 with first := 0 }, r.2)) ∧
        runSamples (Y_sample exMstr exGapSlave 0) ([4] ++ [5]) { exLocals with skip := 1 } =
          (Y_anchor exMstr exGapSlave 0 5 { exLocals with skip := 1 }).map
            (fun r => ({ r.1 with first := 0 }, r.2))) ∧
    ((1 : Int) ≠ 0 ∧ loadLocals (saveLocals exGapSlave exLocals) 1 exLocals = exLocals) :=
  ⟨⟨by decide, (missing_then_anchor exMstr exGapSlave 10 0).1 3 exLocals (by decide)⟩,
    ⟨⟨by decide, by decide, Or.inl (by decide)⟩,
      (missing_then_anchor exMstr exGapSlave 10 0).2.1 [4] 5 { exLocals with skip := 1 }
        (by decide) (by decide) (Or.inl (by decide))⟩,
    ⟨by decide,
      ((missing_then_anchor exMstr exGapSlave 10 0).2.2.2 exLocals exLocals 1).1 (by decide)⟩⟩

theorem batch_as_incremental_on_fresh_counterexample :
    (((∀ s ∈ exMstr.slaves, s.first = 1 ∧ s.skip = 0 ∧ s.pSChan.pData.isNone = false ∧
        s.pSChan.dataChan ≠ 0) ∧ exMstr.plotAxis = SYD_PLAX.TY) ∧
      ∀ fuel : Nat,
        sydPlotSamples exMstr (-1) 9 0 fuel exLocals 0 =
          Except.ok ({ exMstr with
            slaves := [{ exSlave with first := 1, skip := 3, oldX := 55, oldY := 66 }] }, []) ∧
        sydPlotSamples exMstr (-1) 9 1 fuel exLocals 0 = Except.ok (exMstr, [])) ∧
    ((exDeadSlave.first = 1 ∧ exDeadSlave.pSChan.pData = none) ∧
      ∀ fuel : Nat,
        sydPlotSamples { exMstr with slaves := [exDeadSlave] } 0 9 0 fuel exLocals 0 =
          Except.ok ({ exMstr with
            slaves := [{ exDeadSlave with first := 7, skip := 3, oldX := 55, oldY := 66 }] },
            []) ∧
        sydPlotSamples { exMstr with slaves := [exDeadSlave] } 0 9 1 fuel
            { first := 0, skip := 0, oldX := 0, oldY := 0 } 0 =
          Except.ok ({ exMstr with
            slaves := [{ exDeadSlave with first := 0, skip := 0, oldX := 0, oldY := 0 }] },
            [])) := by
  refine ⟨⟨⟨by simp [exMstr, exSlave, exChan], rfl⟩, fun fuel => ⟨?_, ?_⟩⟩,
    ⟨⟨rfl, rfl⟩, fun fuel => ⟨?_, ?_⟩⟩⟩
  · rw [sydPlotSamples_TY exMstr (-1) 9 0 fuel exLocals 0 (Or.inl rfl),
      TYSamples_single exMstr exSlave (-1) 9 0 fuel exLocals rfl rfl (by decide),
      sampleLoop_neg _ _ _ _ _ _ (by decide)]
    rfl
  · rw [sydPlotSamples_TY exMstr (-1) 9 1 fuel exLocals 0 (Or.inl rfl),
      TYSamples_single exMstr exSlave (-1) 9 1 fuel exLocals rfl rfl (by decide),
      sampleLoop_neg _ _ _ _ _ _ (by decide)]
    rfl
  · rw [sydPlotSamples_TY _ 0 9 0 fuel exLocals 0 (Or.inl rfl)]
    rfl
  · rw [sydPlotSamples_TY _ 0 9 1 fuel _ 0 (Or.inl rfl)]
    rfl

/-- C5 (amended): on a master whose slaves all have a connected data channel
and the first flag set, and for a range starting at an index `begin >= 0`,
`sydPlotSamples(begin, end, 0)` and `sydPlotSamples(begin, end, 1)` have the
same outcome, whatever the indeterminate locals of the two calls: the same
fault, or the same plotting calls and masters that agree in everything (the
first and skip-pending flags of every slave included) but the last drawn
point of the slaves; this for every geometry kind, flag content and stored
skip-pending flag and last point.  The plotting calls of a batch call do not
depend on the continuity state stored in the slaves.  And in a batch call the
first sample of the range that is not flagged missing is handled as an
anchor: the block of a slave is the anchor case at that sample, the samples
before it having made no call, followed by the rest of the walk. -/
theorem batch_as_incremental_on_fresh (m : SYD_PL_MSTR) (b e : Int) (fuel : Nat)
    (l l' : Locals) (junk : Dbl)
    (hfirst : ∀ s ∈ m.slaves, s.first = 1) (hb : 0 ≤ b)
    (hconn : ∀ s ∈ m.slaves, s.pSChan.pData.isNone = false ∧ s.pSChan.dataChan ≠ 0) :
    ExceptRel (fun r r' => r.2 = r'.2 ∧ mstrSameButLastPoint r.1 r'.1)
        (sydPlotSamples m b e 0 fuel l junk) (sydPlotSamples m b e 1 fuel l' junk) ∧
    (∀ store : SYD_PL_SLAVE → Locals,
      ExceptRel (fun r r' => r.2 = r'.2)
        (sydPlotSamples m b e 0 fuel l junk)
        (sydPlotSamples { m with slaves := m.slaves.map fun s => saveLocals s (store s) }
          b e 0 fuel l' junk)) ∧
    (b < m.pSspec.dataDim → 0 ≤ e → e < m.pSspec.dataDim →
      walkLen m.pSspec.dataDim b e ≤ fuel →
      ∀ (s : SYD_PL_SLAVE) (cx : SYD_CHAN) (pre : List Int) (i : Int) (post : List Int),
        s ∈ m.slaves →
        circRange m.pSspec.dataDim b (walkLen m.pSspec.dataDim b e) = pre ++ i :: post →
        ((∀ j ∈ pre, (s.pSChan.pFlags j).missing = true) →
          (s.pSChan.pFlags i).missing = false →
          (∃ lk : Locals, (lk.first ≠ 0 ∨ lk.skip ≠ 0) ∧
            TY_slave m b e 0 fuel s l =
              match TY_anchor m s fuel i lk with
              | Except.error f => Except.error f
              | Except.ok (l1, ops) =>
                match runSamples (TY_sample m s fuel) post { l1 with first := 0 } with
                | Except.error f => Except.error f
                | Except.ok (l2, ops2) => Except.ok (saveLocals s l2, l2, ops ++ ops2)) ∧
          (∃ lk : Locals, (lk.first ≠ 0 ∨ lk.skip ≠ 0) ∧
            Y_slave m b e 0 fuel junk s l =
              match Y_anchor m s junk i lk with
              | Except.error f => Except.error f
              | Except.ok (l1, ops) =>
                match runSamples (Y_sample m s junk) post { l1 with first := 0 } with
                | Except.error f => Except.error f
                | Except.ok (l2, ops2) => Except.ok (saveLocals s l2, l2, ops ++ ops2))) ∧
        ((∀ j ∈ pre, (s.pSChan.pFlags j).missing = true ∨ (cx.pFlags j).missing = true) →
          (s.pSChan.pFlags i).missing = false → (cx.pFlags i).missing = false →
          ∃ lk : Locals, (lk.first ≠ 0 ∨ lk.skip ≠ 0) ∧
            XY_slave m cx b e 0 fuel junk s l =
              match XY_anchor m cx s junk i lk with
              | Except.error f => Except.error f
              | Except.ok (l1, ops) =>
                match runSamples (XY_sample m cx s junk) post { l1 with first := 0 } with
                | Except.error f => Except.error f
                | Except.ok (l2, ops2) => Except.ok (saveLocals s l2, l2, ops ++ ops2))) := by
  have hconn' : ∀ (store : SYD_PL_SLAVE → Locals),
      ∀ s ∈ m.slaves.map (fun s => saveLocals s (store s)),
        s.pSChan.pData.isNone = false ∧ s.pSChan.dataChan ≠ 0 := by
    intro store s hs
    rw [List.mem_map] at hs
    obtain ⟨t, ht, rfl⟩ := hs
    exact hconn t ht
  refine ⟨?_, ?_, ?_⟩
  · have h := sydPlotSamples_rel sameButLastPoint m
      (fun s => { first := s.first, skip := s.skip, oldX := s.oldX, oldY := s.oldY })
      b e 0 1 fuel l { l' with first := l.first, skip := l.skip } junk hb ⟨rfl, rfl⟩
      (fun s a a' h1 h2 => by simp [sameButLastPoint, saveLocals, h1, h2])
      (fun s => rfl)
      (fun s hs a a' => ⟨by simp [loadLocals], by simp [loadLocals, saveLocals, hfirst s hs]⟩)
    rw [map_saveLocals_self] at h
    rw [sydPlotSamples_indep m b e 1 fuel l' { l' with first := l.first, skip := l.skip } junk
      hb hconn rfl rfl]
    exact ExceptRel_mono _ _ (fun r r' hr => ⟨hr.1, hr.2.2, hr.2.1⟩) _ _ h
  · intro store
    have h := sydPlotSamples_rel (fun _ _ => True) m store b e 0 0 fuel l
      { l' with first := l.first, skip := l.skip } junk hb ⟨rfl, rfl⟩
      (fun _ _ _ _ _ => trivial) (fun _ => trivial)
      (fun s _ a a' => ⟨by simp [loadLocals], by simp [loadLocals]⟩)
    rw [sydPlotSamples_indep { m with slaves := m.slaves.map fun s => saveLocals s (store s) }
      b e 0 fuel l' { l' with first := l.first, skip := l.skip } junk hb (hconn' store) rfl rfl]
    exact ExceptRel_mono _ _ (fun r r' hr => hr.1) _ _ h
  · intro hbD he heD hf s cx pre i post hs hsplit
    obtain ⟨hd, hc⟩ := hconn s hs
    have hcon : ¬ (s.pSChan.pData.isNone = true ∨ s.pSChan.dataChan = 0) := by
      rintro (h | h)
      · rw [hd] at h; cases h
      · exact hc h
    refine ⟨fun hpre hi => ⟨?_, ?_⟩, fun hpre hi hix => ?_⟩
    · obtain ⟨lk, hlk, h⟩ := batch_block_anchor (TY_sample m s fuel) (TY_anchor m s fuel)
        (fun j => (s.pSChan.pFlags j).missing = true)
        (fun j l0 hj => by simp [TY_sample, hj])
        (fun j l0 hj hl0 => by
          have hj' : (s.pSChan.pFlags j).missing = false := by simpa using hj
          have hl1 : l0.first ≠ 0 ∨ l0.skip ≠ 0 ∨ (s.pSChan.pFlags j).restart = true := by
            rcases hl0 with h | h
            · exact Or.inl h
            · exact Or.inr (Or.inl h)
          simp only [TY_sample, hj', Bool.false_eq_true, if_false, if_pos hl1])
        m.pSspec.dataDim b e fuel s l hb hbD he heD hf pre i post hsplit hpre (by simp [hi])
      refine ⟨lk, hlk, ?_⟩
      unfold TY_slave
      rw [if_neg hcon]
      exact h
    · obtain ⟨lk, hlk, h⟩ := batch_block_anchor (Y_sample m s junk) (Y_anchor m s junk)
        (fun j => (s.pSChan.pFlags j).missing = true)
        (fun j l0 hj => by simp [Y_sample, hj])
        (fun j l0 hj hl0 => by
          have hj' : (s.pSChan.pFlags j).missing = false := by simpa using hj
          have hl1 : l0.first ≠ 0 ∨ l0.skip ≠ 0 ∨ (s.pSChan.pFlags j).restart = true := by
            rcases hl0 with h | h
            · exact Or.inl h
            · exact Or.inr (Or.inl h)
          simp only [Y_sample, hj', Bool.false_eq_true, if_false, if_pos hl1])
        m.pSspec.dataDim b e fuel s l hb hbD he heD hf pre i post hsplit hpre (by simp [hi])
      refine ⟨lk, hlk, ?_⟩
      unfold Y_slave
      rw [if_neg hcon]
      exact h
    · obtain ⟨lk, hlk, h⟩ := batch_block_anchor (XY_sample m cx s junk) (XY_anchor m cx s junk)
        (fun j => (s.pSChan.pFlags j).missing = true ∨ (cx.pFlags j).missing = true)
        (fun j l0 hj => by simp [XY_sample, hj])
        (fun j l0 hj hl0 => by
          have hl1 : l0.first ≠ 0 ∨ l0.skip ≠ 0 ∨ (s.pSChan.pFlags j).restart = true ∨
              (cx.pFlags j).restart = true := by
            rcases hl0 with h | h
            · exact Or.inl h
            · exact Or.inr (Or.inl h)
          simp only [XY_sample, if_neg hj, if_pos hl1])
        m.pSspec.dataDim b e fuel s l hb hbD he heD hf pre i post hsplit hpre
        (by simp [hi, hix])
      refine ⟨lk, hlk, ?_⟩
      unfold XY_slave
      rw [if_neg hcon]
      exact h

theorem batch_as_incremental_on_fresh_witness :
    ((∀ s ∈ exMstr.slaves, s.first = 1) ∧ (0 : Int) ≤ 0 ∧
      (∀ s ∈ exMstr.slaves, s.pSChan.pData.isNone = false ∧ s.pSChan.dataChan ≠ 0)) ∧
    ExceptRel (fun r r' => r.2 = r'.2 ∧ mstrSameButLastPoint r.1 r'.1)
        (sydPlotSamples exMstr 0 9 0 10 exLocals 0)
        (sydPlotSamples exMstr 0 9 1 10 { exLocals with first := 0, skip := 0 } 0) :=
  ⟨⟨by simp [exMstr, exSlave], by decide, by simp [exMstr, exSlave, exChan]⟩,
    (batch_as_incremental_on_fresh exMstr 0 9 10 exLocals { exLocals with first := 0, skip := 0 }
      0 (by simp [exMstr, exSlave]) (by decide) (by simp [exMstr, exSlave, exChan])).1⟩

theorem TY_wrap_X_counterexample :
    (exMstrStuck.wrapX ≠ 0 ∧ 0 < exMstrStuck.extentVal ∧
      ∀ fuel : Nat, TY_fetchX exMstrStuck fuel 0 = Except.error Fault.outOfFuel) ∧
    (exMstrDrift.wrapX ≠ 0 ∧ 0 < exMstrDrift.extentVal ∧
      exMstrDrift.pSspec.pDeltaSec 2 = 2 ∧
      (∀ fuel : Nat, 2 ≤ fuel →
        TY_fetchX exMstrDrift fuel 2 =
          Except.ok (1801439850948199 / 9007199254740992)) ∧
      ¬ ∃ k : Int, exMstrDrift.pSspec.pDeltaSec 2 =
        1801439850948199 / 9007199254740992 + (k : Dbl) * exMstrDrift.extentVal) := by
  refine ⟨⟨by decide, by norm_num [exMstrStuck], fun fuel => ?_⟩,
    ⟨by decide, by norm_num [exMstrDrift], by simp [exMstrDrift, exMstr, exSpec],
      fun fuel hf => ?_, ?_⟩⟩
  · have hfix : roundDbl ((2 : Dbl) ^ 54 - 1) = 2 ^ 54 := by
      have h := roundDbl_tie (2 ^ 54 - 1) 53 9007199254740991 (by norm_num) (by norm_num)
        (by norm_num)
      rw [h]; norm_num
    have h := wrapLoop_stuck 1 (2 ^ 54) (by norm_num) hfix fuel
    simpa [TY_fetchX, exMstrStuck] using h
  · obtain ⟨f, rfl⟩ : ∃ f, fuel = f + 2 := ⟨fuel - 2, by omega⟩
    have h1 : roundDbl ((2 : Dbl) - 8106479329266893 / 9007199254740992) =
        2476979795053773 / 2251799813685248 := by
      have h := roundDbl_tie ((2 : Dbl) - 8106479329266893 / 9007199254740992) 0
        4953959590107545 (by norm_num) (by norm_num) (by norm_num)
      rw [h]; norm_num
    have h2 : roundDbl ((2476979795053773 : Dbl) / 2251799813685248 -
        8106479329266893 / 9007199254740992) = 1801439850948199 / 9007199254740992 := by
      have h := roundDbl_eq ((2476979795053773 : Dbl) / 2251799813685248 -
        8106479329266893 / 9007199254740992) (-3)
        7205759403792796 (by norm_num) (by norm_num) (by norm_num) (by norm_num)
      rw [h]; norm_num
    have hx : TY_fetchX exMstrDrift (f + 2) 2 =
        wrapLoop (8106479329266893 / 9007199254740992) (f + 2) 2 := by
      simp [TY_fetchX, exMstrDrift, exMstr, exSpec]
    rw [hx]
    have g1 : (8106479329266893 : Dbl) / 9007199254740992 < 2 := by norm_num
    have g2 : (8106479329266893 : Dbl) / 9007199254740992 <
        2476979795053773 / 2251799813685248 := by norm_num
    simp only [wrapLoop, gt_iff_lt, g1, if_true, h1, g2, h2]
    exact wrapLoop_le _ f _ (by norm_num)
  · rintro ⟨k, hk⟩
    have hk2 : (2 : Dbl) = 1801439850948199 / 9007199254740992 +
        (k : Dbl) * (8106479329266893 / 9007199254740992) := by
      simpa [exMstrDrift, exMstr, exSpec] using hk
    have hlo : (1 : Dbl) < (k : Dbl) := by
      by_contra hcon
      have : (k : Dbl) ≤ 1 := not_lt.mp hcon
      nlinarith
    have hhi : (k : Dbl) < 2 := by
      by_contra hcon
      have : (2 : Dbl) ≤ (k : Dbl) := not_lt.mp hcon
      nlinarith
    have h1 : (1 : Int) < k := by exact_mod_cast hlo
    have h2 : k < (2 : Int) := by exact_mod_cast hhi
    omega

/-- C6 (amended): in `sydPlot_TYSamples` with wrap mode on and master extent
`E`, the X of a sample with time offset `X0` is `X0` when `X0 <= E`;
otherwise it is the first value not above `E` among `X0`, `X0 - E`,
`(X0 - E) - E`, .., every subtraction being rounded to `double`: whenever the
loop ends within the fuel the result is that value, at most `E`, and positive
when `X0 > E`, and when such a value exists enough fuel gives it; for
`X0 = E + 3` and `E >= 3` it is `3`.  With wrap mode off it is `X0`.  Every
plotting call made for the sample ends at that X. -/
theorem TY_wrap_X (pMstr : SYD_PL_MSTR) (s : SYD_PL_SLAVE) (i : Int) :
    (pMstr.wrapX ≠ 0 →
      (pMstr.pSspec.pDeltaSec i ≤ pMstr.extentVal →
        ∀ fuel : Nat, TY_fetchX pMstr fuel i = Except.ok (pMstr.pSspec.pDeltaSec i)) ∧
      (∀ (fuel : Nat) (x : Dbl), TY_fetchX pMstr fuel i = Except.ok x →
        x ≤ pMstr.extentVal ∧ (pMstr.extentVal < pMstr.pSspec.pDeltaSec i → 0 < x) ∧
        ∃ k : Nat, k ≤ fuel ∧ x = wrapIter pMstr.extentVal (pMstr.pSspec.pDeltaSec i) k ∧
          ∀ j : Nat, j < k →
            pMstr.extentVal < wrapIter pMstr.extentVal (pMstr.pSspec.pDeltaSec i) j) ∧
      (∀ k : Nat, wrapIter pMstr.extentVal (pMstr.pSspec.pDeltaSec i) k ≤ pMstr.extentVal →
        (∀ j : Nat, j < k →
          pMstr.extentVal < wrapIter pMstr.extentVal (pMstr.pSspec.pDeltaSec i) j) →
        ∀ fuel : Nat, k ≤ fuel →
          TY_fetchX pMstr fuel i =
            Except.ok (wrapIter pMstr.extentVal (pMstr.pSspec.pDeltaSec i) k)) ∧
      (pMstr.pSspec.pDeltaSec i = pMstr.extentVal + 3 → 3 ≤ pMstr.extentVal →
        ∀ fuel : Nat, 1 ≤ fuel → TY_fetchX pMstr fuel i = Except.ok 3)) ∧
    (pMstr.wrapX = 0 →
      ∀ fuel : Nat, TY_fetchX pMstr fuel i = Except.ok (pMstr.pSspec.pDeltaSec i)) ∧
    (∀ (fuel : Nat) (l : Locals) (x : Dbl) (r : Locals × List PprCall),
      TY_fetchX pMstr fuel i = Except.ok x →
      TY_sample pMstr s fuel i l = Except.ok r → ∀ op ∈ r.2, op.endX = x) := by
  refine ⟨fun hw => ?_, fun hw fuel => by simp [TY_fetchX, hw],
    fun fuel l x r hx hr => TY_sample_endX pMstr s fuel i l x r hx hr⟩
  have hfx : ∀ fuel : Nat, TY_fetchX pMstr fuel i =
      wrapLoop pMstr.extentVal fuel (pMstr.pSspec.pDeltaSec i) := by
    intro fuel
    simp only [TY_fetchX, hw, ne_eq, not_false_eq_true, if_true]
  refine ⟨fun hle fuel => ?_, fun fuel x hx => ?_, fun k hle hgt fuel hf => ?_,
    fun h3 hE fuel hf => ?_⟩
  · rw [hfx]; exact wrapLoop_le _ fuel _ hle
  · rw [hfx] at hx
    exact ⟨wrapLoop_ok_le _ fuel _ x hx, fun hgt => wrapLoop_ok_pos _ fuel _ x hgt hx,
      wrapLoop_ok_iter _ fuel _ x hx⟩
  · rw [hfx]; exact wrapLoop_iter _ k _ hle hgt fuel hf
  · rw [hfx, h3]; exact wrapLoop_plus_three _ hE fuel hf

theorem TY_wrap_X_witness :
    (exMstrWrap.wrapX ≠ 0 ∧ exMstrWrap.pSspec.pDeltaSec 7 = exMstrWrap.extentVal + 3 ∧
      3 ≤ exMstrWrap.extentVal ∧ TY_fetchX exMstrWrap 1 7 = Except.ok 3) ∧
    (exMstr.wrapX = 0 ∧ TY_fetchX exMstr 0 7 = Except.ok (exMstr.pSspec.pDeltaSec 7)) :=
  ⟨⟨by decide, by norm_num [exMstrWrap, exMstr, exSpec], by norm_num [exMstrWrap],
      ((TY_wrap_X exMstrWrap exSlave 7).1 (by decide)).2.2.2
        (by norm_num [exMstrWrap, exMstr, exSpec]) (by norm_num [exMstrWrap]) 1 (le_refl 1)⟩,
    ⟨rfl, (TY_wrap_X exMstr exSlave 7).2.1 rfl 0⟩⟩

/-- C7: on a master with one connected channel of a numeric type with `k >= 2`
elements per sample and the first flag set, `sydPlot_YSamples` over the single
sample `i`, not flagged missing, makes, batch or incremental alike, exactly
the `k - 1` calls of the polyline over the elements of the sample: the
segments from element `j` at `X = j` to element `j + 1` at `X = j + 1`, and
no glyph; for `k = 4` these are three segments.  More generally every sample
drawn in the anchor or in the continuation case gives that polyline. -/
theorem array_sample_polyline (m : SYD_PL_MSTR) (s : SYD_PL_SLAVE) (d : Int → Dbl)
    (i incr : Int) (fuel : Nat) (l : Locals) (junk : Dbl)
    (hs : m.slaves = [s]) (hd : s.pSChan.pData = some d) (hc : s.pSChan.dataChan ≠ 0)
    (ht : s.pSChan.dbrType ≠ DbrType.STRING) (hk : 2 ≤ s.pSChan.elCount)
    (hfirst : s.first = 1) (hi : 0 ≤ i) (hmiss : (s.pSChan.pFlags i).missing = false)
    (hfuel : 1 ≤ fuel) :
    (sydPlot_YSamples m i i incr fuel l junk).map Prod.snd =
        Except.ok (polyline s.pArea s.pSChan d i s.pSChan.elCount) ∧
      (polyline s.pArea s.pSChan d i s.pSChan.elCount).length = (s.pSChan.elCount - 1).toNat ∧
      (∀ op ∈ polyline s.pArea s.pSChan d i s.pSChan.elCount, op.isLineSeg = true) ∧
      (s.pSChan.elCount = 4 →
        polyline s.pArea s.pSChan d i s.pSChan.elCount =
          [PprCall.pprLineSegD s.pArea 0 (arrayVal s.pSChan d (i * 4 + 0))
              1 (arrayVal s.pSChan d (i * 4 + 1)),
           PprCall.pprLineSegD s.pArea 1 (arrayVal s.pSChan d (i * 4 + 1))
              2 (arrayVal s.pSChan d (i * 4 + 2)),
           PprCall.pprLineSegD s.pArea 2 (arrayVal s.pSChan d (i * 4 + 2))
              3 (arrayVal s.pSChan d (i * 4 + 3))]) ∧
      (∀ l' : Locals,
        Y_anchor m s junk i l' =
          Except.ok ({ l' with skip := 0 }, polyline s.pArea s.pSChan d i s.pSChan.elCount) ∧
        Y_cont m s junk i l' =
          Except.ok (l', polyline s.pArea s.pSChan d i s.pSChan.elCount)) := by
  refine ⟨?_, ?_, ?_, ?_, fun l' => Y_anchor_array m s d junk i l' hd ht hk⟩
  · obtain ⟨f, rfl⟩ : ∃ f, fuel = f + 1 := ⟨fuel - 1, by omega⟩
    have hload : (loadLocals s incr l).first ≠ 0 := by
      unfold loadLocals
      split
      · simp
      · simp [hfirst]
    have hbody : Y_sample m s junk i (loadLocals s incr l) =
        Except.ok ({ loadLocals s incr l with skip := 0 },
          polyline s.pArea s.pSChan d i s.pSChan.elCount) := by
      unfold Y_sample
      rw [hmiss]
      simp only [Bool.false_eq_true, if_false, if_pos (Or.inl hload)]
      exact (Y_anchor_array m s d junk i _ hd ht hk).1
    have hnext : nextIndex m.pSspec.dataDim i i = -1 := by simp [nextIndex]
    simp only [sydPlot_YSamples, hs, slaveLoop, Y_slave, hd, hc, Option.isNone_some,
      Bool.false_eq_true, or_self, if_false, sampleLoop, ge_iff_le, hi, if_true, hbody, hnext,
      sampleLoop_neg _ _ _ f (-1) _ (by decide : (-1 : Int) < 0)]
    simp [Except.map]
  · simp [polyline]
  · intro op hop
    unfold polyline at hop
    rw [List.mem_map] at hop
    obtain ⟨j, _, rfl⟩ := hop
    rfl
  · intro h4
    simp [polyline, h4, List.range_succ]
    norm_num

theorem array_sample_polyline_witness :
    (exArrayMstr.slaves = [exArraySlave] ∧
      exArraySlave.pSChan.pData = some exData ∧
      exArraySlave.pSChan.dataChan ≠ 0 ∧ exArraySlave.pSChan.dbrType ≠ DbrType.STRING ∧
      2 ≤ exArraySlave.pSChan.elCount ∧ exArraySlave.first = 1 ∧ (0 : Int) ≤ 2 ∧
      (exArraySlave.pSChan.pFlags 2).missing = false ∧ 1 ≤ 1) ∧
    (sydPlot_YSamples exArrayMstr 2 2 1 1 exLocals 0).map Prod.snd =
      Except.ok (polyline exArraySlave.pArea exArraySlave.pSChan exData 2
        exArraySlave.pSChan.elCount) ∧
    (exArraySlave.pSChan.elCount = 4 ∧
      polyline exArraySlave.pArea exArraySlave.pSChan exData 2
          exArraySlave.pSChan.elCount =
        [PprCall.pprLineSegD exArraySlave.pArea 0
            (arrayVal exArraySlave.pSChan exData (2 * 4 + 0))
            1 (arrayVal exArraySlave.pSChan exData (2 * 4 + 1)),
         PprCall.pprLineSegD exArraySlave.pArea 1
            (arrayVal exArraySlave.pSChan exData (2 * 4 + 1))
            2 (arrayVal exArraySlave.pSChan exData (2 * 4 + 2)),
         PprCall.pprLineSegD exArraySlave.pArea 2
            (arrayVal exArraySlave.pSChan exData (2 * 4 + 2))
            3 (arrayVal exArraySlave.pSChan exData (2 * 4 + 3))]) :=
  ⟨⟨rfl, rfl, by decide, by decide, by decide, rfl, by decide, rfl, le_refl 1⟩,
    (array_sample_polyline exArrayMstr exArraySlave exData 2 1 1 exLocals 0
      rfl rfl (by decide) (by decide) (by decide) rfl (by decide) rfl (le_refl 1)).1,
    ⟨rfl,
      (array_sample_polyline exArrayMstr exArraySlave exData 2 1 1 exLocals 0
        rfl rfl (by decide) (by decide) (by decide) rfl (by decide) rfl (le_refl 1)).2.2.2.1
        rfl⟩⟩

theorem two_channel_scenario_counterexample :
    (exChan.pData = some exData ∧ exChan.dataChan ≠ 0 ∧ exChan.dbrType = DbrType.DOUBLE ∧
      exChan.elCount = 1 ∧ exChan.lower_disp_limit = 0 ∧ exChan.upper_disp_limit = 100 ∧
      (exChan.pFlags 0).missing = false) ∧
    (exChan2.pData.isSome = true ∧ exChan2.dataChan ≠ 0 ∧ exChan2.dbrType = DbrType.DOUBLE ∧
      exChan2.elCount = 1 ∧ exChan2.lower_disp_limit = -5 ∧ exChan2.upper_disp_limit = 5 ∧
      (exChan2.pFlags 0).missing = false) ∧
    (twoChannelScenario exLib exMstr exSpec PPR_WIN_TY.SCREEN 1 0 (0, 0, 640, 480) exChan exChan2
        exSlave exSlave 7 7 10 exLocals 0).map (fun r => r.2.2) = Except.ok [] := by
  obtain ⟨mS, gops, h, -, -⟩ := scenario_result exLib exMstr exSpec PPR_WIN_TY.SCREEN 1 0
    (0, 0, 640, 480) exChan exChan2 exSlave exSlave 7 7 10 exLocals 0 exData
    (fun i => (i : Dbl) - 3) 0 1 2 rfl rfl (by decide) (by decide)
    ⟨by decide, by decide⟩ ⟨by decide, by decide⟩ ⟨rfl, rfl⟩ ⟨rfl, rfl⟩ rfl rfl rfl rfl rfl
    (by decide)
  rw [h]
  exact ⟨⟨rfl, by decide, rfl, rfl, rfl, rfl, rfl⟩, ⟨rfl, by decide, rfl, rfl, rfl, rfl, rfl⟩,
    rfl⟩

/-- C8 (amended): on a master set up by `sydPlotInit` on a window that opens,
after `sydPlotChanAdd` of two connected channels of a numeric, non-enumerated
type with display limits `[0, 100]` and `[-5, 5]`, with `plotAxis` set to
`SYD_PLAX_TYY`, when the three plot areas of `sydPlot_TYYGrid` open and sample
0 is not missing, the grid routine and `sydPlotSamples(pMstr, 0, 0, 0)` return
without a failed assertion; the sample routine makes no plotting call at all
(neither a line segment nor an anchor glyph, the mark, point and status modes
being off after `sydPlotInit`); each slave has the domain of its display
limits and its plot area, and sample 0 has become its last drawn point, with
the first and skip-pending flags cleared. -/
theorem two_channel_scenario (lib : PprLib) (m0 : SYD_PL_MSTR) (pSspec : SYD_SPEC)
    (winType : PPR_WIN_TY) (fullInit : Int) (w : Nat) (info : Int × Int × Int × Int)
    (c1 c2 : SYD_CHAN)
    (raw1 raw2 : SYD_PL_SLAVE) (junkO junkE : Dbl) (fuel : Nat) (l0 : Locals) (junk : Dbl)
    (d1 d2 : Int → Dbl) (a0 a1 a2 : Nat)
    (hd1 : c1.pData = some d1) (hd2 : c2.pData = some d2)
    (hc1 : c1.dataChan ≠ 0) (hc2 : c2.dataChan ≠ 0)
    (ht1 : c1.dbrType ≠ DbrType.STRING ∧ c1.dbrType ≠ DbrType.ENUM)
    (ht2 : c2.dbrType ≠ DbrType.STRING ∧ c2.dbrType ≠ DbrType.ENUM)
    (hl1 : c1.lower_disp_limit = 0 ∧ c1.upper_disp_limit = 100)
    (hl2 : c2.lower_disp_limit = -5 ∧ c2.upper_disp_limit = 5)
    (hm1 : (c1.pFlags 0).missing = false) (hm2 : (c2.pFlags 0).missing = false)
    (ha0 : lib.pprAreaOpen 0 = some a0) (ha1 : lib.pprAreaOpen 1 = some a1)
    (ha2 : lib.pprAreaOpen 2 = some a2) (hf : 1 ≤ fuel) :
    ∃ mS gops,
      twoChannelScenario lib m0 pSspec winType fullInit w info c1 c2 raw1 raw2 junkO junkE fuel
          l0 junk =
        Except.ok (mS, gops, []) ∧
      mS.slaves.map (fun s => (s.pSChan, s.pArea, s.originVal, s.extentVal)) =
        [(c1, some a1, 0, 100), (c2, some a2, -5, 5)] ∧
      mS.slaves.map (fun s => (s.first, s.skip, s.oldX, s.oldY)) =
        [(0, 0, pSspec.pDeltaSec 0, d1 0), (0, 0, pSspec.pDeltaSec 0, d2 0)] :=
  scenario_result lib m0 pSspec winType fullInit w info c1 c2 raw1 raw2 junkO junkE fuel l0 junk d1 d2
    a0 a1 a2 hd1 hd2 hc1 hc2 ht1 ht2 hl1 hl2 hm1 hm2 ha0 ha1 ha2 hf

theorem two_channel_scenario_witness :
    ∃ mS gops,
      twoChannelScenario exLib exMstr exSpec PPR_WIN_TY.SCREEN 1 0 (0, 0, 640, 480) exChan exChan2
          exSlave exSlave 7 7 10 exLocals 0 = Except.ok (mS, gops, []) ∧
      mS.slaves.map (fun s => (s.pSChan, s.pArea, s.originVal, s.extentVal)) =
        [(exChan, some 1, 0, 100), (exChan2, some 2, -5, 5)] ∧
      mS.slaves.map (fun s => (s.first, s.skip, s.oldX, s.oldY)) =
        [(0, 0, exSpec.pDeltaSec 0, exData 0), (0, 0, exSpec.pDeltaSec 0, (0 : Dbl) - 3)] :=
  two_channel_scenario exLib exMstr exSpec PPR_WIN_TY.SCREEN 1 0 (0, 0, 640, 480) exChan exChan2
    exSlave exSlave 7 7 10 exLocals 0 exData (fun i => (i : Dbl) - 3) 0 1 2 rfl rfl
    (by decide) (by decide) ⟨by decide, by decide⟩ ⟨by decide, by decide⟩ ⟨rfl, rfl⟩ ⟨rfl, rfl⟩
    rfl rfl rfl rfl rfl (by decide)

/-- C9: in the per-sample body of `sydPlot_XYSamples`, for a Y slave `s` and
the X channel `cx`: (1) when the missing flag of the Y channel or of the X
channel is set at `i`, nothing is drawn and skip-pending is set; and whenever
the body returns, "nothing drawn and skip-pending set" holds exactly when one
of the two missing flags is set; (2) otherwise the anchor case is taken
exactly when the first flag is set, or skip-pending is set, or the restart
flag of the Y channel or of the X channel is set at `i`; when it is not
taken, a filled sample changes nothing and draws nothing, and any other
sample goes through the continuation case; (3) for scalar samples the anchor
case draws no line segment, makes the sample the last drawn point whatever it
was and clears skip-pending, whereas the continuation case in line mode
starts with the segment from the last drawn point. -/
theorem XY_sample_cases (m : SYD_PL_MSTR) (cx : SYD_CHAN) (s : SYD_PL_SLAVE) (junk : Dbl)
    (i : Int) (l : Locals) :
    (((s.pSChan.pFlags i).missing = true ∨ (cx.pFlags i).missing = true) →
      XY_sample m cx s junk i l = Except.ok ({ l with skip := 1 }, [])) ∧
    (∀ r, XY_sample m cx s junk i l = Except.ok r →
      ((r.2 = [] ∧ r.1.skip ≠ 0) ↔
        ((s.pSChan.pFlags i).missing = true ∨ (cx.pFlags i).missing = true))) ∧
    (¬ ((s.pSChan.pFlags i).missing = true ∨ (cx.pFlags i).missing = true) →
      ((l.first ≠ 0 ∨ l.skip ≠ 0 ∨ (s.pSChan.pFlags i).restart = true ∨
          (cx.pFlags i).restart = true) →
        XY_sample m cx s junk i l = XY_anchor m cx s junk i l) ∧
      (¬ (l.first ≠ 0 ∨ l.skip ≠ 0 ∨ (s.pSChan.pFlags i).restart = true ∨
          (cx.pFlags i).restart = true) →
        ((s.pSChan.pFlags i).filled = true →
          XY_sample m cx s junk i l = Except.ok (l, [])) ∧
        ((s.pSChan.pFlags i).filled = false →
          XY_sample m cx s junk i l = XY_cont m cx s junk i l))) ∧
    (XY_nEl cx s.pSChan = 1 →
      (∀ r, XY_anchor m cx s junk i l = Except.ok r →
        FetchIthValInto cx i = Except.ok r.1.oldX ∧
        FetchIthValInto s.pSChan i = Except.ok r.1.oldY ∧ r.1.skip = 0 ∧
        ∀ op ∈ r.2, op.isLineSeg = false) ∧
      (∀ r, m.linePlot ≠ 0 → XY_cont m cx s junk i l = Except.ok r →
        ∃ rest, r.2 = PprCall.pprLineSegD s.pArea l.oldX l.oldY r.1.oldX r.1.oldY :: rest)) := by
  refine ⟨?_, ?_, ?_, ?_⟩
  · intro hm
    unfold XY_sample
    rw [if_pos hm]
  · intro r hr
    constructor
    · intro h
      by_contra hm
      exact h.2 (XY_sample_skip m cx s junk i l r hm hr)
    · intro hm
      unfold XY_sample at hr
      rw [if_pos hm] at hr
      cases hr
      exact ⟨rfl, show (1 : Int) ≠ 0 by decide⟩
  · intro hm
    refine ⟨fun hc => ?_, fun hc => ⟨fun hf => ?_, fun hf => ?_⟩⟩
    · unfold XY_sample
      rw [if_neg hm, if_pos hc]
    · unfold XY_sample
      rw [if_neg hm, if_neg hc, if_pos hf]
    · unfold XY_sample
      rw [if_neg hm, if_neg hc, if_neg (by simp [hf])]
  · intro h1
    constructor
    · intro r hr
      unfold XY_anchor at hr
      rw [if_pos h1] at hr
      cases hx : FetchIthValInto cx i with
      | error e => rw [hx] at hr; cases hr
      | ok x =>
        cases hy : FetchIthValInto s.pSChan i with
        | error e => rw [hx, hy] at hr; cases hr
        | ok y =>
          rw [hx, hy] at hr
          cases hr
          exact ⟨rfl, rfl, rfl, plotGlyphs_no_seg _ _ _ _ _ _⟩
    · intro r hl hr
      unfold XY_cont at hr
      rw [if_pos h1] at hr
      cases hx : FetchIthValInto cx i with
      | error e => rw [hx] at hr; cases hr
      | ok x =>
        cases hy : FetchIthValInto s.pSChan i with
        | error e => rw [hx, hy] at hr; cases hr
        | ok y =>
          rw [hx, hy] at hr
          cases hr
          exact ⟨plotGlyphs m s.pArea s.markNum x y (s.pSChan.pDataCodeR i), by simp [hl]⟩

theorem XY_sample_cases_witness :
    (((exGapSlave.pSChan.pFlags 3).missing = true ∨ (exChan.pFlags 3).missing = true) ∧
      XY_sample exXYMstr exChan exGapSlave 0 3 exLocals =
        Except.ok ({ exLocals with skip := 1 }, [])) ∧
    ((¬ ((exGapSlave.pSChan.pFlags 5).missing = true ∨ (exChan.pFlags 5).missing = true) ∧
        (exLocals.first ≠ 0 ∨ exLocals.skip ≠ 0 ∨ (exGapSlave.pSChan.pFlags 5).restart = true ∨
          (exChan.pFlags 5).restart = true)) ∧
      XY_sample exXYMstr exChan exGapSlave 0 5 exLocals =
        XY_anchor exXYMstr exChan exGapSlave 0 5 exLocals) :=
  ⟨⟨Or.inl (by decide),
      (XY_sample_cases exXYMstr exChan exGapSlave 0 3 exLocals).1 (Or.inl (by decide))⟩,
    ⟨⟨by decide, Or.inl (by decide)⟩,
      ((XY_sample_cases exXYMstr exChan exGapSlave 0 5 exLocals).2.2.1 (by decide)).1
        (Or.inl (by decide))⟩⟩

/-- C10: replacing the status codes of the designated X channel changes
nothing in what `sydPlot_XYSamples` does: the outcome is the same fault, or
the same plotting calls and the same slaves (the X slave carrying the
replaced codes); and every status character plotted by the per-sample body is
the code of the Y channel for that sample. -/
theorem XYSamples_ignore_X_codes (m : SYD_PL_MSTR) (xIdx : Nat) (sx : SYD_PL_SLAVE)
    (codes : Int → Char) (b e incr : Int) (fuel : Nat) (l : Locals) (junk : Dbl)
    (hfind : findXSlave m.slaves = Except.ok xIdx) (hget : m.slaves[xIdx]? = some sx) :
    sydPlot_XYSamples
        { m with slaves := (m.slaves.set xIdx
            { sx with pSChan := { sx.pSChan with pDataCodeR := codes } }) }
        b e incr fuel l junk =
      (sydPlot_XYSamples m b e incr fuel l junk).map (fun r =>
        ({ r.1 with slaves := (r.1.slaves.set xIdx
            { sx with pSChan := { sx.pSChan with pDataCodeR := codes } }) }, r.2)) ∧
    ∀ (s : SYD_PL_SLAVE) (i : Int) (l1 : Locals) (r : Locals × List PprCall),
      XY_sample m sx.pSChan s junk i l1 = Except.ok r →
      ∀ (a : Option Nat) (x y : Dbl) (ch : Char), PprCall.pprChar a x y ch ∈ r.2 →
        ch = s.pSChan.pDataCodeR i := by
  constructor
  · have hfind2 : findXSlave (m.slaves.set xIdx
        { sx with pSChan := { sx.pSChan with pDataCodeR := codes } }) = Except.ok xIdx := by
      rw [← hfind]
      exact findXSlave_set sx
        { sx with pSChan := { sx.pSChan with pDataCodeR := codes } } rfl m.slaves xIdx hget
    have hlt : xIdx < m.slaves.length := by
      rcases Nat.lt_or_ge xIdx m.slaves.length with h | h
      · exact h
      · rw [List.getElem?_eq_none h] at hget; cases hget
    unfold sydPlot_XYSamples
    simp only [hfind, hfind2, List.get?_eq_getElem?, hget, List.getElem?_set_self hlt]
    have hf : XY_slave
        { m with slaves := (m.slaves.set xIdx
            { sx with pSChan := { sx.pSChan with pDataCodeR := codes } }) }
        { sx.pSChan with pDataCodeR := codes } b e incr fuel junk =
        XY_slave m sx.pSChan b e incr fuel junk := by
      funext s l0
      unfold XY_slave
      rw [XY_sample_codes]
      rfl
    rw [hf]
    have hset := XY_slaveLoop_set (XY_slave m sx.pSChan b e incr fuel junk)
      { sx with pSChan := { sx.pSChan with pDataCodeR := codes } } m.slaves xIdx 0 l
    rw [Nat.add_zero] at hset
    rw [hset]
    cases XY_slaveLoop (XY_slave m sx.pSChan b e incr fuel junk) xIdx m.slaves 0 l with
    | error e => rfl
    | ok r => rfl
  · intro s i l1 r hr a x y ch hmem
    have hglyph : ∀ (x0 y0 : Dbl),
        PprCall.pprChar a x y ch ∈ plotGlyphs m s.pArea s.markNum x0 y0 (s.pSChan.pDataCodeR i) →
        ch = s.pSChan.pDataCodeR i := by
      intro x0 y0 h
      unfold plotGlyphs at h
      rw [List.mem_append] at h
      rcases h with h | h
      · split at h
        · rw [List.mem_singleton] at h; cases h
        · cases h
      · split at h
        · rw [List.mem_singleton] at h; cases h; rfl
        · split at h
          · rw [List.mem_singleton] at h; cases h
          · cases h
    have hxyarr : ∀ (n : Nat) (k : Int) (old : Dbl × Dbl) (ops : List PprCall),
        XYarray_loop s.pArea sx.pSChan s.pSChan i junk n k old = Except.ok ops →
        PprCall.pprChar a x y ch ∉ ops := by
      intro n
      induction n with
      | zero => intro k old ops h; simp only [XYarray_loop] at h; cases h; simp
      | succ n ih =>
        intro k old ops h
        simp only [XYarray_loop] at h
        cases h1 : arrayEl sx.pSChan junk (i * sx.pSChan.elCount + k) with
        | error e => rw [h1] at h; cases h
        | ok vx =>
          cases h2 : arrayEl s.pSChan junk (i * s.pSChan.elCount + k) with
          | error e => rw [h1, h2] at h; cases h
          | ok vy =>
            rw [h1, h2] at h
            simp only [] at h
            cases h3 : XYarray_loop s.pArea sx.pSChan s.pSChan i junk n (k + 1) (vx, vy) with
            | error e => rw [h3] at h; cases h
            | ok ops2 =>
              rw [h3] at h
              cases h
              intro hin
              rw [List.mem_append] at hin
              rcases hin with hin | hin
              · split at hin
                · rw [List.mem_singleton] at hin; cases hin
                · cases hin
              · exact ih _ _ _ h3 hin
    unfold XY_sample at hr
    split at hr
    · cases hr; cases hmem
    · split at hr
      · unfold XY_anchor at hr
        split at hr
        · cases hx : FetchIthValInto sx.pSChan i with
          | error e => rw [hx] at hr; cases hr
          | ok vx =>
            cases hy : FetchIthValInto s.pSChan i with
            | error e => rw [hx, hy] at hr; cases hr
            | ok vy => rw [hx, hy] at hr; cases hr; exact hglyph _ _ hmem
        · cases ha : sydPlot_XYarray s.pArea sx.pSChan s.pSChan i junk with
          | error e => rw [ha] at hr; cases hr
          | ok ops =>
            rw [ha] at hr
            cases hr
            exact absurd hmem (hxyarr _ _ _ _ ha)
      · split at hr
        · cases hr; cases hmem
        · unfold XY_cont at hr
          split at hr
          · cases hx : FetchIthValInto sx.pSChan i with
            | error e => rw [hx] at hr; cases hr
            | ok vx =>
              cases hy : FetchIthValInto s.pSChan i with
              | error e => rw [hx, hy] at hr; cases hr
              | ok vy =>
                rw [hx, hy] at hr
                cases hr
                simp only [List.mem_append] at hmem
                rcases hmem with hmem | hmem
                · split at hmem
                  · rw [List.mem_singleton] at hmem; cases hmem
                  · cases hmem
                · exact hglyph _ _ hmem
          · cases ha : sydPlot_XYarray s.pArea sx.pSChan s.pSChan i junk with
            | error e => rw [ha] at hr; cases hr
            | ok ops =>
              rw [ha] at hr
              cases hr
              exact absurd hmem (hxyarr _ _ _ _ ha)

theorem XYSamples_ignore_X_codes_witness :
    findXSlave exXYMstr.slaves = Except.ok 1 ∧ exXYMstr.slaves[1]? = some exXSlave ∧
    sydPlot_XYSamples
        { exXYMstr with slaves := (exXYMstr.slaves.set 1
            { exXSlave with pSChan := { exXSlave.pSChan with pDataCodeR := fun _ => 'Z' } }) }
        0 2 0 10 exLocals 0 =
      (sydPlot_XYSamples exXYMstr 0 2 0 10 exLocals 0).map (fun r =>
        ({ r.1 with slaves := (r.1.slaves.set 1
            { exXSlave with pSChan := { exXSlave.pSChan with pDataCodeR := fun _ => 'Z' } }) },
          r.2)) :=
  ⟨by simp [findXSlave, xSearch, exXYMstr, exGapSlave, exXSlave, exSlave], rfl,
    (XYSamples_ignore_X_codes exXYMstr 1 exXSlave (fun _ => 'Z') 0 2 0 10 exLocals 0
      (by simp [findXSlave, xSearch, exXYMstr, exGapSlave, exXSlave, exSlave]) rfl).1⟩

/-- C11: for a channel of one of the five non-enumerated numeric types whose
display limits satisfy `low < high`, `sydPlotAxisSetup` sets `originVal =
low`, `extentVal = high` and `nInt = 5`, whatever the observed minimum and
maximum are. -/
theorem AxisSetup_uses_display_limits (s : SYD_PL_SLAVE) (jo je : Dbl)
    (ht : s.pSChan.dbrType = DbrType.FLOAT ∨ s.pSChan.dbrType = DbrType.SHORT ∨
      s.pSChan.dbrType = DbrType.DOUBLE ∨ s.pSChan.dbrType = DbrType.LONG ∨
      s.pSChan.dbrType = DbrType.CHAR)
    (hlim : s.pSChan.lower_disp_limit < s.pSChan.upper_disp_limit) :
    (sydPlotAxisSetup s jo je).originVal = s.pSChan.lower_disp_limit ∧
      (sydPlotAxisSetup s jo je).extentVal = s.pSChan.upper_disp_limit ∧
      (sydPlotAxisSetup s jo je).nInt = 5 := by
  simp only [sydPlotAxisSetup, AxisSetup_byType_numeric s.pSChan jo je ht, AxisSetup_ends]
  simp [ne_of_lt hlim]

theorem AxisSetup_uses_display_limits_witness :
    (exSlave.pSChan.dbrType = DbrType.DOUBLE ∧
      exSlave.pSChan.lower_disp_limit < exSlave.pSChan.upper_disp_limit) ∧
    (sydPlotAxisSetup exSlave 7 7).originVal = exSlave.pSChan.lower_disp_limit ∧
      (sydPlotAxisSetup exSlave 7 7).extentVal = exSlave.pSChan.upper_disp_limit ∧
      (sydPlotAxisSetup exSlave 7 7).nInt = 5 :=
  ⟨⟨rfl, by norm_num [exSlave, exChan]⟩,
    AxisSetup_uses_display_limits exSlave 7 7 (Or.inr (Or.inr (Or.inl rfl)))
      (by norm_num [exSlave, exChan])⟩

/-- C12: for a channel of one of the five non-enumerated numeric types whose
display limits are equal and whose observed minimum and maximum differ,
`sydPlotAxisSetup` sets `originVal = minDataVal` and `extentVal =
maxDataVal`. -/
theorem AxisSetup_falls_back_to_data (s : SYD_PL_SLAVE) (jo je : Dbl)
    (ht : s.pSChan.dbrType = DbrType.FLOAT ∨ s.pSChan.dbrType = DbrType.SHORT ∨
      s.pSChan.dbrType = DbrType.DOUBLE ∨ s.pSChan.dbrType = DbrType.LONG ∨
      s.pSChan.dbrType = DbrType.CHAR)
    (hlim : s.pSChan.lower_disp_limit = s.pSChan.upper_disp_limit)
    (hdat : s.pSChan.minDataVal ≠ s.pSChan.maxDataVal) :
    (sydPlotAxisSetup s jo je).originVal = s.pSChan.minDataVal ∧
      (sydPlotAxisSetup s jo je).extentVal = s.pSChan.maxDataVal := by
  simp only [sydPlotAxisSetup, AxisSetup_byType_numeric s.pSChan jo je ht, AxisSetup_ends]
  simp [hlim, hdat]

theorem AxisSetup_falls_back_to_data_witness :
    ((exSlaveNoLimits 2 8).pSChan.dbrType = DbrType.DOUBLE ∧
      (exSlaveNoLimits 2 8).pSChan.lower_disp_limit =
        (exSlaveNoLimits 2 8).pSChan.upper_disp_limit ∧
      (exSlaveNoLimits 2 8).pSChan.minDataVal ≠ (exSlaveNoLimits 2 8).pSChan.maxDataVal) ∧
    (sydPlotAxisSetup (exSlaveNoLimits 2 8) 7 7).originVal = (exSlaveNoLimits 2 8).pSChan.minDataVal ∧
      (sydPlotAxisSetup (exSlaveNoLimits 2 8) 7 7).extentVal =
        (exSlaveNoLimits 2 8).pSChan.maxDataVal :=
  ⟨⟨rfl, rfl, by norm_num [exSlaveNoLimits]⟩,
    AxisSetup_falls_back_to_data (exSlaveNoLimits 2 8) 7 7 (Or.inr (Or.inr (Or.inl rfl))) rfl
      (by norm_num [exSlaveNoLimits])⟩

/-- C13: for a channel of one of the five non-enumerated numeric types with
equal display limits and observed minimum and maximum both equal to `v`,
`sydPlotAxisSetup` gives the domain `[0, 10]` when `v = 0`, `[0, v]` when
`v > 0` and `[v, 0]` when `v < 0`. -/
theorem AxisSetup_degenerate_fallback (s : SYD_PL_SLAVE) (jo je v : Dbl)
    (ht : s.pSChan.dbrType = DbrType.FLOAT ∨ s.pSChan.dbrType = DbrType.SHORT ∨
      s.pSChan.dbrType = DbrType.DOUBLE ∨ s.pSChan.dbrType = DbrType.LONG ∨
      s.pSChan.dbrType = DbrType.CHAR)
    (hlim : s.pSChan.lower_disp_limit = s.pSChan.upper_disp_limit)
    (hmin : s.pSChan.minDataVal = v) (hmax : s.pSChan.maxDataVal = v) :
    (v = 0 → (sydPlotAxisSetup s jo je).originVal = 0 ∧
        (sydPlotAxisSetup s jo je).extentVal = 10) ∧
      (0 < v → (sydPlotAxisSetup s jo je).originVal = 0 ∧
        (sydPlotAxisSetup s jo je).extentVal = v) ∧
      (v < 0 → (sydPlotAxisSetup s jo je).originVal = v ∧
        (sydPlotAxisSetup s jo je).extentVal = 0) := by
  simp only [sydPlotAxisSetup, AxisSetup_byType_numeric s.pSChan jo je ht, AxisSetup_ends]
  refine ⟨fun h0 => ?_, fun hp => ?_, fun hn => ?_⟩
  · simp [hlim, hmin, hmax, h0]
  · simp [hlim, hmin, hmax, ne_of_gt hp, not_lt.mpr (le_of_lt hp)]
  · simp [hlim, hmin, hmax, ne_of_lt hn, hn]

theorem AxisSetup_degenerate_fallback_witness :
    ((sydPlotAxisSetup (exSlaveNoLimits 0 0) 7 7).originVal = 0 ∧
      (sydPlotAxisSetup (exSlaveNoLimits 0 0) 7 7).extentVal = 10) ∧
    ((sydPlotAxisSetup (exSlaveNoLimits 5 5) 7 7).originVal = 0 ∧
      (sydPlotAxisSetup (exSlaveNoLimits 5 5) 7 7).extentVal = 5) ∧
    ((sydPlotAxisSetup (exSlaveNoLimits (-5) (-5)) 7 7).originVal = -5 ∧
      (sydPlotAxisSetup (exSlaveNoLimits (-5) (-5)) 7 7).extentVal = 0) :=
  ⟨(AxisSetup_degenerate_fallback (exSlaveNoLimits 0 0) 7 7 0
      (Or.inr (Or.inr (Or.inl rfl))) rfl rfl rfl).1 rfl,
    (AxisSetup_degenerate_fallback (exSlaveNoLimits 5 5) 7 7 5
      (Or.inr (Or.inr (Or.inl rfl))) rfl rfl rfl).2.1 (by norm_num),
    (AxisSetup_degenerate_fallback (exSlaveNoLimits (-5) (-5)) 7 7 (-5)
      (Or.inr (Or.inr (Or.inl rfl))) rfl rfl rfl).2.2 (by norm_num)⟩

/-- C14: for an enumerated channel with `n >= 2` states, `sydPlotAxisSetup`
sets the domain to `[0, n-1]` and `nInt = n-1`, whatever the observed data
values are, and leaves the channel (state count and state labels included) as
it was. -/
theorem AxisSetup_enum (s : SYD_PL_SLAVE) (jo je : Dbl) (n : Int)
    (ht : s.pSChan.dbrType = DbrType.ENUM) (hn : s.pSChan.no_str = n) (h2 : 2 ≤ n) :
    (sydPlotAxisSetup s jo je).originVal = 0 ∧
      (sydPlotAxisSetup s jo je).extentVal = ((n - 1 : Int) : Dbl) ∧
      (sydPlotAxisSetup s jo je).nInt = n - 1 ∧
      (sydPlotAxisSetup s jo je).pSChan = s.pSChan := by
  have hpos : (0 : Dbl) < ((n - 1 : Int) : Dbl) := by
    have : (0 : Int) < n - 1 := by omega
    exact_mod_cast this
  have hby : AxisSetup_byType s.pSChan jo je =
      (s.pSChan, 0, ((n - 1 : Int) : Dbl), n - 1) := by
    unfold AxisSetup_byType
    rw [ht]
    simp only [hn, ge_iff_le, not_le.mpr hpos, if_false]
  simp only [sydPlotAxisSetup, hby, AxisSetup_ends, ne_of_lt hpos, if_false]
  exact ⟨trivial, trivial, trivial, trivial⟩

theorem AxisSetup_enum_witness :
    ((exEnumSlave 3).pSChan.dbrType = DbrType.ENUM ∧ (exEnumSlave 3).pSChan.no_str = 3 ∧
      (2 : Int) ≤ 3) ∧
    (sydPlotAxisSetup (exEnumSlave 3) 7 7).originVal = 0 ∧
      (sydPlotAxisSetup (exEnumSlave 3) 7 7).extentVal = (((3 : Int) - 1 : Int) : Dbl) ∧
      (sydPlotAxisSetup (exEnumSlave 3) 7 7).nInt = 3 - 1 ∧
      (sydPlotAxisSetup (exEnumSlave 3) 7 7).pSChan = (exEnumSlave 3).pSChan :=
  ⟨⟨rfl, rfl, by decide⟩, AxisSetup_enum (exEnumSlave 3) 7 7 3 rfl rfl (by decide)⟩

theorem AxisSetup_enum_one_state_counterexample :
    (exEnumSlave 1).pSChan.dbrType = DbrType.ENUM ∧ (exEnumSlave 1).pSChan.no_str = 1 ∧
      (sydPlotAxisSetup (exEnumSlave 1) 7 7).pSChan.strs 0 = "OFF" ∧
      ¬ ((sydPlotAxisSetup (exEnumSlave 1) 7 7).pSChan.strs 0 = " " ∧
         (sydPlotAxisSetup (exEnumSlave 1) 7 7).pSChan.strs 1 = " ") := by
  have h : (sydPlotAxisSetup (exEnumSlave 1) 7 7).pSChan.strs 0 = "OFF" := by
    simp [sydPlotAxisSetup, AxisSetup_byType, exEnumSlave, exEnumChan, Function.update]
  refine ⟨rfl, rfl, h, ?_⟩
  rw [h]
  intro hh
  exact absurd hh.1 (by decide)

/-- C15 (amended): for an enumerated channel with one state,
`sydPlotAxisSetup` gives the domain `[0, 1]` with `nInt = 1` and leaves the
channel with a state count of 2, the label of state 1 being the blank label
and the label of state 0 being left as it was. -/
theorem AxisSetup_enum_one_state (s : SYD_PL_SLAVE) (jo je : Dbl)
    (ht : s.pSChan.dbrType = DbrType.ENUM) (hn : s.pSChan.no_str = 1) :
    (sydPlotAxisSetup s jo je).originVal = 0 ∧
      (sydPlotAxisSetup s jo je).extentVal = 1 ∧
      (sydPlotAxisSetup s jo je).nInt = 1 ∧
      (sydPlotAxisSetup s jo je).pSChan.no_str = 2 ∧
      (sydPlotAxisSetup s jo je).pSChan.strs 1 = " " ∧
      (sydPlotAxisSetup s jo je).pSChan.strs 0 = s.pSChan.strs 0 := by
  have hby := AxisSetup_byType_enum_few s.pSChan jo je ht (by omega)
  simp [sydPlotAxisSetup, hby, AxisSetup_ends, hn]

theorem AxisSetup_enum_one_state_witness :
    ((exEnumSlave 1).pSChan.dbrType = DbrType.ENUM ∧ (exEnumSlave 1).pSChan.no_str = 1) ∧
    (sydPlotAxisSetup (exEnumSlave 1) 7 7).originVal = 0 ∧
      (sydPlotAxisSetup (exEnumSlave 1) 7 7).extentVal = 1 ∧
      (sydPlotAxisSetup (exEnumSlave 1) 7 7).nInt = 1 ∧
      (sydPlotAxisSetup (exEnumSlave 1) 7 7).pSChan.no_str = 2 ∧
      (sydPlotAxisSetup (exEnumSlave 1) 7 7).pSChan.strs 1 = " " ∧
      (sydPlotAxisSetup (exEnumSlave 1) 7 7).pSChan.strs 0 = (exEnumSlave 1).pSChan.strs 0 :=
  ⟨⟨rfl, rfl⟩, AxisSetup_enum_one_state (exEnumSlave 1) 7 7 rfl rfl⟩

/-- C16: `sydPlotAxisSetup` is idempotent on every channel of a supported
type (the five numeric types and the enumerated type, with any state count):
applying it to its own result gives that result again, for the whole slave and
the channel it points to. -/
theorem AxisSetup_idempotent (s : SYD_PL_SLAVE) (j1 j2 j3 j4 : Dbl)
    (ht : s.pSChan.dbrType ≠ DbrType.STRING) :
    sydPlotAxisSetup (sydPlotAxisSetup s j1 j2) j3 j4 = sydPlotAxisSetup s j1 j2 := by
  have h := AxisSetup_byType_idem s.pSChan j1 j2 j3 j4 ht
  simp only [sydPlotAxisSetup, h]

theorem AxisSetup_idempotent_witness :
    (exEnumSlave 0).pSChan.dbrType ≠ DbrType.STRING ∧
    sydPlotAxisSetup (sydPlotAxisSetup (exEnumSlave 0) 1 2) 3 4 =
      sydPlotAxisSetup (exEnumSlave 0) 1 2 :=
  ⟨by decide, AxisSetup_idempotent (exEnumSlave 0) 1 2 3 4 (by decide)⟩

/-- C17: `sydPlotSamples` gives, for the shared-grid kind of a family, the
outcome it gives for the single-grid kind (the same fault, or the same calls
and the same master and slaves, the master differing in `plotAxis` only): TYY
as TY, YY as Y, and XYY and the three Smith kinds as XY. -/
theorem sydPlotSamples_by_family (pMstr : SYD_PL_MSTR) (b e incr : Int) (fuel : Nat)
    (l0 : Locals) (junk : Dbl) :
    sydPlotSamples { pMstr with plotAxis := SYD_PLAX.TYY } b e incr fuel l0 junk =
        (sydPlotSamples { pMstr with plotAxis := SYD_PLAX.TY } b e incr fuel l0 junk).map
          (fun r => ({ r.1 with plotAxis := SYD_PLAX.TYY }, r.2)) ∧
      sydPlotSamples { pMstr with plotAxis := SYD_PLAX.YY } b e incr fuel l0 junk =
        (sydPlotSamples { pMstr with plotAxis := SYD_PLAX.Y } b e incr fuel l0 junk).map
          (fun r => ({ r.1 with plotAxis := SYD_PLAX.YY }, r.2)) ∧
      ∀ a : SYD_PLAX, a = SYD_PLAX.XYY ∨ a = SYD_PLAX.SMITH_IMP ∨ a = SYD_PLAX.SMITH_ADM ∨
          a = SYD_PLAX.SMITH_IMM →
        sydPlotSamples { pMstr with plotAxis := a } b e incr fuel l0 junk =
          (sydPlotSamples { pMstr with plotAxis := SYD_PLAX.XY } b e incr fuel l0 junk).map
            (fun r => ({ r.1 with plotAxis := a }, r.2)) := by
  have hTY : ∀ a, sydPlot_TYSamples { pMstr with plotAxis := a } b e incr fuel l0 =
      (sydPlot_TYSamples { pMstr with plotAxis := SYD_PLAX.TY } b e incr fuel l0).map
        (fun r => ({ r.1 with plotAxis := a }, r.2)) := by
    intro a
    rw [TYSamples_plotAxis pMstr a, TYSamples_plotAxis pMstr SYD_PLAX.TY]
    cases sydPlot_TYSamples pMstr b e incr fuel l0 <;> rfl
  have hY : ∀ a, sydPlot_YSamples { pMstr with plotAxis := a } b e incr fuel l0 junk =
      (sydPlot_YSamples { pMstr with plotAxis := SYD_PLAX.Y } b e incr fuel l0 junk).map
        (fun r => ({ r.1 with plotAxis := a }, r.2)) := by
    intro a
    rw [YSamples_plotAxis pMstr a, YSamples_plotAxis pMstr SYD_PLAX.Y]
    cases sydPlot_YSamples pMstr b e incr fuel l0 junk <;> rfl
  have hXY : ∀ a, sydPlot_XYSamples { pMstr with plotAxis := a } b e incr fuel l0 junk =
      (sydPlot_XYSamples { pMstr with plotAxis := SYD_PLAX.XY } b e incr fuel l0 junk).map
        (fun r => ({ r.1 with plotAxis := a }, r.2)) := by
    intro a
    rw [XYSamples_plotAxis pMstr a, XYSamples_plotAxis pMstr SYD_PLAX.XY]
    cases sydPlot_XYSamples pMstr b e incr fuel l0 junk <;> rfl
  refine ⟨?_, ?_, ?_⟩
  · simpa [sydPlotSamples] using hTY SYD_PLAX.TYY
  · simpa [sydPlotSamples] using hY SYD_PLAX.YY
  · intro a ha
    rcases ha with rfl | rfl | rfl | rfl <;>
      simpa [sydPlotSamples, sydPlot_SmithSamples] using hXY _

theorem sydPlotSamples_by_family_witness :
    (SYD_PLAX.SMITH_IMM = SYD_PLAX.XYY ∨ SYD_PLAX.SMITH_IMM = SYD_PLAX.SMITH_IMP ∨
      SYD_PLAX.SMITH_IMM = SYD_PLAX.SMITH_ADM ∨ SYD_PLAX.SMITH_IMM = SYD_PLAX.SMITH_IMM) ∧
    sydPlotSamples { exMstr with plotAxis := SYD_PLAX.SMITH_IMM } 0 9 0 10 exLocals 0 =
      (sydPlotSamples { exMstr with plotAxis := SYD_PLAX.XY } 0 9 0 10 exLocals 0).map
        (fun r => ({ r.1 with plotAxis := SYD_PLAX.SMITH_IMM }, r.2)) :=
  ⟨by decide,
    (sydPlotSamples_by_family exMstr 0 9 0 10 exLocals 0).2.2 SYD_PLAX.SMITH_IMM (by decide)⟩

/-- C18: `sydPlotSamples` and `sydPlot` end in the failed assertion of their
dispatch when `plotAxis` is `SYD_PLAX_UNDEF`, the value `sydPlotInit` leaves
and the only value that is none of the nine kinds, whatever the slaves, range
and window are, so that no routine is entered; for each of the nine kinds the
dispatch hands over to the routine of the kind (the sample routine of the
family; for `sydPlot`, the plot routine of the kind on the master holding the
window's position and size), so the outcome is that routine's, and on a
master whose one slave has never connected, with a library that opens every
plot area, both return normally. -/
theorem unknown_kind_asserts (lib : PprLib) (m : SYD_PL_MSTR) (info : Int × Int × Int × Int)
    (b e incr : Int) (nOpen fuel : Nat) (l : Locals) (junk : Dbl) :
    (m.plotAxis = SYD_PLAX.UNDEF →
      sydPlotSamples m b e incr fuel l junk = Except.error Fault.assertFail ∧
      sydPlot lib m info nOpen fuel l junk = Except.error Fault.assertFail) ∧
    ((m.plotAxis = SYD_PLAX.TY ∨ m.plotAxis = SYD_PLAX.TYY →
        sydPlotSamples m b e incr fuel l junk = sydPlot_TYSamples m b e incr fuel l) ∧
      (m.plotAxis = SYD_PLAX.XY ∨ m.plotAxis = SYD_PLAX.XYY →
        sydPlotSamples m b e incr fuel l junk = sydPlot_XYSamples m b e incr fuel l junk) ∧
      (m.plotAxis = SYD_PLAX.Y ∨ m.plotAxis = SYD_PLAX.YY →
        sydPlotSamples m b e incr fuel l junk = sydPlot_YSamples m b e incr fuel l junk) ∧
      (m.plotAxis = SYD_PLAX.SMITH_IMP ∨ m.plotAxis = SYD_PLAX.SMITH_ADM ∨
          m.plotAxis = SYD_PLAX.SMITH_IMM →
        sydPlotSamples m b e incr fuel l junk = sydPlot_SmithSamples m b e incr fuel l junk)) ∧
    ((m.plotAxis = SYD_PLAX.TY →
        sydPlot lib m info nOpen fuel l junk =
          sydPlot_TYPlot lib { m with x := info.1, y := info.2.1, width := info.2.2.1,
                                      height := info.2.2.2 } nOpen fuel l) ∧
      (m.plotAxis = SYD_PLAX.TYY →
        sydPlot lib m info nOpen fuel l junk =
          sydPlot_TYYPlot lib { m with x := info.1, y := info.2.1, width := info.2.2.1,
                                       height := info.2.2.2 } nOpen fuel l) ∧
      (m.plotAxis = SYD_PLAX.XY →
        sydPlot lib m info nOpen fuel l junk =
          sydPlot_XYPlot lib { m with x := info.1, y := info.2.1, width := info.2.2.1,
                                      height := info.2.2.2 } nOpen fuel l junk) ∧
      (m.plotAxis = SYD_PLAX.XYY →
        sydPlot lib m info nOpen fuel l junk =
          sydPlot_XYYPlot lib { m with x := info.1, y := info.2.1, width := info.2.2.1,
                                       height := info.2.2.2 } nOpen fuel l junk) ∧
      (m.plotAxis = SYD_PLAX.Y →
        sydPlot lib m info nOpen fuel l junk =
          sydPlot_YPlot lib { m with x := info.1, y := info.2.1, width := info.2.2.1,
                                     height := info.2.2.2 } nOpen fuel l junk) ∧
      (m.plotAxis = SYD_PLAX.YY →
        sydPlot lib m info nOpen fuel l junk =
          sydPlot_YYPlot lib { m with x := info.1, y := info.2.1, width := info.2.2.1,
                                      height := info.2.2.2 } nOpen fuel l junk) ∧
      (m.plotAxis = SYD_PLAX.SMITH_IMP ∨ m.plotAxis = SYD_PLAX.SMITH_ADM ∨
          m.plotAxis = SYD_PLAX.SMITH_IMM →
        sydPlot lib m info nOpen fuel l junk =
          sydPlot_SmithPlot lib { m with x := info.1, y := info.2.1, width := info.2.2.1,
                                         height := info.2.2.2 } nOpen fuel l junk)) ∧
    (m.plotAxis ≠ SYD_PLAX.UNDEF → (∃ s, m.slaves = [s] ∧ s.pSChan.pData = none) →
      (∀ k, (lib.pprAreaOpen k).isSome = true) →
      (∃ r, sydPlotSamples m b e incr fuel l junk = Except.ok r) ∧
      (∃ r, sydPlot lib m info nOpen fuel l junk = Except.ok r)) ∧
    (∀ (m0 : SYD_PL_MSTR) (pSspec : SYD_SPEC) (winType : PPR_WIN_TY) (fullInit : Int) (w : Nat),
      (sydPlotInit m0 pSspec winType fullInit (some w) info).2.plotAxis = SYD_PLAX.UNDEF) ∧
    (∀ a : SYD_PLAX, a ≠ SYD_PLAX.UNDEF ↔
      (a = SYD_PLAX.TY ∨ a = SYD_PLAX.TYY ∨ a = SYD_PLAX.XY ∨ a = SYD_PLAX.XYY ∨
        a = SYD_PLAX.Y ∨ a = SYD_PLAX.YY ∨ a = SYD_PLAX.SMITH_IMP ∨ a = SYD_PLAX.SMITH_ADM ∨
        a = SYD_PLAX.SMITH_IMM)) := by
  refine ⟨?_, ⟨?_, ?_, ?_, ?_⟩, ⟨?_, ?_, ?_, ?_, ?_, ?_, ?_⟩, ?_, ?_, ?_⟩
  · intro h
    exact ⟨sydPlotSamples_UNDEF m b e incr fuel l junk h, by simp [sydPlot, h]⟩
  · exact sydPlotSamples_TY m b e incr fuel l junk
  · intro h
    exact sydPlotSamples_XY m b e incr fuel l junk (by tauto)
  · exact sydPlotSamples_Y m b e incr fuel l junk
  · intro h
    rw [sydPlotSamples_XY m b e incr fuel l junk (by tauto)]
    rfl
  · intro h; simp [sydPlot, h]
  · intro h; simp [sydPlot, h]
  · intro h; simp [sydPlot, h]
  · intro h; simp [sydPlot, h]
  · intro h; simp [sydPlot, h]
  · intro h; simp [sydPlot, h]
  · intro h
    rcases h with h | h | h <;> simp [sydPlot, h]
  · rintro hax ⟨s, hs, hd⟩ hopen
    exact ⟨dead_slave_samples m s b e incr fuel l junk hs hd hax,
      dead_slave_sydPlot lib m s info nOpen fuel l junk hs hd hopen hax⟩
  · intro m0 pSspec winType fullInit w
    exact (sydPlotInit_fields m0 pSspec winType fullInit w info).2.2.2.2.2.2.2.2.2
  · intro a
    cases a <;> simp

theorem unknown_kind_asserts_witness :
    (sydPlotSamples { exMstr with plotAxis := SYD_PLAX.UNDEF } 0 9 0 10 exLocals 0 =
        Except.error Fault.assertFail ∧
      sydPlot exLib { exMstr with plotAxis := SYD_PLAX.UNDEF } (0, 0, 640, 480) 0 10 exLocals 0 =
        Except.error Fault.assertFail) ∧
    ((∃ r, sydPlotSamples { exMstr with plotAxis := SYD_PLAX.XYY, slaves := [exDeadSlave] }
        0 9 0 10 exLocals 0 = Except.ok r) ∧
      (∃ r, sydPlot exLib { exMstr with plotAxis := SYD_PLAX.XYY, slaves := [exDeadSlave] }
        (0, 0, 640, 480) 0 10 exLocals 0 = Except.ok r)) :=
  ⟨(unknown_kind_asserts exLib { exMstr with plotAxis := SYD_PLAX.UNDEF } (0, 0, 640, 480)
      0 9 0 0 10 exLocals 0).1 rfl,
    (unknown_kind_asserts exLib { exMstr with plotAxis := SYD_PLAX.XYY, slaves := [exDeadSlave] }
      (0, 0, 640, 480) 0 9 0 0 10 exLocals 0).2.2.2.1 (by decide) ⟨exDeadSlave, rfl, rfl⟩
      (fun _ => rfl)⟩

/-- C19: `sydPlotChanAdd` returns `NULL` and leaves the master as it was when
the channel is of the string type or when the slave record cannot be
allocated; for every other channel with a successful allocation it returns a
slave, appended at the end of the master's list, and counts it in `nSlaves`. -/
theorem ChanAdd_rejects_or_appends (pMstr : SYD_PL_MSTR) (pSChan : SYD_CHAN)
    (GenMalloc : Option SYD_PL_SLAVE) (jo je : Dbl) :
    (pSChan.dbrType = DbrType.STRING ∨ GenMalloc = none →
      ∃ msg, sydPlotChanAdd pMstr pSChan GenMalloc jo je = Except.ok (none, pMstr, msg)) ∧
    (pSChan.dbrType ≠ DbrType.STRING → GenMalloc ≠ none →
      ∃ s m1 msg, sydPlotChanAdd pMstr pSChan GenMalloc jo je = Except.ok (some s, m1, msg) ∧
        s ∈ m1.slaves ∧ m1.slaves = pMstr.slaves ++ [s] ∧ m1.nSlaves = pMstr.nSlaves + 1) := by
  constructor
  · intro h
    by_cases ht : pSChan.dbrType = DbrType.STRING
    · exact ⟨["sydPlotChanAdd: can't plot DBF_STRING values\n"], by simp [sydPlotChanAdd, ht]⟩
    · have hm : GenMalloc = none := h.resolve_left ht
      subst hm
      exact ⟨["sydPlotChanAdd: can't get memory\n"], by simp [sydPlotChanAdd, ht]⟩
  · intro ht hm
    cases GenMalloc with
    | none => exact absurd rfl hm
    | some raw =>
      simp only [sydPlotChanAdd, ht, if_false]
      exact ⟨_, _, _, rfl, by simp, rfl, rfl⟩

theorem ChanAdd_rejects_or_appends_witness :
    ((exStringChan.dbrType = DbrType.STRING ∨ some exSlave = none) ∧
      ∃ msg, sydPlotChanAdd exMstr exStringChan (some exSlave) 0 0 =
        Except.ok (none, exMstr, msg)) ∧
    ((exChan.dbrType ≠ DbrType.STRING ∧ some exSlave ≠ none) ∧
      ∃ s m1 msg, sydPlotChanAdd exMstr exChan (some exSlave) 0 0 =
          Except.ok (some s, m1, msg) ∧
        s ∈ m1.slaves ∧ m1.slaves = exMstr.slaves ++ [s] ∧ m1.nSlaves = exMstr.nSlaves + 1) :=
  ⟨⟨Or.inl rfl,
      (ChanAdd_rejects_or_appends exMstr exStringChan (some exSlave) 0 0).1 (Or.inl rfl)⟩,
    ⟨⟨by decide, by simp⟩,
      (ChanAdd_rejects_or_appends exMstr exChan (some exSlave) 0 0).2 (by decide) (by simp)⟩⟩

theorem ChanAdd_string_returns_counterexample :
    exStringChan.dbrType = DbrType.STRING ∧
      sydPlotChanAdd exMstr exStringChan (some exSlave) 0 0 =
        Except.ok (none, exMstr, ["sydPlotChanAdd: can't plot DBF_STRING values\n"]) ∧
      ¬ ∃ f, sydPlotChanAdd exMstr exStringChan (some exSlave) 0 0 = Except.error f := by
  have h : sydPlotChanAdd exMstr exStringChan (some exSlave) 0 0 =
      Except.ok (none, exMstr, ["sydPlotChanAdd: can't plot DBF_STRING values\n"]) := by
    simp [sydPlotChanAdd, exStringChan]
  refine ⟨rfl, h, ?_⟩
  rintro ⟨f, hf⟩
  rw [h] at hf
  cases hf

/-- C20 (amended): attaching a channel of the string type is rejected without
aborting: `sydPlotChanAdd`, called on a master, prints a message and returns
`NULL` to the caller, the master being left as it was, whatever the outcome of
the allocation would have been. -/
theorem ChanAdd_string_returns (pMstr : SYD_PL_MSTR) (pSChan : SYD_CHAN)
    (GenMalloc : Option SYD_PL_SLAVE) (jo je : Dbl)
    (ht : pSChan.dbrType = DbrType.STRING) :
    sydPlotChanAdd pMstr pSChan GenMalloc jo je =
      Except.ok (none, pMstr, ["sydPlotChanAdd: can't plot DBF_STRING values\n"]) := by
  simp [sydPlotChanAdd, ht]

theorem ChanAdd_string_returns_witness :
    exStringChan.dbrType = DbrType.STRING ∧
    sydPlotChanAdd exMstr exStringChan none 0 0 =
      Except.ok (none, exMstr, ["sydPlotChanAdd: can't plot DBF_STRING values\n"]) :=
  ⟨rfl, ChanAdd_string_returns exMstr exStringChan none 0 0 rfl⟩

/-- C21: on the master `sydPlotInit` leaves, any sequence of `sydPlotChanAdd`
calls returns; the master's list then holds exactly the slaves returned by
the calls that succeeded (channel not of string type, allocation made), in
call order, one for each such call and with its channel; the slave at
position `i` has `markNum = i` and `lineKey = i + 1`, so the mark numbers are
pairwise distinct and so are the line keys. -/
theorem chanAdd_order_and_style (m0 : SYD_PL_MSTR) (pSspec : SYD_SPEC) (winType : PPR_WIN_TY)
    (fullInit : Int) (w : Nat) (info : Int × Int × Int × Int) (junkO junkE : Dbl)
    (adds : List (SYD_CHAN × Option SYD_PL_SLAVE)) :
    ∃ m1 added,
      chanAddAll junkO junkE (sydPlotInit m0 pSspec winType fullInit (some w) info).2 adds =
        Except.ok (m1, added) ∧
      m1.slaves = added ∧
      m1.slaves.length = (adds.filter chanAddSucceeds).length ∧
      m1.slaves.map (fun s => s.pSChan) =
        (adds.filter chanAddSucceeds).map (fun a => (AxisSetup_byType a.1 junkO junkE).1) ∧
      (∀ (i : Nat) (s : SYD_PL_SLAVE), m1.slaves[i]? = some s →
        s.markNum = (i : Int) ∧ s.lineKey = (i : Int) + 1) ∧
      (m1.slaves.map (fun s => s.markNum)).Nodup ∧
      (m1.slaves.map (fun s => s.lineKey)).Nodup := by
  obtain ⟨-, hI1, hI2, -⟩ := sydPlotInit_fields m0 pSspec winType fullInit w info
  obtain ⟨m1, added, h1, h2, -, h4, h5, h6⟩ := chanAddAll_spec junkO junkE adds
    (sydPlotInit m0 pSspec winType fullInit (some w) info).2
  rw [hI1, List.nil_append] at h2
  rw [hI2] at h6
  have hidx : ∀ (i : Nat) (s : SYD_PL_SLAVE), m1.slaves[i]? = some s →
      s.markNum = (i : Int) ∧ s.lineKey = (i : Int) + 1 := by
    intro i s hs
    rw [h2] at hs
    obtain ⟨a, b⟩ := h6 i s hs
    exact ⟨by simpa using a, by simpa using b⟩
  refine ⟨m1, added, h1, h2, by rw [h2]; exact h4, by rw [h2]; exact h5, hidx, ?_, ?_⟩
  · exact nodup_of_index m1.slaves (fun s => s.markNum) 0
      (fun i s hs => by simpa using (hidx i s hs).1)
  · exact nodup_of_index m1.slaves (fun s => s.lineKey) 1
      (fun i s hs => by simp only [(hidx i s hs).2]; ring)

theorem chanAdd_order_and_style_witness :
    ∃ m1 added,
      chanAddAll 7 7 (sydPlotInit exMstr exSpec PPR_WIN_TY.SCREEN 1 (some 0) (0, 0, 640, 480)).2
          [(exChan, some exSlave), (exStringChan, some exSlave), (exChan2, none),
            (exChan2, some exSlave)] =
        Except.ok (m1, added) ∧
      m1.slaves = added ∧
      m1.slaves.length =
        ([(exChan, some exSlave), (exStringChan, some exSlave), (exChan2, none),
            (exChan2, some exSlave)].filter chanAddSucceeds).length ∧
      m1.slaves.map (fun s => s.pSChan) =
        ([(exChan, some exSlave), (exStringChan, some exSlave), (exChan2, none),
            (exChan2, some exSlave)].filter chanAddSucceeds).map
          (fun a => (AxisSetup_byType a.1 7 7).1) ∧
      (∀ (i : Nat) (s : SYD_PL_SLAVE), m1.slaves[i]? = some s →
        s.markNum = (i : Int) ∧ s.lineKey = (i : Int) + 1) ∧
      (m1.slaves.map (fun s => s.markNum)).Nodup ∧
      (m1.slaves.map (fun s => s.lineKey)).Nodup :=
  chanAdd_order_and_style exMstr exSpec PPR_WIN_TY.SCREEN 1 0 (0, 0, 640, 480) 7 7
    [(exChan, some exSlave), (exStringChan, some exSlave), (exChan2, none),
      (exChan2, some exSlave)]

/-- C22: the mark number and the line key of a slave are left as they are by
every routine other than the `sydPlotChanAdd` call that creates the slave: a
later `sydPlotChanAdd` (the slaves already on the list are untouched),
`sydPlotAxisSetup`, `sydPlotAxisAutoRange`, `sydPlotAxisSetAttr`,
`sydPlotSetAttr` and `sydPlotSetTitles` (the slave list is untouched),
`sydPlotEraseSamples`, each of the seven grid routines and each of the sample
routines, whenever the routine returns. -/
theorem style_never_renumbered (lib : PprLib) (m : SYD_PL_MSTR) (s : SYD_PL_SLAVE) :
    (∀ (c : SYD_CHAN) (raw : Option SYD_PL_SLAVE) (junkO junkE : Dbl) r,
      sydPlotChanAdd m c raw junkO junkE = Except.ok r →
        r.2.1.slaves.take m.slaves.length = m.slaves) ∧
    (∀ (junkO junkE : Dbl),
      (sydPlotAxisSetup s junkO junkE).markNum = s.markNum ∧
      (sydPlotAxisSetup s junkO junkE).lineKey = s.lineKey) ∧
    ((sydPlotAxisAutoRange s).markNum = s.markNum ∧
      (sydPlotAxisAutoRange s).lineKey = s.lineKey) ∧
    (∀ (attr : SYD_PLATTR) (value : Int) (pArg : Option Nat) r,
      sydPlotAxisSetAttr s attr value pArg = Except.ok r →
        r.2.markNum = s.markNum ∧ r.2.lineKey = s.lineKey) ∧
    (∀ (attr : SYD_PLATTR) (value : Int) (pArg : Option Nat) r,
      sydPlotSetAttr m attr value pArg = Except.ok r → r.2.slaves = m.slaves) ∧
    (∀ (sz : TitleSizes) (top left bottom right : Option String) r,
      sydPlotSetTitles sz m top left bottom right = Except.ok r → r.2.slaves = m.slaves) ∧
    ((sydPlotEraseSamples m).2.slaves.map (fun s => (s.markNum, s.lineKey)) =
      m.slaves.map (fun s => (s.markNum, s.lineKey))) ∧
    (∀ (grid : PprLib → SYD_PL_MSTR → Nat → Except Fault (SYD_PL_MSTR × List GridCall × Nat)),
      (grid = sydPlot_TYGrid ∨ grid = sydPlot_TYYGrid ∨ grid = sydPlot_XYGrid ∨
        grid = sydPlot_XYYGrid ∨ grid = sydPlot_YGrid ∨ grid = sydPlot_YYGrid ∨
        grid = sydPlot_SmithGrid) →
      ∀ (n : Nat) r, grid lib m n = Except.ok r →
        r.1.slaves.map (fun s => (s.markNum, s.lineKey)) =
          m.slaves.map (fun s => (s.markNum, s.lineKey))) ∧
    (∀ (b e incr : Int) (fuel : Nat) (l : Locals) (junk : Dbl),
      (∀ r, sydPlot_TYSamples m b e incr fuel l = Except.ok r →
        r.1.slaves.map (fun s => (s.markNum, s.lineKey)) =
          m.slaves.map (fun s => (s.markNum, s.lineKey))) ∧
      (∀ r, sydPlot_YSamples m b e incr fuel l junk = Except.ok r →
        r.1.slaves.map (fun s => (s.markNum, s.lineKey)) =
          m.slaves.map (fun s => (s.markNum, s.lineKey))) ∧
      (∀ r, sydPlot_XYSamples m b e incr fuel l junk = Except.ok r →
        r.1.slaves.map (fun s => (s.markNum, s.lineKey)) =
          m.slaves.map (fun s => (s.markNum, s.lineKey))) ∧
      (∀ r, sydPlotSamples m b e incr fuel l junk = Except.ok r →
        r.1.slaves.map (fun s => (s.markNum, s.lineKey)) =
          m.slaves.map (fun s => (s.markNum, s.lineKey)))) := by
  refine ⟨?_, ?_, ⟨rfl, rfl⟩, ?_, ?_, ?_, ?_, ?_, ?_⟩
  · intro c raw junkO junkE r h
    rcases chanAdd_step m c raw junkO junkE with ⟨-, msgs, h1⟩ | ⟨-, t, h1, -⟩
    · rw [h1] at h
      cases h
      simp
    · rw [h1] at h
      cases h
      simp
  · intro junkO junkE
    exact ⟨rfl, rfl⟩
  · intro attr value pArg r h
    unfold sydPlotAxisSetAttr at h
    split at h
    · cases h; exact ⟨rfl, rfl⟩
    · split at h
      · split at h
        · cases h
        · cases h; exact ⟨rfl, rfl⟩
      · split at h
        · split at h
          · cases h
          · cases h; exact ⟨rfl, rfl⟩
        · cases h
  · intro attr value pArg r h
    cases attr <;> cases pArg <;> simp [sydPlotSetAttr] at h <;> rw [← h]
  · intro sz top left bottom right r h
    unfold sydPlotSetTitles at h
    split at h
    · cases h
    · split at h
      · cases h
      · split at h
        · cases h
        · split at h
          · cases h
          · cases h; rfl
  · simp [sydPlotEraseSamples]
  · intro grid hgrid n r h
    exact grid_style lib m n grid hgrid r h
  · intro b e incr fuel l junk
    exact samples_style m b e incr fuel l junk

theorem style_never_renumbered_witness :
    sydPlot_TYYGrid exLib exXYMstr 0 =
        Except.ok ((sydPlot_TYYGrid exLib exXYMstr 0).toOption.getD (exXYMstr, [], 0)) ∧
      ((sydPlot_TYYGrid exLib exXYMstr 0).toOption.getD (exXYMstr, [], 0)).1.slaves.map
          (fun s => (s.markNum, s.lineKey)) =
        exXYMstr.slaves.map (fun s => (s.markNum, s.lineKey)) :=
  have h : sydPlot_TYYGrid exLib exXYMstr 0 =
      Except.ok ((sydPlot_TYYGrid exLib exXYMstr 0).toOption.getD (exXYMstr, [], 0)) := by
    obtain ⟨gops, xl, yb, xr, yt, hG⟩ := TYYGrid_two_slaves exLib exXYMstr exGapSlave exXSlave 0
      0 1 2 rfl rfl rfl rfl
    rw [hG]
    rfl
  ⟨h, (style_never_renumbered exLib exXYMstr exSlave).2.2.2.2.2.2.2.1 sydPlot_TYYGrid
    (Or.inr (Or.inl rfl)) 0 _ h⟩

/-- C23: on a master with at least one slave, the X slave of
`sydPlot_XYSamples`, `sydPlot_XYGrid`, `sydPlot_XYYGrid` and
`sydPlot_SmithGrid` is the slave at position `xIndex`: the first slave in
list order whose `xChan` is non-zero (every slave before it has `xChan = 0`),
and the first slave of the list when no slave has `xChan` set.  Each of the
four routines is its body run with that slave as the X slave: its channel
gives the X values and the X domain, and its position is the one passed
over by the loop over the slaves. -/
theorem X_slave_lookup (lib : PprLib) (m : SYD_PL_MSTR) (hne : m.slaves ≠ []) :
    ∃ sx, m.slaves[xIndex m.slaves]? = some sx ∧
      ((∃ s ∈ m.slaves, s.xChan ≠ 0) →
        sx.xChan ≠ 0 ∧
        ∀ (j : Nat) (t : SYD_PL_SLAVE), j < xIndex m.slaves → m.slaves[j]? = some t →
          t.xChan = 0) ∧
      ((∀ s ∈ m.slaves, s.xChan = 0) → xIndex m.slaves = 0 ∧ m.slaves.head? = some sx) ∧
      (∀ (b e incr : Int) (fuel : Nat) (l : Locals) (junk : Dbl),
        sydPlot_XYSamples m b e incr fuel l junk =
          match XY_slaveLoop (XY_slave m sx.pSChan b e incr fuel junk) (xIndex m.slaves)
              m.slaves 0 l with
          | Except.error e => Except.error e
          | Except.ok (slaves, _, ops) => Except.ok ({ m with slaves := slaves }, ops)) ∧
      (∀ n : Nat,
        sydPlot_XYGrid lib m n =
          match sydPlot_setup lib m (m.nSlaves - 1) n with
          | Except.error e => Except.error e
          | Except.ok (su, ops0, n0) =>
            match gridLoop (XYGrid_slave lib m su { sx with pArea := none })
                (some (xIndex m.slaves))
                (m.slaves.set (xIndex m.slaves) { sx with pArea := none }) 0
                { ylo := su.ylo, yhi := su.yhi, nOpen := n0 } with
            | Except.error e => Except.error e
            | Except.ok (slaves, st, ops) =>
              Except.ok ({ m with slaves := slaves }, ops0 ++ ops, st.nOpen)) ∧
      (∀ n : Nat,
        sydPlot_XYYGrid lib m n =
          match sydPlot_setup lib m 1 n with
          | Except.error e => Except.error e
          | Except.ok (su, ops0, n0) =>
            match gridLoop
                (sharedGrid_slave lib m su
                  (su.xlo + 6 * su.charHtX * ((m.nSlaves - 1 : Int) : Dbl))
                  (su.ylo + 6 * su.charHt) (XYY_attr m) sx.pSChan.label
                  sx.originVal sx.extentVal sx.nInt)
                (some (xIndex m.slaves))
                (m.slaves.set (xIndex m.slaves)
                  { sx with pArea := none, yFracBot := 0, yFracTop := 0 }) 0
                { offsetAnnotY := 0, drawAxis := 0, nOpen := n0 } with
            | Except.error e => Except.error e
            | Except.ok (slaves, st, ops) =>
              Except.ok ({ m with slaves := slaves }, ops0 ++ ops, st.nOpen)) ∧
      (∀ n : Nat,
        sydPlot_SmithGrid lib m n =
          match sydPlot_setup lib m 1 n with
          | Except.error e => Except.error e
          | Except.ok (su, ops0, n0) =>
            match gridLoop
                (SmithGrid_slave lib m (su.xlo + 3 * su.charHtX) (su.ylo + 2 * su.charHt)
                  (su.xhi - su.charHt) (su.yhi - 2 * su.charHt) { sx with pArea := none })
                (some (xIndex m.slaves))
                (m.slaves.set (xIndex m.slaves) { sx with pArea := none }) 0 (n0 + 1) with
            | Except.error e => Except.error e
            | Except.ok (slaves, n1, ops) =>
              Except.ok ({ m with slaves := slaves },
                ops0 ++ Smith_overlay m (lib.pprAreaOpen n0) (su.xlo + 3 * su.charHtX)
                  (su.ylo + 2 * su.charHt) (su.xhi - su.charHt) (su.yhi - 2 * su.charHt) ++ ops,
                n1)) := by
  obtain ⟨sx, hget, h1, h2⟩ := xIndex_spec m.slaves hne
  have hfind := findXSlave_eq_xIndex m.slaves hne
  refine ⟨sx, hget, h1, h2, ?_, ?_, ?_, ?_⟩
  · intro b e incr fuel l junk
    simp only [sydPlot_XYSamples, hfind, List.get?_eq_getElem?, hget]
  · intro n
    simp only [sydPlot_XYGrid, hfind, List.get?_eq_getElem?, hget]
  · intro n
    simp only [sydPlot_XYYGrid, hfind, List.get?_eq_getElem?, hget]
  · intro n
    simp only [sydPlot_SmithGrid, hfind, List.get?_eq_getElem?, hget]

theorem X_slave_lookup_witness :
    ∃ sx, exXYMstr.slaves[xIndex exXYMstr.slaves]? = some sx ∧
      ((∃ s ∈ exXYMstr.slaves, s.xChan ≠ 0) →
        sx.xChan ≠ 0 ∧
        ∀ (j : Nat) (t : SYD_PL_SLAVE), j < xIndex exXYMstr.slaves →
          exXYMstr.slaves[j]? = some t → t.xChan = 0) ∧
      ((∀ s ∈ exXYMstr.slaves, s.xChan = 0) →
        xIndex exXYMstr.slaves = 0 ∧ exXYMstr.slaves.head? = some sx) :=
  (X_slave_lookup exLib exXYMstr (by simp [exXYMstr])).imp
    (fun _ h => ⟨h.1, h.2.1, h.2.2.1⟩)

theorem layout_bands_counterexample :
    (∃ su ops, sydPlot_setup exLib exMstr 7 0 = Except.ok (su, ops, 1) ∧
      extentTop exMstr - extentBot exMstr = 2206763817411543 / 2251799813685248 ∧
      su.yPart = 5044031582654955 / 36028797018963968 ∧
      7 * su.yPart ≠ extentTop exMstr - extentBot exMstr ∧
      roundDbl (7 * su.yPart) ≠ extentTop exMstr - extentBot exMstr) ∧
    (∃ r t, sydPlot_TYGrid exLib exMstrEight 0 = Except.ok r ∧ r.1.slaves.length = 8 ∧
      r.1.slaves[7]? = some t ∧
      t.yFracTop = 4413527634823087 / 4503599627370496 ∧
      extentTop exMstrEight = 2206763817411543 / 2251799813685248 ∧
      extentTop exMstrEight < t.yFracTop) := by
  have hext : extentTop exMstr - extentBot exMstr = 2206763817411543 / 2251799813685248 := by
    rw [extentTop_val, extentBot_val]
    simp [exMstr]
  have hfix : roundDbl (2206763817411543 / 2251799813685248 : Dbl) =
      2206763817411543 / 2251799813685248 := by
    have h := roundDbl_idem ((98 : Dbl) / 100) (by norm_num)
    rw [roundDbl_c98] at h
    exact h
  constructor
  · obtain ⟨su, ops, hsu, -, hyPart, -⟩ :=
      (sydPlot_setup_cases exLib exMstr 7 0).2 (by simp [exLib])
    have hP : su.yPart = 5044031582654955 / 36028797018963968 := by
      rw [hyPart, hext, hfix]
      exact roundDbl_p7
    refine ⟨su, ops, hsu, hext, hP, ?_, ?_⟩
    · rw [hP, hext]; norm_num
    · rw [hP, hext, roundDbl_m7]; norm_num
  · obtain ⟨r, hr, hlen, hbands⟩ := TYGrid_bands exLib exMstrEight 0 (fun j _ => by simp [exLib])
    have hlen8 : r.1.slaves.length = 8 := by rw [hlen]; rfl
    have hext8 : extentTop exMstrEight - extentBot exMstrEight = 2206763817411543 / 2251799813685248 := by
      rw [extentTop_val, extentBot_val]
      simp [exMstrEight, exMstr]
    have htop8 : extentTop exMstrEight = 2206763817411543 / 2251799813685248 := by
      rw [extentTop_val]
      simp [exMstrEight, exMstr]
    have hbot8 : extentBot exMstrEight = 0 := by
      rw [extentBot_val]
      simp [exMstrEight, exMstr]
    have h7 : (7 : Nat) < r.1.slaves.length := by omega
    obtain ⟨ht, -⟩ := hbands 7 (r.1.slaves.get ⟨7, h7⟩)
      (by rw [List.getElem?_eq_getElem h7]; rfl)
    have hp8 : roundDbl (roundDbl (extentTop exMstrEight - extentBot exMstrEight) /
        ((exMstrEight.nSlaves : Int) : Dbl)) =
        2206763817411543 / 18014398509481984 := by
      rw [hext8, hfix]
      have : ((exMstrEight.nSlaves : Int) : Dbl) = 8 := by simp [exMstrEight]
      rw [this]
      exact roundDbl_p8
    rw [hp8, hbot8, bandLine_eight] at ht
    refine ⟨r, r.1.slaves.get ⟨7, h7⟩, hr, hlen8, by rw [List.getElem?_eq_getElem h7]; rfl, ht,
      htop8, ?_⟩
    rw [htop8, ht]; norm_num

/-- C24 (amended): layout in `double` arithmetic.  For every number of grids
`N >= 1` and every choice of titles, `sydPlot_setup`, when the area for the
titles opens, returns `ylo` at the bottom of the vertical extent the titles
leave, `yPart` as the rounded quotient by `N` of the rounded height
`extentTop - extentBot` of that extent, positive, and `yhi` as the rounded sum
`yPart + ylo`, not below `ylo`.  `sydPlot_TYGrid` on a master with
`nSlaves >= 1`, when its plot areas open, stacks the bands bottom-to-top: the
lower lines of the bands are `ylo` moved up by `yPart` once per slave, each
addition rounded, they do not descend, and the slave at position `k` gets as
top `yFracTop` the lower line of the band after it and as bottom `yFracBot`
its own lower line plus six character heights; so the tops do not descend
with `k` and the stored bands do not overlap when the character height is not
negative. -/
theorem layout_bands (lib : PprLib) (m : SYD_PL_MSTR) (n : Nat) :
    (∀ N : Int, 1 ≤ N → lib.pprAreaOpen n ≠ none →
      ∃ su ops, sydPlot_setup lib m N n = Except.ok (su, ops, n + 1) ∧
        su.ylo = extentBot m ∧
        su.yPart = roundDbl (roundDbl (extentTop m - extentBot m) / (N : Dbl)) ∧
        su.yhi = roundDbl (su.yPart + su.ylo) ∧ 0 < su.yPart ∧ su.ylo ≤ su.yhi) ∧
    (1 ≤ m.nSlaves →
      (∀ j, j ≤ m.slaves.length → lib.pprAreaOpen (n + j) ≠ none) →
      ∃ r yPart, sydPlot_TYGrid lib m n = Except.ok r ∧
        r.1.slaves.length = m.slaves.length ∧
        yPart = roundDbl (roundDbl (extentTop m - extentBot m) / (m.nSlaves : Dbl)) ∧
        0 < yPart ∧
        (∀ (k : Nat) (t : SYD_PL_SLAVE), r.1.slaves[k]? = some t →
          t.yFracTop = bandLine yPart (extentBot m) (k + 1) ∧
          t.yFracBot = roundDbl (bandLine yPart (extentBot m) k +
            roundDbl (6 * lib.PprDfltCharHt (bandLine yPart (extentBot m) k)
              (bandLine yPart (extentBot m) (k + 1))))) ∧
        (∀ k : Nat, bandLine yPart (extentBot m) k ≤ bandLine yPart (extentBot m) (k + 1)) ∧
        (∀ (k : Nat) (t t1 : SYD_PL_SLAVE), r.1.slaves[k]? = some t →
          r.1.slaves[k + 1]? = some t1 →
          t.yFracTop ≤ t1.yFracTop ∧
          (0 ≤ lib.PprDfltCharHt (bandLine yPart (extentBot m) (k + 1))
              (bandLine yPart (extentBot m) (k + 1 + 1)) → t.yFracTop ≤ t1.yFracBot))) := by
  obtain ⟨hb0, hbfix⟩ := extentBot_fix m
  constructor
  · intro N hN h0
    obtain ⟨su, ops, hsu, hylo, hyPart, hyhi⟩ := (sydPlot_setup_cases lib m N n).2 h0
    have hP : 0 < su.yPart := by rw [hyPart]; exact yPart_pos m N hN
    refine ⟨su, ops, hsu, hylo, hyPart, hyhi, hP, ?_⟩
    rw [hyhi]
    exact roundDbl_ge _ _ (by rw [hylo]; exact hb0) (by rw [hylo]; exact hbfix) (by linarith)
  · intro hN hopen
    obtain ⟨r, hr, hlen, hbands⟩ := TYGrid_bands lib m n hopen
    have hP := yPart_pos m m.nSlaves hN
    have hmono := bandLine_mono _ (le_of_lt hP) (extentBot m) hb0 hbfix
    refine ⟨r, _, hr, hlen, rfl, hP, hbands, hmono, ?_⟩
    intro k t t1 hk hk1
    obtain ⟨ha, -⟩ := hbands k t hk
    obtain ⟨ha1, hb1⟩ := hbands (k + 1) t1 hk1
    refine ⟨by rw [ha, ha1]; exact hmono (k + 1), fun hch => ?_⟩
    rw [ha, hb1]
    obtain ⟨h0, h1⟩ := bandLine_fix _ (le_of_lt hP) (extentBot m) hb0 hbfix (k + 1)
    have h6 : 0 ≤ roundDbl (6 * lib.PprDfltCharHt
        (bandLine (roundDbl (roundDbl (extentTop m - extentBot m) / (m.nSlaves : Dbl)))
          (extentBot m) (k + 1))
        (bandLine (roundDbl (roundDbl (extentTop m - extentBot m) / (m.nSlaves : Dbl)))
          (extentBot m) (k + 1 + 1))) := roundDbl_nonneg _ (by linarith)
    exact roundDbl_ge _ _ h0 h1 (by linarith)

theorem layout_bands_witness :
    (1 ≤ exXYMstr.nSlaves ∧
      ∀ j, j ≤ exXYMstr.slaves.length → exLib.pprAreaOpen (0 + j) ≠ none) ∧
    ∃ r yPart, sydPlot_TYGrid exLib exXYMstr 0 = Except.ok r ∧
      r.1.slaves.length = exXYMstr.slaves.length ∧
      yPart = roundDbl (roundDbl (extentTop exXYMstr - extentBot exXYMstr) /
        (exXYMstr.nSlaves : Dbl)) ∧
      0 < yPart ∧
      (∀ (k : Nat) (t : SYD_PL_SLAVE), r.1.slaves[k]? = some t →
        t.yFracTop = bandLine yPart (extentBot exXYMstr) (k + 1) ∧
        t.yFracBot = roundDbl (bandLine yPart (extentBot exXYMstr) k +
          roundDbl (6 * exLib.PprDfltCharHt (bandLine yPart (extentBot exXYMstr) k)
            (bandLine yPart (extentBot exXYMstr) (k + 1))))) ∧
      (∀ k : Nat, bandLine yPart (extentBot exXYMstr) k ≤
        bandLine yPart (extentBot exXYMstr) (k + 1)) ∧
      (∀ (k : Nat) (t t1 : SYD_PL_SLAVE), r.1.slaves[k]? = some t →
        r.1.slaves[k + 1]? = some t1 →
        t.yFracTop ≤ t1.yFracTop ∧
        (0 ≤ exLib.PprDfltCharHt (bandLine yPart (extentBot exXYMstr) (k + 1))
            (bandLine yPart (extentBot exXYMstr) (k + 1 + 1)) → t.yFracTop ≤ t1.yFracBot)) :=
  ⟨⟨by simp [exXYMstr], fun j _ => by simp [exLib]⟩,
    (layout_bands exLib exXYMstr 0).2 (by simp [exXYMstr]) (fun j _ => by simp [exLib])⟩

theorem sydPlotDone_order_counterexample :
    exMstr.slaves = [exSlave] ∧ exSlave.pArea = some 1 ∧
      (sydPlotDone exMstr 1 (0, 0, 640, 480)).2.2 =
        [DoneCall.pprAreaClose (some 1), DoneCall.GenFree exSlave,
          DoneCall.pprWinInfo (some 0), DoneCall.pprWinClose (some 0)] := by
  refine ⟨rfl, rfl, ?_⟩
  simp [sydPlotDone, Done_loop, exMstr, exSlave]

/-- C25 (amended): `sydPlotDone` with a non-zero `quitFlag` takes the slaves
in list order and, for each, closes its plot area when it has one and then
releases the slave record; after the last slave it stores the window's
position and size in the master and closes the window.  So every plot area is
closed before the window is, and every slave record is released before the
window is closed.  Afterwards the slave list is empty and `nSlaves` has been
decremented once for each slave (it is 0 when it was the length of the
list).  With `quitFlag = 0` nothing is changed and no call is made.  Both
return `S_syd_OK`. -/
theorem sydPlotDone_order (m : SYD_PL_MSTR) (quitFlag : Int) (info : Int × Int × Int × Int) :
    (sydPlotDone m quitFlag info).1 = SydStatus.S_syd_OK ∧
    (quitFlag = 0 → sydPlotDone m quitFlag info = (SydStatus.S_syd_OK, m, [])) ∧
    (quitFlag ≠ 0 →
      (sydPlotDone m quitFlag info).2.1 =
        { m with slaves := [], nSlaves := m.nSlaves - (m.slaves.length : Int),
                 x := info.1, y := info.2.1, width := info.2.2.1, height := info.2.2.2 } ∧
      (m.nSlaves = (m.slaves.length : Int) → (sydPlotDone m quitFlag info).2.1.nSlaves = 0) ∧
      (sydPlotDone m quitFlag info).2.2 =
        (m.slaves.map fun s =>
          (if s.pArea.isSome then [DoneCall.pprAreaClose s.pArea] else []) ++
            [DoneCall.GenFree s]).flatten ++
        [DoneCall.pprWinInfo m.pWin, DoneCall.pprWinClose m.pWin]) := by
  obtain ⟨h1, h2⟩ := Done_loop_spec m.slaves m.nSlaves
  refine ⟨?_, ?_, ?_⟩
  · unfold sydPlotDone
    split <;> rfl
  · intro h
    simp [sydPlotDone, h]
  · intro h
    refine ⟨?_, ?_, ?_⟩
    · simp only [sydPlotDone, h, ne_eq, not_false_eq_true, if_true, h1]
    · intro hn
      simp only [sydPlotDone, h, ne_eq, not_false_eq_true, if_true, h1]
      rw [hn, sub_self]
    · simp only [sydPlotDone, h, ne_eq, not_false_eq_true, if_true, h2]

theorem sydPlotDone_order_witness :
    ((1 : Int) ≠ 0 ∧ exMstr.nSlaves = (exMstr.slaves.length : Int)) ∧
    (sydPlotDone exMstr 1 (0, 0, 640, 480)).2.1.nSlaves = 0 ∧
    (sydPlotDone exMstr 0 (0, 0, 640, 480)) = (SydStatus.S_syd_OK, exMstr, []) :=
  ⟨⟨by decide, rfl⟩,
    ((sydPlotDone_order exMstr 1 (0, 0, 640, 480)).2.2 (by decide)).2.1 rfl,
    (sydPlotDone_order exMstr 0 (0, 0, 640, 480)).2.1 rfl⟩

/-- C26: the X-against-Y grid routine clears the sub-region handle of the X
slave without closing it, unlike the path for the other slaves.  A master
with two channels is drawn with `sydPlot_TYGrid`, which opens areas 1 and 2
for its slaves; the first slave is then made the X channel
(`sydPlotAxisSetAttr` with `XCHAN` only sets `xChan`), the geometry is set to
X against Y, and `sydPlot_XYGrid` is run.  Afterwards the slaves hold no
area and area 4, while the areas left open by the two traces are 1 and 4:
area 1 is open and no slave holds it. -/
theorem XYGrid_drops_X_area :
    (∀ a : SYD_PL_SLAVE, sydPlotAxisSetAttr a SYD_PLATTR.XCHAN 1 none =
      Except.ok (SydStatus.S_syd_OK, { a with xChan := 1 })) ∧
    ∃ r1, sydPlot_TYGrid exLib exFreshMstr 0 = Except.ok r1 ∧
      r1.1.slaves.map (fun s => s.pArea) = [some 1, some 2] ∧
      openAreas [] r1.2.1 = [1, 2] ∧
      ∃ r2, sydPlot_XYGrid exLib
          { r1.1 with plotAxis := SYD_PLAX.XY,
                      slaves := r1.1.slaves.modifyHead fun a => { a with xChan := 1 } }
          r1.2.2 = Except.ok r2 ∧
        r2.1.slaves.map (fun s => s.pArea) = [none, some 4] ∧
        openAreas [] (r1.2.1 ++ r2.2.1) = [1, 4] := by
  refine ⟨fun a => rfl, ?_⟩
  simp [sydPlot_TYGrid, sydPlot_XYGrid, sydPlot_setup, gridLoop, bandGrid_slave, XYGrid_slave,
    slaveAreaOpen, exLib, exFreshMstr, exMstr, exSlave, findXSlave, xSearch, bandAttr,
    openAreas, GridCall.opened, GridCall.closed, exChan, exChan2, TY_xDomain]
  refine ⟨_, _, ⟨rfl, rfl⟩, ?_, ?_⟩
  · simp
  · simp [openAreas, GridCall.opened, GridCall.closed]

theorem grid_area_failure_asserts_counterexample :
    exMstr.slaves = [exSlave] ∧ exLibFull.pprAreaOpen 0 = some 0 ∧
      exLibFull.pprAreaOpen 1 = none ∧
      sydPlot_TYGrid exLibFull exMstr 0 = Except.error Fault.assertFail := by
  refine ⟨rfl, rfl, rfl, ?_⟩
  rcases plainGrid_outcome exLibFull exMstr 0 sydPlot_TYGrid (Or.inl rfl) with
    ⟨hall, -⟩ | ⟨-, herr⟩
  · exact absurd rfl (hall 1 (by simp [exMstr]))
  · exact herr

/-- C27 (amended): a plot area that cannot be opened during the grid phase is
not reported to the caller.  Each grid routine either returns normally, which
it does exactly when every `pprAreaOpen` it checks has given a handle (the
area for the titles in `sydPlot_setup`, then one area for each slave the
routine works on), or ends in the failed assertion `assertAlways(pArea !=
NULL)` inside the routine, which it does exactly when one of these calls has
given `NULL`. -/
theorem grid_area_failure_asserts (lib : PprLib) (m : SYD_PL_MSTR) (n : Nat) :
    (∀ (grid : PprLib → SYD_PL_MSTR → Nat → Except Fault (SYD_PL_MSTR × List GridCall × Nat)),
      (grid = sydPlot_TYGrid ∨ grid = sydPlot_TYYGrid ∨ grid = sydPlot_YGrid ∨
        grid = sydPlot_YYGrid) →
      ((∀ j, j ≤ m.slaves.length → lib.pprAreaOpen (n + j) ≠ none) ∧
        ∃ r, grid lib m n = Except.ok r ∧ r.2.2 = n + m.slaves.length + 1 ∧
          r.1.slaves.length = m.slaves.length) ∨
      ((∃ j, j ≤ m.slaves.length ∧ lib.pprAreaOpen (n + j) = none) ∧
        grid lib m n = Except.error Fault.assertFail)) ∧
    (∀ (grid : PprLib → SYD_PL_MSTR → Nat → Except Fault (SYD_PL_MSTR × List GridCall × Nat)),
      (grid = sydPlot_XYGrid ∨ grid = sydPlot_XYYGrid) → m.slaves ≠ [] →
      ((∀ j, j < m.slaves.length → lib.pprAreaOpen (n + j) ≠ none) ∧
        ∃ r, grid lib m n = Except.ok r ∧ r.2.2 = n + m.slaves.length ∧
          r.1.slaves.length = m.slaves.length) ∨
      ((∃ j, j < m.slaves.length ∧ lib.pprAreaOpen (n + j) = none) ∧
        grid lib m n = Except.error Fault.assertFail)) ∧
    (m.slaves ≠ [] →
      ((lib.pprAreaOpen n ≠ none ∧
          ∀ j, j + 1 < m.slaves.length → lib.pprAreaOpen (n + 2 + j) ≠ none) ∧
        ∃ r, sydPlot_SmithGrid lib m n = Except.ok r ∧ r.2.2 = n + 1 + m.slaves.length ∧
          r.1.slaves.length = m.slaves.length) ∨
      ((lib.pprAreaOpen n = none ∨
          ∃ j, j + 1 < m.slaves.length ∧ lib.pprAreaOpen (n + 2 + j) = none) ∧
        sydPlot_SmithGrid lib m n = Except.error Fault.assertFail)) ∧
    (∀ nGrids : Int,
      (lib.pprAreaOpen n = none →
        sydPlot_setup lib m nGrids n = Except.error Fault.assertFail) ∧
      (lib.pprAreaOpen n ≠ none → ∃ r, sydPlot_setup lib m nGrids n = Except.ok r)) := by
  refine ⟨fun grid hgrid => plainGrid_outcome lib m n grid hgrid,
    fun grid hgrid hne => pairedGrid_outcome lib m n grid hgrid hne,
    fun hne => SmithGrid_outcome lib m n hne, fun nGrids => ⟨?_, ?_⟩⟩
  · exact (sydPlot_setup_cases lib m nGrids n).1
  · intro h
    obtain ⟨su, ops, hsu, -⟩ := (sydPlot_setup_cases lib m nGrids n).2 h
    exact ⟨_, hsu⟩

theorem grid_area_failure_asserts_witness :
    (exLibFull.pprAreaOpen 1 = none ∧
      sydPlot_setup exLibFull exMstr 1 1 = Except.error Fault.assertFail) ∧
    (exLibFull.pprAreaOpen 0 ≠ none ∧ ∃ r, sydPlot_setup exLibFull exMstr 1 0 = Except.ok r) :=
  ⟨⟨rfl, ((grid_area_failure_asserts exLibFull exMstr 1).2.2.2 1).1 rfl⟩,
    ⟨by simp [exLibFull],
      ((grid_area_failure_asserts exLibFull exMstr 0).2.2.2 1).2 (by simp [exLibFull])⟩⟩

/-- C28: `sydPlot_TYGrid` and `sydPlot_TYYGrid` open the plot area of every
slave with the X world range and number of intervals `TY_xDomain`: the
master's `originVal`, `extentVal`, `nInt` when `originVal != extentVal`, and
`0`, `100`, `5` otherwise, so the two ends always differ.  `sydPlotWinReplot`
and `sydPlotWinLoop` set the master's domain to `[0, 100]` with `nInt = 5`
when `sampleCount <= 1` or `originVal == extentVal` on entry: the draw
function is called on the master so set, and the master they return has that
domain. -/
theorem X_domain_never_degenerate (lib : PprLib) (wl : WinLib) (m : SYD_PL_MSTR)
    (n fuel : Nat) (l : Locals) (junk : Dbl) :
    ((TY_xDomain m).1 ≠ (TY_xDomain m).2.1 ∧
      (m.originVal ≠ m.extentVal → TY_xDomain m = (m.originVal, m.extentVal, m.nInt)) ∧
      (m.originVal = m.extentVal → TY_xDomain m = (0, 100, 5))) ∧
    (∀ (grid : PprLib → SYD_PL_MSTR → Nat → Except Fault (SYD_PL_MSTR × List GridCall × Nat)),
      (grid = sydPlot_TYGrid ∨ grid = sydPlot_TYYGrid) →
      ∀ r, grid lib m n = Except.ok r →
        ∃ su ops0 n0 ops1 nGrids, sydPlot_setup lib m nGrids n = Except.ok (su, ops0, n0) ∧
          r.2.1 = ops0 ++ ops1 ∧
          ∀ op ∈ ops1, ∀ rng, op.xRange = some rng →
            rng = TY_xDomain m ∧ rng.1 ≠ rng.2.1) ∧
    (sydPlotWinReplot lib wl m n fuel l junk =
        (match drawCalls lib fuel l junk wl.draws (Win_domain wl m) n with
        | Except.error e => Except.error e
        | Except.ok (m3, g, p, k) => Except.ok (SydStatus.S_syd_OK, m3, g, p, k)) ∧
      (wl.pprWinMap = 0 →
        sydPlotWinLoop lib wl m n fuel l junk =
          match drawCalls lib fuel l junk wl.draws
              { Win_domain wl m with noColor := if wl.pprWinIsMono then 1 else 0 } n with
          | Except.error e => Except.error e
          | Except.ok (m3, g, p, k) =>
            if wl.pprWinLoop ≠ 0 then Except.ok (SydStatus.S_syd_ERROR, m3, g, p, k)
            else
              Except.ok (SydStatus.S_syd_OK,
                { m3 with x := wl.pprWinInfo.1, y := wl.pprWinInfo.2.1,
                          width := wl.pprWinInfo.2.2.1, height := wl.pprWinInfo.2.2.2 },
                g, p, k))) ∧
    (m.pSspec.sampleCount ≤ 1 ∨ m.originVal = m.extentVal →
      ((Win_domain wl m).originVal = 0 ∧ (Win_domain wl m).extentVal = 100 ∧
        (Win_domain wl m).nInt = 5) ∧
      (∀ r, sydPlotWinReplot lib wl m n fuel l junk = Except.ok r →
        r.2.1.originVal = 0 ∧ r.2.1.extentVal = 100 ∧ r.2.1.nInt = 5) ∧
      (∀ r, sydPlotWinLoop lib wl m n fuel l junk = Except.ok r →
        r.2.1.originVal = 0 ∧ r.2.1.extentVal = 100 ∧ r.2.1.nInt = 5)) := by
  refine ⟨TY_xDomain_spec m, ?_, ⟨rfl, ?_⟩, ?_⟩
  · intro grid hgrid r h
    obtain ⟨su, ops0, n0, ops1, nGrids, hsu, hops, hall⟩ :=
      TY_grids_xRange lib m n grid hgrid r h
    refine ⟨su, ops0, n0, ops1, nGrids, hsu, hops, ?_⟩
    intro op hop rng hrng
    have := hall op hop rng hrng
    exact ⟨this, by rw [this]; exact (TY_xDomain_spec m).1⟩
  · intro hmap
    simp only [sydPlotWinLoop, hmap, ne_eq, not_true_eq_false, if_false]
  · intro hcond
    have hW : (Win_domain wl m).originVal = 0 ∧ (Win_domain wl m).extentVal = 100 ∧
        (Win_domain wl m).nInt = 5 := by
      have hn : ¬ (m.pSspec.sampleCount > 1 ∧ m.originVal ≠ m.extentVal) := by
        rintro ⟨h1, h2⟩
        rcases hcond with h | h
        · omega
        · exact h2 h
      simp [Win_domain, if_neg hn]
    refine ⟨hW, ?_, ?_⟩
    · intro r h
      unfold sydPlotWinReplot at h
      cases hd : drawCalls lib fuel l junk wl.draws (Win_domain wl m) n with
      | error e => rw [hd] at h; cases h
      | ok q =>
        rw [hd] at h
        cases h
        obtain ⟨a, b, c⟩ := drawCalls_domain lib fuel l junk _ _ _ _ hd
        simp only [] at a b c ⊢
        rw [a, b, c]
        exact hW
    · intro r h
      unfold sydPlotWinLoop at h
      dsimp only at h
      split at h
      · cases h
        exact hW
      · cases hd : drawCalls lib fuel l junk wl.draws
            { Win_domain wl m with noColor := if wl.pprWinIsMono then 1 else 0 } n with
        | error e => rw [hd] at h; cases h
        | ok q =>
          rw [hd] at h
          obtain ⟨a, b, c⟩ := drawCalls_domain lib fuel l junk _ _ _ _ hd
          simp only [] at a b c h
          split at h
          · cases h
            simp only []
            rw [a, b, c]
            exact hW
          · cases h
            simp only []
            rw [a, b, c]
            exact hW

theorem X_domain_never_degenerate_witness :
    (({ exFreshMstr with extentVal := 0 } : SYD_PL_MSTR).originVal =
        ({ exFreshMstr with extentVal := 0 } : SYD_PL_MSTR).extentVal ∧
      TY_xDomain { exFreshMstr with extentVal := 0 } = (0, 100, 5)) ∧
    ((Win_domain exWinLib { exFreshMstr with extentVal := 0 }).originVal = 0 ∧
      (Win_domain exWinLib { exFreshMstr with extentVal := 0 }).extentVal = 100 ∧
      (Win_domain exWinLib { exFreshMstr with extentVal := 0 }).nInt = 5) :=
  ⟨⟨rfl, (X_domain_never_degenerate exLib exWinLib { exFreshMstr with extentVal := 0 } 0 10
      exLocals 0).1.2.2 rfl⟩,
    ((X_domain_never_degenerate exLib exWinLib { exFreshMstr with extentVal := 0 } 0 10
      exLocals 0).2.2.2 (Or.inr rfl)).1⟩

/-- C29: the per-sample cases of `sydPlot_TYSamples`, `sydPlot_YSamples` and
`sydPlot_XYSamples` are taken in the order missing, anchor, filled,
continuation.  A sample flagged missing only sets skip-pending, whatever its
other flags.  A sample that is not missing and is anchor-worthy (first flag
or skip-pending set, or a restart flag) goes through the anchor case,
whether or not it is flagged filled.  A sample that is not missing, not
anchor-worthy and flagged filled gives no plotting call and leaves the locals
(last drawn point, skip-pending) as they were; so a filled sample that is not
missing takes the no-action case exactly when it is not anchor-worthy.  Any
other sample goes through the continuation case.  Whatever the case, the
loop goes on from the next index with the first flag cleared. -/
theorem case_precedence (m : SYD_PL_MSTR) (cx : SYD_CHAN) (s : SYD_PL_SLAVE) (fuel : Nat)
    (junk : Dbl) (i : Int) (l : Locals) :
    ((s.pSChan.pFlags i).missing = true →
      TY_sample m s fuel i l = Except.ok ({ l with skip := 1 }, []) ∧
      Y_sample m s junk i l = Except.ok ({ l with skip := 1 }, [])) ∧
    ((s.pSChan.pFlags i).missing = true ∨ (cx.pFlags i).missing = true →
      XY_sample m cx s junk i l = Except.ok ({ l with skip := 1 }, [])) ∧
    ((s.pSChan.pFlags i).missing = false →
      (l.first ≠ 0 ∨ l.skip ≠ 0 ∨ (s.pSChan.pFlags i).restart = true →
        TY_sample m s fuel i l = TY_anchor m s fuel i l ∧
        Y_sample m s junk i l = Y_anchor m s junk i l) ∧
      (¬ (l.first ≠ 0 ∨ l.skip ≠ 0 ∨ (s.pSChan.pFlags i).restart = true) →
        ((s.pSChan.pFlags i).filled = true →
          TY_sample m s fuel i l = Except.ok (l, []) ∧
          Y_sample m s junk i l = Except.ok (l, [])) ∧
        ((s.pSChan.pFlags i).filled = false →
          TY_sample m s fuel i l = TY_cont m s fuel i l ∧
          Y_sample m s junk i l = Y_cont m s junk i l))) ∧
    ((s.pSChan.pFlags i).missing = false → (cx.pFlags i).missing = false →
      (l.first ≠ 0 ∨ l.skip ≠ 0 ∨ (s.pSChan.pFlags i).restart = true ∨
          (cx.pFlags i).restart = true →
        XY_sample m cx s junk i l = XY_anchor m cx s junk i l) ∧
      (¬ (l.first ≠ 0 ∨ l.skip ≠ 0 ∨ (s.pSChan.pFlags i).restart = true ∨
          (cx.pFlags i).restart = true) →
        ((s.pSChan.pFlags i).filled = true →
          XY_sample m cx s junk i l = Except.ok (l, [])) ∧
        ((s.pSChan.pFlags i).filled = false →
          XY_sample m cx s junk i l = XY_cont m cx s junk i l))) ∧
    (∀ (body : Int → Locals → Except Fault (Locals × List PprCall)) (D e : Int) (n : Nat),
      0 ≤ i →
      sampleLoop body D e (n + 1) i l =
        match body i l with
        | Except.error f => Except.error f
        | Except.ok (l1, ops) =>
          match sampleLoop body D e n (nextIndex D e i) { l1 with first := 0 } with
          | Except.error f => Except.error f
          | Except.ok (l2, ops2) => Except.ok (l2, ops ++ ops2)) ∧
    (∀ (D e : Int),
      (i = e → nextIndex D e i = -1) ∧
      (i ≠ e → i + 1 < D → nextIndex D e i = i + 1) ∧
      (i ≠ e → D ≤ i + 1 → nextIndex D e i = 0)) := by
  refine ⟨?_, ?_, ?_, ?_, ?_, ?_⟩
  · intro hm
    exact ⟨by simp [TY_sample, hm], by simp [Y_sample, hm]⟩
  · intro hm
    simp only [XY_sample]
    rw [if_pos hm]
  · intro hm
    refine ⟨fun ha => ?_, fun hna => ⟨fun hf => ?_, fun hf => ?_⟩⟩
    · exact ⟨by simp only [TY_sample, hm, Bool.false_eq_true, if_false, if_pos ha],
        by simp only [Y_sample, hm, Bool.false_eq_true, if_false, if_pos ha]⟩
    · exact ⟨by simp only [TY_sample, hm, Bool.false_eq_true, if_false, if_neg hna, hf, if_true],
        by simp only [Y_sample, hm, Bool.false_eq_true, if_false, if_neg hna, hf, if_true]⟩
    · exact ⟨by simp only [TY_sample, hm, Bool.false_eq_true, if_false, if_neg hna, hf],
        by simp only [Y_sample, hm, Bool.false_eq_true, if_false, if_neg hna, hf]⟩
  · intro hm hmx
    refine ⟨fun ha => ?_, fun hna => ⟨fun hf => ?_, fun hf => ?_⟩⟩
    · simp only [XY_sample, hm, hmx, Bool.false_eq_true, or_self, if_false, if_pos ha]
    · simp only [XY_sample, hm, hmx, Bool.false_eq_true, or_self, if_false, if_neg hna, hf,
        if_true]
    · simp only [XY_sample, hm, hmx, Bool.false_eq_true, or_self, if_false, if_neg hna, hf]
  · intro body D e n hi
    simp only [sampleLoop, ge_iff_le, hi, if_true]
  · intro D e
    refine ⟨fun h => by simp [nextIndex, h], fun h1 h2 => ?_, fun h1 h2 => ?_⟩
    · simp only [nextIndex, if_neg h1]
      rw [if_neg (by omega)]
    · simp only [nextIndex, if_neg h1]
      rw [if_pos (by omega)]

theorem case_precedence_witness :
    ((exGapSlave.pSChan.pFlags 3).missing = true ∧
      TY_sample exMstr exGapSlave 10 3 exLocals = Except.ok ({ exLocals with skip := 1 }, [])) ∧
    (((exSlave.pSChan.pFlags 5).missing = false ∧
        (exLocals.first ≠ 0 ∨ exLocals.skip ≠ 0 ∨ (exSlave.pSChan.pFlags 5).restart = true)) ∧
      TY_sample exMstr exSlave 10 5 exLocals = TY_anchor exMstr exSlave 10 5 exLocals) :=
  ⟨⟨rfl, ((case_precedence exMstr exChan exGapSlave 10 0 3 exLocals).1 rfl).1⟩,
    ⟨⟨rfl, Or.inl (by decide)⟩,
      (((case_precedence exMstr exChan exSlave 10 0 5 exLocals).2.2.1 rfl).1
        (Or.inl (by decide))).1⟩⟩

theorem stair_step_counterexample :
    exMstr.linePlot = 1 ∧ (exEnumSlave 3).pSChan.dbrType = DbrType.ENUM ∧
      TY_cont exMstr (exEnumSlave 3) 10 2 { first := 0, skip := 0, oldX := 1, oldY := 10 } =
        Except.ok ({ first := 0, skip := 0, oldX := 2, oldY := 20 },
          [PprCall.pprLineSegD (some 1) 1 10 2 10, PprCall.pprLineSegD (some 1) 2 10 2 20]) ∧
      PprCall.pprLineSegD (some 1) 2 10 2 20 ≠ PprCall.pprLineSegD (some 1) 1 10 2 20 := by
  refine ⟨rfl, rfl, ?_, by simp⟩
  have h := (cont_segments exMstr (exEnumSlave 3) exData 10 0 2
    { first := 0, skip := 0, oldX := 1, oldY := 10 } 2 rfl (by decide)).1
    (by simp [TY_fetchX, exMstr, exSpec])
  rw [h]
  simp [plotGlyphs, exMstr, exEnumSlave, exEnumChan, exSlave, exData]
  norm_num

/-- C30 (amended): in `sydPlot_TYSamples` and `sydPlot_YSamples`, a
continuation step of a scalar sample from the last drawn point `(oldX, oldY)`
to the new sample `(newX, newY)` draws, for an enumerated channel with line
mode on, first the hold segment from `(oldX, oldY)` to `(newX, oldY)` and
then the riser from `(newX, oldY)` to `(newX, newY)` (the stored `oldX` has
been moved to `newX` in between); for a channel that is not enumerated, with
line mode on, the one segment from `(oldX, oldY)` to `(newX, newY)`; with line
mode off no segment.  The glyphs of the sample follow, and the new sample
becomes the last drawn point. -/
theorem stair_step (m : SYD_PL_MSTR) (s : SYD_PL_SLAVE) (d : Int → Dbl) (fuel : Nat)
    (junk : Dbl) (i : Int) (l : Locals) (newX : Dbl) (hd : s.pSChan.pData = some d)
    (ht : s.pSChan.dbrType ≠ DbrType.STRING) :
    (TY_fetchX m fuel i = Except.ok newX →
      TY_cont m s fuel i l = Except.ok
        ({ l with oldX := newX, oldY := d i },
          (if m.linePlot ≠ 0 ∧ s.pSChan.dbrType = DbrType.ENUM then
            [PprCall.pprLineSegD s.pArea l.oldX l.oldY newX l.oldY,
              PprCall.pprLineSegD s.pArea newX l.oldY newX (d i)]
           else if m.linePlot ≠ 0 then
            [PprCall.pprLineSegD s.pArea l.oldX l.oldY newX (d i)]
           else []) ++
          plotGlyphs m s.pArea s.markNum newX (d i) (s.pSChan.pDataCodeR i))) ∧
    (s.pSChan.elCount = 1 →
      Y_cont m s junk i l = Except.ok
        ({ l with oldX := (i : Dbl), oldY := d i },
          (if m.linePlot ≠ 0 ∧ s.pSChan.dbrType = DbrType.ENUM then
            [PprCall.pprLineSegD s.pArea l.oldX l.oldY (i : Dbl) l.oldY,
              PprCall.pprLineSegD s.pArea (i : Dbl) l.oldY (i : Dbl) (d i)]
           else if m.linePlot ≠ 0 then
            [PprCall.pprLineSegD s.pArea l.oldX l.oldY (i : Dbl) (d i)]
           else []) ++
          plotGlyphs m s.pArea s.markNum (i : Dbl) (d i) (s.pSChan.pDataCodeR i))) ∧
    (∀ op ∈ plotGlyphs m s.pArea s.markNum newX (d i) (s.pSChan.pDataCodeR i),
      op.isLineSeg = false) :=
  ⟨(cont_segments m s d fuel junk i l newX hd ht).1,
    (cont_segments m s d fuel junk i l newX hd ht).2,
    plotGlyphs_no_seg m s.pArea s.markNum newX (d i) (s.pSChan.pDataCodeR i)⟩

theorem stair_step_witness :
    ((exEnumSlave 3).pSChan.pData = some exData ∧
      (exEnumSlave 3).pSChan.dbrType ≠ DbrType.STRING ∧ (exEnumSlave 3).pSChan.elCount = 1) ∧
    Y_cont exMstr (exEnumSlave 3) 0 2 { first := 0, skip := 0, oldX := 1, oldY := 10 } =
      Except.ok
        ({ ({ first := 0, skip := 0, oldX := 1, oldY := 10 } : Locals) with
            oldX := ((2 : Int) : Dbl), oldY := exData 2 },
          (if exMstr.linePlot ≠ 0 ∧ (exEnumSlave 3).pSChan.dbrType = DbrType.ENUM then
            [PprCall.pprLineSegD (exEnumSlave 3).pArea 1 10 ((2 : Int) : Dbl) 10,
              PprCall.pprLineSegD (exEnumSlave 3).pArea ((2 : Int) : Dbl) 10 ((2 : Int) : Dbl)
                (exData 2)]
           else if exMstr.linePlot ≠ 0 then
            [PprCall.pprLineSegD (exEnumSlave 3).pArea 1 10 ((2 : Int) : Dbl) (exData 2)]
           else []) ++
          plotGlyphs exMstr (exEnumSlave 3).pArea (exEnumSlave 3).markNum ((2 : Int) : Dbl)
            (exData 2) ((exEnumSlave 3).pSChan.pDataCodeR 2)) :=
  ⟨⟨rfl, by decide, rfl⟩,
    (stair_step exMstr (exEnumSlave 3) exData 10 0 2
      { first := 0, skip := 0, oldX := 1, oldY := 10 } 2 rfl (by decide)).2.1 rfl⟩

/-- C31: the glyphs of a drawn scalar sample.  In the anchor case and in the
continuation case of `sydPlot_TYSamples`, of `sydPlot_YSamples` (one element
per sample) and of `sydPlot_XYSamples` (element count 1), the sample at
`(x, y)` becomes the last drawn point and the calls made are line segments
(none in the anchor case) followed by the glyphs of the sample.  Among the
glyphs, the marker with the slave's mark number is drawn at `(x, y)` exactly
when mark mode is on; the status character exactly when show-status is on and
the status code of the sample is not a blank; the point exactly when point
mode is on and the status character is not drawn; there is no other glyph and
none is drawn twice, so the status character and the point are never both
drawn. -/
theorem sample_glyphs (m : SYD_PL_MSTR) (s : SYD_PL_SLAVE) (cx : SYD_CHAN)
    (fuel : Nat) (junk : Dbl) (i : Int) (l : Locals) (x y : Dbl)
    (hy : FetchIthValInto s.pSChan i = Except.ok y) :
    ((TY_fetchX m fuel i = Except.ok x →
      TY_anchor m s fuel i l = Except.ok ({ l with oldX := x, oldY := y, skip := 0 },
        plotGlyphs m s.pArea s.markNum x y (s.pSChan.pDataCodeR i)) ∧
      ∃ segs, (∀ op ∈ segs, op.isLineSeg = true) ∧
        TY_cont m s fuel i l = Except.ok ({ l with oldX := x, oldY := y },
          segs ++ plotGlyphs m s.pArea s.markNum x y (s.pSChan.pDataCodeR i))) ∧
    (s.pSChan.elCount = 1 →
      Y_anchor m s junk i l = Except.ok ({ l with oldX := (i : Dbl), oldY := y, skip := 0 },
        plotGlyphs m s.pArea s.markNum (i : Dbl) y (s.pSChan.pDataCodeR i)) ∧
      ∃ segs, (∀ op ∈ segs, op.isLineSeg = true) ∧
        Y_cont m s junk i l = Except.ok ({ l with oldX := (i : Dbl), oldY := y },
          segs ++ plotGlyphs m s.pArea s.markNum (i : Dbl) y (s.pSChan.pDataCodeR i))) ∧
    (XY_nEl cx s.pSChan = 1 → FetchIthValInto cx i = Except.ok x →
      XY_anchor m cx s junk i l = Except.ok ({ l with oldX := x, oldY := y, skip := 0 },
        plotGlyphs m s.pArea s.markNum x y (s.pSChan.pDataCodeR i)) ∧
      ∃ segs, (∀ op ∈ segs, op.isLineSeg = true) ∧
        XY_cont m cx s junk i l = Except.ok ({ l with oldX := x, oldY := y },
          segs ++ plotGlyphs m s.pArea s.markNum x y (s.pSChan.pDataCodeR i)))) ∧
    (∀ (a : Option Nat) (mk : Int) (c : Char),
      (PprCall.pprMarkD a x y mk ∈ plotGlyphs m a mk x y c ↔ m.markPlot ≠ 0) ∧
      (PprCall.pprChar a x y c ∈ plotGlyphs m a mk x y c ↔ (m.showStat ≠ 0 ∧ c ≠ ' ')) ∧
      (PprCall.pprPointD a x y ∈ plotGlyphs m a mk x y c ↔
        (m.pointPlot ≠ 0 ∧ ¬ (m.showStat ≠ 0 ∧ c ≠ ' '))) ∧
      (∀ op ∈ plotGlyphs m a mk x y c,
        op = PprCall.pprMarkD a x y mk ∨ op = PprCall.pprChar a x y c ∨
          op = PprCall.pprPointD a x y) ∧
      (plotGlyphs m a mk x y c).Nodup ∧
      ¬ (PprCall.pprChar a x y c ∈ plotGlyphs m a mk x y c ∧
        PprCall.pprPointD a x y ∈ plotGlyphs m a mk x y c)) := by
  refine ⟨scalar_sample_glyphs m s cx fuel junk i l x y hy, fun a mk c => ?_⟩
  obtain ⟨h1, h2, h3, h4, h5⟩ := plotGlyphs_content m a mk x y c
  refine ⟨h1, h2, h3, h4, h5, ?_⟩
  rintro ⟨hc, hp⟩
  exact (h3.mp hp).2 (h2.mp hc)

theorem sample_glyphs_witness :
    FetchIthValInto exSlave.pSChan 2 = Except.ok 20 ∧
    (TY_anchor { exMstr with markPlot := 1, pointPlot := 1 } exSlave 5 2 exLocals).map Prod.snd =
      Except.ok [PprCall.pprMarkD (some 1) 2 20 0, PprCall.pprPointD (some 1) 2 20] := by
  have hy : FetchIthValInto exSlave.pSChan 2 = Except.ok 20 := by
    simp [FetchIthValInto, exSlave, exChan, exData]; norm_num
  have hx : TY_fetchX { exMstr with markPlot := 1, pointPlot := 1 } 5 2 = Except.ok 2 := by
    simp [TY_fetchX, exMstr, exSpec]
  have h := ((sample_glyphs { exMstr with markPlot := 1, pointPlot := 1 } exSlave exChan 5 0 2
    exLocals 2 20 hy).1.1 hx).1
  refine ⟨hy, ?_⟩
  rw [h]
  simp [Except.map, plotGlyphs, exMstr, exSlave, exChan]

theorem array_always_redrawn_counterexample :
    exArraySlave.pSChan.elCount = 4 ∧
    (exFilledFlags 7).missing = false ∧ (exFilledFlags 7).filled = true ∧
    Y_sample exArrayMstr
        { exArraySlave with pSChan := { exArraySlave.pSChan with pFlags := exFilledFlags } }
        0 7 { first := 0, skip := 0, oldX := 0, oldY := 0 } =
      Except.ok ({ first := 0, skip := 0, oldX := 0, oldY := 0 }, []) ∧
    (sydPlot_TYSamples { exMstr with slaves := [exArraySlave] } 2 3 0 5 exLocals).map Prod.snd =
      Except.ok [PprCall.pprLineSegD (some 1) 2 20 3 30] := by
  refine ⟨rfl, rfl, rfl, ?_, ?_⟩
  · simp [Y_sample, exFilledFlags, exArraySlave, exSlave, exChan]
  · simp [sydPlot_TYSamples, slaveLoop, TY_slave, sampleLoop, TY_sample, TY_anchor, TY_cont,
      TY_fetchX, loadLocals, saveLocals, nextIndex, FetchIthValInto, plotGlyphs, exArraySlave,
      exMstr, exSlave, exChan, exData, exSpec, exLocals, Except.map]
    norm_num

/-- C32 (amended): array samples in `sydPlot_YSamples` and
`sydPlot_XYSamples`.  For a connected channel of a numeric type with more
than one element per sample (in `sydPlot_XYSamples`: when the smaller of the
element counts of the X channel and of the channel is not 1), a sample that is
not flagged missing is drawn as the complete connected polyline over its
elements, whatever the locals hold, unless it is flagged filled and is not
anchor-worthy: then nothing is drawn.  So a call over a range none of whose
samples is flagged missing or filled draws the polyline of every sample of
the range, in the order of the walk, whatever the incremental flag and the
continuity state stored in the slave.  `sydPlot_TYSamples` does not read the
element count: it draws a sample of such a channel as it draws a scalar
sample. -/
theorem array_always_redrawn (m : SYD_PL_MSTR) (cx : SYD_CHAN) (s : SYD_PL_SLAVE)
    (dx d : Int → Dbl) (junk : Dbl) (b e incr : Int) (fuel : Nat) (i : Int) (l : Locals)
    (hd : s.pSChan.pData = some d) (ht : s.pSChan.dbrType ≠ DbrType.STRING)
    (hc : s.pSChan.dataChan ≠ 0) :
    (2 ≤ s.pSChan.elCount → (s.pSChan.pFlags i).missing = false →
      (((s.pSChan.pFlags i).filled = false ∨ l.first ≠ 0 ∨ l.skip ≠ 0 ∨
          (s.pSChan.pFlags i).restart = true) →
        Y_sample m s junk i l =
          Except.ok ({ l with skip := 0 }, polyline s.pArea s.pSChan d i s.pSChan.elCount)) ∧
      (((s.pSChan.pFlags i).filled = true ∧ l.first = 0 ∧ l.skip = 0 ∧
          (s.pSChan.pFlags i).restart = false) →
        Y_sample m s junk i l = Except.ok (l, []))) ∧
    (2 ≤ s.pSChan.elCount →
      (∀ j, (s.pSChan.pFlags j).missing = false ∧ (s.pSChan.pFlags j).filled = false) →
      0 ≤ b → b < m.pSspec.dataDim → 0 ≤ e → e < m.pSspec.dataDim →
      walkLen m.pSspec.dataDim b e ≤ fuel →
      Y_slave m b e incr fuel junk s l =
        Except.ok (saveLocals s { loadLocals s incr l with first := 0, skip := 0 },
          { loadLocals s incr l with first := 0, skip := 0 },
          ((circRange m.pSspec.dataDim b (walkLen m.pSspec.dataDim b e)).map
            fun j => polyline s.pArea s.pSChan d j s.pSChan.elCount).flatten)) ∧
    (cx.pData = some dx → cx.dbrType ≠ DbrType.STRING → XY_nEl cx s.pSChan ≠ 1 →
      ((s.pSChan.pFlags i).missing = false → (cx.pFlags i).missing = false →
        (((s.pSChan.pFlags i).filled = false ∨ l.first ≠ 0 ∨ l.skip ≠ 0 ∨
            (s.pSChan.pFlags i).restart = true ∨ (cx.pFlags i).restart = true) →
          XY_sample m cx s junk i l =
            Except.ok ({ l with skip := 0 },
              polylineXY s.pArea cx s.pSChan dx d i (XY_nEl cx s.pSChan))) ∧
        (((s.pSChan.pFlags i).filled = true ∧ l.first = 0 ∧ l.skip = 0 ∧
            (s.pSChan.pFlags i).restart = false ∧ (cx.pFlags i).restart = false) →
          XY_sample m cx s junk i l = Except.ok (l, []))) ∧
      ((∀ j, (s.pSChan.pFlags j).missing = false ∧ (s.pSChan.pFlags j).filled = false ∧
          (cx.pFlags j).missing = false) →
        0 ≤ b → b < m.pSspec.dataDim → 0 ≤ e → e < m.pSspec.dataDim →
        walkLen m.pSspec.dataDim b e ≤ fuel →
        XY_slave m cx b e incr fuel junk s l =
          Except.ok (saveLocals s { loadLocals s incr l with first := 0, skip := 0 },
            { loadLocals s incr l with first := 0, skip := 0 },
            ((circRange m.pSspec.dataDim b (walkLen m.pSspec.dataDim b e)).map
              fun j => polylineXY s.pArea cx s.pSChan dx d j (XY_nEl cx s.pSChan)).flatten))) ∧
    (∀ k : Int,
      TY_sample m { s with pSChan := { s.pSChan with elCount := k } } fuel i l =
        TY_sample m s fuel i l) := by
  have hnone : ¬ (s.pSChan.pData.isNone = true ∨ s.pSChan.dataChan = 0) := by
    simp [hd, hc]
  refine ⟨fun hk hm => Y_sample_array m s d junk i l hd ht hk hm, ?_, ?_, fun k => rfl⟩
  · intro hk hflags hb hbD he heD hf
    unfold Y_slave
    rw [if_neg hnone]
    exact array_slave_block (Y_sample m s junk)
      (fun j => polyline s.pArea s.pSChan d j s.pSChan.elCount) _ b e fuel s _ hb hbD he heD hf
      (fun j l' => (Y_sample_array m s d junk j l' hd ht hk (hflags j).1).1
        (Or.inl (hflags j).2))
  · intro hdx htx hkx
    refine ⟨fun hm hmx => XY_sample_array m cx s dx d junk i l hdx htx hd ht hkx hm hmx, ?_⟩
    intro hflags hb hbD he heD hf
    unfold XY_slave
    rw [if_neg hnone]
    exact array_slave_block (XY_sample m cx s junk)
      (fun j => polylineXY s.pArea cx s.pSChan dx d j (XY_nEl cx s.pSChan)) _ b e fuel s _
      hb hbD he heD hf
      (fun j l' => (XY_sample_array m cx s dx d junk j l' hdx htx hd ht hkx (hflags j).1
        (hflags j).2.2).1 (Or.inl (hflags j).2.1))

theorem array_always_redrawn_witness :
    (exArraySlave.pSChan.pData = some exData ∧ exArraySlave.pSChan.dbrType ≠ DbrType.STRING ∧
      exArraySlave.pSChan.dataChan ≠ 0 ∧ (2 : Int) ≤ exArraySlave.pSChan.elCount ∧
      (exArraySlave.pSChan.pFlags 1).missing = false) ∧
    Y_sample exArrayMstr exArraySlave 0 1 { first := 0, skip := 0, oldX := 5, oldY := 6 } =
      Except.ok ({ first := 0, skip := 0, oldX := 5, oldY := 6 },
        polyline exArraySlave.pArea exArraySlave.pSChan exData 1 4) := by
  have h1 : exArraySlave.pSChan.pData = some exData := rfl
  have h2 : exArraySlave.pSChan.dbrType ≠ DbrType.STRING := by decide
  have h3 : exArraySlave.pSChan.dataChan ≠ 0 := by decide
  have h4 : (2 : Int) ≤ exArraySlave.pSChan.elCount := by decide
  have h5 : (exArraySlave.pSChan.pFlags 1).missing = false := rfl
  exact ⟨⟨h1, h2, h3, h4, h5⟩,
    ((array_always_redrawn exArrayMstr exChan exArraySlave exData exData 0 0 9 0 20 1
      { first := 0, skip := 0, oldX := 5, oldY := 6 } h1 h2 h3).1 h4 h5).1 (Or.inl rfl)⟩

theorem wrap_only_time_axis_counterexample :
    exMstrWrap.wrapX = 1 ∧ exMstrWrap.extentVal = 4 ∧
      (sydPlot_YSamples { exMstrWrap with plotAxis := SYD_PLAX.Y, pointPlot := 1 } 7 7 0 5
        exLocals 0).map Prod.snd = Except.ok [PprCall.pprPointD (some 1) 7 70] ∧
      (sydPlot_TYSamples { exMstrWrap with pointPlot := 1 } 7 7 0 5 exLocals).map Prod.snd =
        Except.ok [PprCall.pprPointD (some 1) 3 70] := by
  refine ⟨rfl, rfl, ?_, ?_⟩
  · simp [sydPlot_YSamples, slaveLoop, Y_slave, sampleLoop, Y_sample, Y_anchor, loadLocals,
      saveLocals, nextIndex, FetchIthValInto, plotGlyphs, exMstrWrap, exMstr, exSlave, exChan,
      exData, exSpec, exLocals, Except.map]
    norm_num
  · simp [sydPlot_TYSamples, slaveLoop, TY_slave, sampleLoop, TY_sample, TY_anchor, TY_fetchX,
      wrapLoop, loadLocals, saveLocals, nextIndex, FetchIthValInto, plotGlyphs, exMstrWrap,
      exMstr, exSlave, exChan, exData, exSpec, exLocals, Except.map]
    norm_num [roundDbl_three]

/-- C33 (amended): X wraparound is applied in `sydPlot_TYSamples` only.  There
the X of a drawn sample is its time offset when wrap mode is off and, when
wrap mode is on, the time offset with the axis extent subtracted repeatedly
while it exceeds the extent: the X the routine arrives at is the offset after
some number of subtractions, each rounded to `double`, every value before it
exceeding the extent and the X itself not.  `sydPlot_YSamples` and
`sydPlot_XYSamples` do not read the wrap mode: setting it changes nothing in
what they draw or store, and the X of a drawn scalar sample is the sample
index, respectively the value of the X channel, as it is. -/
theorem wrap_only_time_axis (m : SYD_PL_MSTR) (s : SYD_PL_SLAVE) (cx : SYD_CHAN) (w : Int)
    (b e incr : Int) (fuel : Nat) (l0 l : Locals) (junk : Dbl) (i : Int) (x y : Dbl)
    (hy : FetchIthValInto s.pSChan i = Except.ok y) :
    (m.wrapX = 0 → TY_fetchX m fuel i = Except.ok (m.pSspec.pDeltaSec i)) ∧
    (m.wrapX ≠ 0 → TY_fetchX m fuel i = Except.ok x →
      x ≤ m.extentVal ∧
      ∃ k : Nat, k ≤ fuel ∧ x = wrapIter m.extentVal (m.pSspec.pDeltaSec i) k ∧
        ∀ j : Nat, j < k → m.extentVal < wrapIter m.extentVal (m.pSspec.pDeltaSec i) j) ∧
    (TY_fetchX m fuel i = Except.ok x →
      TY_anchor m s fuel i l = Except.ok ({ l with oldX := x, oldY := y, skip := 0 },
        plotGlyphs m s.pArea s.markNum x y (s.pSChan.pDataCodeR i)) ∧
      ∃ segs, (∀ op ∈ segs, op.isLineSeg = true) ∧
        TY_cont m s fuel i l = Except.ok ({ l with oldX := x, oldY := y },
          segs ++ plotGlyphs m s.pArea s.markNum x y (s.pSChan.pDataCodeR i))) ∧
    (sydPlot_YSamples { m with wrapX := w } b e incr fuel l0 junk =
      (sydPlot_YSamples m b e incr fuel l0 junk).map
        fun r => ({ r.1 with wrapX := w }, r.2)) ∧
    (sydPlot_XYSamples { m with wrapX := w } b e incr fuel l0 junk =
      (sydPlot_XYSamples m b e incr fuel l0 junk).map
        fun r => ({ r.1 with wrapX := w }, r.2)) ∧
    (s.pSChan.elCount = 1 →
      Y_anchor m s junk i l = Except.ok ({ l with oldX := (i : Dbl), oldY := y, skip := 0 },
        plotGlyphs m s.pArea s.markNum (i : Dbl) y (s.pSChan.pDataCodeR i)) ∧
      ∃ segs, (∀ op ∈ segs, op.isLineSeg = true) ∧
        Y_cont m s junk i l = Except.ok ({ l with oldX := (i : Dbl), oldY := y },
          segs ++ plotGlyphs m s.pArea s.markNum (i : Dbl) y (s.pSChan.pDataCodeR i))) ∧
    (XY_nEl cx s.pSChan = 1 → FetchIthValInto cx i = Except.ok x →
      XY_anchor m cx s junk i l = Except.ok ({ l with oldX := x, oldY := y, skip := 0 },
        plotGlyphs m s.pArea s.markNum x y (s.pSChan.pDataCodeR i)) ∧
      ∃ segs, (∀ op ∈ segs, op.isLineSeg = true) ∧
        XY_cont m cx s junk i l = Except.ok ({ l with oldX := x, oldY := y },
          segs ++ plotGlyphs m s.pArea s.markNum x y (s.pSChan.pDataCodeR i))) := by
  obtain ⟨h1, h2, h3⟩ := scalar_sample_glyphs m s cx fuel junk i l x y hy
  refine ⟨fun hw => by simp [TY_fetchX, hw], fun hw hx => ?_, h1,
    YSamples_wrapX m w b e incr fuel l0 junk, XYSamples_wrapX m w b e incr fuel l0 junk, h2, h3⟩
  simp only [TY_fetchX, hw, ne_eq, not_false_eq_true, if_true] at hx
  exact ⟨wrapLoop_ok_le _ fuel _ x hx, wrapLoop_ok_iter _ fuel _ x hx⟩

theorem wrap_only_time_axis_witness :
    FetchIthValInto exSlave.pSChan 7 = Except.ok 70 ∧
      Y_anchor exMstrWrap exSlave 0 7 exLocals =
        Except.ok ({ exLocals with oldX := 7, oldY := 70, skip := 0 }, []) := by
  have hy : FetchIthValInto exSlave.pSChan 7 = Except.ok 70 := by
    simp [FetchIthValInto, exSlave, exChan, exData]; norm_num
  have h := ((wrap_only_time_axis exMstrWrap exSlave exChan 1 7 7 0 5 exLocals exLocals 0 7 7 70
    hy).2.2.2.2.2.1 rfl).1
  refine ⟨hy, ?_⟩
  rw [h]
  simp [plotGlyphs, exMstrWrap, exMstr]

theorem axis_domain_counterexample :
    (exSlaveNoLimits 5 5).pSChan.minDataVal = 5 ∧ (exSlaveNoLimits 5 5).pSChan.maxDataVal = 5 ∧
      (sydPlotAxisAutoRange (exSlaveNoLimits 5 5)).originVal =
        (sydPlotAxisAutoRange (exSlaveNoLimits 5 5)).extentVal := by
  simp [sydPlotAxisAutoRange, exSlaveNoLimits]

/-- C35 (amended): the axis domain of a slave is not degenerate after
`sydPlotChanAdd` and after `sydPlotAxisSetup`.  For every channel that is not
of string type and every allocation that succeeds, `sydPlotChanAdd` returns a
slave with `originVal != extentVal`; for every slave, whatever the display
limits and the observed data values of its channel, `sydPlotAxisSetup` leaves
`originVal != extentVal`.  `sydPlotAxisAutoRange` sets the ends to the
smallest and the largest observed data value, so after it
`originVal != extentVal` exactly when these two differ. -/
theorem axis_domain (m : SYD_PL_MSTR) (c : SYD_CHAN) (raw s : SYD_PL_SLAVE) (jo je : Dbl) :
    (c.dbrType ≠ DbrType.STRING →
      ∃ t, sydPlotChanAdd m c (some raw) jo je =
          Except.ok (some t, { m with nSlaves := m.nSlaves + 1, slaves := m.slaves ++ [t] },
            []) ∧
        t.originVal ≠ t.extentVal) ∧
    (sydPlotAxisSetup s jo je).originVal ≠ (sydPlotAxisSetup s jo je).extentVal ∧
    (sydPlotAxisSetup (sydPlotAxisAutoRange s) jo je).originVal ≠
      (sydPlotAxisSetup (sydPlotAxisAutoRange s) jo je).extentVal ∧
    (sydPlotAxisAutoRange s).originVal = s.pSChan.minDataVal ∧
    (sydPlotAxisAutoRange s).extentVal = s.pSChan.maxDataVal ∧
    ((sydPlotAxisAutoRange s).originVal ≠ (sydPlotAxisAutoRange s).extentVal ↔
      s.pSChan.minDataVal ≠ s.pSChan.maxDataVal) := by
  exact ⟨fun ht => ChanAdd_ne m c raw jo je ht, AxisSetup_ne s jo je, AxisSetup_ne _ jo je,
    rfl, rfl, Iff.rfl⟩

theorem axis_domain_witness :
    exChan.dbrType ≠ DbrType.STRING ∧
      ∃ t, sydPlotChanAdd exMstr exChan (some exSlave) 0 0 =
          Except.ok (some t,
            { exMstr with nSlaves := exMstr.nSlaves + 1, slaves := exMstr.slaves ++ [t] }, []) ∧
        t.originVal ≠ t.extentVal :=
  ⟨by decide, (axis_domain exMstr exChan exSlave exSlave 0 0).1 (by decide)⟩

/-- C36: for a slave whose channel has never connected (or is not a data
channel) the sample routines make no plotting call, but they do not leave
its continuity state alone: the statements that store the locals `first`,
`oldX`, `oldY`, `skip` in the slave come after the `if .. else` and are
executed for such a slave as well, with whatever the locals hold.  On the
master `exDeadMstr`, a batch call of `sydPlot_TYSamples` over sample 2 leaves
the unconnected second slave with the first flag cleared and with the last
drawn point `(2, 20)` of the first slave, where it had the first flag set and
the point `(0, 0)`. -/
theorem unconnected_slave_overwritten :
    (∀ (m : SYD_PL_MSTR) (b e incr : Int) (fuel : Nat) (junk : Dbl) (cx : SYD_CHAN)
      (s : SYD_PL_SLAVE) (l : Locals),
      TY_slave m b e incr fuel { s with pSChan := { s.pSChan with pData := none } } l =
        Except.ok (saveLocals { s with pSChan := { s.pSChan with pData := none } } l, l, []) ∧
      Y_slave m b e incr fuel junk { s with pSChan := { s.pSChan with pData := none } } l =
        Except.ok (saveLocals { s with pSChan := { s.pSChan with pData := none } } l, l, []) ∧
      XY_slave m cx b e incr fuel junk { s with pSChan := { s.pSChan with pData := none } } l =
        Except.ok (saveLocals { s with pSChan := { s.pSChan with pData := none } } l, l, []) ∧
      TY_slave m b e incr fuel { s with pSChan := { s.pSChan with dataChan := 0 } } l =
        Except.ok (saveLocals { s with pSChan := { s.pSChan with dataChan := 0 } } l, l, []) ∧
      Y_slave m b e incr fuel junk { s with pSChan := { s.pSChan with dataChan := 0 } } l =
        Except.ok (saveLocals { s with pSChan := { s.pSChan with dataChan := 0 } } l, l, []) ∧
      XY_slave m cx b e incr fuel junk { s with pSChan := { s.pSChan with dataChan := 0 } } l =
        Except.ok (saveLocals { s with pSChan := { s.pSChan with dataChan := 0 } } l, l, [])) ∧
    exDeadMstr.slaves = [exSlave, exDeadSlave] ∧ exDeadSlave.pSChan.pData = none ∧
    (exDeadSlave.first, exDeadSlave.skip, exDeadSlave.oldX, exDeadSlave.oldY) = (1, 0, 0, 0) ∧
    (sydPlot_TYSamples exDeadMstr 2 2 0 5 exLocals).map
        (fun r => (r.1.slaves.map (fun s => (s.first, s.skip, s.oldX, s.oldY)), r.2)) =
      Except.ok ([(0, 0, 2, 20), (0, 0, 2, 20)], []) := by
  refine ⟨fun m b e incr fuel junk cx s l => ⟨?_, ?_, ?_, ?_, ?_, ?_⟩, rfl, rfl, ?_, ?_⟩
  · simp [TY_slave]
  · simp [Y_slave]
  · simp [XY_slave]
  · simp [TY_slave]
  · simp [Y_slave]
  · simp [XY_slave]
  · simp [exDeadSlave, exSlave]
  · simp [sydPlot_TYSamples, slaveLoop, TY_slave, sampleLoop, TY_sample, TY_anchor, TY_fetchX,
      loadLocals, saveLocals, nextIndex, FetchIthValInto, plotGlyphs, exDeadMstr, exDeadSlave,
      exMstr, exSlave, exChan, exData, exSpec, exLocals, Except.map]
    norm_num

/-- C37: in every state reached from a successful `sydPlotInit` by a sequence
of calls of `sydPlotChanAdd` (accepted or rejected), `sydPlotAxisSetup`,
`sydPlotAxisAutoRange`, `sydPlotAxisSetAttr`, `sydPlotSetAttr`,
`sydPlotSetTitles`, assignments to `.plotAxis`, the grid routines, the sample
routines, `sydPlotSamples`, `sydPlot`, `sydPlotEraseSamples` and
`sydPlotDone`, each of which returns, the master's `nSlaves` is the number of
slaves on its list.  It is 0, with an empty list, after `sydPlotInit`, and
after `sydPlotDone` with a non-zero `quitFlag` in any such state;
`sydPlotDone` with `quitFlag = 0` leaves the master as it is. -/
theorem nSlaves_is_length (lib : PprLib) (fuel : Nat) (m0 : SYD_PL_MSTR) (pSspec : SYD_SPEC)
    (winType : PPR_WIN_TY) (fullInit : Int) (w : Nat) (info : Int × Int × Int × Int)
    (n0 : Nat) (ops : List PlotOp) (r : SYD_PL_MSTR × Nat)
    (h : runOps lib fuel ops
      ((sydPlotInit m0 pSspec winType fullInit (some w) info).2, n0) = Except.ok r) :
    (sydPlotInit m0 pSspec winType fullInit (some w) info).1 = SydStatus.S_syd_OK ∧
    (sydPlotInit m0 pSspec winType fullInit (some w) info).2.nSlaves = 0 ∧
    (sydPlotInit m0 pSspec winType fullInit (some w) info).2.slaves = [] ∧
    r.1.nSlaves = (r.1.slaves.length : Int) ∧
    (∀ (q : Int) (info1 : Int × Int × Int × Int), q ≠ 0 →
      (sydPlotDone r.1 q info1).2.1.nSlaves = 0 ∧ (sydPlotDone r.1 q info1).2.1.slaves = []) ∧
    (∀ info1 : Int × Int × Int × Int, (sydPlotDone r.1 0 info1).2.1 = r.1) := by
  obtain ⟨h1, h2, h3, -⟩ := sydPlotInit_fields m0 pSspec winType fullInit w info
  have hinv := runOps_inv lib fuel ops _ r h (by rw [h3, h2]; rfl)
  exact ⟨h1, h3, h2, hinv, fun q info1 hq => (Done_count r.1 q info1 hinv).2.1 hq,
    fun info1 => (Done_count r.1 0 info1 hinv).2.2 rfl⟩

theorem nSlaves_is_length_witness :
    ∃ r, runOps exLib 5 (exOps.take 9)
        ((sydPlotInit exMstr exSpec PPR_WIN_TY.SCREEN 1 (some 0) (0, 0, 640, 480)).2, 0) =
          Except.ok r ∧
      r.1.nSlaves = 2 ∧ r.1.nSlaves = (r.1.slaves.length : Int) := by
  have hex : ∃ r, runOps exLib 5 (exOps.take 9)
      ((sydPlotInit exMstr exSpec PPR_WIN_TY.SCREEN 1 (some 0) (0, 0, 640, 480)).2, 0) =
        Except.ok r ∧ r.1.nSlaves = 2 := by
    simp [exOps, runOps, runOp, sydPlotInit, sydPlotInit_common, sydPlotChanAdd,
      sydPlotAxisSetup, AxisSetup_byType, AxisSetup_ends, sydPlotSetAttr, onSlave,
      sydPlotAxisAutoRange, gridRoutine, sydPlot_TYGrid, sydPlot_setup, gridLoop,
      bandGrid_slave, slaveAreaOpen, sydPlotEraseSamples, exLib, exMstr, exSpec, exChan,
      exChan2, exStringChan, exSlave, Except.map]
  obtain ⟨r, hr, h2⟩ := hex
  exact ⟨r, hr, h2,
    (nSlaves_is_length exLib 5 exMstr exSpec PPR_WIN_TY.SCREEN 1 0 (0, 0, 640, 480) 0
      (exOps.take 9) r hr).2.2.2.1⟩

/-- C39: on a master with at least one slave, with the X slave `sx` at
position `xIndex`, `sydPlot_XYSamples` is the loop over the slaves run on the
list with the X slave taken out: every other slave is processed once, in list
order, and the calls made are those made for these slaves.  In the master
returned the X slave sits, unchanged, at its position among the processed
slaves, so nothing of its continuity state is modified.  The same holds for
the loops over the slaves of `sydPlot_XYGrid` and `sydPlot_XYYGrid`, which
are run on the list with the X slave taken out; there the X slave is returned
with its plot area cleared (and, in `sydPlot_XYYGrid`, its vertical fractions
zeroed), its continuity state being left as it was. -/
theorem paired_loops_skip_X (lib : PprLib) (m : SYD_PL_MSTR) (hne : m.slaves ≠ []) :
    ∃ sx, m.slaves[xIndex m.slaves]? = some sx ∧
      (∀ (b e incr : Int) (fuel : Nat) (l : Locals) (junk : Dbl),
        sydPlot_XYSamples m b e incr fuel l junk =
          (slaveLoop (XY_slave m sx.pSChan b e incr fuel junk)
              (m.slaves.eraseIdx (xIndex m.slaves)) l).map
            (fun r => ({ m with slaves := r.1.take (xIndex m.slaves) ++
                          sx :: r.1.drop (xIndex m.slaves) }, r.2.2)) ∧
        ∀ r, sydPlot_XYSamples m b e incr fuel l junk = Except.ok r →
          r.1.slaves[xIndex m.slaves]? = some sx ∧
            r.1.slaves.length = m.slaves.length ∧
            ∃ q, slaveLoop (XY_slave m sx.pSChan b e incr fuel junk)
                (m.slaves.eraseIdx (xIndex m.slaves)) l = Except.ok q ∧
              r.1.slaves.eraseIdx (xIndex m.slaves) = q.1 ∧ r.2 = q.2.2) ∧
      (∀ n : Nat,
        sydPlot_XYGrid lib m n =
          (match sydPlot_setup lib m (m.nSlaves - 1) n with
          | Except.error e => Except.error e
          | Except.ok (su, ops0, n0) =>
            (gridLoop (XYGrid_slave lib m su { sx with pArea := none }) none
                (m.slaves.eraseIdx (xIndex m.slaves)) 0
                { ylo := su.ylo, yhi := su.yhi, nOpen := n0 }).map
              fun r => ({ m with slaves := r.1.take (xIndex m.slaves) ++
                            { sx with pArea := none } :: r.1.drop (xIndex m.slaves) },
                        ops0 ++ r.2.2, r.2.1.nOpen)) ∧
        ∀ r, sydPlot_XYGrid lib m n = Except.ok r →
          r.1.slaves[xIndex m.slaves]? = some { sx with pArea := none } ∧
            r.1.slaves.length = m.slaves.length) ∧
      (∀ n : Nat,
        sydPlot_XYYGrid lib m n =
          (match sydPlot_setup lib m 1 n with
          | Except.error e => Except.error e
          | Except.ok (su, ops0, n0) =>
            (gridLoop
                (sharedGrid_slave lib m su
                  (su.xlo + 6 * su.charHtX * ((m.nSlaves - 1 : Int) : Dbl))
                  (su.ylo + 6 * su.charHt) (XYY_attr m) sx.pSChan.label
                  sx.originVal sx.extentVal sx.nInt)
                none (m.slaves.eraseIdx (xIndex m.slaves)) 0
                { offsetAnnotY := 0, drawAxis := 0, nOpen := n0 }).map
              fun r => ({ m with slaves := r.1.take (xIndex m.slaves) ++
                            { sx with pArea := none, yFracBot := 0, yFracTop := 0 } ::
                              r.1.drop (xIndex m.slaves) },
                        ops0 ++ r.2.2, r.2.1.nOpen)) ∧
        ∀ r, sydPlot_XYYGrid lib m n = Except.ok r →
          r.1.slaves[xIndex m.slaves]? =
              some { sx with pArea := none, yFracBot := 0, yFracTop := 0 } ∧
            r.1.slaves.length = m.slaves.length) := by
  obtain ⟨sx, hget, -⟩ := xIndex_spec m.slaves hne
  have hlt := xIndex_lt m.slaves hne
  have hge := eraseIdx_length_ge m.slaves hne
  have hlen : (m.slaves.eraseIdx (xIndex m.slaves)).length + 1 = m.slaves.length := by
    rw [List.length_eraseIdx]
    split <;> omega
  refine ⟨sx, hget, fun b e incr fuel l junk => ?_, fun n => ?_, fun n => ?_⟩
  · have heq := XYSamples_as_slaveLoop m sx hne hget b e incr fuel l junk
    refine ⟨heq, fun r hr => ?_⟩
    rw [heq] at hr
    obtain ⟨q, hq, rfl⟩ := map_ok_inv _ _ _ hr
    have hql := slaveLoop_length _ _ _ _ hq
    obtain ⟨h1, h2⟩ := reinsert_get q.1 (xIndex m.slaves) sx (by omega)
    refine ⟨h1, ?_, q, hq, h2, rfl⟩
    simp only [List.length_append, List.length_cons, List.length_take, List.length_drop]
    omega
  · have heq := XYGrid_as_loop lib m sx hne hget n
    refine ⟨heq, fun r hr => ?_⟩
    rw [heq] at hr
    cases hsu : sydPlot_setup lib m (m.nSlaves - 1) n with
    | error e => rw [hsu] at hr; cases hr
    | ok su =>
      obtain ⟨su, ops0, n0⟩ := su
      rw [hsu] at hr
      obtain ⟨q, hq, rfl⟩ := map_ok_inv _ _ _ hr
      have hql := gridLoop_length _ _ _ _ _ _ hq
      obtain ⟨h1, -⟩ := reinsert_get q.1 (xIndex m.slaves) { sx with pArea := none } (by omega)
      refine ⟨h1, ?_⟩
      simp only [List.length_append, List.length_cons, List.length_take, List.length_drop]
      omega
  · have heq := XYYGrid_as_loop lib m sx hne hget n
    refine ⟨heq, fun r hr => ?_⟩
    rw [heq] at hr
    cases hsu : sydPlot_setup lib m 1 n with
    | error e => rw [hsu] at hr; cases hr
    | ok su =>
      obtain ⟨su, ops0, n0⟩ := su
      rw [hsu] at hr
      obtain ⟨q, hq, rfl⟩ := map_ok_inv _ _ _ hr
      have hql := gridLoop_length _ _ _ _ _ _ hq
      obtain ⟨h1, -⟩ := reinsert_get q.1 (xIndex m.slaves)
        { sx with pArea := none, yFracBot := 0, yFracTop := 0 } (by omega)
      refine ⟨h1, ?_⟩
      simp only [List.length_append, List.length_cons, List.length_take, List.length_drop]
      omega

theorem paired_loops_skip_X_witness :
    exXYMstr.slaves ≠ [] ∧
      ∃ sx, exXYMstr.slaves[xIndex exXYMstr.slaves]? = some sx ∧
        ∀ (b e incr : Int) (fuel : Nat) (l : Locals) (junk : Dbl),
          sydPlot_XYSamples exXYMstr b e incr fuel l junk =
            (slaveLoop (XY_slave exXYMstr sx.pSChan b e incr fuel junk)
                (exXYMstr.slaves.eraseIdx (xIndex exXYMstr.slaves)) l).map
              (fun r => ({ exXYMstr with slaves := r.1.take (xIndex exXYMstr.slaves) ++
                            sx :: r.1.drop (xIndex exXYMstr.slaves) }, r.2.2)) := by
  have hne : exXYMstr.slaves ≠ [] := by simp [exXYMstr]
  obtain ⟨sx, h1, h2, -⟩ := paired_loops_skip_X exLib exXYMstr hne
  exact ⟨hne, sx, h1, fun b e incr fuel l junk => (h2 b e incr fuel l junk).1⟩

/-- C40: the decode of the point-by-point paths (`FetchIthValInto`) and the
decode of an array element in `sydPlot_Yarray` and `sydPlot_XYarray` give the
same number for the float, short, double, long and enumerated types, but not
for the char type: `FetchIthValInto` reads the element through `char`, the
array helpers through `unsigned char`, so an element that is negative as a
`char` comes out `256` higher in the array helpers.  For the byte `0x80` of
the channel `exCharChan` the point-by-point decode gives `-128` and the array
decode `128`. -/
theorem decode_char_differs :
    (∀ (c : SYD_CHAN) (junk : Dbl) (k : Int),
      arrayEl { c with dbrType := DbrType.FLOAT } junk k =
        FetchIthValInto { c with dbrType := DbrType.FLOAT } k) ∧
    (∀ (c : SYD_CHAN) (junk : Dbl) (k : Int),
      arrayEl { c with dbrType := DbrType.SHORT } junk k =
        FetchIthValInto { c with dbrType := DbrType.SHORT } k) ∧
    (∀ (c : SYD_CHAN) (junk : Dbl) (k : Int),
      arrayEl { c with dbrType := DbrType.DOUBLE } junk k =
        FetchIthValInto { c with dbrType := DbrType.DOUBLE } k) ∧
    (∀ (c : SYD_CHAN) (junk : Dbl) (k : Int),
      arrayEl { c with dbrType := DbrType.LONG } junk k =
        FetchIthValInto { c with dbrType := DbrType.LONG } k) ∧
    (∀ (c : SYD_CHAN) (junk : Dbl) (k : Int),
      arrayEl { c with dbrType := DbrType.ENUM } junk k =
        FetchIthValInto { c with dbrType := DbrType.ENUM } k) ∧
    (∀ (c : SYD_CHAN) (d : Int → Dbl) (junk : Dbl) (k : Int),
      FetchIthValInto { c with dbrType := DbrType.CHAR, pData := some d } k = Except.ok (d k) ∧
      arrayEl { c with dbrType := DbrType.CHAR, pData := some d } junk k =
        Except.ok (if d k < 0 then d k + 256 else d k)) ∧
    exCharChan.dbrType = DbrType.CHAR ∧
    FetchIthValInto exCharChan 0 = Except.ok (-128) ∧
    arrayEl exCharChan 0 0 = Except.ok 128 := by
  refine ⟨fun _ _ _ => rfl, fun _ _ _ => rfl, fun _ _ _ => rfl, fun _ _ _ => rfl,
    fun _ _ _ => rfl, fun _ _ _ _ => ⟨rfl, rfl⟩, rfl, ?_, ?_⟩
  · simp [FetchIthValInto, exCharChan, exChan]
  · simp [arrayEl, exCharChan, exChan]
    norm_num

end SydPlot
